import Mathlib

/-!
# gltfparser: a shallow embedding of the glTF 2.0 parser

The development follows the C sources of the library:

* `jsmn.c`            : the JSON tokenizer (`jsmn_parse` and its helpers),
* `gltfparser_util.c` : `strncpy_impl`, `strncmp_impl`, `gltfmemory_cmp`,
* `gltfparser_json.c` : the token helpers (`json_strncmp`, `json_to_int`, ...),
* `gltfparser.c`      : the schema walker (`internal_parse_*`), the reference
                        resolver (`internal_fix_pointers`), `internal_parse_json`
                        and `GLTF_ParseFromFile`.

Conventions of the embedding.

* A byte is a natural number below 256; a buffer is a `List Nat`.
* C `int` values that the code only increments (cursors, offsets, sizes) are
  mathematical integers; wrap-around is written out where the code relies on
  it (`PTR_TO_INDEX`, the `unsigned int` offsets of the GLB framing).
* A read outside a buffer, or of memory the code never initialised, has no
  defined result: such runs end in `ub`.
* `malloc` never fails; `free` has no effect on the value of a record.
* `float` values are kept symbolically (`CFloat`).
-/

namespace Gltf

/-! ## Bytes and C strings -/

/-- The bytes of an ASCII string literal. -/
def cstr (s : String) : List Nat := s.toList.map Char.toNat

/-- The content of a NUL-terminated C string stored at the start of `buf`: the
bytes before the first NUL. -/
def cstring (buf : List Nat) : List Nat := buf.takeWhile (fun b => b != 0)

/-- The bytes `data[start .. start+size)`, or `none` when the range leaves the
buffer. -/
def slice (data : List Nat) (start size : Int) : Option (List Nat) :=
  if 0 ≤ start ∧ 0 ≤ size ∧ start.toNat + size.toNat ≤ data.length then
    some ((data.drop start.toNat).take size.toNat)
  else none

/-! ## jsmn.h / jsmn.c : the tokenizer -/

/-- Token kinds (`jsmntype_t`). -/
inductive jsmntype_t where
  | JSMN_UNDEFINED
  | JSMN_OBJECT
  | JSMN_ARRAY
  | JSMN_STRING
  | JSMN_PRIMITIVE
  deriving DecidableEq, Repr

open jsmntype_t

/-- Error codes of the tokenizer (`enum jsmnerr`). -/
def JSMN_ERROR_NOMEM : Int := -1
/-- Invalid character inside the JSON text. -/
def JSMN_ERROR_INVAL : Int := -2
/-- The text is not a full JSON packet. -/
def JSMN_ERROR_PART : Int := -3

/-- A token (`jsmntok_t`, built without `JSMN_PARENT_LINKS`); the C field `end`
is called `end_`. -/
structure jsmntok_t where
  type : jsmntype_t
  start : Int
  end_ : Int
  size : Int
  deriving DecidableEq, Repr

/-- The tokenizer state (`struct jsmn_parser`). -/
structure JsmnParser where
  pos : Nat
  toknext : Nat
  toksuper : Int
  deriving DecidableEq, Repr

/-- The function `jsmn_init`. -/
def jsmn_init : JsmnParser := { pos := 0, toknext := 0, toksuper := -1 }

/-- The token buffer handed to `jsmn_parse`: `none` is the NULL buffer of the
counting pass, `some toks` holds the tokens allocated so far (slots
`0 .. toknext-1` of the C array). -/
abbrev TokBuf := Option (List jsmntok_t)

/-- The function `jsmn_alloc_token`: `none` when the pool of `num_tokens` slots is
used up, otherwise the parser and the buffer with one more token whose `start`
and `end` are `-1` and whose `size` is `0`. -/
def jsmn_alloc_token (parser : JsmnParser) (tokens : List jsmntok_t) (num_tokens : Nat) :
    Option (JsmnParser × List jsmntok_t) :=
  if parser.toknext ≥ num_tokens then none
  else some ({ parser with toknext := parser.toknext + 1 },
             tokens ++ [{ type := JSMN_UNDEFINED, start := -1, end_ := -1, size := 0 }])

/-- The function `jsmn_fill_token`, applied to slot `i` of the buffer. -/
def jsmn_fill_token (tokens : List jsmntok_t) (i : Nat) (type : jsmntype_t) (start end_ : Int) :
    List jsmntok_t :=
  tokens.set i { type := type, start := start, end_ := end_, size := 0 }

/-- Outcome of a tokenizer routine: the C return value together with the parser
and buffer it leaves behind. -/
structure JsmnOut where
  r : Int
  parser : JsmnParser
  tokens : TokBuf
  deriving DecidableEq, Repr

/-- The characters that end a primitive in the non-strict build. -/
def primitiveEnd (c : Nat) : Bool :=
  c == 58 || c == 9 || c == 13 || c == 10 || c == 32 || c == 44 || c == 93 || c == 125

/-- The scanning loop of `jsmn_parse_primitive`: from `pos`, the position of the
first delimiter (`some (Sum.inr p)`, the label `found`), or the position of an
offending byte (`some (Sum.inl p)`), stopping at `len` or at a NUL byte; `none`
when the scan reads outside `js`. The first argument bounds the number of
iterations; `len + 1 - pos` of them always suffice, since every iteration moves
one byte forward. -/
def primitiveScan (js : List Nat) (len : Nat) : Nat → Nat → Option (Sum Nat Nat)
  | 0, _ => none
  | fuel + 1, pos =>
    if pos < len then
      match js[pos]? with
      | none => none
      | some c =>
        if c = 0 then some (Sum.inr pos)
        else if primitiveEnd c then some (Sum.inr pos)
        else if c < 32 ∨ c ≥ 127 then some (Sum.inl pos)
        else primitiveScan js len fuel (pos + 1)
    else some (Sum.inr pos)

/-- The function `jsmn_parse_primitive` (non-strict build). The routine is entered
on a byte that is not a delimiter, so the position `p` of the label `found` is
at least `start + 1` and `p - 1` is the C `parser->pos--`. -/
def jsmn_parse_primitive (parser : JsmnParser) (js : List Nat) (len : Nat) (tokens : TokBuf)
    (num_tokens : Nat) : Option JsmnOut :=
  let start := parser.pos
  match primitiveScan js len (len + 1 - start) start with
  | none => none
  | some (Sum.inl _) => some { r := JSMN_ERROR_INVAL, parser := { parser with pos := start }, tokens := tokens }
  | some (Sum.inr p) =>
    match tokens with
    | none => some { r := 0, parser := { parser with pos := p - 1 }, tokens := none }
    | some toks =>
      match jsmn_alloc_token parser toks num_tokens with
      | none => some { r := JSMN_ERROR_NOMEM, parser := { parser with pos := start }, tokens := some toks }
      | some (parser1, toks1) =>
        some { r := 0, parser := { parser1 with pos := p - 1 },
               tokens := some (jsmn_fill_token toks1 (parser1.toknext - 1) JSMN_PRIMITIVE start p) }

/-- A hexadecimal digit, as tested in the unicode escape of `jsmn_parse_string`. -/
def isHex (c : Nat) : Bool :=
  (48 ≤ c && c ≤ 57) || (65 ≤ c && c ≤ 70) || (97 ≤ c && c ≤ 102)

/-- The inner loop over the digits of a unicode escape: `i` counts the digits
read so far; the result is the position after the loop, or `Sum.inl ()` for a byte
that is not a hexadecimal digit. -/
def hexScan (js : List Nat) (len : Nat) : Nat → Nat → Option (Sum Unit Nat)
  | 0, pos => some (Sum.inr pos)
  | k + 1, pos =>
    if pos < len then
      match js[pos]? with
      | none => none
      | some c =>
        if c = 0 then some (Sum.inr pos)
        else if isHex c then hexScan js len k (pos + 1)
        else some (Sum.inl ())
    else some (Sum.inr pos)

/-- What the loop of `jsmn_parse_string` finds. -/
inductive StringScan where
  | quote (pos : Nat)
  | inval
  | part
  deriving DecidableEq, Repr

/-- The loop of `jsmn_parse_string`, from the byte after the opening quote; the
first argument bounds the number of iterations as in `primitiveScan`. -/
def stringScan (js : List Nat) (len : Nat) : Nat → Nat → Option StringScan
  | 0, _ => none
  | fuel + 1, pos =>
    if pos < len then
      match js[pos]? with
      | none => none
      | some c =>
        if c = 0 then some StringScan.part
        else if c = 34 then some (StringScan.quote pos)
        else if c = 92 ∧ pos + 1 < len then
          match js[pos + 1]? with
          | none => none
          | some e =>
            if e = 34 ∨ e = 47 ∨ e = 92 ∨ e = 98 ∨ e = 102 ∨ e = 114 ∨ e = 110 ∨ e = 116 then
              stringScan js len fuel (pos + 2)
            else if e = 117 then
              match hexScan js len 4 (pos + 2) with
              | none => none
              | some (Sum.inl _) => some StringScan.inval
              | some (Sum.inr p) => stringScan js len fuel p
            else some StringScan.inval
        else stringScan js len fuel (pos + 1)
    else some StringScan.part

/-- The function `jsmn_parse_string`. -/
def jsmn_parse_string (parser : JsmnParser) (js : List Nat) (len : Nat) (tokens : TokBuf)
    (num_tokens : Nat) : Option JsmnOut :=
  let start := parser.pos
  match stringScan js len (len + 1 - start) (start + 1) with
  | none => none
  | some StringScan.inval => some { r := JSMN_ERROR_INVAL, parser := { parser with pos := start }, tokens := tokens }
  | some StringScan.part => some { r := JSMN_ERROR_PART, parser := { parser with pos := start }, tokens := tokens }
  | some (StringScan.quote p) =>
    match tokens with
    | none => some { r := 0, parser := { parser with pos := p }, tokens := none }
    | some toks =>
      match jsmn_alloc_token parser toks num_tokens with
      | none => some { r := JSMN_ERROR_NOMEM, parser := { parser with pos := start }, tokens := some toks }
      | some (parser1, toks1) =>
        some { r := 0, parser := { parser1 with pos := p },
               tokens := some (jsmn_fill_token toks1 (parser1.toknext - 1) JSMN_STRING (start + 1) p) }

/-- The token at slot `i`, the C expression `tokens[i]` for an allocated slot. -/
def tokAt (toks : List jsmntok_t) (i : Int) : Option jsmntok_t :=
  if 0 ≤ i then toks[i.toNat]? else none

/-- The C statement `tokens[i].size++`. -/
def incSize (toks : List jsmntok_t) (i : Int) : Option (List jsmntok_t) :=
  match tokAt toks i with
  | none => none
  | some t => some (toks.set i.toNat { t with size := t.size + 1 })

/-- A token that has been opened and not yet closed. -/
def isOpen (t : jsmntok_t) : Bool := t.start != -1 && t.end_ == -1

/-- The downward scan `for (i = k - 1; i >= 0; i--)` for the first token accepted
by `p`: its index, or `none` when the loop ends with `i == -1`. -/
def findDown (p : jsmntok_t → Bool) (toks : List jsmntok_t) : Nat → Option Nat
  | 0 => none
  | k + 1 =>
    match toks[k]? with
    | none => none
    | some t => if p t then some k else findDown p toks k

/-- One case of the switch of `jsmn_parse`, for the byte `c` at `parser.pos`:
`Sum.inl` is a `return` from `jsmn_parse`, `Sum.inr` the state at the `break`
(before the `pos++` of the loop). -/
def jsmn_parse_case (c : Nat) (parser : JsmnParser) (js : List Nat) (len : Nat) (tokens : TokBuf)
    (num_tokens : Nat) (count : Int) : Option (Sum JsmnOut (JsmnParser × TokBuf × Int)) :=
  if c = 123 ∨ c = 91 then
    match tokens with
    | none => some (Sum.inr (parser, none, count + 1))
    | some toks =>
      match jsmn_alloc_token parser toks num_tokens with
      | none => some (Sum.inl { r := JSMN_ERROR_NOMEM, parser := parser, tokens := some toks })
      | some (parser1, toks1) =>
        let new := parser1.toknext - 1
        match (if parser1.toksuper ≠ -1 then incSize toks1 parser1.toksuper else some toks1) with
        | none => none
        | some toks2 =>
          match toks2[new]? with
          | none => none
          | some t =>
            let toks3 := toks2.set new
              { t with type := (if c = 123 then JSMN_OBJECT else JSMN_ARRAY), start := parser1.pos }
            some (Sum.inr ({ parser1 with toksuper := (parser1.toknext : Int) - 1 }, some toks3, count + 1))
  else if c = 125 ∨ c = 93 then
    match tokens with
    | none => some (Sum.inr (parser, none, count))
    | some toks =>
      let type := if c = 125 then JSMN_OBJECT else JSMN_ARRAY
      match findDown isOpen toks parser.toknext with
      | none => some (Sum.inl { r := JSMN_ERROR_INVAL, parser := parser, tokens := some toks })
      | some i =>
        match toks[i]? with
        | none => none
        | some t =>
          if t.type ≠ type then
            some (Sum.inl { r := JSMN_ERROR_INVAL, parser := parser, tokens := some toks })
          else
            let toks1 := toks.set i { t with end_ := (parser.pos : Int) + 1 }
            let parser1 := { parser with toksuper := -1 }
            match findDown isOpen toks1 (i + 1) with
            | none => some (Sum.inr (parser1, some toks1, count))
            | some k => some (Sum.inr ({ parser1 with toksuper := k }, some toks1, count))
  else if c = 34 then
    match jsmn_parse_string parser js len tokens num_tokens with
    | none => none
    | some out =>
      if out.r < 0 then some (Sum.inl out)
      else
        match out.tokens with
        | none => some (Sum.inr (out.parser, none, count + 1))
        | some toks =>
          if out.parser.toksuper ≠ -1 then
            match incSize toks out.parser.toksuper with
            | none => none
            | some toks1 => some (Sum.inr (out.parser, some toks1, count + 1))
          else some (Sum.inr (out.parser, some toks, count + 1))
  else if c = 9 ∨ c = 13 ∨ c = 10 ∨ c = 32 then
    some (Sum.inr (parser, tokens, count))
  else if c = 58 then
    some (Sum.inr ({ parser with toksuper := (parser.toknext : Int) - 1 }, tokens, count))
  else if c = 44 then
    match tokens with
    | none => some (Sum.inr (parser, none, count))
    | some toks =>
      if parser.toksuper ≠ -1 then
        match tokAt toks parser.toksuper with
        | none => none
        | some t =>
          if t.type ≠ JSMN_ARRAY ∧ t.type ≠ JSMN_OBJECT then
            match findDown (fun u => (u.type == JSMN_ARRAY || u.type == JSMN_OBJECT) && isOpen u)
                toks parser.toknext with
            | none => some (Sum.inr (parser, some toks, count))
            | some i => some (Sum.inr ({ parser with toksuper := i }, some toks, count))
          else some (Sum.inr (parser, some toks, count))
      else some (Sum.inr (parser, some toks, count))
  else
    match jsmn_parse_primitive parser js len tokens num_tokens with
    | none => none
    | some out =>
      if out.r < 0 then some (Sum.inl out)
      else
        match out.tokens with
        | none => some (Sum.inr (out.parser, none, count + 1))
        | some toks =>
          if out.parser.toksuper ≠ -1 then
            match incSize toks out.parser.toksuper with
            | none => none
            | some toks1 => some (Sum.inr (out.parser, some toks1, count + 1))
          else some (Sum.inr (out.parser, some toks, count + 1))

/-- The main loop of `jsmn_parse` followed by the final check for an unclosed
container. The first argument bounds the number of iterations. -/
def jsmn_parse_loop (js : List Nat) (len : Nat) (num_tokens : Nat) :
    Nat → JsmnParser → TokBuf → Int → Option JsmnOut
  | 0, _, _, _ => none
  | fuel + 1, parser, tokens, count =>
    let finish : Option JsmnOut :=
      match tokens with
      | none => some { r := count, parser := parser, tokens := none }
      | some toks =>
        match findDown isOpen toks parser.toknext with
        | some _ => some { r := JSMN_ERROR_PART, parser := parser, tokens := some toks }
        | none => some { r := count, parser := parser, tokens := some toks }
    if parser.pos < len then
      match js[parser.pos]? with
      | none => none
      | some c =>
        if c = 0 then finish
        else
          match jsmn_parse_case c parser js len tokens num_tokens count with
          | none => none
          | some (Sum.inl out) => some out
          | some (Sum.inr (parser1, tokens1, count1)) =>
            jsmn_parse_loop js len num_tokens fuel { parser1 with pos := parser1.pos + 1 } tokens1 count1
    else finish

/-- The function `jsmn_parse`: the return value (a token count or a negative error
code) with the parser and the buffer after the call; `none` when the run reads
outside `js`. Every iteration of the loop moves at least one byte forward, so
`len + 1` iterations suffice. -/
def jsmn_parse (parser : JsmnParser) (js : List Nat) (len : Nat) (tokens : TokBuf)
    (num_tokens : Nat) : Option JsmnOut :=
  jsmn_parse_loop js len num_tokens (len + 1) parser tokens parser.toknext

/-! ## Results of the walker

A routine of the walker returns a cursor (or another value) on success and a
negative `int` on failure, and may append lines to the diagnostic buffer on
both paths. On a negative return every caller up to `GLTF_ParseFromFile`
propagates the error and the record under construction is released and zeroed,
so the failure case carries the code and the diagnostics only. -/

/-- Outcome of a walker routine. -/
inductive R (α : Type) where
  /-- Normal return, with the diagnostics logged on the way. -/
  | ok (val : α) (log : List String)
  /-- Return of a negative error code. -/
  | err (code : Int) (log : List String)
  /-- No defined result: a read outside a buffer or of uninitialised memory. -/
  | ub
  deriving DecidableEq, Repr

namespace R

/-- Sequencing: the diagnostics of both steps are concatenated. -/
def bind {α β : Type} (x : R α) (f : α → R β) : R β :=
  match x with
  | ok v l =>
    match f v with
    | ok w l2 => ok w (l ++ l2)
    | err c l2 => err c (l ++ l2)
    | ub => ub
  | err c l => err c l
  | ub => ub

instance : Monad R where
  pure v := ok v []
  bind := bind

/-- An `Option` read: `none` is an undefined read. -/
def ofOption {α : Type} : Option α → R α
  | some v => ok v []
  | none => ub

end R

/-- The function `internal_log_error` on the content of the buffer `s_gErrors`
(`GLTF_LOG_BUFFER_SIZE` is 2048): the formatted message is appended after a
newline, cut to the room that is left. -/
def internal_log_error (s_gErrors : String) (message : String) : String :=
  let currentLen := s_gErrors.length
  let remainingSpace := 2048 - currentLen - 1
  if remainingSpace > 1 then
    if currentLen > 0 then
      s_gErrors ++ "\n" ++ String.mk (message.toList.take (remainingSpace - 1 - 1))
    else
      s_gErrors ++ String.mk (message.toList.take (remainingSpace - 1))
  else s_gErrors

/-- The function `GLTF_GetErrors` after the diagnostics `log` were reported, in
order, to `internal_log_error` on a buffer cleared at the start of the parse. -/
def GLTF_GetErrors (log : List String) : String :=
  log.foldl internal_log_error ""

/-- The call `internal_log_error(msg)`. -/
def logError (msg : String) : R Unit := R.ok () [msg]

/-- The macro `GLTF_ASSERT(exp, msg)` of the build without `GLTF_ENABLE_ASSERTS`:
when `exp` is false, log `msg` and return `-1`. -/
def GLTF_ASSERT (exp : Bool) (msg : String) : R Unit :=
  if exp then R.ok () [] else R.err (-1) [msg]

/-! ## gltfparser_util.c -/

/-- The function `strncpy_impl(dest, src, size)`: the `size` bytes written to `dest`,
where `src` is the memory from the source pointer to the end of its buffer;
`none` when the copy reads past that end. -/
def strncpy_impl : List Nat → Nat → Option (List Nat)
  | _, 0 => some []
  | [], _ + 1 => none
  | c :: rest, n + 1 =>
    if c = 0 then some (List.replicate (n + 1) 0)
    else (strncpy_impl rest n).map (fun d => c :: d)

/-- The function `strncmp_impl(s1, s2, n)`: `s1` is the memory from the first
pointer to the end of its buffer, `s2` the content of a NUL-terminated string;
`none` when the comparison reads past the end of `s1`. -/
def strncmp_impl : List Nat → List Nat → Nat → Option Int
  | _, _, 0 => some 0
  | [], _, _ + 1 => none
  | c1 :: r1, s2, n + 1 =>
    let c2 := s2.headD 0
    if c1 ≠ c2 then some ((c1 : Int) - (c2 : Int))
    else if c1 = 0 then some 0
    else strncmp_impl r1 s2.tail n

/-- The function `gltfmemory_cmp(s1, s2, n)` on two blocks of at least `n` bytes. -/
def gltfmemory_cmp : List Nat → List Nat → Nat → Option Int
  | _, _, 0 => some 0
  | c1 :: r1, c2 :: r2, n + 1 =>
    if c1 ≠ c2 then some ((c1 : Int) - (c2 : Int)) else gltfmemory_cmp r1 r2 n
  | _, _, _ + 1 => none

/-! ## The C library -/

/-- White space in the sense of `isspace`. -/
def isspace (c : Nat) : Bool := c == 32 || (9 ≤ c && c ≤ 13)

/-- The value of the longest run of decimal digits at the start of `s`, added to
`acc` times the matching power of ten. -/
def digitsValue : List Nat → Nat → Nat
  | [], acc => acc
  | c :: rest, acc => if 48 ≤ c ∧ c ≤ 57 then digitsValue rest (acc * 10 + (c - 48)) else acc

/-- The integer denoted by the start of `s`, as the conversions of the `strtol`
family read it: white space, an optional sign, decimal digits. -/
def strtolValue (s : List Nat) : Int :=
  match s.dropWhile isspace with
  | [] => 0
  | c :: rest =>
    if c = 45 then - (digitsValue rest 0 : Int)
    else if c = 43 then (digitsValue rest 0 : Int)
    else (digitsValue (c :: rest) 0 : Int)

/-- The C library function `atoi`, as the C standard describes it: defined on the
strings whose value fits an `int`, without a defined result outside that
range. -/
def atoi (s : List Nat) : Option Int :=
  let v := strtolValue s
  if -2147483648 ≤ v ∧ v ≤ 2147483647 then some v else none

/-- The C library function `atoll`, as the C standard describes it: defined on
the strings whose value fits a `long long`. -/
def atoll (s : List Nat) : Option Int :=
  let v := strtolValue s
  if -9223372036854775808 ≤ v ∧ v ≤ 9223372036854775807 then some v else none

/-- A `float` value, kept symbolically: the constants the code writes and the
results of the conversion `(float)atof(text)`. -/
inductive CFloat where
  /-- The value `0.0f` of zeroed memory. -/
  | zero
  /-- The constant `1.0f`. -/
  | one
  /-- The constant `0.5f`. -/
  | half
  /-- The value `-1`, returned by `json_to_float` for a token that is not a primitive. -/
  | minusOne
  /-- The value `(float)atof(text)`. -/
  | atof (text : List Nat)
  deriving DecidableEq, Repr

/-! ## gltfparser_json.c : token helpers

The walker works on the buffer filled by `jsmn_parse`: `tokens` holds the
`tokenCount` tokens written, and slot `tokenCount` is the sentinel on which
`internal_parse_json` sets the type `JSMN_UNDEFINED` and nothing else. -/

/-- The C expression `tokens[i].type`. -/
def tokType (tokens : List jsmntok_t) (i : Nat) : R jsmntype_t :=
  if i < tokens.length then
    match tokens[i]? with
    | some t => R.ok t.type []
    | none => R.ub
  else if i = tokens.length then R.ok JSMN_UNDEFINED []
  else R.ub

/-- The token `tokens[i]` when one of its fields `start`, `end` or `size` is read:
defined for the slots the tokenizer wrote. -/
def tokGet (tokens : List jsmntok_t) (i : Nat) : R jsmntok_t :=
  R.ofOption tokens[i]?

/-- The memory from `data + start` to the end of the buffer. -/
def dataFrom (data : List Nat) (start : Int) : R (List Nat) :=
  if 0 ≤ start ∧ start.toNat ≤ data.length then R.ok (data.drop start.toNat) [] else R.ub

/-- The function `json_strncmp(data, tokens + i, str)`. -/
def json_strncmp (data : List Nat) (tokens : List jsmntok_t) (i : Nat) (str : String) : R Int := do
  let ty ← tokType tokens i
  if ty ≠ JSMN_STRING then return -1
  let tok ← tokGet tokens i
  let s1 ← dataFrom data tok.start
  R.ofOption (strncmp_impl s1 (cstr str) (cstr str).length)

/-- The function `json_to_bool(data, tokens + i)`. -/
def json_to_bool (data : List Nat) (tokens : List jsmntok_t) (i : Nat) : R Int := do
  let tok ← tokGet tokens i
  let size := tok.end_ - tok.start
  if size = 4 then
    let s1 ← dataFrom data tok.start
    let c ← R.ofOption (gltfmemory_cmp s1 (cstr "true") 4)
    return (if c = 0 then 1 else 0)
  else return 0

/-- The local buffer `tmp` of the conversions `json_to_int`, `json_to_float` and
`json_to_size`, as a C string: at most 127 bytes of the token text. -/
def tokenText (data : List Nat) (tok : jsmntok_t) : R (List Nat) := do
  let d := tok.end_ - tok.start
  let size : Nat := if 0 ≤ d ∧ d < 128 then d.toNat else 127
  let s1 ← dataFrom data tok.start
  let tmp ← R.ofOption (strncpy_impl s1 size)
  return cstring tmp

/-- The function `json_to_int(data, tokens + i)`. -/
def json_to_int (data : List Nat) (tokens : List jsmntok_t) (i : Nat) : R Int := do
  let ty ← tokType tokens i
  if ty ≠ JSMN_PRIMITIVE then return -1
  let tok ← tokGet tokens i
  let tmp ← tokenText data tok
  R.ofOption (atoi tmp)

/-- The function `json_to_float(data, tokens + i)`. -/
def json_to_float (data : List Nat) (tokens : List jsmntok_t) (i : Nat) : R CFloat := do
  let ty ← tokType tokens i
  if ty ≠ JSMN_PRIMITIVE then return CFloat.minusOne
  let tok ← tokGet tokens i
  let tmp ← tokenText data tok
  return CFloat.atof tmp

/-- The function `json_to_size(data, tokens + i)`; its `return -1` is converted to
`unsigned long long`. -/
def json_to_size (data : List Nat) (tokens : List jsmntok_t) (i : Nat) : R Nat := do
  let ty ← tokType tokens i
  if ty ≠ JSMN_PRIMITIVE then return 18446744073709551615
  let tok ← tokGet tokens i
  let tmp ← tokenText data tok
  let res ← R.ofOption (atoll tmp)
  return (if res < 0 then 0 else res.toNat)

/-- An owned C string (`char*`): `none` is the null pointer, `some s` a string with
content `s`. -/
abbrev CString := Option (List Nat)

/-- The function `json_parse_string(data, tokens, i, outString)`: the next cursor and
the content of the string allocated for `*outString`. -/
def json_parse_string (data : List Nat) (tokens : List jsmntok_t) (i : Nat) : R (Nat × CString) := do
  let ty ← tokType tokens i
  if ty ≠ JSMN_STRING then R.err (-1) []
  else
    let tok ← tokGet tokens i
    let size := tok.end_ - tok.start
    if size < 0 then R.ub
    else
      let s1 ← dataFrom data tok.start
      let result ← R.ofOption (strncpy_impl s1 size.toNat)
      return (i + 1, some (cstring result))

/-- The function `json_parse_array(data, tokens, i, elementSize, outArr, outSize)`: the
next cursor and the element count `*outSize`; the caller receives a zeroed
array of that many elements. -/
def json_parse_array (tokens : List jsmntok_t) (i : Nat) : R (Nat × Nat) := do
  let ty ← tokType tokens i
  if ty ≠ JSMN_ARRAY then R.err (-1) []
  else
    let tok ← tokGet tokens i
    if tok.size < 0 then R.ub
    else return (i + 1, tok.size.toNat)

/-- The loop of `json_parse_array_float`: `n` more elements, the next written at
index `j` of `outArray`. -/
def json_parse_array_float_loop (data : List Nat) (tokens : List jsmntok_t) :
    Nat → Nat → Nat → List CFloat → R (Nat × List CFloat)
  | 0, i, _, outArray => R.ok (i, outArray) []
  | n + 1, i, j, outArray => do
    let ty ← tokType tokens i
    if ty ≠ JSMN_PRIMITIVE then R.err (-1) []
    else
      let f ← json_to_float data tokens i
      if j < outArray.length then
        json_parse_array_float_loop data tokens n (i + 1) (j + 1) (outArray.set j f)
      else R.ub

/-- The function `json_parse_array_float(data, tokens, i, outArray, size)`. -/
def json_parse_array_float (data : List Nat) (tokens : List jsmntok_t) (i : Nat)
    (outArray : List CFloat) (size : Int) : R (Nat × List CFloat) := do
  let ty ← tokType tokens i
  if ty ≠ JSMN_ARRAY then R.err (-1) []
  else
    let tok ← tokGet tokens i
    if tok.size ≠ size then R.err (-1) []
    else json_parse_array_float_loop data tokens size.toNat (i + 1) 0 outArray

/-- The loop of `json_parse_array_string` over the `n` remaining elements. -/
def json_parse_array_string_loop (data : List Nat) (tokens : List jsmntok_t) :
    Nat → Nat → R (Nat × List CString)
  | 0, i => R.ok (i, []) []
  | n + 1, i => do
    let (i1, s) ← json_parse_string data tokens i
    let (i2, rest) ← json_parse_array_string_loop data tokens n i1
    return (i2, s :: rest)

/-- The function `json_parse_array_string(data, tokens, i, outArr, outSize)`. -/
def json_parse_array_string (data : List Nat) (tokens : List jsmntok_t) (i : Nat) :
    R (Nat × List CString) := do
  let ty ← tokType tokens i
  if ty ≠ JSMN_ARRAY then R.err (-1) []
  else
    let (i1, outSize) ← json_parse_array tokens i
    json_parse_array_string_loop data tokens outSize i1

/-- The loop `while (i < end)` of `json_parse_skip`; the first argument bounds the
number of iterations. Every iteration reads one more slot and the slot after
the last token is the sentinel, so `tokens.length + 1 - i` iterations suffice. -/
def json_parse_skip_loop (tokens : List jsmntok_t) : Nat → Nat → Int → R Nat
  | 0, _, _ => R.ub
  | fuel + 1, i, end_ =>
    if (i : Int) < end_ then do
      let ty ← tokType tokens i
      match ty with
      | JSMN_OBJECT => do
        let tok ← tokGet tokens i
        json_parse_skip_loop tokens fuel (i + 1) (end_ + tok.size * 2)
      | JSMN_ARRAY => do
        let tok ← tokGet tokens i
        json_parse_skip_loop tokens fuel (i + 1) (end_ + tok.size)
      | JSMN_PRIMITIVE => json_parse_skip_loop tokens fuel (i + 1) end_
      | JSMN_STRING => json_parse_skip_loop tokens fuel (i + 1) end_
      | JSMN_UNDEFINED => R.err (-1) []
    else R.ok i []

/-- The function `json_parse_skip(tokens, i)`. -/
def json_parse_skip (tokens : List jsmntok_t) (i : Nat) : R Nat :=
  json_parse_skip_loop tokens (tokens.length + 2 - i) i ((i : Int) + 1)

/-! ## gltfparser_types.h : the data model

An array and its element count (`nodes` and `nodesCount`, ...) are one list; the
count is the length of the list. A reference slot is a `Ptr`. Enumerations
whose fields receive arbitrary integers from the JSON text are integers. The
fields the parser never writes (`GLTF_Buffer.data`, `GLTF_BufferView.data`, the
padding of `GLTF_CameraOrthographic`) are left out. -/

/-- The content of a reference slot (a C pointer). The walker stores the
integer `index + 1` in the slot; the resolver replaces it by the address of
an element of the target collection. -/
inductive Ptr where
  /-- The null pointer, the integer `0`: the reference is absent. -/
  | null
  /-- The non-zero integer `i + 1` stored by `PTR_TO_INDEX`: the deferred index `i`. -/
  | index (i : Nat)
  /-- The address `&collection[i]`. -/
  | elem (i : Nat)
  deriving DecidableEq, Repr

/-- The enumeration `GLTF_Type`. -/
inductive GLTF_Type where
  | Type_Scalar | Type_Vec2 | Type_Vec3 | Type_Vec4 | Type_Mat2 | Type_Mat3 | Type_Mat4
  deriving DecidableEq, Repr

/-- The enumeration `GLTF_ComponentType`, by its integer values. -/
abbrev GLTF_ComponentType := Int
/-- Wire code 5120. -/
def ComponentType_R8 : GLTF_ComponentType := 5120
/-- Wire code 5121. -/
def ComponentType_R8_UNSIGNED : GLTF_ComponentType := 5121
/-- Wire code 5122. -/
def ComponentType_R16 : GLTF_ComponentType := 5122
/-- Wire code 5123. -/
def ComponentType_R16_UNSIGNED : GLTF_ComponentType := 5123
/-- Wire code 5125. -/
def ComponentType_R32_UNSIGNED : GLTF_ComponentType := 5125
/-- Wire code 5126. -/
def ComponentType_R32_FLOAT : GLTF_ComponentType := 5126

/-- The enumeration `GLTF_AnimationPathType`. -/
inductive GLTF_AnimationPathType where
  | AnimationPathType_Invalid | AnimationPathType_Translation | AnimationPathType_Rotation
  | AnimationPathType_Scale | AnimationPathType_Weights
  deriving DecidableEq, Repr

/-- The enumeration `GLTF_InterpolationType`. -/
inductive GLTF_InterpolationType where
  | InterpolationType_Linear | InterpolationType_Step | InterpolationType_CubicSpline
  deriving DecidableEq, Repr

/-- The enumeration `GLTF_CameraType`. -/
inductive GLTF_CameraType where
  | CameraType_Perspective | CameraType_Orthographic
  deriving DecidableEq, Repr

/-- The enumeration `GLTF_AlphaMode`. -/
inductive GLTF_AlphaMode where
  | AlphaMode_Opaque | AlphaMode_Mask | AlphaMode_Blend
  deriving DecidableEq, Repr

/-- The enumeration `GLTF_AttributeType`. -/
inductive GLTF_AttributeType where
  | AttributeType_Invalid | AttributeType_Position | AttributeType_Normal | AttributeType_Tangent
  | AttributeType_TexCoord | AttributeType_Color | AttributeType_Joints | AttributeType_Weights
  | AttributeType_Custom
  deriving DecidableEq, Repr

/-- The value `WrapMode_Repeat`. -/
def WrapMode_Repeat : Int := 10497
/-- The value `PrimitiveType_Triangles`. -/
def PrimitiveType_Triangles : Int := 4

open GLTF_Type GLTF_AnimationPathType GLTF_InterpolationType GLTF_CameraType GLTF_AlphaMode
  GLTF_AttributeType

/-- The struct `GLTF_Extension`. -/
structure GLTF_Extension where
  name : CString := none
  data : CString := none
  deriving DecidableEq, Repr

/-- The struct `GLTF_Asset`. -/
structure GLTF_Asset where
  copyright : CString := none
  generator : CString := none
  version : CString := none
  minVersion : CString := none
  extensions : List GLTF_Extension := []
  extras : CString := none
  deriving DecidableEq, Repr

/-- The struct `GLTF_Buffer`. -/
structure GLTF_Buffer where
  name : CString := none
  size : Nat := 0
  URI : CString := none
  extensions : List GLTF_Extension := []
  extras : CString := none
  deriving DecidableEq, Repr

/-- The struct `GLTF_BufferView`. -/
structure GLTF_BufferView where
  name : CString := none
  type : Int := 0
  buffer : Ptr := Ptr.null
  offset : Nat := 0
  size : Nat := 0
  stride : Nat := 0
  extras : CString := none
  extensions : List GLTF_Extension := []
  deriving DecidableEq, Repr

/-- The struct `GLTF_SparseAccessor`. -/
structure GLTF_SparseAccessor where
  count : Nat := 0
  indicesBufferView : Ptr := Ptr.null
  indicesByteOffset : Nat := 0
  indicesComponentType : GLTF_ComponentType := 0
  valuesBufferView : Ptr := Ptr.null
  valueByteOffset : Nat := 0
  deriving DecidableEq, Repr

/-- The struct `GLTF_Accessor`. -/
structure GLTF_Accessor where
  name : CString := none
  componentType : GLTF_ComponentType := 0
  normalized : Int := 0
  type : GLTF_Type := Type_Scalar
  offset : Nat := 0
  count : Nat := 0
  stride : Nat := 0
  bufferView : Ptr := Ptr.null
  hasMin : Int := 0
  hasMax : Int := 0
  min : List CFloat := List.replicate 16 CFloat.zero
  max : List CFloat := List.replicate 16 CFloat.zero
  isSparse : Int := 0
  sparse : GLTF_SparseAccessor := {}
  extras : CString := none
  extensions : List GLTF_Extension := []
  deriving DecidableEq, Repr

/-- The struct `GLTF_Attribute`; the slot `data` refers to an accessor. -/
structure GLTF_Attribute where
  name : CString := none
  type : GLTF_AttributeType := AttributeType_Invalid
  index : Int := 0
  data : Ptr := Ptr.null
  deriving DecidableEq, Repr

/-- The struct `GLTF_MorphTarget`. -/
structure GLTF_MorphTarget where
  attributes : List GLTF_Attribute := []
  deriving DecidableEq, Repr

/-- The struct `GLTF_AnimationSampler`. -/
structure GLTF_AnimationSampler where
  input : Ptr := Ptr.null
  output : Ptr := Ptr.null
  interpolation : GLTF_InterpolationType := InterpolationType_Linear
  extensions : List GLTF_Extension := []
  extras : CString := none
  deriving DecidableEq, Repr

/-- The struct `GLTF_AnimationChannel`; the slot `sampler` refers to a sampler of
the animation that owns the channel. -/
structure GLTF_AnimationChannel where
  sampler : Ptr := Ptr.null
  targetNode : Ptr := Ptr.null
  targetPath : GLTF_AnimationPathType := AnimationPathType_Invalid
  extensions : List GLTF_Extension := []
  extras : CString := none
  deriving DecidableEq, Repr

/-- The struct `GLTF_Animation`. -/
structure GLTF_Animation where
  name : CString := none
  samplers : List GLTF_AnimationSampler := []
  channels : List GLTF_AnimationChannel := []
  extensions : List GLTF_Extension := []
  extras : CString := none
  deriving DecidableEq, Repr

/-- The struct `GLTF_CameraPerspective`. -/
structure GLTF_CameraPerspective where
  hasAspectRatio : Int := 0
  aspectRatio : CFloat := CFloat.zero
  yFOV : CFloat := CFloat.zero
  hasZFar : Int := 0
  zFar : CFloat := CFloat.zero
  zNear : CFloat := CFloat.zero
  extras : CString := none
  deriving DecidableEq, Repr

/-- The struct `GLTF_CameraOrthographic`. -/
structure GLTF_CameraOrthographic where
  xMag : CFloat := CFloat.zero
  yMag : CFloat := CFloat.zero
  zFar : CFloat := CFloat.zero
  zNear : CFloat := CFloat.zero
  extras : CString := none
  deriving DecidableEq, Repr

/-- The struct `GLTF_Camera`. The two members of the C union `data` are kept as
two fields; the overlap of their storage is not represented. -/
structure GLTF_Camera where
  name : CString := none
  type : GLTF_CameraType := CameraType_Perspective
  extensions : List GLTF_Extension := []
  perspective : GLTF_CameraPerspective := {}
  orthographic : GLTF_CameraOrthographic := {}
  extras : CString := none
  deriving DecidableEq, Repr

/-- The struct `GLTF_Image`. -/
structure GLTF_Image where
  name : CString := none
  URI : CString := none
  bufferView : Ptr := Ptr.null
  mime_type : CString := none
  extras : CString := none
  extensions : List GLTF_Extension := []
  deriving DecidableEq, Repr

/-- The struct `GLTF_ImageSampler`. -/
structure GLTF_ImageSampler where
  name : CString := none
  magFilter : Int := 0
  minFilter : Int := 0
  wrapS : Int := 0
  wrapT : Int := 0
  extensions : List GLTF_Extension := []
  extras : CString := none
  deriving DecidableEq, Repr

/-- The struct `GLTF_Texture`. -/
structure GLTF_Texture where
  name : CString := none
  image : Ptr := Ptr.null
  sampler : Ptr := Ptr.null
  extensions : List GLTF_Extension := []
  extras : CString := none
  deriving DecidableEq, Repr

/-- The struct `GLTF_TextureView`. -/
structure GLTF_TextureView where
  texture : Ptr := Ptr.null
  texCoord : Int := 0
  scale : CFloat := CFloat.zero
  strength : CFloat := CFloat.zero
  extensions : List GLTF_Extension := []
  deriving DecidableEq, Repr

/-- The struct `GLTF_PBRMetallicRoughness`. -/
structure GLTF_PBRMetallicRoughness where
  baseColorTexture : GLTF_TextureView := {}
  metallicRoughnessTexture : GLTF_TextureView := {}
  baseColor : List CFloat := List.replicate 4 CFloat.zero
  metallicFactor : CFloat := CFloat.zero
  roughnessFactor : CFloat := CFloat.zero
  deriving DecidableEq, Repr

/-- The struct `GLTF_Material`. -/
structure GLTF_Material where
  name : CString := none
  PBRmetallicRoughness : GLTF_PBRMetallicRoughness := {}
  normalTexture : GLTF_TextureView := {}
  occlusionTexture : GLTF_TextureView := {}
  emissiveTexture : GLTF_TextureView := {}
  emissiveFactor : List CFloat := List.replicate 3 CFloat.zero
  alphaMode : GLTF_AlphaMode := AlphaMode_Opaque
  alphaCutoff : CFloat := CFloat.zero
  doubleSided : Int := 0
  extensions : List GLTF_Extension := []
  extras : CString := none
  deriving DecidableEq, Repr

/-- The struct `GLTF_Primitive`. -/
structure GLTF_Primitive where
  type : Int := 0
  indices : Ptr := Ptr.null
  material : Ptr := Ptr.null
  attributes : List GLTF_Attribute := []
  targets : List GLTF_MorphTarget := []
  extensions : List GLTF_Extension := []
  extras : CString := none
  deriving DecidableEq, Repr

/-- The struct `GLTF_Mesh`. -/
structure GLTF_Mesh where
  name : CString := none
  primitives : List GLTF_Primitive := []
  weights : List CFloat := []
  targetNames : List CString := []
  extensions : List GLTF_Extension := []
  extras : CString := none
  deriving DecidableEq, Repr

/-- The struct `GLTF_Skin`. -/
structure GLTF_Skin where
  name : CString := none
  joints : List Ptr := []
  skeleton : Ptr := Ptr.null
  inverseBindMatrices : Ptr := Ptr.null
  extensions : List GLTF_Extension := []
  extras : CString := none
  deriving DecidableEq, Repr

/-- The struct `GLTF_Scene`. -/
structure GLTF_Scene where
  name : CString := none
  nodes : List Ptr := []
  extensions : List GLTF_Extension := []
  extras : CString := none
  deriving DecidableEq, Repr

/-- The struct `GLTF_Node`. -/
structure GLTF_Node where
  name : CString := none
  parent : Ptr := Ptr.null
  children : List Ptr := []
  skin : Ptr := Ptr.null
  mesh : Ptr := Ptr.null
  camera : Ptr := Ptr.null
  weights : List CFloat := []
  translation : List CFloat := List.replicate 3 CFloat.zero
  rotation : List CFloat := List.replicate 4 CFloat.zero
  scale : List CFloat := List.replicate 3 CFloat.zero
  matrix : List CFloat := List.replicate 16 CFloat.zero
  extensions : List GLTF_Extension := []
  extras : CString := none
  deriving DecidableEq, Repr

/-- The struct `GLTF_FileInfo`. The pointer `json` is kept as the offset of the
JSON text in the file buffer. -/
structure GLTF_FileInfo where
  path : CString := none
  bin : Option (List Nat) := none
  binSize : Nat := 0
  type : Int := 0
  jsonTkCount : Nat := 0
  json : Option Nat := none
  jsonSize : Nat := 0
  deriving DecidableEq, Repr

/-- The struct `GLTF2`, the parsed asset. The default value of every field is
the content of zeroed memory. -/
structure GLTF2 where
  fileInfo : GLTF_FileInfo := {}
  asset : GLTF_Asset := {}
  accessors : List GLTF_Accessor := []
  bufferViews : List GLTF_BufferView := []
  buffers : List GLTF_Buffer := []
  animations : List GLTF_Animation := []
  cameras : List GLTF_Camera := []
  images : List GLTF_Image := []
  materials : List GLTF_Material := []
  meshes : List GLTF_Mesh := []
  nodes : List GLTF_Node := []
  imageSamplers : List GLTF_ImageSampler := []
  scenes : List GLTF_Scene := []
  scene : Ptr := Ptr.null
  textures : List GLTF_Texture := []
  skins : List GLTF_Skin := []
  extensions : List GLTF_Extension := []
  extensionsUsed : List CString := []
  extensionsRequired : List CString := []
  extras : CString := none
  deriving DecidableEq, Repr

/-! ## gltfparser.c : the schema walker -/

/-- The macro `PTR_TO_INDEX(type, idx)`: the `int` `idx` is converted to
`unsigned long long` and incremented, both modulo `2^64`. -/
def PTR_TO_INDEX (idx : Int) : Ptr :=
  let v := (((idx % 18446744073709551616).toNat) + 1) % 18446744073709551616
  if v = 0 then Ptr.null else Ptr.index (v - 1)

/-- A `for` loop of `n` iterations over a cursor and a record; a negative return
of the body leaves the loop and the function. -/
def forLoop {σ : Type} : Nat → (Nat → σ → R (Nat × σ)) → Nat → σ → R (Nat × σ)
  | 0, _, tkindex, out => R.ok (tkindex, out) []
  | n + 1, body, tkindex, out => do
    let (tkindex1, out1) ← body tkindex out
    forLoop n body tkindex1 out1

/-- A loop that parses the `n` elements of a zeroed array one after the other:
`parse tkindex zero` fills one element. -/
def parseElems {α : Type} (zero : α) (parse : Nat → α → R (Nat × α)) :
    Nat → Nat → R (Nat × List α)
  | 0, tkindex => R.ok (tkindex, []) []
  | n + 1, tkindex => do
    let (tkindex1, x) ← parse tkindex zero
    let (tkindex2, rest) ← parseElems zero parse n tkindex1
    return (tkindex2, x :: rest)

/-- A loop that stores `PTR_TO_INDEX(json_to_int(data, tokens + tkindex))` in the `n`
slots of an array of references, one token each. -/
def parseRefs (data : List Nat) (tokens : List jsmntok_t) : Nat → Nat → R (Nat × List Ptr)
  | 0, tkindex => R.ok (tkindex, []) []
  | n + 1, tkindex => do
    let v ← json_to_int data tokens tkindex
    let (tkindex2, rest) ← parseRefs data tokens n (tkindex + 1)
    return (tkindex2, PTR_TO_INDEX v :: rest)

/-- The test `json_strncmp(data, tokens + tkindex, str) == 0`. -/
def keyIs (data : List Nat) (tokens : List jsmntok_t) (tkindex : Nat) (str : String) : R Bool := do
  let c ← json_strncmp data tokens tkindex str
  return c == 0

/-- The assertion at the head of every key loop:
`tokens[tkindex].type == JSMN_STRING || tokens[tkindex].size != 0`. -/
def keyAssert (tokens : List jsmntok_t) (tkindex : Nat) : R Unit := do
  let ty ← tokType tokens tkindex
  if ty = JSMN_STRING then return ()
  else
    let tok ← tokGet tokens tkindex
    GLTF_ASSERT (tok.size != 0) "The expected json data is not a string"

/-- The assertion `tokens[tkindex].type == JSMN_OBJECT` that opens the object parsers. -/
def objectAssert (tokens : List jsmntok_t) (tkindex : Nat) : R Unit := do
  let ty ← tokType tokens tkindex
  GLTF_ASSERT (ty == JSMN_OBJECT) "The expected unprocessed extension is not a json valid object"

/-- The assertion `tokens[tkindex].type == JSMN_PRIMITIVE` in front of some references. -/
def primitiveAssert (tokens : List jsmntok_t) (tkindex : Nat) : R Unit := do
  let ty ← tokType tokens tkindex
  GLTF_ASSERT (ty == JSMN_PRIMITIVE) "The expected unprocessed extension is not a json valid primitive"

/-- The statement `int size = tokens[tkindex].size;` as a number of iterations. -/
def objectSize (tokens : List jsmntok_t) (tkindex : Nat) : R Nat := do
  let tok ← tokGet tokens tkindex
  return tok.size.toNat

/-- A copy of the raw text `data[start .. end)` of the token at `tkindex`, as the C
string the copy holds. -/
def rawCopy (data : List Nat) (tokens : List jsmntok_t) (tkindex : Nat) : R CString := do
  let tok ← tokGet tokens tkindex
  let size := tok.end_ - tok.start
  if size < 0 then R.ub
  else
    let s1 ← dataFrom data tok.start
    let buf ← R.ofOption (strncpy_impl s1 size.toNat)
    return some (cstring buf)

/-- The function `internal_json_to_component_type`. -/
def internal_json_to_component_type (data : List Nat) (tokens : List jsmntok_t) (i : Nat) :
    R GLTF_ComponentType := do
  let type ← json_to_int data tokens i
  if type = 5120 then return ComponentType_R8
  else if type = 5121 then return ComponentType_R8_UNSIGNED
  else if type = 5122 then return ComponentType_R16
  else if type = 5123 then return ComponentType_R16_UNSIGNED
  else if type = 5125 then return ComponentType_R32_UNSIGNED
  else if type = 5126 then return ComponentType_R32_FLOAT
  else
    logError "An invalid component type has been parsed"
    return 0

/-- The function `internal_parse_extras`. -/
def internal_parse_extras (data : List Nat) (tokens : List jsmntok_t) (tkindex : Nat) :
    R (Nat × CString) := do
  let outExtra ← rawCopy data tokens tkindex
  let tkindex1 ← json_parse_skip tokens tkindex
  return (tkindex1, outExtra)

/-- The function `internal_parse_unprocessed_extension`. -/
def internal_parse_unprocessed_extension (data : List Nat) (tokens : List jsmntok_t) (tkindex : Nat)
    (_outExtension : GLTF_Extension) : R (Nat × GLTF_Extension) := do
  let ty ← tokType tokens tkindex
  GLTF_ASSERT (ty == JSMN_STRING) "Unpprocessed extension token is not a string"
  let ty1 ← tokType tokens (tkindex + 1)
  GLTF_ASSERT (ty1 == JSMN_OBJECT) "Unprocessed extension token value is not an object"
  let name ← rawCopy data tokens tkindex
  let tkindex1 := tkindex + 1
  let d ← rawCopy data tokens tkindex1
  let tkindex2 ← json_parse_skip tokens tkindex1
  return (tkindex2, { name := name, data := d })

/-- The loop of `internal_parse_unprocessed_extensions` over the entries. -/
def internal_parse_unprocessed_extensions_loop (data : List Nat) (tokens : List jsmntok_t) :
    Nat → Nat → R (Nat × List GLTF_Extension)
  | 0, tkindex => R.ok (tkindex, []) []
  | n + 1, tkindex => do
    keyAssert tokens tkindex
    let (tkindex1, ext) ← internal_parse_unprocessed_extension data tokens tkindex {}
    let (tkindex2, rest) ← internal_parse_unprocessed_extensions_loop data tokens n tkindex1
    return (tkindex2, ext :: rest)

/-- The function `internal_parse_unprocessed_extensions`: the next cursor and the
array of extensions (its length is `*outextensionsCount`). -/
def internal_parse_unprocessed_extensions (data : List Nat) (tokens : List jsmntok_t)
    (tkindex : Nat) : R (Nat × List GLTF_Extension) := do
  let tkindex1 := tkindex + 1
  let ty ← tokType tokens tkindex1
  GLTF_ASSERT (ty == JSMN_OBJECT) "The expected unprocessed extension is not a json valid object"
  let extensionsSize ← objectSize tokens tkindex1
  internal_parse_unprocessed_extensions_loop data tokens extensionsSize (tkindex1 + 1)

/-- The body of the loop over the keys of `indices` in a sparse accessor. -/
def sparseIndicesKey (data : List Nat) (tokens : List jsmntok_t) (tkindex : Nat)
    (out : GLTF_SparseAccessor) : R (Nat × GLTF_SparseAccessor) := do
  keyAssert tokens tkindex
  if (← keyIs data tokens tkindex "bufferView") then
    let v ← json_to_int data tokens (tkindex + 1)
    return (tkindex + 2, { out with indicesBufferView := PTR_TO_INDEX v })
  else if (← keyIs data tokens tkindex "byteOffset") then
    let v ← json_to_size data tokens (tkindex + 1)
    return (tkindex + 2, { out with indicesByteOffset := v })
  else if (← keyIs data tokens tkindex "componentType") then
    let v ← internal_json_to_component_type data tokens (tkindex + 1)
    return (tkindex + 2, { out with indicesComponentType := v })
  else
    let tkindex1 ← json_parse_skip tokens (tkindex + 1)
    return (tkindex1, out)

/-- The body of the loop over the keys of `values` in a sparse accessor. -/
def sparseValuesKey (data : List Nat) (tokens : List jsmntok_t) (tkindex : Nat)
    (out : GLTF_SparseAccessor) : R (Nat × GLTF_SparseAccessor) := do
  keyAssert tokens tkindex
  if (← keyIs data tokens tkindex "bufferView") then
    let v ← json_to_int data tokens (tkindex + 1)
    return (tkindex + 2, { out with valuesBufferView := PTR_TO_INDEX v })
  else if (← keyIs data tokens tkindex "byteOffset") then
    let v ← json_to_size data tokens (tkindex + 1)
    return (tkindex + 2, { out with valueByteOffset := v })
  else
    let tkindex1 ← json_parse_skip tokens (tkindex + 1)
    return (tkindex1, out)

/-- The body of the key loop of `internal_json_parse_accessor_sparse`. -/
def accessorSparseKey (data : List Nat) (tokens : List jsmntok_t) (tkindex : Nat)
    (out : GLTF_SparseAccessor) : R (Nat × GLTF_SparseAccessor) := do
  keyAssert tokens tkindex
  if (← keyIs data tokens tkindex "count") then
    let v ← json_to_size data tokens (tkindex + 1)
    return (tkindex + 2, { out with count := v })
  else if (← keyIs data tokens tkindex "indices") then
    objectAssert tokens (tkindex + 1)
    let indicesSize ← objectSize tokens (tkindex + 1)
    forLoop indicesSize (sparseIndicesKey data tokens) (tkindex + 2) out
  else if (← keyIs data tokens tkindex "values") then
    objectAssert tokens (tkindex + 1)
    let valuesSize ← objectSize tokens (tkindex + 1)
    forLoop valuesSize (sparseValuesKey data tokens) (tkindex + 2) out
  else
    let tkindex1 ← json_parse_skip tokens (tkindex + 1)
    return (tkindex1, out)

/-- The function `internal_json_parse_accessor_sparse`. -/
def internal_json_parse_accessor_sparse (data : List Nat) (tokens : List jsmntok_t) (tkindex : Nat)
    (outAccessor : GLTF_SparseAccessor) : R (Nat × GLTF_SparseAccessor) := do
  objectAssert tokens tkindex
  let size ← objectSize tokens tkindex
  forLoop size (accessorSparseKey data tokens) (tkindex + 1) outAccessor

/-- The value of the key `type` of an accessor: the field is written for the seven
known names and left alone otherwise. -/
def accessorType (data : List Nat) (tokens : List jsmntok_t) (tkindex : Nat) (old : GLTF_Type) :
    R GLTF_Type := do
  if (← keyIs data tokens tkindex "SCALAR") then return Type_Scalar
  else if (← keyIs data tokens tkindex "VEC2") then return Type_Vec2
  else if (← keyIs data tokens tkindex "VEC3") then return Type_Vec3
  else if (← keyIs data tokens tkindex "VEC4") then return Type_Vec4
  else if (← keyIs data tokens tkindex "MAT2") then return Type_Mat2
  else if (← keyIs data tokens tkindex "MAT3") then return Type_Mat3
  else if (← keyIs data tokens tkindex "MAT4") then return Type_Mat4
  else return old

/-- The argument `tokens[tkindex].size > 16 ? 16 : tokens[tkindex].size` of the calls
that read `min` and `max`. -/
def minMaxSize (tokens : List jsmntok_t) (tkindex : Nat) : R Int := do
  let tok ← tokGet tokens tkindex
  return (if tok.size > 16 then 16 else tok.size)

/-- The body of the key loop of `internal_parse_json_accessor`. -/
def accessorKey (data : List Nat) (tokens : List jsmntok_t) (tkindex : Nat)
    (out : GLTF_Accessor) : R (Nat × GLTF_Accessor) := do
  keyAssert tokens tkindex
  if (← keyIs data tokens tkindex "name") then
    let (tkindex1, v) ← json_parse_string data tokens (tkindex + 1)
    return (tkindex1, { out with name := v })
  else if (← keyIs data tokens tkindex "bufferView") then
    let v ← json_to_int data tokens (tkindex + 1)
    return (tkindex + 2, { out with bufferView := PTR_TO_INDEX v })
  else if (← keyIs data tokens tkindex "byteOffset") then
    let v ← json_to_size data tokens (tkindex + 1)
    return (tkindex + 2, { out with offset := v })
  else if (← keyIs data tokens tkindex "componentType") then
    let v ← internal_json_to_component_type data tokens (tkindex + 1)
    return (tkindex + 2, { out with componentType := v })
  else if (← keyIs data tokens tkindex "normalized") then
    let v ← json_to_bool data tokens (tkindex + 1)
    return (tkindex + 2, { out with normalized := v })
  else if (← keyIs data tokens tkindex "count") then
    let v ← json_to_size data tokens (tkindex + 1)
    return (tkindex + 2, { out with count := v })
  else if (← keyIs data tokens tkindex "type") then
    let v ← accessorType data tokens (tkindex + 1) out.type
    return (tkindex + 2, { out with type := v })
  else if (← keyIs data tokens tkindex "sparse") then
    let (tkindex1, v) ← internal_json_parse_accessor_sparse data tokens (tkindex + 1) out.sparse
    return (tkindex1, { out with isSparse := 1, sparse := v })
  else if (← keyIs data tokens tkindex "min") then
    let n ← minMaxSize tokens (tkindex + 1)
    let (tkindex1, v) ← json_parse_array_float data tokens (tkindex + 1) out.min n
    return (tkindex1, { out with hasMin := 1, min := v })
  else if (← keyIs data tokens tkindex "max") then
    let n ← minMaxSize tokens (tkindex + 1)
    let (tkindex1, v) ← json_parse_array_float data tokens (tkindex + 1) out.max n
    return (tkindex1, { out with hasMax := 1, max := v })
  else if (← keyIs data tokens tkindex "extras") then
    let (tkindex1, v) ← internal_parse_extras data tokens (tkindex + 1)
    return (tkindex1, { out with extras := v })
  else if (← keyIs data tokens tkindex "extensions") then
    let (tkindex1, v) ← internal_parse_unprocessed_extensions data tokens tkindex
    return (tkindex1, { out with extensions := v })
  else
    let tkindex1 ← json_parse_skip tokens (tkindex + 1)
    return (tkindex1, out)

/-- The function `internal_parse_json_accessor`. -/
def internal_parse_json_accessor (data : List Nat) (tokens : List jsmntok_t) (tkindex : Nat)
    (outAccessor : GLTF_Accessor) : R (Nat × GLTF_Accessor) := do
  objectAssert tokens tkindex
  let size ← objectSize tokens tkindex
  forLoop size (accessorKey data tokens) (tkindex + 1) outAccessor

/-- The function `internal_parse_accessors`. -/
def internal_parse_accessors (data : List Nat) (tokens : List jsmntok_t) (tkindex : Nat)
    (outData : GLTF2) : R (Nat × GLTF2) := do
  let (tkindex1, accessorsCount) ← json_parse_array tokens tkindex
  let (tkindex2, accessors) ←
    parseElems {} (internal_parse_json_accessor data tokens) accessorsCount tkindex1
  return (tkindex2, { outData with accessors := accessors })

/-- The body of the key loop of `internal_parse_asset`. -/
def assetKey (data : List Nat) (tokens : List jsmntok_t) (tkindex : Nat)
    (out : GLTF_Asset) : R (Nat × GLTF_Asset) := do
  keyAssert tokens tkindex
  if (← keyIs data tokens tkindex "copyright") then
    let (tkindex1, v) ← json_parse_string data tokens (tkindex + 1)
    return (tkindex1, { out with copyright := v })
  else if (← keyIs data tokens tkindex "generator") then
    let (tkindex1, v) ← json_parse_string data tokens (tkindex + 1)
    return (tkindex1, { out with generator := v })
  else if (← keyIs data tokens tkindex "version") then
    let (tkindex1, v) ← json_parse_string data tokens (tkindex + 1)
    return (tkindex1, { out with version := v })
  else if (← keyIs data tokens tkindex "minVersion") then
    let (tkindex1, v) ← json_parse_string data tokens (tkindex + 1)
    return (tkindex1, { out with minVersion := v })
  else if (← keyIs data tokens tkindex "extras") then
    let (tkindex1, v) ← internal_parse_extras data tokens (tkindex + 1)
    return (tkindex1, { out with extras := v })
  else if (← keyIs data tokens tkindex "extensions") then
    let (tkindex1, v) ← internal_parse_unprocessed_extensions data tokens tkindex
    return (tkindex1, { out with extensions := v })
  else
    let tkindex1 ← json_parse_skip tokens (tkindex + 1)
    return (tkindex1, out)

/-- The condition of the last assertion of `internal_parse_asset`,
`outAsset->version && atof(outAsset->version) < 2`. The comparison of the
`double` returned by the C library with 2 is the parameter `atofLt2`. -/
def isLegacy (atofLt2 : List Nat → Bool) (version : CString) : Bool :=
  match version with
  | none => false
  | some v => atofLt2 v

/-- The function `internal_parse_asset`. -/
def internal_parse_asset (atofLt2 : List Nat → Bool) (data : List Nat) (tokens : List jsmntok_t)
    (tkindex : Nat) (outAsset : GLTF_Asset) : R (Nat × GLTF_Asset) := do
  objectAssert tokens tkindex
  let size ← objectSize tokens tkindex
  let (tkindex1, out1) ← forLoop size (assetKey data tokens) (tkindex + 1) outAsset
  GLTF_ASSERT (!(isLegacy atofLt2 out1.version)) "Legacy GLTF is not supported"
  return (tkindex1, out1)

/-- The body of the key loop of `internal_parse_buffer_view`. -/
def bufferViewKey (data : List Nat) (tokens : List jsmntok_t) (tkindex : Nat)
    (out : GLTF_BufferView) : R (Nat × GLTF_BufferView) := do
  keyAssert tokens tkindex
  if (← keyIs data tokens tkindex "name") then
    let (tkindex1, v) ← json_parse_string data tokens (tkindex + 1)
    return (tkindex1, { out with name := v })
  else if (← keyIs data tokens tkindex "buffer") then
    let v ← json_to_int data tokens (tkindex + 1)
    return (tkindex + 2, { out with buffer := PTR_TO_INDEX v })
  else if (← keyIs data tokens tkindex "byteOffset") then
    let v ← json_to_size data tokens (tkindex + 1)
    return (tkindex + 2, { out with offset := v })
  else if (← keyIs data tokens tkindex "byteLength") then
    let v ← json_to_size data tokens (tkindex + 1)
    return (tkindex + 2, { out with size := v })
  else if (← keyIs data tokens tkindex "byteStride") then
    let v ← json_to_size data tokens (tkindex + 1)
    return (tkindex + 2, { out with stride := v })
  else if (← keyIs data tokens tkindex "target") then
    let v ← json_to_int data tokens (tkindex + 1)
    return (tkindex + 2, { out with type := v })
  else if (← keyIs data tokens tkindex "extras") then
    let (tkindex1, v) ← internal_parse_extras data tokens (tkindex + 1)
    return (tkindex1, { out with extras := v })
  else if (← keyIs data tokens tkindex "extensions") then
    let (tkindex1, v) ← internal_parse_unprocessed_extensions data tokens tkindex
    return (tkindex1, { out with extensions := v })
  else
    let tkindex1 ← json_parse_skip tokens (tkindex + 1)
    return (tkindex1, out)

/-- The function `internal_parse_buffer_view`. -/
def internal_parse_buffer_view (data : List Nat) (tokens : List jsmntok_t) (tkindex : Nat)
    (outBufferView : GLTF_BufferView) : R (Nat × GLTF_BufferView) := do
  objectAssert tokens tkindex
  let size ← objectSize tokens tkindex
  forLoop size (bufferViewKey data tokens) (tkindex + 1) outBufferView

/-- The function `internal_parse_bufferviews`. -/
def internal_parse_bufferviews (data : List Nat) (tokens : List jsmntok_t) (i : Nat)
    (outData : GLTF2) : R (Nat × GLTF2) := do
  let (i1, bufferViewsCount) ← json_parse_array tokens i
  let (i2, bufferViews) ←
    parseElems {} (internal_parse_buffer_view data tokens) bufferViewsCount i1
  return (i2, { outData with bufferViews := bufferViews })

/-- The body of the key loop of `internal_parse_buffer`. -/
def bufferKey (data : List Nat) (tokens : List jsmntok_t) (tkindex : Nat)
    (out : GLTF_Buffer) : R (Nat × GLTF_Buffer) := do
  keyAssert tokens tkindex
  if (← keyIs data tokens tkindex "name") then
    let (tkindex1, v) ← json_parse_string data tokens (tkindex + 1)
    return (tkindex1, { out with name := v })
  else if (← keyIs data tokens tkindex "byteLength") then
    let v ← json_to_size data tokens (tkindex + 1)
    return (tkindex + 2, { out with size := v })
  else if (← keyIs data tokens tkindex "uri") then
    let (tkindex1, v) ← json_parse_string data tokens (tkindex + 1)
    return (tkindex1, { out with URI := v })
  else if (← keyIs data tokens tkindex "extras") then
    let (tkindex1, v) ← internal_parse_extras data tokens (tkindex + 1)
    return (tkindex1, { out with extras := v })
  else if (← keyIs data tokens tkindex "extensions") then
    let (tkindex1, v) ← internal_parse_unprocessed_extensions data tokens tkindex
    return (tkindex1, { out with extensions := v })
  else
    let tkindex1 ← json_parse_skip tokens (tkindex + 1)
    return (tkindex1, out)

/-- The function `internal_parse_buffer`. -/
def internal_parse_buffer (data : List Nat) (tokens : List jsmntok_t) (tkindex : Nat)
    (outBuffer : GLTF_Buffer) : R (Nat × GLTF_Buffer) := do
  objectAssert tokens tkindex
  let size ← objectSize tokens tkindex
  forLoop size (bufferKey data tokens) (tkindex + 1) outBuffer

/-- The function `internal_parse_buffers`. -/
def internal_parse_buffers (data : List Nat) (tokens : List jsmntok_t) (tkindex : Nat)
    (outData : GLTF2) : R (Nat × GLTF2) := do
  let (tkindex1, buffersCount) ← json_parse_array tokens tkindex
  let (tkindex2, buffers) ← parseElems {} (internal_parse_buffer data tokens) buffersCount tkindex1
  return (tkindex2, { outData with buffers := buffers })

/-- The value of the key `interpolation` of an animation sampler. -/
def samplerInterpolation (data : List Nat) (tokens : List jsmntok_t) (tkindex : Nat)
    (old : GLTF_InterpolationType) : R GLTF_InterpolationType := do
  if (← keyIs data tokens tkindex "LINEAR") then return InterpolationType_Linear
  else if (← keyIs data tokens tkindex "STEP") then return InterpolationType_Step
  else if (← keyIs data tokens tkindex "CUBICSPLINE") then return InterpolationType_CubicSpline
  else return old

/-- The body of the key loop of `internal_parse_animation_sampler`. -/
def animationSamplerKey (data : List Nat) (tokens : List jsmntok_t) (tkindex : Nat)
    (out : GLTF_AnimationSampler) : R (Nat × GLTF_AnimationSampler) := do
  keyAssert tokens tkindex
  if (← keyIs data tokens tkindex "input") then
    let v ← json_to_int data tokens (tkindex + 1)
    return (tkindex + 2, { out with input := PTR_TO_INDEX v })
  else if (← keyIs data tokens tkindex "output") then
    let v ← json_to_int data tokens (tkindex + 1)
    return (tkindex + 2, { out with output := PTR_TO_INDEX v })
  else if (← keyIs data tokens tkindex "interpolation") then
    let v ← samplerInterpolation data tokens (tkindex + 1) out.interpolation
    return (tkindex + 2, { out with interpolation := v })
  else if (← keyIs data tokens tkindex "extras") then
    let (tkindex1, v) ← internal_parse_extras data tokens (tkindex + 1)
    return (tkindex1, { out with extras := v })
  else if (← keyIs data tokens tkindex "extensions") then
    let (tkindex1, v) ← internal_parse_unprocessed_extensions data tokens tkindex
    return (tkindex1, { out with extensions := v })
  else
    let tkindex1 ← json_parse_skip tokens (tkindex + 1)
    return (tkindex1, out)

/-- The function `internal_parse_animation_sampler`. -/
def internal_parse_animation_sampler (data : List Nat) (tokens : List jsmntok_t) (tkindex : Nat)
    (outSampler : GLTF_AnimationSampler) : R (Nat × GLTF_AnimationSampler) := do
  objectAssert tokens tkindex
  let size ← objectSize tokens tkindex
  forLoop size (animationSamplerKey data tokens) (tkindex + 1) outSampler

/-- The value of the key `path` of a channel target. -/
def channelPath (data : List Nat) (tokens : List jsmntok_t) (tkindex : Nat)
    (old : GLTF_AnimationPathType) : R GLTF_AnimationPathType := do
  if (← keyIs data tokens tkindex "translation") then return AnimationPathType_Translation
  else if (← keyIs data tokens tkindex "rotation") then return AnimationPathType_Rotation
  else if (← keyIs data tokens tkindex "scale") then return AnimationPathType_Scale
  else if (← keyIs data tokens tkindex "weights") then return AnimationPathType_Weights
  else return old

/-- The body of the loop over the keys of `target` in an animation channel. -/
def channelTargetKey (data : List Nat) (tokens : List jsmntok_t) (tkindex : Nat)
    (out : GLTF_AnimationChannel) : R (Nat × GLTF_AnimationChannel) := do
  keyAssert tokens tkindex
  if (← keyIs data tokens tkindex "node") then
    let v ← json_to_int data tokens (tkindex + 1)
    return (tkindex + 2, { out with targetNode := PTR_TO_INDEX v })
  else if (← keyIs data tokens tkindex "path") then
    let v ← channelPath data tokens (tkindex + 1) out.targetPath
    return (tkindex + 2, { out with targetPath := v })
  else if (← keyIs data tokens tkindex "extras") then
    let (tkindex1, v) ← internal_parse_extras data tokens (tkindex + 1)
    return (tkindex1, { out with extras := v })
  else if (← keyIs data tokens tkindex "extensions") then
    let (tkindex1, v) ← internal_parse_unprocessed_extensions data tokens tkindex
    return (tkindex1, { out with extensions := v })
  else
    let tkindex1 ← json_parse_skip tokens (tkindex + 1)
    return (tkindex1, out)

/-- The body of the key loop of `internal_parse_animation_channel`. -/
def animationChannelKey (data : List Nat) (tokens : List jsmntok_t) (tkindex : Nat)
    (out : GLTF_AnimationChannel) : R (Nat × GLTF_AnimationChannel) := do
  keyAssert tokens tkindex
  if (← keyIs data tokens tkindex "sampler") then
    let v ← json_to_int data tokens (tkindex + 1)
    return (tkindex + 2, { out with sampler := PTR_TO_INDEX v })
  else if (← keyIs data tokens tkindex "target") then
    objectAssert tokens (tkindex + 1)
    let target_size ← objectSize tokens (tkindex + 1)
    forLoop target_size (channelTargetKey data tokens) (tkindex + 2) out
  else
    let tkindex1 ← json_parse_skip tokens (tkindex + 1)
    return (tkindex1, out)

/-- The function `internal_parse_animation_channel`. -/
def internal_parse_animation_channel (data : List Nat) (tokens : List jsmntok_t) (tkindex : Nat)
    (outChannel : GLTF_AnimationChannel) : R (Nat × GLTF_AnimationChannel) := do
  objectAssert tokens tkindex
  let size ← objectSize tokens tkindex
  forLoop size (animationChannelKey data tokens) (tkindex + 1) outChannel

/-- The body of the key loop of `internal_parse_animation`. -/
def animationKey (data : List Nat) (tokens : List jsmntok_t) (tkindex : Nat)
    (out : GLTF_Animation) : R (Nat × GLTF_Animation) := do
  keyAssert tokens tkindex
  if (← keyIs data tokens tkindex "name") then
    let (tkindex1, v) ← json_parse_string data tokens (tkindex + 1)
    return (tkindex1, { out with name := v })
  else if (← keyIs data tokens tkindex "samplers") then
    let (tkindex1, samplersCount) ← json_parse_array tokens (tkindex + 1)
    let (tkindex2, samplers) ←
      parseElems {} (internal_parse_animation_sampler data tokens) samplersCount tkindex1
    return (tkindex2, { out with samplers := samplers })
  else if (← keyIs data tokens tkindex "channels") then
    let (tkindex1, channelsCount) ← json_parse_array tokens (tkindex + 1)
    let (tkindex2, channels) ←
      parseElems {} (internal_parse_animation_channel data tokens) channelsCount tkindex1
    return (tkindex2, { out with channels := channels })
  else if (← keyIs data tokens tkindex "extras") then
    let (tkindex1, v) ← internal_parse_extras data tokens (tkindex + 1)
    return (tkindex1, { out with extras := v })
  else if (← keyIs data tokens tkindex "extensions") then
    let (tkindex1, v) ← internal_parse_unprocessed_extensions data tokens tkindex
    return (tkindex1, { out with extensions := v })
  else
    let tkindex1 ← json_parse_skip tokens (tkindex + 1)
    return (tkindex1, out)

/-- The function `internal_parse_animation`. -/
def internal_parse_animation (data : List Nat) (tokens : List jsmntok_t) (tkindex : Nat)
    (outAnimation : GLTF_Animation) : R (Nat × GLTF_Animation) := do
  objectAssert tokens tkindex
  let size ← objectSize tokens tkindex
  forLoop size (animationKey data tokens) (tkindex + 1) outAnimation

/-- The function `internal_parse_animations`. -/
def internal_parse_animations (data : List Nat) (tokens : List jsmntok_t) (tkindex : Nat)
    (outData : GLTF2) : R (Nat × GLTF2) := do
  let (tkindex1, animationsCount) ← json_parse_array tokens tkindex
  let (tkindex2, animations) ←
    parseElems {} (internal_parse_animation data tokens) animationsCount tkindex1
  return (tkindex2, { outData with animations := animations })

/-- The body of the loop over the keys of `perspective` in a camera. -/
def cameraPerspectiveKey (data : List Nat) (tokens : List jsmntok_t) (tkindex : Nat)
    (out : GLTF_CameraPerspective) : R (Nat × GLTF_CameraPerspective) := do
  keyAssert tokens tkindex
  if (← keyIs data tokens tkindex "aspectRatio") then
    let v ← json_to_float data tokens (tkindex + 1)
    return (tkindex + 2, { out with hasAspectRatio := 1, aspectRatio := v })
  else if (← keyIs data tokens tkindex "yfov") then
    let v ← json_to_float data tokens (tkindex + 1)
    return (tkindex + 2, { out with yFOV := v })
  else if (← keyIs data tokens tkindex "zfar") then
    let v ← json_to_float data tokens (tkindex + 1)
    return (tkindex + 2, { out with hasZFar := 1, zFar := v })
  else if (← keyIs data tokens tkindex "znear") then
    let v ← json_to_float data tokens (tkindex + 1)
    return (tkindex + 2, { out with zNear := v })
  else if (← keyIs data tokens tkindex "extras") then
    let (tkindex1, v) ← internal_parse_extras data tokens (tkindex + 1)
    return (tkindex1, { out with extras := v })
  else
    let tkindex1 ← json_parse_skip tokens (tkindex + 1)
    return (tkindex1, out)

/-- The body of the loop over the keys of `orthographic` in a camera. -/
def cameraOrthographicKey (data : List Nat) (tokens : List jsmntok_t) (tkindex : Nat)
    (out : GLTF_CameraOrthographic) : R (Nat × GLTF_CameraOrthographic) := do
  keyAssert tokens tkindex
  if (← keyIs data tokens tkindex "xmag") then
    let v ← json_to_float data tokens (tkindex + 1)
    return (tkindex + 2, { out with xMag := v })
  else if (← keyIs data tokens tkindex "ymag") then
    let v ← json_to_float data tokens (tkindex + 1)
    return (tkindex + 2, { out with yMag := v })
  else if (← keyIs data tokens tkindex "zfar") then
    let v ← json_to_float data tokens (tkindex + 1)
    return (tkindex + 2, { out with zFar := v })
  else if (← keyIs data tokens tkindex "znear") then
    let v ← json_to_float data tokens (tkindex + 1)
    return (tkindex + 2, { out with zNear := v })
  else if (← keyIs data tokens tkindex "extras") then
    let (tkindex1, v) ← internal_parse_extras data tokens (tkindex + 1)
    return (tkindex1, { out with extras := v })
  else
    let tkindex1 ← json_parse_skip tokens (tkindex + 1)
    return (tkindex1, out)

/-- The body of the key loop of `internal_parse_camera`. -/
def cameraKey (data : List Nat) (tokens : List jsmntok_t) (tkindex : Nat)
    (out : GLTF_Camera) : R (Nat × GLTF_Camera) := do
  keyAssert tokens tkindex
  if (← keyIs data tokens tkindex "name") then
    let (tkindex1, v) ← json_parse_string data tokens (tkindex + 1)
    return (tkindex1, { out with name := v })
  else if (← keyIs data tokens tkindex "perspective") then
    objectAssert tokens (tkindex + 1)
    let data_size ← objectSize tokens (tkindex + 1)
    let (tkindex1, v) ←
      forLoop data_size (cameraPerspectiveKey data tokens) (tkindex + 2) out.perspective
    return (tkindex1, { out with type := CameraType_Perspective, perspective := v })
  else if (← keyIs data tokens tkindex "orthographic") then
    objectAssert tokens (tkindex + 1)
    let data_size ← objectSize tokens (tkindex + 1)
    let (tkindex1, v) ←
      forLoop data_size (cameraOrthographicKey data tokens) (tkindex + 2) out.orthographic
    return (tkindex1, { out with type := CameraType_Orthographic, orthographic := v })
  else if (← keyIs data tokens tkindex "extras") then
    let (tkindex1, v) ← internal_parse_extras data tokens (tkindex + 1)
    return (tkindex1, { out with extras := v })
  else if (← keyIs data tokens tkindex "extensions") then
    let (tkindex1, v) ← internal_parse_unprocessed_extensions data tokens tkindex
    return (tkindex1, { out with extensions := v })
  else
    let tkindex1 ← json_parse_skip tokens (tkindex + 1)
    return (tkindex1, out)

/-- The function `internal_parse_camera`. -/
def internal_parse_camera (data : List Nat) (tokens : List jsmntok_t) (tkindex : Nat)
    (outCamera : GLTF_Camera) : R (Nat × GLTF_Camera) := do
  objectAssert tokens tkindex
  let size ← objectSize tokens tkindex
  forLoop size (cameraKey data tokens) (tkindex + 1) outCamera

/-- The function `internal_parse_cameras`. -/
def internal_parse_cameras (data : List Nat) (tokens : List jsmntok_t) (tkindex : Nat)
    (outData : GLTF2) : R (Nat × GLTF2) := do
  let (tkindex1, camerasCount) ← json_parse_array tokens tkindex
  let (tkindex2, cameras) ← parseElems {} (internal_parse_camera data tokens) camerasCount tkindex1
  return (tkindex2, { outData with cameras := cameras })

/-- The body of the key loop of `internal_parse_image`. -/
def imageKey (data : List Nat) (tokens : List jsmntok_t) (tkindex : Nat)
    (out : GLTF_Image) : R (Nat × GLTF_Image) := do
  keyAssert tokens tkindex
  if (← keyIs data tokens tkindex "uri") then
    let (tkindex1, v) ← json_parse_string data tokens (tkindex + 1)
    return (tkindex1, { out with URI := v })
  else if (← keyIs data tokens tkindex "bufferView") then
    let v ← json_to_int data tokens (tkindex + 1)
    return (tkindex + 2, { out with bufferView := PTR_TO_INDEX v })
  else if (← keyIs data tokens tkindex "mimeType") then
    let (tkindex1, v) ← json_parse_string data tokens (tkindex + 1)
    return (tkindex1, { out with mime_type := v })
  else if (← keyIs data tokens tkindex "name") then
    let (tkindex1, v) ← json_parse_string data tokens (tkindex + 1)
    return (tkindex1, { out with name := v })
  else if (← keyIs data tokens tkindex "extras") then
    let (tkindex1, v) ← internal_parse_extras data tokens (tkindex + 1)
    return (tkindex1, { out with extras := v })
  else if (← keyIs data tokens tkindex "extensions") then
    let (tkindex1, v) ← internal_parse_unprocessed_extensions data tokens tkindex
    return (tkindex1, { out with extensions := v })
  else
    let tkindex1 ← json_parse_skip tokens (tkindex + 1)
    return (tkindex1, out)

/-- The function `internal_parse_image`. -/
def internal_parse_image (data : List Nat) (tokens : List jsmntok_t) (tkindex : Nat)
    (outImage : GLTF_Image) : R (Nat × GLTF_Image) := do
  objectAssert tokens tkindex
  let size ← objectSize tokens tkindex
  forLoop size (imageKey data tokens) (tkindex + 1) outImage

/-- The function `internal_parse_images`. -/
def internal_parse_images (data : List Nat) (tokens : List jsmntok_t) (tkindex : Nat)
    (outData : GLTF2) : R (Nat × GLTF2) := do
  let (tkindex1, imagesCount) ← json_parse_array tokens tkindex
  let (tkindex2, images) ← parseElems {} (internal_parse_image data tokens) imagesCount tkindex1
  return (tkindex2, { outData with images := images })

/-- The body of the key loop of `internal_parse_texture_view`. -/
def textureViewKey (data : List Nat) (tokens : List jsmntok_t) (tkindex : Nat)
    (out : GLTF_TextureView) : R (Nat × GLTF_TextureView) := do
  keyAssert tokens tkindex
  if (← keyIs data tokens tkindex "index") then
    let v ← json_to_int data tokens (tkindex + 1)
    return (tkindex + 2, { out with texture := PTR_TO_INDEX v })
  else if (← keyIs data tokens tkindex "texCoord") then
    let v ← json_to_int data tokens (tkindex + 1)
    return (tkindex + 2, { out with texCoord := v })
  else if (← keyIs data tokens tkindex "scale") then
    let v ← json_to_float data tokens (tkindex + 1)
    return (tkindex + 2, { out with scale := v })
  else if (← keyIs data tokens tkindex "strength") then
    let v ← json_to_float data tokens (tkindex + 1)
    return (tkindex + 2, { out with scale := v })
  else if (← keyIs data tokens tkindex "extensions") then
    let (tkindex1, v) ← internal_parse_unprocessed_extensions data tokens tkindex
    return (tkindex1, { out with extensions := v })
  else
    let tkindex1 ← json_parse_skip tokens (tkindex + 1)
    return (tkindex1, out)

/-- The function `internal_parse_texture_view`. -/
def internal_parse_texture_view (data : List Nat) (tokens : List jsmntok_t) (tkindex : Nat)
    (textureView : GLTF_TextureView) : R (Nat × GLTF_TextureView) := do
  objectAssert tokens tkindex
  let size ← objectSize tokens tkindex
  forLoop size (textureViewKey data tokens) (tkindex + 1) { textureView with scale := CFloat.one }

/-- The body of the key loop of `internal_parse_pbr_metallic_roughness`. -/
def pbrKey (data : List Nat) (tokens : List jsmntok_t) (tkindex : Nat)
    (pbr : GLTF_PBRMetallicRoughness) : R (Nat × GLTF_PBRMetallicRoughness) := do
  keyAssert tokens tkindex
  if (← keyIs data tokens tkindex "metallicFactor") then
    let v ← json_to_float data tokens (tkindex + 1)
    return (tkindex + 2, { pbr with metallicFactor := v })
  else if (← keyIs data tokens tkindex "roughnessFactor") then
    let v ← json_to_float data tokens (tkindex + 1)
    return (tkindex + 2, { pbr with roughnessFactor := v })
  else if (← keyIs data tokens tkindex "baseColorFactor") then
    let (tkindex1, v) ← json_parse_array_float data tokens (tkindex + 1) pbr.baseColor 4
    return (tkindex1, { pbr with baseColor := v })
  else if (← keyIs data tokens tkindex "baseColorTexture") then
    let (tkindex1, v) ← internal_parse_texture_view data tokens (tkindex + 1) pbr.baseColorTexture
    return (tkindex1, { pbr with baseColorTexture := v })
  else if (← keyIs data tokens tkindex "metallicRoughnessTexture") then
    let (tkindex1, v) ←
      internal_parse_texture_view data tokens (tkindex + 1) pbr.metallicRoughnessTexture
    return (tkindex1, { pbr with metallicRoughnessTexture := v })
  else
    let tkindex1 ← json_parse_skip tokens (tkindex + 1)
    return (tkindex1, pbr)

/-- The function `internal_parse_pbr_metallic_roughness`. -/
def internal_parse_pbr_metallic_roughness (data : List Nat) (tokens : List jsmntok_t)
    (tkindex : Nat) (pbr : GLTF_PBRMetallicRoughness) : R (Nat × GLTF_PBRMetallicRoughness) := do
  objectAssert tokens tkindex
  let size ← objectSize tokens tkindex
  forLoop size (pbrKey data tokens) (tkindex + 1) pbr

/-- The value of the key `alphaMode` of a material. -/
def materialAlphaMode (data : List Nat) (tokens : List jsmntok_t) (tkindex : Nat)
    (old : GLTF_AlphaMode) : R GLTF_AlphaMode := do
  if (← keyIs data tokens tkindex "OPAQUE") then return AlphaMode_Opaque
  else if (← keyIs data tokens tkindex "MASK") then return AlphaMode_Mask
  else if (← keyIs data tokens tkindex "BLEND") then return AlphaMode_Blend
  else return old

/-- The body of the key loop of `internal_parse_material`. -/
def materialKey (data : List Nat) (tokens : List jsmntok_t) (tkindex : Nat)
    (material : GLTF_Material) : R (Nat × GLTF_Material) := do
  keyAssert tokens tkindex
  if (← keyIs data tokens tkindex "name") then
    let (tkindex1, v) ← json_parse_string data tokens (tkindex + 1)
    return (tkindex1, { material with name := v })
  else if (← keyIs data tokens tkindex "pbrMetallicRoughness") then
    let (tkindex1, v) ←
      internal_parse_pbr_metallic_roughness data tokens (tkindex + 1) material.PBRmetallicRoughness
    return (tkindex1, { material with PBRmetallicRoughness := v })
  else if (← keyIs data tokens tkindex "emissiveFactor") then
    let (tkindex1, v) ← json_parse_array_float data tokens (tkindex + 1) material.emissiveFactor 3
    return (tkindex1, { material with emissiveFactor := v })
  else if (← keyIs data tokens tkindex "normalTexture") then
    let (tkindex1, v) ← internal_parse_texture_view data tokens (tkindex + 1) material.normalTexture
    return (tkindex1, { material with normalTexture := v })
  else if (← keyIs data tokens tkindex "occlusionTexture") then
    let (tkindex1, v) ←
      internal_parse_texture_view data tokens (tkindex + 1) material.occlusionTexture
    return (tkindex1, { material with occlusionTexture := v })
  else if (← keyIs data tokens tkindex "emissiveTexture") then
    let (tkindex1, v) ←
      internal_parse_texture_view data tokens (tkindex + 1) material.emissiveTexture
    return (tkindex1, { material with emissiveTexture := v })
  else if (← keyIs data tokens tkindex "alphaCutoff") then
    let v ← json_to_float data tokens (tkindex + 1)
    return (tkindex + 2, { material with alphaCutoff := v })
  else if (← keyIs data tokens tkindex "doubleSided") then
    let v ← json_to_bool data tokens (tkindex + 1)
    return (tkindex + 2, { material with doubleSided := v })
  else if (← keyIs data tokens tkindex "alphaMode") then
    let v ← materialAlphaMode data tokens (tkindex + 1) material.alphaMode
    return (tkindex + 2, { material with alphaMode := v })
  else if (← keyIs data tokens tkindex "extras") then
    let (tkindex1, v) ← internal_parse_extras data tokens (tkindex + 1)
    return (tkindex1, { material with extras := v })
  else if (← keyIs data tokens tkindex "extensions") then
    let (tkindex1, v) ← internal_parse_unprocessed_extensions data tokens tkindex
    return (tkindex1, { material with extensions := v })
  else
    let tkindex1 ← json_parse_skip tokens (tkindex + 1)
    return (tkindex1, material)

/-- The function `internal_parse_material`. -/
def internal_parse_material (data : List Nat) (tokens : List jsmntok_t) (tkindex : Nat)
    (material : GLTF_Material) : R (Nat × GLTF_Material) := do
  objectAssert tokens tkindex
  let size ← objectSize tokens tkindex
  let pbr : GLTF_PBRMetallicRoughness :=
    { material.PBRmetallicRoughness with
      baseColor := (((material.PBRmetallicRoughness.baseColor.set 0 CFloat.one).set 1
        CFloat.one).set 2 CFloat.one).set 3 CFloat.one,
      metallicFactor := CFloat.one,
      roughnessFactor := CFloat.one }
  forLoop size (materialKey data tokens) (tkindex + 1)
    { material with PBRmetallicRoughness := pbr, alphaCutoff := CFloat.half }

/-- The function `internal_parse_materials`. -/
def internal_parse_materials (data : List Nat) (tokens : List jsmntok_t) (tkindex : Nat)
    (outData : GLTF2) : R (Nat × GLTF2) := do
  let (tkindex1, materialsCount) ← json_parse_array tokens tkindex
  let (tkindex2, materials) ←
    parseElems {} (internal_parse_material data tokens) materialsCount tkindex1
  return (tkindex2, { outData with materials := materials })

/-- The function `strchr_impl(str, c)` for a non-zero byte `c`, on the content of the
C string `str`: the offset of the first occurrence, or `none` for a null result. -/
def strchr_impl (str : List Nat) (c : Nat) : Option Nat :=
  let i := str.indexOf c
  if i < str.length then some i else none

/-- The test `len == n && strncmp_impl(name, lit, n) == 0` of `internal_parse_attribute_type`,
on the C string `name`. -/
def attributeIs (name : List Nat) (len : Nat) (lit : String) : Bool :=
  len == (cstr lit).length && strncmp_impl (name ++ [0]) (cstr lit) (cstr lit).length == some 0

/-- The function `internal_parse_attribute_type(name, type, index)` on the content of the C
string `name`: the values of `*type` and `*index` after the call, where `index`
is the value `*index` holds before it (`*type` is written on every path). -/
def internal_parse_attribute_type (name : List Nat) (index : Int) :
    R (GLTF_AttributeType × Int) :=
  if name.headD 0 = 95 then R.ok (AttributeType_Custom, index) []
  else
    let us := strchr_impl name 95
    let len := match us with
      | some k => k
      | none => name.length
    let type1 :=
      if attributeIs name len "POSITION" then AttributeType_Position
      else if attributeIs name len "NORMAL" then AttributeType_Normal
      else if attributeIs name len "TANGENT" then AttributeType_Tangent
      else if attributeIs name len "TEXCOORD" then AttributeType_TexCoord
      else if attributeIs name len "COLOR" then AttributeType_Color
      else if attributeIs name len "JOINTS" then AttributeType_Joints
      else if attributeIs name len "WEIGHTS" then AttributeType_Weights
      else AttributeType_Invalid
    match us with
    | some k =>
      if type1 ≠ AttributeType_Invalid then
        match atoi (name.drop (k + 1)) with
        | none => R.ub
        | some v => if v < 0 then R.ok (AttributeType_Invalid, 0) [] else R.ok (type1, v) []
      else R.ok (type1, index) []
    | none => R.ok (type1, index) []

/-- The loop of `internal_parse_attribute_list` over the `n` remaining attributes of the
zeroed array. The result of `json_parse_string` is not tested by the code: when
it fails, the name stays null and is dereferenced. -/
def internal_parse_attribute_list_loop (data : List Nat) (tokens : List jsmntok_t) :
    Nat → Nat → R (Nat × List GLTF_Attribute)
  | 0, tkindex => R.ok (tkindex, []) []
  | n + 1, tkindex => do
    keyAssert tokens tkindex
    match json_parse_string data tokens tkindex with
    | R.ok (tkindex1, some name) _ =>
      let (type, index) ← internal_parse_attribute_type name 0
      let v ← json_to_int data tokens tkindex1
      let (tkindex2, rest) ← internal_parse_attribute_list_loop data tokens n (tkindex1 + 1)
      return (tkindex2, { name := some name, type := type, index := index, data := PTR_TO_INDEX v }
        :: rest)
    | _ => R.ub

/-- The function `internal_parse_attribute_list`: the next cursor and the array of
attributes (its length is `*attributesCount`). -/
def internal_parse_attribute_list (data : List Nat) (tokens : List jsmntok_t) (tkindex : Nat) :
    R (Nat × List GLTF_Attribute) := do
  objectAssert tokens tkindex
  let tok ← tokGet tokens tkindex
  if tok.size < 0 then R.ub
  else internal_parse_attribute_list_loop data tokens tok.size.toNat (tkindex + 1)

/-- The loop over the morph targets of a primitive. -/
def parseTargets (data : List Nat) (tokens : List jsmntok_t) :
    Nat → Nat → R (Nat × List GLTF_MorphTarget)
  | 0, tkindex => R.ok (tkindex, []) []
  | n + 1, tkindex => do
    let (tkindex1, attributes) ← internal_parse_attribute_list data tokens tkindex
    let (tkindex2, rest) ← parseTargets data tokens n tkindex1
    return (tkindex2, { attributes := attributes } :: rest)

/-- The body of the key loop of `internal_parse_primitive`. -/
def primitiveKey (data : List Nat) (tokens : List jsmntok_t) (tkindex : Nat)
    (primitive : GLTF_Primitive) : R (Nat × GLTF_Primitive) := do
  keyAssert tokens tkindex
  if (← keyIs data tokens tkindex "mode") then
    let v ← json_to_int data tokens (tkindex + 1)
    return (tkindex + 2, { primitive with type := v })
  else if (← keyIs data tokens tkindex "indices") then
    let v ← json_to_int data tokens (tkindex + 1)
    return (tkindex + 2, { primitive with indices := PTR_TO_INDEX v })
  else if (← keyIs data tokens tkindex "material") then
    let v ← json_to_int data tokens (tkindex + 1)
    return (tkindex + 2, { primitive with material := PTR_TO_INDEX v })
  else if (← keyIs data tokens tkindex "attributes") then
    let (tkindex1, v) ← internal_parse_attribute_list data tokens (tkindex + 1)
    return (tkindex1, { primitive with attributes := v })
  else if (← keyIs data tokens tkindex "targets") then
    let (tkindex1, targetsCount) ← json_parse_array tokens (tkindex + 1)
    let (tkindex2, targets) ← parseTargets data tokens targetsCount tkindex1
    return (tkindex2, { primitive with targets := targets })
  else if (← keyIs data tokens tkindex "extras") then
    let (tkindex1, v) ← internal_parse_extras data tokens (tkindex + 1)
    return (tkindex1, { primitive with extras := v })
  else if (← keyIs data tokens tkindex "extensions") then
    let (tkindex1, v) ← internal_parse_unprocessed_extensions data tokens tkindex
    return (tkindex1, { primitive with extensions := v })
  else
    let tkindex1 ← json_parse_skip tokens (tkindex + 1)
    return (tkindex1, primitive)

/-- The function `internal_parse_primitive`. -/
def internal_parse_primitive (data : List Nat) (tokens : List jsmntok_t) (tkindex : Nat)
    (primitive : GLTF_Primitive) : R (Nat × GLTF_Primitive) := do
  objectAssert tokens tkindex
  let size ← objectSize tokens tkindex
  forLoop size (primitiveKey data tokens) (tkindex + 1)
    { primitive with type := PrimitiveType_Triangles }

/-- The two calls that read a `weights` array: `json_parse_array` sizes the array
from the token at `tkindex + 1`, then `json_parse_array_float` fills it from the same
token. -/
def parseWeights (data : List Nat) (tokens : List jsmntok_t) (tkindex : Nat) :
    R (Nat × List CFloat) := do
  let (tkindex1, weightsCount) ← json_parse_array tokens (tkindex + 1)
  json_parse_array_float data tokens (tkindex1 - 1) (List.replicate weightsCount CFloat.zero)
    (weightsCount : Int)

/-- The body of the key loop of `internal_parse_mesh`. -/
def meshKey (data : List Nat) (tokens : List jsmntok_t) (tkindex : Nat)
    (mesh : GLTF_Mesh) : R (Nat × GLTF_Mesh) := do
  keyAssert tokens tkindex
  if (← keyIs data tokens tkindex "name") then
    let (tkindex1, v) ← json_parse_string data tokens (tkindex + 1)
    return (tkindex1, { mesh with name := v })
  else if (← keyIs data tokens tkindex "primitives") then
    let (tkindex1, primitivesCount) ← json_parse_array tokens (tkindex + 1)
    let (tkindex2, primitives) ←
      parseElems {} (internal_parse_primitive data tokens) primitivesCount tkindex1
    return (tkindex2, { mesh with primitives := primitives })
  else if (← keyIs data tokens tkindex "weights") then
    let (tkindex1, v) ← parseWeights data tokens tkindex
    return (tkindex1, { mesh with weights := v })
  else if (← keyIs data tokens tkindex "extras") then
    let (tkindex1, v) ← internal_parse_extras data tokens (tkindex + 1)
    return (tkindex1, { mesh with extras := v })
  else if (← keyIs data tokens tkindex "extensions") then
    let (tkindex1, v) ← internal_parse_unprocessed_extensions data tokens tkindex
    return (tkindex1, { mesh with extensions := v })
  else
    let tkindex1 ← json_parse_skip tokens (tkindex + 1)
    return (tkindex1, mesh)

/-- The function `internal_parse_mesh`. -/
def internal_parse_mesh (data : List Nat) (tokens : List jsmntok_t) (tkindex : Nat)
    (mesh : GLTF_Mesh) : R (Nat × GLTF_Mesh) := do
  objectAssert tokens tkindex
  let size ← objectSize tokens tkindex
  forLoop size (meshKey data tokens) (tkindex + 1) mesh

/-- The function `internal_parse_meshes`. -/
def internal_parse_meshes (data : List Nat) (tokens : List jsmntok_t) (tkindex : Nat)
    (outData : GLTF2) : R (Nat × GLTF2) := do
  let (tkindex1, meshesCount) ← json_parse_array tokens tkindex
  let (tkindex2, meshes) ← parseElems {} (internal_parse_mesh data tokens) meshesCount tkindex1
  return (tkindex2, { outData with meshes := meshes })

/-- The body of the key loop of `internal_parse_node`. -/
def nodeKey (data : List Nat) (tokens : List jsmntok_t) (tkindex : Nat)
    (node : GLTF_Node) : R (Nat × GLTF_Node) := do
  keyAssert tokens tkindex
  if (← keyIs data tokens tkindex "name") then
    let (tkindex1, v) ← json_parse_string data tokens (tkindex + 1)
    return (tkindex1, { node with name := v })
  else if (← keyIs data tokens tkindex "children") then
    let (tkindex1, childrenCount) ← json_parse_array tokens (tkindex + 1)
    let (tkindex2, children) ← parseRefs data tokens childrenCount tkindex1
    return (tkindex2, { node with children := children })
  else if (← keyIs data tokens tkindex "mesh") then
    primitiveAssert tokens (tkindex + 1)
    let v ← json_to_int data tokens (tkindex + 1)
    return (tkindex + 2, { node with mesh := PTR_TO_INDEX v })
  else if (← keyIs data tokens tkindex "skin") then
    primitiveAssert tokens (tkindex + 1)
    let v ← json_to_int data tokens (tkindex + 1)
    return (tkindex + 2, { node with skin := PTR_TO_INDEX v })
  else if (← keyIs data tokens tkindex "camera") then
    primitiveAssert tokens (tkindex + 1)
    let v ← json_to_int data tokens (tkindex + 1)
    return (tkindex + 2, { node with camera := PTR_TO_INDEX v })
  else if (← keyIs data tokens tkindex "translation") then
    let (tkindex1, v) ← json_parse_array_float data tokens (tkindex + 1) node.translation 3
    return (tkindex1, { node with translation := v })
  else if (← keyIs data tokens tkindex "rotation") then
    let (tkindex1, v) ← json_parse_array_float data tokens (tkindex + 1) node.rotation 4
    return (tkindex1, { node with rotation := v })
  else if (← keyIs data tokens tkindex "scale") then
    let (tkindex1, v) ← json_parse_array_float data tokens (tkindex + 1) node.scale 3
    return (tkindex1, { node with scale := v })
  else if (← keyIs data tokens tkindex "matrix") then
    let (tkindex1, v) ← json_parse_array_float data tokens (tkindex + 1) node.matrix 16
    return (tkindex1, { node with matrix := v })
  else if (← keyIs data tokens tkindex "weights") then
    let (tkindex1, v) ← parseWeights data tokens tkindex
    return (tkindex1, { node with weights := v })
  else if (← keyIs data tokens tkindex "extras") then
    let (tkindex1, v) ← internal_parse_extras data tokens (tkindex + 1)
    return (tkindex1, { node with extras := v })
  else if (← keyIs data tokens tkindex "extensions") then
    let (tkindex1, v) ← internal_parse_unprocessed_extensions data tokens tkindex
    return (tkindex1, { node with extensions := v })
  else
    let tkindex1 ← json_parse_skip tokens (tkindex + 1)
    return (tkindex1, node)

/-- The function `internal_parse_node`. -/
def internal_parse_node (data : List Nat) (tokens : List jsmntok_t) (tkindex : Nat)
    (node : GLTF_Node) : R (Nat × GLTF_Node) := do
  objectAssert tokens tkindex
  let size ← objectSize tokens tkindex
  forLoop size (nodeKey data tokens) (tkindex + 1)
    { node with
      rotation := node.rotation.set 3 CFloat.one,
      scale := ((node.scale.set 0 CFloat.one).set 1 CFloat.one).set 2 CFloat.one,
      matrix := (((node.matrix.set 0 CFloat.one).set 5 CFloat.one).set 10 CFloat.one).set 15
        CFloat.one }

/-- The function `internal_parse_nodes`. -/
def internal_parse_nodes (data : List Nat) (tokens : List jsmntok_t) (tkindex : Nat)
    (outData : GLTF2) : R (Nat × GLTF2) := do
  let (tkindex1, nodesCount) ← json_parse_array tokens tkindex
  let (tkindex2, nodes) ← parseElems {} (internal_parse_node data tokens) nodesCount tkindex1
  return (tkindex2, { outData with nodes := nodes })

/-- The body of the key loop of `internal_parse_image_sampler`. -/
def imageSamplerKey (data : List Nat) (tokens : List jsmntok_t) (tkindex : Nat)
    (sampler : GLTF_ImageSampler) : R (Nat × GLTF_ImageSampler) := do
  keyAssert tokens tkindex
  if (← keyIs data tokens tkindex "name") then
    let (tkindex1, v) ← json_parse_string data tokens (tkindex + 1)
    return (tkindex1, { sampler with name := v })
  else if (← keyIs data tokens tkindex "magFilter") then
    let v ← json_to_int data tokens (tkindex + 1)
    return (tkindex + 2, { sampler with magFilter := v })
  else if (← keyIs data tokens tkindex "minFilter") then
    let v ← json_to_int data tokens (tkindex + 1)
    return (tkindex + 2, { sampler with minFilter := v })
  else if (← keyIs data tokens tkindex "wrapS") then
    let v ← json_to_int data tokens (tkindex + 1)
    return (tkindex + 2, { sampler with wrapS := v })
  else if (← keyIs data tokens tkindex "wrapT") then
    let v ← json_to_int data tokens (tkindex + 1)
    return (tkindex + 2, { sampler with wrapT := v })
  else if (← keyIs data tokens tkindex "extras") then
    let (tkindex1, v) ← internal_parse_extras data tokens (tkindex + 1)
    return (tkindex1, { sampler with extras := v })
  else if (← keyIs data tokens tkindex "extensions") then
    let (tkindex1, v) ← internal_parse_unprocessed_extensions data tokens tkindex
    return (tkindex1, { sampler with extensions := v })
  else
    let tkindex1 ← json_parse_skip tokens (tkindex + 1)
    return (tkindex1, sampler)

/-- The function `internal_parse_image_sampler`. -/
def internal_parse_image_sampler (data : List Nat) (tokens : List jsmntok_t) (tkindex : Nat)
    (sampler : GLTF_ImageSampler) : R (Nat × GLTF_ImageSampler) := do
  objectAssert tokens tkindex
  let size ← objectSize tokens tkindex
  forLoop size (imageSamplerKey data tokens) (tkindex + 1)
    { sampler with wrapS := WrapMode_Repeat, wrapT := WrapMode_Repeat }

/-- The function `internal_parse_image_samplers`. -/
def internal_parse_image_samplers (data : List Nat) (tokens : List jsmntok_t) (tkindex : Nat)
    (outData : GLTF2) : R (Nat × GLTF2) := do
  let (tkindex1, imageSamplersCount) ← json_parse_array tokens tkindex
  let (tkindex2, imageSamplers) ←
    parseElems {} (internal_parse_image_sampler data tokens) imageSamplersCount tkindex1
  return (tkindex2, { outData with imageSamplers := imageSamplers })

/-- The body of the key loop of `internal_parse_skin`. -/
def skinKey (data : List Nat) (tokens : List jsmntok_t) (tkindex : Nat)
    (skin : GLTF_Skin) : R (Nat × GLTF_Skin) := do
  keyAssert tokens tkindex
  if (← keyIs data tokens tkindex "name") then
    let (tkindex1, v) ← json_parse_string data tokens (tkindex + 1)
    return (tkindex1, { skin with name := v })
  else if (← keyIs data tokens tkindex "joints") then
    let (tkindex1, jointsCount) ← json_parse_array tokens (tkindex + 1)
    let (tkindex2, joints) ← parseRefs data tokens jointsCount tkindex1
    return (tkindex2, { skin with joints := joints })
  else if (← keyIs data tokens tkindex "skeleton") then
    primitiveAssert tokens (tkindex + 1)
    let v ← json_to_int data tokens (tkindex + 1)
    return (tkindex + 2, { skin with skeleton := PTR_TO_INDEX v })
  else if (← keyIs data tokens tkindex "inverseBindMatrices") then
    primitiveAssert tokens (tkindex + 1)
    let v ← json_to_int data tokens (tkindex + 1)
    return (tkindex + 2, { skin with inverseBindMatrices := PTR_TO_INDEX v })
  else if (← keyIs data tokens tkindex "extras") then
    let (tkindex1, v) ← internal_parse_extras data tokens (tkindex + 1)
    return (tkindex1, { skin with extras := v })
  else if (← keyIs data tokens tkindex "extensions") then
    let (tkindex1, v) ← internal_parse_unprocessed_extensions data tokens tkindex
    return (tkindex1, { skin with extensions := v })
  else
    let tkindex1 ← json_parse_skip tokens (tkindex + 1)
    return (tkindex1, skin)

/-- The function `internal_parse_skin`. -/
def internal_parse_skin (data : List Nat) (tokens : List jsmntok_t) (tkindex : Nat)
    (skin : GLTF_Skin) : R (Nat × GLTF_Skin) := do
  objectAssert tokens tkindex
  let size ← objectSize tokens tkindex
  forLoop size (skinKey data tokens) (tkindex + 1) skin

/-- The function `internal_parse_skins`. -/
def internal_parse_skins (data : List Nat) (tokens : List jsmntok_t) (tkindex : Nat)
    (outData : GLTF2) : R (Nat × GLTF2) := do
  let (tkindex1, skinsCount) ← json_parse_array tokens tkindex
  let (tkindex2, skins) ← parseElems {} (internal_parse_skin data tokens) skinsCount tkindex1
  return (tkindex2, { outData with skins := skins })

/-- The body of the key loop of `internal_parse_scene`. -/
def sceneKey (data : List Nat) (tokens : List jsmntok_t) (tkindex : Nat)
    (scene : GLTF_Scene) : R (Nat × GLTF_Scene) := do
  keyAssert tokens tkindex
  if (← keyIs data tokens tkindex "name") then
    let (tkindex1, v) ← json_parse_string data tokens (tkindex + 1)
    return (tkindex1, { scene with name := v })
  else if (← keyIs data tokens tkindex "nodes") then
    let (tkindex1, nodesCount) ← json_parse_array tokens (tkindex + 1)
    let (tkindex2, nodes) ← parseRefs data tokens nodesCount tkindex1
    return (tkindex2, { scene with nodes := nodes })
  else if (← keyIs data tokens tkindex "extras") then
    let (tkindex1, v) ← internal_parse_extras data tokens (tkindex + 1)
    return (tkindex1, { scene with extras := v })
  else if (← keyIs data tokens tkindex "extensions") then
    let (tkindex1, v) ← internal_parse_unprocessed_extensions data tokens tkindex
    return (tkindex1, { scene with extensions := v })
  else
    let tkindex1 ← json_parse_skip tokens (tkindex + 1)
    return (tkindex1, scene)

/-- The function `internal_parse_scene`. -/
def internal_parse_scene (data : List Nat) (tokens : List jsmntok_t) (tkindex : Nat)
    (scene : GLTF_Scene) : R (Nat × GLTF_Scene) := do
  objectAssert tokens tkindex
  let size ← objectSize tokens tkindex
  forLoop size (sceneKey data tokens) (tkindex + 1) scene

/-- The function `internal_parse_scenes`. -/
def internal_parse_scenes (data : List Nat) (tokens : List jsmntok_t) (tkindex : Nat)
    (outData : GLTF2) : R (Nat × GLTF2) := do
  let (tkindex1, scenesCount) ← json_parse_array tokens tkindex
  let (tkindex2, scenes) ← parseElems {} (internal_parse_scene data tokens) scenesCount tkindex1
  return (tkindex2, { outData with scenes := scenes })

/-- The body of the key loop of `internal_parse_texture`. -/
def textureKey (data : List Nat) (tokens : List jsmntok_t) (tkindex : Nat)
    (texture : GLTF_Texture) : R (Nat × GLTF_Texture) := do
  keyAssert tokens tkindex
  if (← keyIs data tokens tkindex "name") then
    let (tkindex1, v) ← json_parse_string data tokens (tkindex + 1)
    return (tkindex1, { texture with name := v })
  else if (← keyIs data tokens tkindex "sampler") then
    let v ← json_to_int data tokens (tkindex + 1)
    return (tkindex + 2, { texture with sampler := PTR_TO_INDEX v })
  else if (← keyIs data tokens tkindex "source") then
    let v ← json_to_int data tokens (tkindex + 1)
    return (tkindex + 2, { texture with image := PTR_TO_INDEX v })
  else if (← keyIs data tokens tkindex "extras") then
    let (tkindex1, v) ← internal_parse_extras data tokens (tkindex + 1)
    return (tkindex1, { texture with extras := v })
  else if (← keyIs data tokens tkindex "extensions") then
    let (tkindex1, v) ← internal_parse_unprocessed_extensions data tokens tkindex
    return (tkindex1, { texture with extensions := v })
  else
    let tkindex1 ← json_parse_skip tokens (tkindex + 1)
    return (tkindex1, texture)

/-- The function `internal_parse_texture`. -/
def internal_parse_texture (data : List Nat) (tokens : List jsmntok_t) (tkindex : Nat)
    (texture : GLTF_Texture) : R (Nat × GLTF_Texture) := do
  objectAssert tokens tkindex
  let size ← objectSize tokens tkindex
  forLoop size (textureKey data tokens) (tkindex + 1) texture

/-- The function `internal_parse_textures`. -/
def internal_parse_textures (data : List Nat) (tokens : List jsmntok_t) (tkindex : Nat)
    (outData : GLTF2) : R (Nat × GLTF2) := do
  let (tkindex1, texturesCount) ← json_parse_array tokens tkindex
  let (tkindex2, textures) ← parseElems {} (internal_parse_texture data tokens) texturesCount tkindex1
  return (tkindex2, { outData with textures := textures })

/-- The body of the key loop of `internal_parse_jsonroot`. -/
def jsonrootKey (atofLt2 : List Nat → Bool) (data : List Nat) (tokens : List jsmntok_t)
    (tkindex : Nat) (outData : GLTF2) : R (Nat × GLTF2) := do
  keyAssert tokens tkindex
  if (← keyIs data tokens tkindex "accessors") then
    internal_parse_accessors data tokens (tkindex + 1) outData
  else if (← keyIs data tokens tkindex "animation") then
    internal_parse_animations data tokens (tkindex + 1) outData
  else if (← keyIs data tokens tkindex "asset") then
    let (tkindex1, v) ← internal_parse_asset atofLt2 data tokens (tkindex + 1) outData.asset
    return (tkindex1, { outData with asset := v })
  else if (← keyIs data tokens tkindex "bufferViews") then
    internal_parse_bufferviews data tokens (tkindex + 1) outData
  else if (← keyIs data tokens tkindex "buffers") then
    internal_parse_buffers data tokens (tkindex + 1) outData
  else if (← keyIs data tokens tkindex "cameras") then
    internal_parse_cameras data tokens (tkindex + 1) outData
  else if (← keyIs data tokens tkindex "images") then
    internal_parse_images data tokens (tkindex + 1) outData
  else if (← keyIs data tokens tkindex "materials") then
    internal_parse_materials data tokens (tkindex + 1) outData
  else if (← keyIs data tokens tkindex "meshes") then
    internal_parse_meshes data tokens (tkindex + 1) outData
  else if (← keyIs data tokens tkindex "nodes") then
    internal_parse_nodes data tokens (tkindex + 1) outData
  else if (← keyIs data tokens tkindex "samplers") then
    internal_parse_image_samplers data tokens (tkindex + 1) outData
  else if (← keyIs data tokens tkindex "scenes") then
    internal_parse_scenes data tokens (tkindex + 1) outData
  else if (← keyIs data tokens tkindex "scene") then
    let v ← json_to_int data tokens (tkindex + 1)
    return (tkindex + 2, { outData with scene := PTR_TO_INDEX v })
  else if (← keyIs data tokens tkindex "skins") then
    internal_parse_skins data tokens (tkindex + 1) outData
  else if (← keyIs data tokens tkindex "textures") then
    internal_parse_textures data tokens (tkindex + 1) outData
  else if (← keyIs data tokens tkindex "extensions") then
    let (tkindex1, v) ← internal_parse_unprocessed_extensions data tokens (tkindex + 1)
    return (tkindex1, { outData with extensions := v })
  else if (← keyIs data tokens tkindex "extensionsUsed") then
    let (tkindex1, v) ← json_parse_array_string data tokens (tkindex + 1)
    return (tkindex1, { outData with extensionsUsed := v })
  else if (← keyIs data tokens tkindex "extensionsRequired") then
    let (tkindex1, v) ← json_parse_array_string data tokens (tkindex + 1)
    return (tkindex1, { outData with extensionsRequired := v })
  else if (← keyIs data tokens tkindex "extras") then
    let (tkindex1, v) ← internal_parse_extras data tokens (tkindex + 1)
    return (tkindex1, { outData with extras := v })
  else
    let tkindex1 ← json_parse_skip tokens (tkindex + 1)
    return (tkindex1, outData)

/-- The function `internal_parse_jsonroot`. -/
def internal_parse_jsonroot (atofLt2 : List Nat → Bool) (data : List Nat)
    (tokens : List jsmntok_t) (tkindex : Nat) (outData : GLTF2) : R (Nat × GLTF2) := do
  objectAssert tokens tkindex
  let size ← objectSize tokens tkindex
  forLoop size (jsonrootKey atofLt2 data tokens) (tkindex + 1) outData

/-! ## gltfparser.c : the reference resolver -/

/-- The function `internal_get_components_number`. -/
def internal_get_components_number (type : GLTF_Type) : Nat :=
  match type with
  | Type_Vec2 => 2
  | Type_Vec3 => 3
  | Type_Vec4 => 4
  | Type_Mat2 => 4
  | Type_Mat3 => 9
  | Type_Mat4 => 16
  | Type_Scalar => 1

/-- The function `internal_component_size`. -/
def internal_component_size (componentType : GLTF_ComponentType) : Nat :=
  if componentType = ComponentType_R8 ∨ componentType = ComponentType_R8_UNSIGNED then 1
  else if componentType = ComponentType_R16 ∨ componentType = ComponentType_R16_UNSIGNED then 2
  else if componentType = ComponentType_R32_UNSIGNED ∨ componentType = ComponentType_R32_FLOAT then 4
  else 0

/-- The function `internal_calculate_attribute_size`. -/
def internal_calculate_attribute_size (type : GLTF_Type) (componentType : GLTF_ComponentType) : Nat :=
  let componentSize := internal_component_size componentType
  if type = Type_Mat2 ∧ componentSize = 1 then 8 * componentSize
  else if type = Type_Mat3 ∧ (componentSize = 1 ∨ componentSize = 2) then 12 * componentSize
  else componentSize * internal_get_components_number type

/-- Outcome of a piece of `internal_fix_pointers` that updates a record in place. -/
inductive Fix (α : Type) where
  /-- The piece ran to its end; `val` is the record after it. -/
  | done (val : α)
  /-- The piece executed `return code`; `val` is the record at that moment and
  `log` the diagnostic reported just before. -/
  | ret (code : Int) (val : α) (log : List String)
  /-- No defined result. -/
  | ub
  deriving DecidableEq, Repr

namespace Fix

/-- The same outcome seen on the enclosing record. -/
def map {α β : Type} (g : α → β) : Fix α → Fix β
  | done v => done (g v)
  | ret c v l => ret c (g v) l
  | ub => ub

/-- The next statement, run when the previous one did not return. -/
def andThen {α : Type} (x : Fix α) (f : α → Fix α) : Fix α :=
  match x with
  | done v => f v
  | ret c v l => ret c v l
  | ub => ub

end Fix

/-- A loop over the elements of an array, in order, that updates every element in
place and stops at the first `return`: the elements after it are untouched. -/
def fixAll {α : Type} (f : α → Fix α) : List α → Fix (List α)
  | [] => Fix.done []
  | x :: xs =>
    match f x with
    | Fix.done x1 => (fixAll f xs).map (fun ys => x1 :: ys)
    | Fix.ret c x1 l => Fix.ret c (x1 :: xs) l
    | Fix.ub => Fix.ub

/-- The macro `PTR_FIX(var, data, size)`: null check, bounds check and pointer
adjustment; the decoded `index` of a slot that holds `i + 1` is `i`. A slot that
already holds an address is outside its domain. -/
def PTR_FIX (var : Ptr) (size : Nat) : Fix Ptr :=
  match var with
  | Ptr.null => Fix.done Ptr.null
  | Ptr.index index =>
    if index ≥ size then Fix.ret 0 var [s!"Invalid pointer index {index} (max {size})"]
    else Fix.done (Ptr.elem index)
  | Ptr.elem _ => Fix.ub

/-- The macro `PTR_FIX_REQUIRED(var, data, size)`; for a null slot the decoded index
is `0 - 1` modulo `2^64`. -/
def PTR_FIX_REQUIRED (var : Ptr) (size : Nat) : Fix Ptr :=
  match var with
  | Ptr.null =>
    Fix.ret 0 var [s!"Required pointer invalid (index 18446744073709551615, max {size})"]
  | Ptr.index index =>
    if index ≥ size then Fix.ret 0 var [s!"Required pointer invalid (index {index}, max {size})"]
    else Fix.done (Ptr.elem index)
  | Ptr.elem _ => Fix.ub

/-- The resolver on one attribute of a primitive: `PTR_FIX` of its accessor. -/
def fixAttribute (data : GLTF2) (a : GLTF_Attribute) : Fix GLTF_Attribute :=
  (PTR_FIX a.data data.accessors.length).map (fun v => { a with data := v })

/-- The resolver on one attribute of a morph target: `PTR_FIX_REQUIRED` of its accessor. -/
def fixTargetAttribute (data : GLTF2) (a : GLTF_Attribute) : Fix GLTF_Attribute :=
  (PTR_FIX_REQUIRED a.data data.accessors.length).map (fun v => { a with data := v })

/-- The resolver on one morph target. -/
def fixTarget (data : GLTF2) (t : GLTF_MorphTarget) : Fix GLTF_MorphTarget :=
  (fixAll (fixTargetAttribute data) t.attributes).map (fun v => { t with attributes := v })

/-- The resolver on one primitive: indices, material, attributes, targets. -/
def fixPrimitive (data : GLTF2) (p : GLTF_Primitive) : Fix GLTF_Primitive :=
  ((((PTR_FIX p.indices data.accessors.length).map (fun v => { p with indices := v })).andThen
    (fun p => (PTR_FIX p.material data.materials.length).map (fun v => { p with material := v }))).andThen
    (fun p => (fixAll (fixAttribute data) p.attributes).map (fun v => { p with attributes := v }))).andThen
    (fun p => (fixAll (fixTarget data) p.targets).map (fun v => { p with targets := v }))

/-- The resolver on one mesh. -/
def fixMesh (data : GLTF2) (m : GLTF_Mesh) : Fix GLTF_Mesh :=
  (fixAll (fixPrimitive data) m.primitives).map (fun v => { m with primitives := v })

/-- The two required slots of a sparse accessor. -/
def fixSparse (data : GLTF2) (sp : GLTF_SparseAccessor) : Fix GLTF_SparseAccessor :=
  ((PTR_FIX_REQUIRED sp.indicesBufferView data.bufferViews.length).map
    (fun v => { sp with indicesBufferView := v })).andThen
    (fun sp => (PTR_FIX_REQUIRED sp.valuesBufferView data.bufferViews.length).map
      (fun v => { sp with valuesBufferView := v }))

/-- The statement `if (bufferView) stride = bufferView->stride;` of the accessor loop. -/
def accessorStrideFromView (data : GLTF2) (a : GLTF_Accessor) : Fix GLTF_Accessor :=
  match a.bufferView with
  | Ptr.null => Fix.done a
  | Ptr.elem i =>
    match data.bufferViews[i]? with
    | some bv => Fix.done { a with stride := bv.stride }
    | none => Fix.ub
  | Ptr.index _ => Fix.ub

/-- The statement `if (stride == 0) stride = internal_calculate_attribute_size(...)`. -/
def accessorDerivedStride (a : GLTF_Accessor) : GLTF_Accessor :=
  if a.stride = 0 then
    { a with stride := internal_calculate_attribute_size a.type a.componentType }
  else a

/-- The resolver on one accessor. -/
def fixAccessor (data : GLTF2) (a : GLTF_Accessor) : Fix GLTF_Accessor :=
  ((((PTR_FIX a.bufferView data.bufferViews.length).map (fun v => { a with bufferView := v })).andThen
    (fun a => if a.isSparse ≠ 0 then (fixSparse data a.sparse).map (fun v => { a with sparse := v })
      else Fix.done a)).andThen
    (accessorStrideFromView data)).andThen
    (fun a => Fix.done (accessorDerivedStride a))

/-- The resolver on one texture. -/
def fixTexture (data : GLTF2) (t : GLTF_Texture) : Fix GLTF_Texture :=
  ((PTR_FIX t.image data.images.length).map (fun v => { t with image := v })).andThen
    (fun t => (PTR_FIX t.sampler data.imageSamplers.length).map (fun v => { t with sampler := v }))

/-- The resolver on one image. -/
def fixImage (data : GLTF2) (im : GLTF_Image) : Fix GLTF_Image :=
  (PTR_FIX im.bufferView data.bufferViews.length).map (fun v => { im with bufferView := v })

/-- The resolver on the slot of one texture view. -/
def fixTextureView (data : GLTF2) (tv : GLTF_TextureView) : Fix GLTF_TextureView :=
  (PTR_FIX tv.texture data.textures.length).map (fun v => { tv with texture := v })

/-- The resolver on one material: the five texture views in the order of the code. -/
def fixMaterial (data : GLTF2) (m : GLTF_Material) : Fix GLTF_Material :=
  (((((fixTextureView data m.normalTexture).map (fun v => { m with normalTexture := v })).andThen
    (fun m => (fixTextureView data m.emissiveTexture).map (fun v => { m with emissiveTexture := v }))).andThen
    (fun m => (fixTextureView data m.occlusionTexture).map
      (fun v => { m with occlusionTexture := v }))).andThen
    (fun m => (fixTextureView data m.PBRmetallicRoughness.baseColorTexture).map
      (fun v => { m with PBRmetallicRoughness := { m.PBRmetallicRoughness with baseColorTexture := v } }))).andThen
    (fun m => (fixTextureView data m.PBRmetallicRoughness.metallicRoughnessTexture).map
      (fun v => { m with PBRmetallicRoughness :=
        { m.PBRmetallicRoughness with metallicRoughnessTexture := v } }))

/-- The resolver on one buffer view. -/
def fixBufferView (data : GLTF2) (bv : GLTF_BufferView) : Fix GLTF_BufferView :=
  (PTR_FIX_REQUIRED bv.buffer data.buffers.length).map (fun v => { bv with buffer := v })

/-- The resolver on one skin: joints, skeleton, inverse bind matrices. -/
def fixSkin (data : GLTF2) (sk : GLTF_Skin) : Fix GLTF_Skin :=
  (((fixAll (fun j => PTR_FIX_REQUIRED j data.nodes.length) sk.joints).map
      (fun v => { sk with joints := v })).andThen
    (fun sk => (PTR_FIX sk.skeleton data.nodes.length).map (fun v => { sk with skeleton := v }))).andThen
    (fun sk => (PTR_FIX sk.inverseBindMatrices data.accessors.length).map
      (fun v => { sk with inverseBindMatrices := v }))

/-- The inner loop of the node pass, for node `i`: `n` more children, the next one
at index `j`. Every child slot is resolved with `PTR_FIX_REQUIRED`; a child that
already has a parent makes the resolver return `-1`; otherwise its parent
becomes `&nodes[i]`. -/
def fixChildren (i : Nat) : Nat → Nat → List GLTF_Node → Fix (List GLTF_Node)
  | 0, _, nodes => Fix.done nodes
  | n + 1, j, nodes =>
    match nodes[i]? with
    | none => Fix.ub
    | some node =>
      match node.children[j]? with
      | none => Fix.ub
      | some var =>
        match PTR_FIX_REQUIRED var nodes.length with
        | Fix.ub => Fix.ub
        | Fix.ret c _ l => Fix.ret c nodes l
        | Fix.done (Ptr.elem c) =>
          let nodes1 := nodes.set i { node with children := node.children.set j (Ptr.elem c) }
          match nodes1[c]? with
          | none => Fix.ub
          | some child =>
            if child.parent ≠ Ptr.null then Fix.ret (-1) nodes1 []
            else fixChildren i n (j + 1) (nodes1.set c { child with parent := Ptr.elem i })
        | Fix.done _ => Fix.ub

/-- The three optional slots of node `i`: mesh, skin, camera. -/
def fixNodeSlots (data : GLTF2) (node : GLTF_Node) : Fix GLTF_Node :=
  (((PTR_FIX node.mesh data.meshes.length).map (fun v => { node with mesh := v })).andThen
    (fun node => (PTR_FIX node.skin data.skins.length).map (fun v => { node with skin := v }))).andThen
    (fun node => (PTR_FIX node.camera data.cameras.length).map (fun v => { node with camera := v }))

/-- The body of the node pass for node `i`. -/
def fixNode (data : GLTF2) (i : Nat) (nodes : List GLTF_Node) : Fix (List GLTF_Node) :=
  match nodes[i]? with
  | none => Fix.ub
  | some node =>
    (fixChildren i node.children.length 0 nodes).andThen (fun nodes1 =>
      match nodes1[i]? with
      | none => Fix.ub
      | some node1 => (fixNodeSlots data node1).map (fun v => nodes1.set i v))

/-- The node pass: `n` more nodes, the next one at index `i`. -/
def fixNodes (data : GLTF2) : Nat → Nat → List GLTF_Node → Fix (List GLTF_Node)
  | 0, _, nodes => Fix.done nodes
  | n + 1, i, nodes => (fixNode data i nodes).andThen (fixNodes data n (i + 1))

/-- The resolver on one root of a scene: the slot is required, and the node it
refers to must have no parent (otherwise `return -1`). -/
def fixRoot (nodes : List GLTF_Node) (var : Ptr) : Fix Ptr :=
  match PTR_FIX_REQUIRED var nodes.length with
  | Fix.ub => Fix.ub
  | Fix.ret c v l => Fix.ret c v l
  | Fix.done (Ptr.elem c) =>
    match nodes[c]? with
    | none => Fix.ub
    | some node => if node.parent ≠ Ptr.null then Fix.ret (-1) (Ptr.elem c) [] else Fix.done (Ptr.elem c)
  | Fix.done _ => Fix.ub

/-- The resolver on one scene. -/
def fixScene (nodes : List GLTF_Node) (sc : GLTF_Scene) : Fix GLTF_Scene :=
  (fixAll (fixRoot nodes) sc.nodes).map (fun v => { sc with nodes := v })

/-- The resolver on one animation sampler. -/
def fixAnimationSampler (data : GLTF2) (sm : GLTF_AnimationSampler) : Fix GLTF_AnimationSampler :=
  ((PTR_FIX_REQUIRED sm.input data.accessors.length).map (fun v => { sm with input := v })).andThen
    (fun sm => (PTR_FIX_REQUIRED sm.output data.accessors.length).map (fun v => { sm with output := v }))

/-- The resolver on one channel of an animation with `samplersCount` samplers. -/
def fixAnimationChannel (data : GLTF2) (samplersCount : Nat) (ch : GLTF_AnimationChannel) :
    Fix GLTF_AnimationChannel :=
  ((PTR_FIX_REQUIRED ch.sampler samplersCount).map (fun v => { ch with sampler := v })).andThen
    (fun ch => (PTR_FIX ch.targetNode data.nodes.length).map (fun v => { ch with targetNode := v }))

/-- The resolver on one animation. -/
def fixAnimation (data : GLTF2) (an : GLTF_Animation) : Fix GLTF_Animation :=
  ((fixAll (fixAnimationSampler data) an.samplers).map (fun v => { an with samplers := v })).andThen
    (fun an => (fixAll (fixAnimationChannel data an.samplers.length) an.channels).map
      (fun v => { an with channels := v }))

/-- The passes of `internal_fix_pointers`, in the order of the code, up to its last
statement. The counts of the collections do not change during the passes. -/
def fixPasses (data : GLTF2) : Fix GLTF2 :=
  ((((((((((((fixAll (fixMesh data) data.meshes).map (fun v => { data with meshes := v })).andThen
    (fun d => (fixAll (fixAccessor data) d.accessors).map (fun v => { d with accessors := v }))).andThen
    (fun d => (fixAll (fixTexture data) d.textures).map (fun v => { d with textures := v }))).andThen
    (fun d => (fixAll (fixImage data) d.images).map (fun v => { d with images := v }))).andThen
    (fun d => (fixAll (fixMaterial data) d.materials).map (fun v => { d with materials := v }))).andThen
    (fun d => (fixAll (fixBufferView data) d.bufferViews).map (fun v => { d with bufferViews := v }))).andThen
    (fun d => (fixAll (fixSkin data) d.skins).map (fun v => { d with skins := v }))).andThen
    (fun d => (fixNodes data d.nodes.length 0 d.nodes).map (fun v => { d with nodes := v }))).andThen
    (fun d => (fixAll (fixScene d.nodes) d.scenes).map (fun v => { d with scenes := v }))).andThen
    (fun d => (PTR_FIX d.scene d.scenes.length).map (fun v => { d with scene := v }))).andThen
    (fun d => (fixAll (fixAnimation data) d.animations).map (fun v => { d with animations := v })))

/-- The function `internal_fix_pointers`: the value it returns, the record it leaves
behind and the diagnostic it logged; `none` when the run has no defined
result. -/
def internal_fix_pointers (data : GLTF2) : Option (Int × GLTF2 × List String) :=
  match fixPasses data with
  | Fix.done d => some (1, d, [])
  | Fix.ret c d l => some (c, d, l)
  | Fix.ub => none

/-! ## gltfparser.c : the entry points -/

/-- A call `gltfmemory_deallocate(e)` made by the loop of `GLTF_Free` over the animations,
named by its argument `e`: `channelExtensionName i j k` is the call on
`data->animations[i].channels[j].extensions[k].name`. -/
inductive FreeCall where
  | animationName (i : Nat)
  | samplerExtras (i j : Nat)
  | samplerExtensionName (i j k : Nat)
  | samplerExtensionData (i j k : Nat)
  | samplers (i : Nat)
  | channelExtras (i j : Nat)
  | channelExtensionName (i j k : Nat)
  | channelExtensionData (i j k : Nat)
  | channels (i : Nat)
  | animationExtras (i : Nat)
  | animationExtensionName (i j : Nat)
  | animationExtensionData (i j : Nat)
  | animations
  deriving DecidableEq, Repr

/-- Outcome of a loop of `GLTF_Free`. -/
inductive FreeRun (α : Type) where
  /-- The loop ran to its end. -/
  | done (val : α)
  /-- The loop read an element outside its array, after the calls `calls`: the run
  has no defined result. -/
  | outside (calls : List FreeCall)
  /-- The bound on the number of iterations was reached. -/
  | bound
  deriving DecidableEq, Repr

/-- The two calls on the extensions `extensions[k].name` and `extensions[k].data` for every
`k` below the count, as the loops over the extensions of a sampler and of an
animation make them. -/
def freeExtensions (name data : Nat → FreeCall) (extensions : List GLTF_Extension) :
    List FreeCall :=
  (List.range extensions.length).flatMap (fun k => [name k, data k])

/-- The loop of `GLTF_Free` over the samplers of the animation `i`. -/
def freeSamplers (i : Nat) (samplers : List GLTF_AnimationSampler) : List FreeCall :=
  samplers.enum.flatMap (fun js =>
    FreeCall.samplerExtras i js.1 ::
      freeExtensions (FreeCall.samplerExtensionName i js.1) (FreeCall.samplerExtensionData i js.1)
        js.2.extensions)

/-- The innermost loop over the channels in `GLTF_Free`,
`for (k = 0; k < channels[j].extensionsCount; j++)`: the statement after an
iteration is `j++`, so `k` stays 0 and the test reads the next channel. The result
is the value of `j` at the exit. The first argument bounds the number of
iterations; `channelsCount + 1 - j` suffice, since a test on `channels[j]` with `j`
at or above `channelsCount` reads outside the array. -/
def freeChannelExtensions (i : Nat) (channels : List GLTF_AnimationChannel) :
    Nat → Nat → List FreeCall → FreeRun (Nat × List FreeCall)
  | 0, _, _ => FreeRun.bound
  | fuel + 1, j, calls =>
    match channels[j]? with
    | none => FreeRun.outside calls
    | some ch =>
      if 0 < ch.extensions.length then
        freeChannelExtensions i channels fuel (j + 1)
          (calls ++ [FreeCall.channelExtensionName i j 0, FreeCall.channelExtensionData i j 0])
      else FreeRun.done (j, calls)

/-- The inner loop `for (j = 0; j < channelsCount; j++)` over the channels in `GLTF_Free`;
its `j` is the variable that the innermost loop increments. The first argument
bounds the number of iterations; `channelsCount + 1` suffice. -/
def freeChannelsPass (i : Nat) (channels : List GLTF_AnimationChannel) :
    Nat → Nat → List FreeCall → FreeRun (List FreeCall)
  | 0, _, _ => FreeRun.bound
  | fuel + 1, j, calls =>
    if j < channels.length then
      match freeChannelExtensions i channels (channels.length + 1 - j) j
          (calls ++ [FreeCall.channelExtras i j]) with
      | FreeRun.done (j1, calls1) => freeChannelsPass i channels fuel (j1 + 1) calls1
      | FreeRun.outside calls1 => FreeRun.outside calls1
      | FreeRun.bound => FreeRun.bound
    else FreeRun.done calls

/-- The outer loop `for (j = 0; j < channelsCount; j++)` over the channels in `GLTF_Free`,
whose body is the inner loop with a variable `j` of its own: `n` more
iterations. -/
def freeChannels (i : Nat) (channels : List GLTF_AnimationChannel) :
    Nat → List FreeCall → FreeRun (List FreeCall)
  | 0, calls => FreeRun.done calls
  | n + 1, calls =>
    match freeChannelsPass i channels (channels.length + 1) 0 calls with
    | FreeRun.done calls1 => freeChannels i channels n calls1
    | FreeRun.outside calls1 => FreeRun.outside calls1
    | FreeRun.bound => FreeRun.bound

/-- The body of the loop of `GLTF_Free` over the animations, for the animation `i`. -/
def freeAnimation (i : Nat) (a : GLTF_Animation) (calls : List FreeCall) :
    FreeRun (List FreeCall) :=
  let calls1 := calls ++ [FreeCall.animationName i] ++ freeSamplers i a.samplers ++
    [FreeCall.samplers i]
  match freeChannels i a.channels a.channels.length calls1 with
  | FreeRun.done calls2 =>
    FreeRun.done (calls2 ++ [FreeCall.channels i, FreeCall.animationExtras i] ++
      freeExtensions (FreeCall.animationExtensionName i) (FreeCall.animationExtensionData i)
        a.extensions)
  | FreeRun.outside calls2 => FreeRun.outside calls2
  | FreeRun.bound => FreeRun.bound

/-- The loop of `GLTF_Free` over the animations from the animation `i` on. -/
def freeAnimationsFrom : Nat → List GLTF_Animation → List FreeCall → FreeRun (List FreeCall)
  | _, [], calls => FreeRun.done calls
  | i, a :: rest, calls =>
    match freeAnimation i a calls with
    | FreeRun.done calls1 => freeAnimationsFrom (i + 1) rest calls1
    | FreeRun.outside calls1 => FreeRun.outside calls1
    | FreeRun.bound => FreeRun.bound

/-- The part of `GLTF_Free` on the animations: the calls of `gltfmemory_deallocate` it makes,
in order, up to `gltfmemory_deallocate(data->animations)`. -/
def GLTF_Free_animations (data : GLTF2) : FreeRun (List FreeCall) :=
  match freeAnimationsFrom 0 data.animations [] with
  | FreeRun.done calls => FreeRun.done (calls ++ [FreeCall.animations])
  | FreeRun.outside calls => FreeRun.outside calls
  | FreeRun.bound => FreeRun.bound

/-- Where the record lives that a `GLTF2*` points to. -/
inductive Storage where
  /-- Storage that an allocation function returned. -/
  | allocated
  /-- An automatic variable, such as `parsedData` in `GLTF_ParseFromFile`. -/
  | automatic
  deriving DecidableEq, Repr

/-- The function `GLTF_Free(data)` for a non-null `data`: `some ()` when the call runs to its
end, `none` when one of its statements has no defined behaviour. Every statement
is a call of `gltfmemory_deallocate`, that is of the C library's `free`, whose
behaviour is defined for a null pointer and for an address that an allocation
function returned. The calls kept here are the ones on another kind of address:
`&data->accessors[i].extras`, `&data->bufferViews[i].extras` and `&data->buffers[i].extras`
for every element of these arrays and `&data->cameras[i].data.perspective.extras` or
`&data->cameras[i].data.orthographic.extras` for every camera of that type, which
are addresses inside an array element; the elements read outside an array by
the loops over the animations (`GLTF_Free_animations`); and the last statement,
`gltfmemory_deallocate(data)`, on the record itself, which is defined only for a
record in allocated storage. The calls on the strings and arrays of the record
are taken as defined: the heap is not part of this development. The function
writes no field of the record. -/
def GLTF_Free (storage : Storage) (data : GLTF2) : Option Unit :=
  if data.accessors ≠ [] ∨ data.bufferViews ≠ [] ∨ data.buffers ≠ [] ∨
      data.cameras.any (fun c =>
        c.type == CameraType_Perspective || c.type == CameraType_Orthographic) = true then none
  else
    match GLTF_Free_animations data with
    | FreeRun.done _ =>
      match storage with
      | Storage.allocated => some ()
      | Storage.automatic => none
    | FreeRun.outside _ => none
    | FreeRun.bound => none

/-- The function `internal_parse_json(data, size, outData)`: `R.ok d log` when it returns
`1`, with `d` the record `*outData` after the call, `R.err (-1) log` when it
returns `-1`, and `R.ub` when the call has no defined result. `data` is the
memory from the pointer to the end of the file buffer and `offset` the position
of that pointer in the buffer. `outData` is the address of the automatic
variable `parsedData` of `GLTF_ParseFromFile`, the only caller, so the two calls
`GLTF_Free(outData)` are calls on a record in automatic storage. The fields that
the walker wrote before it failed are not represented: `GLTF_Free` is handed
the record as it was before the walk. -/
def internal_parse_json (atofLt2 : List Nat → Bool) (offset : Nat) (data : List Nat) (size : Nat)
    (outData : GLTF2) : R GLTF2 :=
  let parser : JsmnParser := { pos := 0, toknext := 0, toksuper := 0 }
  let counted : R GLTF2 :=
    if outData.fileInfo.jsonTkCount = 0 then
      match jsmn_parse parser data size none 0 with
      | none => R.ub
      | some out =>
        if out.r ≤ 0 then R.err (-1) []
        else R.ok { outData with fileInfo := { outData.fileInfo with jsonTkCount := out.r.toNat } } []
    else R.ok outData []
  match counted with
  | R.ub => R.ub
  | R.err c l => R.err c l
  | R.ok outData1 _ =>
    match jsmn_parse jsmn_init data size (some []) outData1.fileInfo.jsonTkCount with
    | none => R.ub
    | some out =>
      if out.r ≤ 0 then R.err (-1) []
      else
        match out.tokens with
        | none => R.ub
        | some tokens =>
          if out.r ≠ (tokens.length : Int) then R.ub
          else
            match internal_parse_jsonroot atofLt2 data tokens 0 outData1 with
            | R.ub => R.ub
            | R.err _ l =>
              match GLTF_Free Storage.automatic outData1 with
              | none => R.ub
              | some _ => R.err (-1) l
            | R.ok (_, outData2) l =>
              match internal_fix_pointers outData2 with
              | none => R.ub
              | some (r, outData3, l3) =>
                if r < 0 then
                  match GLTF_Free Storage.automatic outData3 with
                  | none => R.ub
                  | some _ => R.err (-1) (l ++ l3)
                else
                  R.ok { outData3 with
                    fileInfo := { outData3.fileInfo with json := some offset, jsonSize := size } }
                    (l ++ l3)

/-- The little-endian `unsigned int` that `memcpy` reads from the four bytes at
offset `off`. -/
def readU32 (bytes : List Nat) (off : Nat) : Nat :=
  bytes.getD off 0 + 256 * bytes.getD (off + 1) 0 + 65536 * bytes.getD (off + 2) 0
    + 16777216 * bytes.getD (off + 3) 0

/-- The text of a byte string in a diagnostic (`%s`). -/
def showBytes (b : List Nat) : String := String.mk (b.map Char.ofNat)

/-- The upper-case hexadecimal text of a number (`%X`). -/
def showHex (n : Nat) : String := String.mk ((Nat.toDigits 16 n).map Char.toUpper)

/-- The constant `GLB_HEADER_SIZE`. -/
def GLB_HEADER_SIZE : Nat := 12
/-- The constant `GLB_CHUNK_HEADER_SIZE`. -/
def GLB_CHUNK_HEADER_SIZE : Nat := 8
/-- The constant `JSON_CHUNK_TYPE`. -/
def JSON_CHUNK_TYPE : Nat := 0x4E4F534A
/-- The constant `BIN_CHUNK_TYPE`. -/
def BIN_CHUNK_TYPE : Nat := 0x004E4942

/-- Addition of two `unsigned int` values. -/
def addU32 (a b : Nat) : Nat := (a + b) % 4294967296

/-- The part of `GLTF_ParseFromFile` that follows a successful parse of the JSON
chunk of a GLB file: the optional BIN chunk. `offset` is the `unsigned int`
offset after the JSON chunk. The result is `none` when the run has no defined
result: the failure paths call `GLTF_Free(&parsedData)` on the automatic
variable, and when the sum `offset + binLength` wraps around `2^32` and passes
the test, `memcpy` reads `binLength` bytes from a buffer that holds fewer. -/
def parseBinChunk (ptr : List Nat) (size : Nat) (offset : Nat) (parsedData : GLTF2) :
    Option (GLTF2 × List String) :=
  if offset < size then
    if addU32 offset GLB_CHUNK_HEADER_SIZE > size then
      (GLTF_Free Storage.automatic parsedData).map
        (fun _ => (parsedData, ["Invalid BIN chunk header (out of bounds)"]))
    else
      let binLength := readU32 ptr offset
      let offset1 := addU32 offset 4
      let binType := readU32 ptr offset1
      let offset2 := addU32 offset1 4
      if binType = BIN_CHUNK_TYPE then
        if addU32 offset2 binLength > size then
          (GLTF_Free Storage.automatic parsedData).map
            (fun _ => (parsedData,
              [s!"BIN chunk size overflow ({binLength} > {(size + 18446744073709551616 - offset2) % 18446744073709551616})"]))
        else if offset2 + binLength > size then none
        else
          some ({ parsedData with
              fileInfo := { parsedData.fileInfo with
                bin := some ((ptr.drop offset2).take binLength), binSize := binLength } }, [])
      else some (parsedData, [])
  else some (parsedData, [])

/-- The function `GLTF_ParseFromFile(path)`: the returned record and the diagnostics
logged during the call (the buffer is cleared on entry). `path` is the argument
(`none` for a null pointer) and `file` the outcome of `platform_fileread` on it:
the content of the file, or `none` when it cannot be read. The result is `none`
when the run has no defined result, which is the case on the paths that call
`GLTF_Free(&parsedData)`: `parsedData` is an automatic variable. On the two
failure paths of the JSON stage the record is handed to `GLTF_Free` as it was
before the stage. -/
def GLTF_ParseFromFile (atofLt2 : List Nat → Bool) (path : CString) (file : Option (List Nat)) :
    Option (GLTF2 × List String) :=
  let parsedData : GLTF2 := {}
  match path with
  | none => some (parsedData, ["Invalid GLTF path (NULL or empty)"])
  | some [] => some (parsedData, ["Invalid GLTF path (NULL or empty)"])
  | some (c :: cs) =>
    let parsedData : GLTF2 := { parsedData with fileInfo := { parsedData.fileInfo with path := path } }
    match file with
    | none => some (parsedData, ["Failed to read file: " ++ showBytes (c :: cs)])
    | some ptr =>
      let size := ptr.length
      if size < 4 then some (parsedData, ["File too small to be valid GLTF/GLB"])
      else
        let isGlb := strncmp_impl ptr (cstr "glTF") 4 == some 0
        if isGlb then
          let parsedData : GLTF2 := { parsedData with fileInfo := { parsedData.fileInfo with type := 0 } }
          if size < GLB_HEADER_SIZE then some (parsedData, ["GLB file too small (header incomplete)"])
          else
            let version := readU32 ptr 4
            if version ≠ 2 then
              some (parsedData, [s!"Unsupported GLB version: {version} (expected 2)"])
            else
              let totalLength := readU32 ptr 8
              if totalLength ≠ size then
                some (parsedData, [s!"GLB size mismatch (header: {totalLength}, actual: {size})"])
              else
                let offset := GLB_HEADER_SIZE
                if addU32 offset GLB_CHUNK_HEADER_SIZE > size then
                  some (parsedData, ["Invalid GLB chunk header (out of bounds)"])
                else
                  let jsonLength := readU32 ptr offset
                  let offset := addU32 offset 4
                  let jsonType := readU32 ptr offset
                  let offset := addU32 offset 4
                  if jsonType ≠ JSON_CHUNK_TYPE then
                    some (parsedData, ["Missing JSON chunk (found type: 0x" ++ showHex jsonType ++ ")"])
                  else if addU32 offset jsonLength > size then
                    some (parsedData,
                      [s!"JSON chunk size overflow ({jsonLength} > {size - offset})"])
                  else
                    match internal_parse_json atofLt2 offset (ptr.drop offset) jsonLength parsedData with
                    | R.ub => none
                    | R.err c l =>
                      (GLTF_Free Storage.automatic parsedData).map
                        (fun _ => ({}, l ++ [s!"JSON parsing failed with error: {c}"]))
                    | R.ok parsedData1 l =>
                      (parseBinChunk ptr size (addU32 offset jsonLength) parsedData1).map
                        (fun r => (r.1, l ++ r.2))
        else
          let parsedData : GLTF2 := { parsedData with fileInfo := { parsedData.fileInfo with type := 1 } }
          match internal_parse_json atofLt2 0 ptr size parsedData with
          | R.ub => none
          | R.err c l =>
            (GLTF_Free Storage.automatic parsedData).map
              (fun _ => ({}, l ++ [s!"GLTF JSON parsing failed with error: {c}"]))
          | R.ok parsedData1 l => some (parsedData1, l)

/-- The byte `c` with an upper-case letter replaced by its lower-case letter. -/
def lowerByte (c : Nat) : Nat := if 65 ≤ c ∧ c ≤ 90 then c + 32 else c

/-- A decimal digit. -/
def isDigitByte (c : Nat) : Bool := 48 ≤ c && c ≤ 57

/-- The value of the longest run of hexadecimal digits at the start of `s`, added
to `acc` times the matching power of 16. -/
def hexValue : List Nat → Nat → Nat
  | [], acc => acc
  | c :: rest, acc =>
    if 48 ≤ c ∧ c ≤ 57 then hexValue rest (acc * 16 + (c - 48))
    else if 97 ≤ c ∧ c ≤ 102 then hexValue rest (acc * 16 + (c - 87))
    else if 65 ≤ c ∧ c ≤ 70 then hexValue rest (acc * 16 + (c - 55))
    else acc

/-- The exponent part that `strtod` reads at the start of `s`: the letter `mark`
(`e` or `p`, in either case), an optional sign and a run of decimal digits that
is not empty. The result is 0 when there is no such part. -/
def exponentPart (mark : Nat) (s : List Nat) : Int :=
  match s with
  | [] => 0
  | c :: rest =>
    if lowerByte c = mark then
      let ds := if rest.headD 0 = 45 ∨ rest.headD 0 = 43 then rest.tail else rest
      if isDigitByte (ds.headD 0) then
        if rest.headD 0 = 45 then - (digitsValue ds 0 : Int) else (digitsValue ds 0 : Int)
      else 0
    else 0

/-- The comparison `m * b^x < 2 - 2^-53`. The bound is the midpoint between 2 and the
`double` before it: a number rounds to a `double` below 2 exactly when it is below
that midpoint, which itself rounds to 2. -/
def scaledLt2 (m b : Nat) (x : Int) : Bool :=
  if 0 ≤ x then decide (m * b ^ x.toNat * 9007199254740992 < 18014398509481983)
  else decide (m * 9007199254740992 < 18014398509481983 * b ^ (-x).toNat)

/-- The comparison `atof(s) < 2` of the C library, where `atof(s)` is `strtod(s, NULL)`
in the "C" locale with a conversion that is correctly rounded to the nearest
`double`, ties to even. `strtod` skips white space, reads an optional sign and
then the longest of: `nan`, which compares false with every number; `inf`; a
hexadecimal constant `0x` with hexadecimal digits, an optional point and an
optional binary exponent `p`; a decimal constant with digits, an optional point
and an optional exponent `e`. Letters are read in either case. When there is
no such constant the value is 0. A negative value and 0 are below 2. -/
def decimalLt2 (s : List Nat) : Bool :=
  let t := s.dropWhile isspace
  let neg := t.headD 0 == 45
  let t := if t.headD 0 = 45 ∨ t.headD 0 = 43 then t.tail else t
  let low := t.map lowerByte
  if cstr "nan" <+: low then false
  else if cstr "inf" <+: low then neg
  else if neg then true
  else if cstr "0x" <+: low ∧
      (isHex (low.getD 2 0) = true ∨ (low.getD 2 0 = 46 ∧ isHex (low.getD 3 0) = true)) then
    let h := low.drop 2
    let r := h.dropWhile isHex
    let fp := if r.headD 0 = 46 then r.tail.takeWhile isHex else []
    let rest := if r.headD 0 = 46 then r.tail.dropWhile isHex else r
    scaledLt2 (hexValue (h.takeWhile isHex ++ fp) 0) 2 (exponentPart 112 rest - 4 * fp.length)
  else
    let r := t.dropWhile isDigitByte
    let fp := if r.headD 0 = 46 then r.tail.takeWhile isDigitByte else []
    let rest := if r.headD 0 = 46 then r.tail.dropWhile isDigitByte else r
    scaledLt2 (digitsValue (t.takeWhile isDigitByte ++ fp) 0) 10
      (exponentPart 101 rest - fp.length)

/-! ## Vocabulary of the statements -/

/-- The return codes a piece of the resolver can produce are `0` and `-1`. -/
def Fix.Codes {α : Type} (x : Fix α) : Prop :=
  ∀ c v l, x = Fix.ret c v l → c = 0 ∨ c = -1

/-- A slot before and after a successful run of the resolver, for a target
collection of `n` elements: an unset slot stays unset, and a slot holding
`i + 1` refers to element `i`, which exists. -/
def SlotResolved (n : Nat) (before after : Ptr) : Prop :=
  (before = Ptr.null ∧ after = Ptr.null) ∨
    ∃ i, i < n ∧ before = Ptr.index i ∧ after = Ptr.elem i

/-- A required slot before and after a successful run of the resolver: it held
`i + 1` and refers to element `i`, which exists. -/
def SlotRequired (n : Nat) (before after : Ptr) : Prop :=
  ∃ i, i < n ∧ before = Ptr.index i ∧ after = Ptr.elem i

/-- The attributes of a primitive, slot by slot. -/
def AttributesResolved (d : GLTF2) (as bs : List GLTF_Attribute) : Prop :=
  List.Forall₂ (fun a b => SlotResolved d.accessors.length a.data b.data) as bs

/-- The attributes of a morph target, slot by slot. -/
def TargetAttributesResolved (d : GLTF2) (as bs : List GLTF_Attribute) : Prop :=
  List.Forall₂ (fun a b => SlotRequired d.accessors.length a.data b.data) as bs

/-- The slots of a primitive. -/
def PrimitiveResolved (d : GLTF2) (p q : GLTF_Primitive) : Prop :=
  SlotResolved d.accessors.length p.indices q.indices ∧
  SlotResolved d.materials.length p.material q.material ∧
  AttributesResolved d p.attributes q.attributes ∧
  List.Forall₂ (fun t u => TargetAttributesResolved d t.attributes u.attributes) p.targets q.targets

/-- The slots of a mesh. -/
def MeshResolved (d : GLTF2) (m n : GLTF_Mesh) : Prop :=
  List.Forall₂ (PrimitiveResolved d) m.primitives n.primitives

/-- The slots of an accessor; the two slots of the sparse substructure are
required when `isSparse` is set and are not visited otherwise. -/
def AccessorResolved (d : GLTF2) (a b : GLTF_Accessor) : Prop :=
  SlotResolved d.bufferViews.length a.bufferView b.bufferView ∧
  (a.isSparse ≠ 0 →
    SlotRequired d.bufferViews.length a.sparse.indicesBufferView b.sparse.indicesBufferView ∧
    SlotRequired d.bufferViews.length a.sparse.valuesBufferView b.sparse.valuesBufferView) ∧
  (a.isSparse = 0 → b.sparse = a.sparse)

/-- The slots of a texture. -/
def TextureResolved (d : GLTF2) (t u : GLTF_Texture) : Prop :=
  SlotResolved d.images.length t.image u.image ∧
  SlotResolved d.imageSamplers.length t.sampler u.sampler

/-- The slots of a material. -/
def MaterialResolved (d : GLTF2) (m n : GLTF_Material) : Prop :=
  SlotResolved d.textures.length m.normalTexture.texture n.normalTexture.texture ∧
  SlotResolved d.textures.length m.emissiveTexture.texture n.emissiveTexture.texture ∧
  SlotResolved d.textures.length m.occlusionTexture.texture n.occlusionTexture.texture ∧
  SlotResolved d.textures.length m.PBRmetallicRoughness.baseColorTexture.texture
    n.PBRmetallicRoughness.baseColorTexture.texture ∧
  SlotResolved d.textures.length m.PBRmetallicRoughness.metallicRoughnessTexture.texture
    n.PBRmetallicRoughness.metallicRoughnessTexture.texture

/-- The slots of a skin. -/
def SkinResolved (d : GLTF2) (s t : GLTF_Skin) : Prop :=
  List.Forall₂ (SlotRequired d.nodes.length) s.joints t.joints ∧
  SlotResolved d.nodes.length s.skeleton t.skeleton ∧
  SlotResolved d.accessors.length s.inverseBindMatrices t.inverseBindMatrices

/-- The slots of a node other than the parent back-reference. -/
def NodeResolved (d : GLTF2) (n m : GLTF_Node) : Prop :=
  List.Forall₂ (SlotRequired d.nodes.length) n.children m.children ∧
  SlotResolved d.meshes.length n.mesh m.mesh ∧
  SlotResolved d.skins.length n.skin m.skin ∧
  SlotResolved d.cameras.length n.camera m.camera

/-- The slots of an animation: a channel refers to a sampler of its own
animation. -/
def AnimationResolved (d : GLTF2) (a b : GLTF_Animation) : Prop :=
  List.Forall₂ (fun s t => SlotRequired d.accessors.length s.input t.input ∧
    SlotRequired d.accessors.length s.output t.output) a.samplers b.samplers ∧
  List.Forall₂ (fun c e => SlotRequired a.samplers.length c.sampler e.sampler ∧
    SlotResolved d.nodes.length c.targetNode e.targetNode) a.channels b.channels

/-- Every reference slot of the asset `d`, before and after the resolver. -/
def AssetResolved (d e : GLTF2) : Prop :=
  List.Forall₂ (MeshResolved d) d.meshes e.meshes ∧
  List.Forall₂ (AccessorResolved d) d.accessors e.accessors ∧
  List.Forall₂ (TextureResolved d) d.textures e.textures ∧
  List.Forall₂ (fun i j => SlotResolved d.bufferViews.length i.bufferView j.bufferView)
    d.images e.images ∧
  List.Forall₂ (MaterialResolved d) d.materials e.materials ∧
  List.Forall₂ (fun v w => SlotRequired d.buffers.length v.buffer w.buffer)
    d.bufferViews e.bufferViews ∧
  List.Forall₂ (SkinResolved d) d.skins e.skins ∧
  List.Forall₂ (NodeResolved d) d.nodes e.nodes ∧
  List.Forall₂ (fun s t => List.Forall₂ (SlotRequired d.nodes.length) s.nodes t.nodes)
    d.scenes e.scenes ∧
  SlotResolved d.scenes.length d.scene e.scene ∧
  List.Forall₂ (AnimationResolved d) d.animations e.animations

/-- The child slot `m` of node `k`. -/
def childAt (ns : List GLTF_Node) (k m : Nat) : Option Ptr :=
  (ns[k]?).bind (fun nd => nd.children[m]?)

/-- The parent back-reference of node `c`. -/
def parentAt (ns : List GLTF_Node) (c : Nat) : Option Ptr :=
  (ns[c]?).map (fun nd => nd.parent)

/-- The child slots the node pass has visited when it stands at child `j` of
node `i`. -/
def Visited (i j k m : Nat) : Prop := k < i ∨ (k = i ∧ m < j)

/-- The number of child slots of node `k`. -/
def chLen (ns : List GLTF_Node) (k : Nat) : Option Nat :=
  (ns[k]?).map (fun nd => nd.children.length)

/-- The invariant of the node pass on parents, relative to the nodes `ns0` the
pass started from, when the pass stands at child `j` of node `i`: every visited
child slot refers to a node whose parent is its owner, every parent is the
initial one or comes from a visited slot, and no node is referred to by two
visited slots. -/
def ParentInv (ns0 : List GLTF_Node) (i j : Nat) (ns : List GLTF_Node) : Prop :=
  (∀ k m c, Visited i j k m → childAt ns k m = some (Ptr.elem c) →
    parentAt ns c = some (Ptr.elem k)) ∧
  (∀ c p, parentAt ns c = some p → parentAt ns0 c = some p ∨
    ∃ k m, Visited i j k m ∧ childAt ns k m = some (Ptr.elem c) ∧ p = Ptr.elem k) ∧
  (∀ k m k1 m1 c, Visited i j k m → Visited i j k1 m1 → childAt ns k m = some (Ptr.elem c) →
    childAt ns k1 m1 = some (Ptr.elem c) → k = k1 ∧ m = m1)

/-- The three optional slots of node `k`. -/
def slotsAt (ns : List GLTF_Node) (k : Nat) : Option (Ptr × Ptr × Ptr) :=
  (ns[k]?).map (fun nd => (nd.mesh, nd.skin, nd.camera))

/-- The invariant of the node pass on the slots, relative to the nodes `ns0` the
pass started from, when the pass stands at child `j` of node `i`: visited
child slots are resolved, the others are as they were; the optional slots of
the nodes before `i` are resolved, the others are as they were. -/
def SlotInv (d : GLTF2) (ns0 : List GLTF_Node) (i j : Nat) (ns : List GLTF_Node) : Prop :=
  ns.length = ns0.length ∧
  (∀ k, chLen ns k = chLen ns0 k) ∧
  (∀ k m, Visited i j k m → ∀ v0, childAt ns0 k m = some v0 →
    ∃ c, c < ns0.length ∧ v0 = Ptr.index c ∧ childAt ns k m = some (Ptr.elem c)) ∧
  (∀ k m, ¬ Visited i j k m → childAt ns k m = childAt ns0 k m) ∧
  (∀ k nd0, k < i → ns0[k]? = some nd0 → ∃ s, slotsAt ns k = some s ∧
    SlotResolved d.meshes.length nd0.mesh s.1 ∧ SlotResolved d.skins.length nd0.skin s.2.1 ∧
    SlotResolved d.cameras.length nd0.camera s.2.2) ∧
  (∀ k, i ≤ k → slotsAt ns k = slotsAt ns0 k)

/-- A property of the record held by a resolver outcome, whether the piece ran
to its end or returned early. -/
def Fix.Holds {α : Type} (P : α → Prop) : Fix α → Prop
  | Fix.done v => P v
  | Fix.ret _ v _ => P v
  | Fix.ub => True

/-! ### Sample inputs -/

/-- The path handed to `GLTF_ParseFromFile` in the examples. -/
def samplePath : CString := some (cstr "a.gltf")

/-- The minimal document. -/
def docMinimal : List Nat := cstr "\x7b\"asset\":\x7b\"version\":\"2.0\"\x7d\x7d"

/-- The empty object. -/
def docEmptyObject : List Nat := cstr "\x7b\x7d"

/-- A document whose asset object has no version key. -/
def docNoVersion : List Nat := cstr "\x7b\"asset\":\x7b\x7d\x7d"

/-- A document whose version is the string `nan`, which `atof` reads as a NaN. -/
def docVersionNan : List Nat := cstr "\x7b\"asset\":\x7b\"version\":\"nan\"\x7d\x7d"

/-- A document with the legacy version 1.0. -/
def docVersion10 : List Nat := cstr "\x7b\"asset\":\x7b\"version\":\"1.0\"\x7d\x7d"

/-- A document with the legacy version 1.9. -/
def docVersion19 : List Nat := cstr "\x7b\"asset\":\x7b\"version\":\"1.9\"\x7d\x7d"

/-- A document whose only node refers to mesh 5 while there is no mesh. -/
def docMeshOutOfRange : List Nat :=
  cstr "\x7b\"asset\":\x7b\"version\":\"2.0\"\x7d,\"nodes\":[\x7b\"mesh\":5\x7d]\x7d"

/-- A document in which nodes 0 and 1 both list node 2 as a child. -/
def docTwoParents : List Nat :=
  cstr "\x7b\"asset\":\x7b\"version\":\"2.0\"\x7d,\"nodes\":[\x7b\"children\":[2]\x7d,\x7b\"children\":[2]\x7d,\x7b\x7d]\x7d"

/-- The document `docTwoParents` with, in addition, a buffer view that names no
buffer; every index of the document is in range. -/
def docTwoParentsNoBuffer : List Nat :=
  cstr "\x7b\"asset\":\x7b\"version\":\"2.0\"\x7d,\"bufferViews\":[\x7b\x7d],\"nodes\":[\x7b\"children\":[2]\x7d,\x7b\"children\":[2]\x7d,\x7b\x7d]\x7d"

/-- A document whose node 0 lists itself as its own child. -/
def docSelfChild : List Nat :=
  cstr "\x7b\"asset\":\x7b\"version\":\"2.0\"\x7d,\"nodes\":[\x7b\"children\":[0]\x7d]\x7d"

/-- A document whose nodes 0 and 1 list each other as a child. -/
def docMutualChildren : List Nat :=
  cstr "\x7b\"asset\":\x7b\"version\":\"2.0\"\x7d,\"nodes\":[\x7b\"children\":[1]\x7d,\x7b\"children\":[0]\x7d]\x7d"

/-- A document in which node 0 lists nodes 1 and 2, defined after it, as its
children. -/
def docForward : List Nat :=
  cstr "\x7b\"asset\":\x7b\"version\":\"2.0\"\x7d,\"nodes\":[\x7b\"children\":[1,2]\x7d,\x7b\x7d,\x7b\x7d]\x7d"

/-- A document whose scene lists as a root node 1, a child of node 0. -/
def docRootIsChild : List Nat :=
  cstr "\x7b\"asset\":\x7b\"version\":\"2.0\"\x7d,\"nodes\":[\x7b\"children\":[1]\x7d,\x7b\x7d],\"scenes\":[\x7b\"nodes\":[1]\x7d]\x7d"

/-- The document `docRootIsChild` with, in addition, a buffer view that names no
buffer; every index of the document is in range. -/
def docRootIsChildNoBuffer : List Nat :=
  cstr "\x7b\"asset\":\x7b\"version\":\"2.0\"\x7d,\"bufferViews\":[\x7b\x7d],\"nodes\":[\x7b\"children\":[1]\x7d,\x7b\x7d],\"scenes\":[\x7b\"nodes\":[1]\x7d]\x7d"

/-- A document with a mesh, a node that names the mesh and has a child, a scene
and the default scene. -/
def docSlots : List Nat :=
  cstr ("\x7b\"asset\":\x7b\"version\":\"2.0\"\x7d,\"meshes\":[\x7b\"primitives\":[]\x7d],"
    ++ "\"nodes\":[\x7b\"mesh\":0,\"children\":[1]\x7d,\x7b\x7d],"
    ++ "\"scenes\":[\x7b\"nodes\":[0]\x7d],\"scene\":0\x7d")

/-- A document with a buffer, a buffer view on it and an accessor on the view. -/
def docViews : List Nat :=
  cstr ("\x7b\"asset\":\x7b\"version\":\"2.0\"\x7d,\"buffers\":[\x7b\x7d],"
    ++ "\"bufferViews\":[\x7b\"buffer\":0\x7d],\"accessors\":[\x7b\"bufferView\":0\x7d]\x7d")

/-- The tokens `jsmn_parse` writes for a document, in a buffer that is large
enough (the empty list when tokenization fails). -/
def tokensOf (doc : List Nat) : List jsmntok_t :=
  match jsmn_parse jsmn_init doc doc.length (some []) doc.length with
  | some out => out.tokens.getD []
  | none => []

/-- The record the walker builds from a document, before the resolver runs (the
zero record when the walk fails). -/
def walked (doc : List Nat) : GLTF2 :=
  match internal_parse_jsonroot decimalLt2 doc (tokensOf doc) 0 {} with
  | R.ok (_, d) _ => d
  | _ => {}

/-- The node the walker builds from the empty object: the defaults of the
transform and nothing else. -/
def emptyNode : GLTF_Node :=
  { translation := [CFloat.zero, CFloat.zero, CFloat.zero],
    rotation := [CFloat.zero, CFloat.zero, CFloat.zero, CFloat.one],
    scale := [CFloat.one, CFloat.one, CFloat.one],
    matrix := [CFloat.one, CFloat.zero, CFloat.zero, CFloat.zero,
               CFloat.zero, CFloat.one, CFloat.zero, CFloat.zero,
               CFloat.zero, CFloat.zero, CFloat.one, CFloat.zero,
               CFloat.zero, CFloat.zero, CFloat.zero, CFloat.one] }

/-- The record the walker builds from `docSlots`. -/
def slotsWalked : GLTF2 :=
  { asset := { version := some (cstr "2.0") },
    meshes := [{}],
    nodes := [{ emptyNode with mesh := Ptr.index 0, children := [Ptr.index 1] }, emptyNode],
    scenes := [{ nodes := [Ptr.index 0] }],
    scene := Ptr.index 0 }

/-- The record the resolver makes of `slotsWalked`. -/
def slotsResolved : GLTF2 :=
  { asset := { version := some (cstr "2.0") },
    meshes := [{}],
    nodes := [{ emptyNode with mesh := Ptr.elem 0, children := [Ptr.elem 1] },
      { emptyNode with parent := Ptr.elem 0 }],
    scenes := [{ nodes := [Ptr.elem 0] }],
    scene := Ptr.elem 0 }

/-- The record the walker builds from `docForward`. -/
def forwardWalked : GLTF2 :=
  { asset := { version := some (cstr "2.0") },
    nodes := [{ emptyNode with children := [Ptr.index 1, Ptr.index 2] }, emptyNode, emptyNode] }

/-- The record the resolver makes of `forwardWalked`. -/
def forwardResolved : GLTF2 :=
  { asset := { version := some (cstr "2.0") },
    nodes := [{ emptyNode with children := [Ptr.elem 1, Ptr.elem 2] },
      { emptyNode with parent := Ptr.elem 0 }, { emptyNode with parent := Ptr.elem 0 }] }

/-- The record the walker builds from `docMutualChildren`. -/
def mutualWalked : GLTF2 :=
  { asset := { version := some (cstr "2.0") },
    nodes := [{ emptyNode with children := [Ptr.index 1] },
      { emptyNode with children := [Ptr.index 0] }] }

/-- The record the resolver makes of `mutualWalked`: each of the two nodes is the
parent of the other. -/
def mutualResolved : GLTF2 :=
  { asset := { version := some (cstr "2.0") },
    nodes := [{ emptyNode with children := [Ptr.elem 1], parent := Ptr.elem 1 },
      { emptyNode with children := [Ptr.elem 0], parent := Ptr.elem 0 }] }

/-- The four bytes of a little-endian `unsigned int`. -/
def le32 (n : Nat) : List Nat := [n % 256, n / 256 % 256, n / 65536 % 256, n / 16777216 % 256]

/-- A GLB file: the header, a JSON chunk holding `json`, and the bytes `rest`
after it. -/
def glbFile (json rest : List Nat) : List Nat :=
  cstr "glTF" ++ le32 2 ++ le32 (12 + 8 + json.length + rest.length) ++
    le32 json.length ++ le32 JSON_CHUNK_TYPE ++ json ++ rest

/-- The JSON text of the GLB examples: one node. -/
def docOneNode : List Nat :=
  cstr "\x7b\"asset\":\x7b\"version\":\"2.0\"\x7d,\"nodes\":[\x7b\x7d]\x7d"

/-- A GLB file that ends four bytes after its JSON chunk, in the middle of the
header of the next chunk. -/
def glbTruncatedBin : List Nat := glbFile docOneNode [0, 0, 0, 0]

/-- A GLB file whose BIN chunk announces 100 bytes and holds 2. -/
def glbOverflowingBin : List Nat := glbFile docOneNode (le32 100 ++ le32 BIN_CHUNK_TYPE ++ [1, 2])

/-- A GLB file whose JSON chunk has the legacy version 1.0: the JSON stage fails. -/
def glbLegacy : List Nat := glbFile docVersion10 []

/-! ### The derived stride in the words of the specification -/

/-- The component count of a type as the specification lists it. -/
def specComponentCount : GLTF_Type → Nat
  | Type_Scalar => 1
  | Type_Vec2 => 2
  | Type_Vec3 => 3
  | Type_Vec4 => 4
  | Type_Mat2 => 4
  | Type_Mat3 => 9
  | Type_Mat4 => 16

/-- The component size of a wire code as the specification lists it: 1 for 5120
and 5121, 2 for 5122 and 5123, 4 for 5125 and 5126. -/
def specComponentSize (componentType : Int) : Nat :=
  if componentType = 5120 ∨ componentType = 5121 then 1
  else if componentType = 5122 ∨ componentType = 5123 then 2
  else if componentType = 5125 ∨ componentType = 5126 then 4
  else 0

/-- The derived stride as the specification states it: 8 for `Mat2` with
one-byte components, 12 times the component size for `Mat3` with one- or
two-byte components, and component count times component size otherwise. -/
def specDerivedStride (type : GLTF_Type) (componentType : Int) : Nat :=
  if type = Type_Mat2 ∧ specComponentSize componentType = 1 then 8
  else if type = Type_Mat3 ∧
      (specComponentSize componentType = 1 ∨ specComponentSize componentType = 2) then
    12 * specComponentSize componentType
  else specComponentCount type * specComponentSize componentType

/-! ### More sample inputs -/

/-- The minimal document with one more root key, `nodesX`, which is not a key
name of the root. -/
def docUnknownKey : List Nat :=
  cstr "\x7b\"asset\":\x7b\"version\":\"2.0\"\x7d,\"nodesX\":[\x7b\x7d]\x7d"

/-- The document `docNoVersion` with one more key in the asset object,
`versionX`, which is not a key name of the asset object. -/
def docUnknownAssetKey : List Nat :=
  cstr "\x7b\"asset\":\x7b\"versionX\":\"1.0\"\x7d\x7d"

/-- The minimal document with `extensionsUsed`. -/
def docExtensionsUsed : List Nat :=
  cstr "\x7b\"asset\":\x7b\"version\":\"2.0\"\x7d,\"extensionsUsed\":[\"KHR_a\"]\x7d"

/-- The minimal document with `extensionsRequired`. -/
def docExtensionsRequired : List Nat :=
  cstr "\x7b\"asset\":\x7b\"version\":\"2.0\"\x7d,\"extensionsRequired\":[\"KHR_a\"]\x7d"

/-- The minimal document with a root `extensions` object of one entry. -/
def docRootExtensions : List Nat :=
  cstr "\x7b\"asset\":\x7b\"version\":\"2.0\"\x7d,\"extensions\":\x7b\"KHR_x\":\x7b\x7d\x7d\x7d"

/-- A document whose node carries the `extensions` object of `docRootExtensions`. -/
def docNodeExtensions : List Nat :=
  cstr "\x7b\"asset\":\x7b\"version\":\"2.0\"\x7d,\"nodes\":[\x7b\"extensions\":\x7b\"KHR_x\":\x7b\x7d\x7d\x7d]\x7d"

/-- A GLB header followed by nothing: magic, the given version, total length 12. -/
def glbHeaderOnly (version : Nat) : List Nat := cstr "glTF" ++ le32 version ++ le32 12

/-- A GLB file of 20 bytes whose header announces 21. -/
def glbWrongLength : List Nat :=
  cstr "glTF" ++ le32 2 ++ le32 21 ++ le32 0 ++ le32 JSON_CHUNK_TYPE

/-- A GLB file of 48 bytes whose JSON chunk announces `2^32 - 16` bytes: the
header, the chunk header, the minimal document and one zero byte. -/
def glbWrappingLength : List Nat :=
  cstr "glTF" ++ le32 2 ++ le32 48 ++ le32 4294967280 ++ le32 JSON_CHUNK_TYPE ++ docMinimal ++ [0]

/-! ### The required slots -/

/-- The required slots of an asset on which the resolver is about to run, each
with the size of its target collection: the accessors of the attributes of the
morph targets, the two buffer views of every accessor with `isSparse` set, the
buffer of every buffer view, the joints of the skins, the children of the nodes,
the roots of the scenes, and the input, the output and the sampler of the
animation samplers and channels (a channel refers to the samplers of its own
animation). -/
def requiredSlots (d : GLTF2) : List (Ptr × Nat) :=
  (d.meshes.flatMap (fun m => m.primitives.flatMap (fun p => p.targets.flatMap (fun t =>
    t.attributes.map (fun a => (a.data, d.accessors.length)))))) ++
  (d.accessors.flatMap (fun a =>
    if a.isSparse ≠ 0 then
      [(a.sparse.indicesBufferView, d.bufferViews.length),
        (a.sparse.valuesBufferView, d.bufferViews.length)]
    else [])) ++
  (d.bufferViews.map (fun v => (v.buffer, d.buffers.length))) ++
  (d.skins.flatMap (fun s => s.joints.map (fun j => (j, d.nodes.length)))) ++
  (d.nodes.flatMap (fun n => n.children.map (fun c => (c, d.nodes.length)))) ++
  (d.scenes.flatMap (fun s => s.nodes.map (fun r => (r, d.nodes.length)))) ++
  (d.animations.flatMap (fun a =>
    (a.samplers.flatMap (fun s => [(s.input, d.accessors.length), (s.output, d.accessors.length)])) ++
    a.channels.map (fun c => (c.sampler, a.samplers.length))))

/-- An asset as the walker leaves it, with a buffer view that names no buffer. -/
def viewWithoutBuffer : GLTF2 := { bufferViews := [{}] }

/-- An asset as the walker leaves it, with a scene whose root is node 3 of one. -/
def sceneRootOutOfRange : GLTF2 := { nodes := [emptyNode], scenes := [{ nodes := [Ptr.index 3] }] }

/-! ### Properties of the walker -/

/-- A property of the value a walker routine returns when it succeeds. -/
def R.Holds {α : Type} (P : α → Prop) (x : R α) : Prop := ∀ v l, x = R.ok v l → P v

/-- A document with two buffer views, the first with a byte stride of 16, and
three accessors: on the first view, on the second view, and on no view. -/
def docStride : List Nat :=
  cstr ("\x7b\"buffers\":[\x7b\x7d],\"bufferViews\":[\x7b\"buffer\":0,\"byteStride\":16\x7d,\x7b\"buffer\":0\x7d],"
    ++ "\"accessors\":[\x7b\"bufferView\":0\x7d,\x7b\"bufferView\":1,\"componentType\":5123\x7d,"
    ++ "\x7b\"type\":\"VEC3\",\"componentType\":5126\x7d]\x7d")

/-- The record the walker builds from `docStride`. -/
def strideWalked : GLTF2 :=
  { buffers := [{}],
    bufferViews := [{ buffer := Ptr.index 0, stride := 16 }, { buffer := Ptr.index 0 }],
    accessors := [{ bufferView := Ptr.index 0 },
      { bufferView := Ptr.index 1, componentType := 5123 },
      { type := Type_Vec3, componentType := 5126 }] }

/-- The record the resolver makes of `strideWalked`. -/
def strideResolved : GLTF2 :=
  { buffers := [{}],
    bufferViews := [{ buffer := Ptr.elem 0, stride := 16 }, { buffer := Ptr.elem 0 }],
    accessors := [{ bufferView := Ptr.elem 0, stride := 16 },
      { bufferView := Ptr.elem 1, componentType := 5123, stride := 2 },
      { type := Type_Vec3, componentType := 5126, stride := 12 }] }

/-- A document with two animations under the key `animations`: the first with
two samplers and two channels, the second empty. -/
def docAnimations : List Nat :=
  cstr ("\x7b\"animations\":[\x7b\"samplers\":[\x7b\"input\":4\x7d,\x7b\"input\":5\x7d],"
    ++ "\"channels\":[\x7b\"sampler\":1\x7d,\x7b\"sampler\":0\x7d]\x7d,\x7b\x7d]\x7d")

/-- The record the walker builds from `docAnimations`. -/
def animationsWalked : GLTF2 :=
  { animations := [{ samplers := [{ input := Ptr.index 4 }, { input := Ptr.index 5 }],
                     channels := [{ sampler := Ptr.index 1 }, { sampler := Ptr.index 0 }] }, {}] }

/-! ### GLB files with further chunks -/

/-- A GLB file with the minimal document and a BIN chunk of four bytes. -/
def glbWithBin : List Nat :=
  glbFile docMinimal (le32 4 ++ le32 BIN_CHUNK_TYPE ++ [1, 2, 3, 4])

/-- A GLB file that ends right after its JSON chunk. -/
def glbJsonOnly : List Nat := glbFile docMinimal []

/-- A GLB file with three chunks: the minimal document, a chunk of the unknown
type `0x12345678` with two bytes, and a BIN chunk of four bytes. -/
def glbUnknownThenBin : List Nat :=
  glbFile docMinimal
    (le32 2 ++ le32 0x12345678 ++ [9, 9] ++ le32 4 ++ le32 BIN_CHUNK_TYPE ++ [1, 2, 3, 4])

/-- The asset that the JSON stage builds from the minimal document of a GLB
file. -/
def minimalStage : GLTF2 :=
  { asset := { version := some (cstr "2.0") },
    fileInfo := { path := samplePath, jsonTkCount := 5, json := some 20, jsonSize := 27 } }

/-- The text of a string token whose content starts with `nodes` and goes on. -/
def docLongerKey : List Nat := cstr "\"nodesX\""

/-! ### Attribute names -/

/-- The decimal text of a natural number. -/
def decimal (n : Nat) : List Nat := (Nat.toDigits 10 n).map Char.toNat

/-- The kind of an attribute as the specification words it, from the part of
the name before the first underscore. -/
def specAttributeKind (p : List Nat) : GLTF_AttributeType :=
  if p = cstr "POSITION" then AttributeType_Position
  else if p = cstr "NORMAL" then AttributeType_Normal
  else if p = cstr "TANGENT" then AttributeType_Tangent
  else if p = cstr "TEXCOORD" then AttributeType_TexCoord
  else if p = cstr "COLOR" then AttributeType_Color
  else if p = cstr "JOINTS" then AttributeType_Joints
  else if p = cstr "WEIGHTS" then AttributeType_Weights
  else AttributeType_Invalid

/-- The attributes object of a primitive with a name of no category and a
position. -/
def docAttributes : List Nat := cstr "\x7b\"FOO_1\":3,\"POSITION\":0\x7d"

/-! ### Keys of an object -/

/-- The token at index `k` reads as the key `lit`: `json_strncmp` reports a match. -/
def ReadsAs (data : List Nat) (tokens : List jsmntok_t) (lit : String) (k : Nat) : Prop :=
  ∃ l, keyIs data tokens k lit = R.ok true l

/-- Some token with an index in `(lo, hi)` reads as the key `lit`. -/
def KeyIn (data : List Nat) (tokens : List jsmntok_t) (lo hi : Nat) (lit : String) : Prop :=
  ∃ k, lo < k ∧ k < hi ∧ ReadsAs data tokens lit k

/-- A document with a material without keys and one whose occlusion texture has
a strength. -/
def docMaterialViews : List Nat :=
  cstr "\x7b\"asset\":\x7b\"version\":\"2.0\"\x7d,\"materials\":[\x7b\x7d,\x7b\"occlusionTexture\":\x7b\"strength\":0.5\x7d\x7d]\x7d"

/-- A document with one node that has a mesh and no transform. -/
def docNodeMesh : List Nat := cstr "\x7b\"nodes\":[\x7b\"mesh\":0\x7d]\x7d"

/-! ### The tokenizer -/

/-- The buffer invariant of the tokenizer: the buffer holds the `toknext` tokens
allocated so far, at most `cap` of them, and `toksuper` is `-1` or the index of
one of them. -/
def TokWF (cap : Nat) (parser : JsmnParser) (toks : List jsmntok_t) : Prop :=
  toks.length = parser.toknext ∧ parser.toknext ≤ cap ∧
    (parser.toksuper = -1 ∨ (0 ≤ parser.toksuper ∧ parser.toksuper < parser.toknext))

/-- The buffer after the statement `tokens[toksuper].size++`, which runs when
`toksuper` is not `-1`. -/
def bump (toks : List jsmntok_t) (s : Int) : List jsmntok_t :=
  if s = -1 then toks
  else
    match toks[s.toNat]? with
    | some t => toks.set s.toNat { t with size := t.size + 1 }
    | none => toks

/-- The return of `jsmn_parse` once its loop has ended: `JSMN_ERROR_PART` when a token
of the buffer is still open, the count otherwise. -/
def jsmn_parse_end (parser : JsmnParser) (tokens : TokBuf) (count : Int) : JsmnOut :=
  match tokens with
  | none => { r := count, parser := parser, tokens := none }
  | some toks =>
    match findDown isOpen toks parser.toknext with
    | some _ => { r := JSMN_ERROR_PART, parser := parser, tokens := some toks }
    | none => { r := count, parser := parser, tokens := some toks }

/-- The states of the loop of `jsmn_parse` on the text `js` with a buffer of
capacity `cap`, started on a fresh parser and an empty buffer: the parser, the
tokens allocated and the count before each iteration. -/
inductive Reaches (js : List Nat) (cap : Nat) : JsmnParser → List jsmntok_t → Int → Prop
  | start : Reaches js cap jsmn_init [] 0
  | step {parser : JsmnParser} {toks : List jsmntok_t} {count : Int} {c : Nat}
      {parser1 : JsmnParser} {toks1 : List jsmntok_t} {count1 : Int} :
      Reaches js cap parser toks count → js[parser.pos]? = some c → c ≠ 0 →
      jsmn_parse_case c parser js js.length (some toks) cap count =
        some (Sum.inr (parser1, some toks1, count1)) →
      Reaches js cap { parser1 with pos := parser1.pos + 1 } toks1 count1

/-- The result of the loop of `jsmn_parse` from a state, with the number of
iterations that the bytes left ask for. -/
def loopOut (js : List Nat) (cap : Nat) (parser : JsmnParser) (tokens : TokBuf) (count : Int) :
    Option JsmnOut :=
  jsmn_parse_loop js js.length cap (js.length + 1 - parser.pos) parser tokens count

/-- The value of `toksuper` after a container is closed: the innermost token of the
buffer that is still open, or `-1`. -/
def superAfter (toks : List jsmntok_t) : Int :=
  match findDown isOpen toks toks.length with
  | none => -1
  | some k => (k : Int)

/-- The byte at offset `q` ends a primitive: a delimiter, or the end of the
text. -/
def Delim (js : List Nat) (q : Nat) : Prop :=
  js.length ≤ q ∨ ∃ c, js[q]? = some c ∧ primitiveEnd c = true

/-- A byte that `jsmn_parse_primitive` accepts inside a primitive. -/
def isPrimByte (c : Nat) : Bool := decide (32 ≤ c) && decide (c < 127) && !primitiveEnd c

/-! ### JSON texts -/

/-- White space between the tokens of a JSON text: space, tab, line feed and
carriage return. -/
def isWs (c : Nat) : Bool := c == 32 || c == 9 || c == 10 || c == 13

/-- A decimal digit. -/
def isDigit (c : Nat) : Bool := 48 ≤ c && c ≤ 57

/-- The pattern of a JSON number on a text made of digits, signs, dots and the
letter e: an optional minus sign, an integer part without a leading zero, an
optional fraction and an optional exponent. -/
def numberShape (t : List Nat) : Bool :=
  let t1 := if t.head? = some 45 then t.tail else t
  let ip := t1.takeWhile isDigit
  let r1 := t1.dropWhile isDigit
  let intOk := ip == [48] || (ip != [] && ip.head? != some 48)
  let fracOk := match r1 with
    | 46 :: r => (r.takeWhile isDigit) != []
    | _ => true
  let r2 := match r1 with
    | 46 :: r => r.dropWhile isDigit
    | _ => r1
  let expOk := match r2 with
    | [] => true
    | e :: r =>
      (e == 101 || e == 69) &&
        (let r3 := if r.head? = some 43 ∨ r.head? = some 45 then r.tail else r
         r3 != [] && r3.all isDigit)
  intOk && fracOk && expOk

/-- A byte of a JSON number. -/
def isNumberByte (c : Nat) : Bool :=
  isDigit c || c == 43 || c == 45 || c == 46 || c == 69 || c == 101

/-- The text of a JSON number. The first two tests, which the pattern implies,
name the bytes that a number is made of. -/
def isNumber (t : List Nat) : Bool := t != [] && t.all isNumberByte && numberShape t

/-- The text of a JSON value that is not a string, an array or an object: a
number or one of the names `true`, `false` and `null`. -/
def isPrimitiveText (t : List Nat) : Bool :=
  t == cstr "true" || t == cstr "false" || t == cstr "null" || isNumber t

/-- The text of a JSON string between its quotes: bytes from `0x20` on other than
the quote and the backslash, the two-byte escapes, and `\u` with four
hexadecimal digits. -/
def isStringBody : List Nat → Bool
  | [] => true
  | 92 :: 117 :: a :: b :: c :: d :: rest =>
    isHex a && isHex b && isHex c && isHex d && isStringBody rest
  | 92 :: e :: rest =>
    (e == 34 || e == 92 || e == 47 || e == 98 || e == 102 || e == 110 || e == 114 || e == 116) &&
      isStringBody rest
  | c :: rest => decide (32 ≤ c) && c != 34 && c != 92 && isStringBody rest

mutual
/-- A JSON value, with the white space of its text. -/
inductive JValue where
  /-- A number or a literal name, by its text. -/
  | prim (text : List Nat)
  /-- A string, by the text between its quotes. -/
  | str (body : List Nat)
  /-- An array: white space after the bracket, then the elements. -/
  | arr (ws : List Nat) (elems : JElems)
  /-- An object: white space after the brace, then the members. -/
  | obj (ws : List Nat) (members : JMembers)
/-- The elements of an array, each with the white space before and after it;
a comma stands between two elements. -/
inductive JElems where
  | nil
  | cons (ws1 : List Nat) (v : JValue) (ws2 : List Nat) (rest : JElems)
/-- The members of an object: white space, the key, white space, the colon,
white space, the value and white space; a comma stands between two
members. -/
inductive JMembers where
  | nil
  | cons (ws1 : List Nat) (key : List Nat) (ws2 : List Nat) (ws3 : List Nat) (v : JValue)
      (ws4 : List Nat) (rest : JMembers)
end

/-- The comma in front of the elements that follow. -/
def JElems.sep : JElems → List Nat
  | JElems.nil => []
  | JElems.cons _ _ _ _ => [44]

/-- The comma in front of the members that follow. -/
def JMembers.sep : JMembers → List Nat
  | JMembers.nil => []
  | JMembers.cons _ _ _ _ _ _ _ => [44]

mutual
/-- The text of a value. -/
def JValue.render : JValue → List Nat
  | JValue.prim text => text
  | JValue.str body => 34 :: body ++ [34]
  | JValue.arr ws elems => 91 :: ws ++ elems.render ++ [93]
  | JValue.obj ws members => 123 :: ws ++ members.render ++ [125]
/-- The text of the elements of an array. -/
def JElems.render : JElems → List Nat
  | JElems.nil => []
  | JElems.cons ws1 v ws2 rest => ws1 ++ v.render ++ ws2 ++ rest.sep ++ rest.render
/-- The text of the members of an object. -/
def JMembers.render : JMembers → List Nat
  | JMembers.nil => []
  | JMembers.cons ws1 key ws2 ws3 v ws4 rest =>
    ws1 ++ (34 :: key ++ [34]) ++ ws2 ++ [58] ++ ws3 ++ v.render ++ ws4 ++ rest.sep ++ rest.render
end

mutual
/-- The grammar of JSON on a value with its layout. -/
def JValue.wf : JValue → Bool
  | JValue.prim text => isPrimitiveText text
  | JValue.str body => isStringBody body
  | JValue.arr ws elems => ws.all isWs && elems.wf
  | JValue.obj ws members => ws.all isWs && members.wf
/-- The grammar of JSON on the elements of an array. -/
def JElems.wf : JElems → Bool
  | JElems.nil => true
  | JElems.cons ws1 v ws2 rest => ws1.all isWs && v.wf && ws2.all isWs && rest.wf
/-- The grammar of JSON on the members of an object. -/
def JMembers.wf : JMembers → Bool
  | JMembers.nil => true
  | JMembers.cons ws1 key ws2 ws3 v ws4 rest =>
    ws1.all isWs && isStringBody key && ws2.all isWs && ws3.all isWs && v.wf && ws4.all isWs &&
      rest.wf
end

/-- The number of elements of an array. -/
def JElems.length : JElems → Nat
  | JElems.nil => 0
  | JElems.cons _ _ _ rest => rest.length + 1

/-- The number of key/value pairs of an object. -/
def JMembers.length : JMembers → Nat
  | JMembers.nil => 0
  | JMembers.cons _ _ _ _ _ _ rest => rest.length + 1

mutual
/-- The number of tokens of a value: one for the value, and those of its
children. -/
def JValue.count : JValue → Nat
  | JValue.prim _ => 1
  | JValue.str _ => 1
  | JValue.arr _ elems => elems.count + 1
  | JValue.obj _ members => members.count + 1
/-- The number of tokens of the elements of an array. -/
def JElems.count : JElems → Nat
  | JElems.nil => 0
  | JElems.cons _ v _ rest => v.count + rest.count
/-- The number of tokens of the members of an object: one for each key, and
those of the values. -/
def JMembers.count : JMembers → Nat
  | JMembers.nil => 0
  | JMembers.cons _ _ _ _ v _ rest => 1 + v.count + rest.count
end

mutual
/-- The number of key/value pairs in a value, in all its objects. -/
def JValue.pairs : JValue → Nat
  | JValue.prim _ => 0
  | JValue.str _ => 0
  | JValue.arr _ elems => elems.pairs
  | JValue.obj _ members => members.length + members.pairs
/-- The number of key/value pairs in the elements of an array. -/
def JElems.pairs : JElems → Nat
  | JElems.nil => 0
  | JElems.cons _ v _ rest => v.pairs + rest.pairs
/-- The number of key/value pairs inside the values of the members of an
object. -/
def JMembers.pairs : JMembers → Nat
  | JMembers.nil => 0
  | JMembers.cons _ _ _ _ v _ rest => v.pairs + rest.pairs
end

mutual
/-- The tokens of a value whose text starts at offset `p`, in the words of the
specification: an Object has the number of its key/value pairs as size, an
Array the number of its elements, a String or a Primitive that is a value has
size 0; a String starts after its opening quote and ends on its closing
quote, and the other tokens span their text. -/
def JValue.tokens : JValue → Nat → List jsmntok_t
  | JValue.prim text, p =>
    [{ type := JSMN_PRIMITIVE, start := p, end_ := (p + text.length : Nat), size := 0 }]
  | JValue.str body, p =>
    [{ type := JSMN_STRING, start := (p + 1 : Nat), end_ := (p + 1 + body.length : Nat), size := 0 }]
  | JValue.arr ws elems, p =>
    { type := JSMN_ARRAY, start := p, end_ := (p + (1 + ws.length + elems.render.length + 1) : Nat), size := elems.length } ::
      elems.tokens (p + 1 + ws.length)
  | JValue.obj ws members, p =>
    { type := JSMN_OBJECT, start := p, end_ := (p + (1 + ws.length + members.render.length + 1) : Nat), size := members.length } ::
      members.tokens (p + 1 + ws.length)
/-- The tokens of the elements of an array whose text starts at offset `p`. -/
def JElems.tokens : JElems → Nat → List jsmntok_t
  | JElems.nil, _ => []
  | JElems.cons ws1 v ws2 rest, p =>
    v.tokens (p + ws1.length) ++
      rest.tokens (p + ws1.length + v.render.length + ws2.length + rest.sep.length)
/-- The tokens of the members of an object whose text starts at offset `p`: the
String of a key has size 1. -/
def JMembers.tokens : JMembers → Nat → List jsmntok_t
  | JMembers.nil, _ => []
  | JMembers.cons ws1 key ws2 ws3 v ws4 rest, p =>
    { type := JSMN_STRING, start := (p + ws1.length + 1 : Nat), end_ := (p + ws1.length + 1 + key.length : Nat), size := 1 } ::
      (v.tokens (p + ws1.length + (key.length + 2) + ws2.length + 1 + ws3.length) ++
        rest.tokens (p + ws1.length + (key.length + 2) + ws2.length + 1 + ws3.length +
          v.render.length + ws4.length + rest.sep.length))
end

/-- A valid JSON text: white space, the text of a value that follows the
grammar, white space. -/
def IsJson (js : List Nat) : Prop :=
  ∃ (ws1 : List Nat) (v : JValue) (ws2 : List Nat),
    ws1.all isWs = true ∧ v.wf = true ∧ ws2.all isWs = true ∧ js = ws1 ++ v.render ++ ws2

/-- A token that has been opened at offset `st` and not closed yet, with `k` children
counted so far. -/
def openTok (ty : jsmntype_t) (st : Nat) (k : Int) : jsmntok_t :=
  { type := ty, start := (st : Int), end_ := -1, size := k }

/-- The value of `toksuper` after a value has been read with the buffer `toks` and
the parent `s`: a string or a primitive leaves it alone, and the bracket that
closes a container sets it to the innermost token that is still open. -/
def afterSuper : JValue → List jsmntok_t → Int → Int
  | JValue.prim _, _, s => s
  | JValue.str _, _, s => s
  | JValue.arr _ _, toks, _ => superAfter toks
  | JValue.obj _ _, toks, _ => superAfter toks

/-- The sum of the `size` fields of the Object tokens of a buffer. -/
def objectSizeSum (toks : List jsmntok_t) : Int :=
  ((toks.filter (fun t => t.type == JSMN_OBJECT)).map (fun t => t.size)).sum

/-- The text `{"a":1}`: an object with one key/value pair. -/
def docOnePair : JValue :=
  JValue.obj [] (JMembers.cons [] (cstr "a") [] [] (JValue.prim (cstr "1")) [] JMembers.nil)

/-- The text `{"a": [1, {"b": "x"}], "c": null}` with a line feed at its end: two pairs
in the outer object, one in the inner object. -/
def docNested : JValue :=
  JValue.obj []
    (JMembers.cons [] (cstr "a") [] [32]
      (JValue.arr []
        (JElems.cons [] (JValue.prim (cstr "1")) []
          (JElems.cons [32]
            (JValue.obj [] (JMembers.cons [] (cstr "b") [] [32] (JValue.str (cstr "x")) []
              JMembers.nil))
            [] JElems.nil)))
      []
      (JMembers.cons [32] (cstr "c") [] [32] (JValue.prim (cstr "null")) [] JMembers.nil))

/-! ### Documents and records of the statements on the walker -/

/-- A document whose root has the unquoted key `5`; the tokenizer of this build
accepts it. -/
def docPrimitiveKey : List Nat := cstr "\x7b\"asset\":\x7b\"version\":\"2.0\"\x7d,5:1\x7d"

/-- The object `{"byteLength":[1]}`: a buffer whose `byteLength` is an array. -/
def docByteLengthArray : List Nat := cstr "\x7b\"byteLength\":[1]\x7d"

/-- A document with a buffer whose `byteLength` is an array of two strings, followed
by one node. -/
def docBufferThenNode : List Nat :=
  cstr ("\x7b\"asset\":\x7b\"version\":\"2.0\"\x7d,"
    ++ "\"buffers\":[\x7b\"byteLength\":[\"x\",\"y\"]\x7d],\"nodes\":[\x7b\x7d]\x7d")

/-- A document whose asset has the string `"abc"` as extras. -/
def docStringExtras : List Nat :=
  cstr "\x7b\"asset\":\x7b\"version\":\"2.0\",\"extras\":\"abc\"\x7d\x7d"

/-- A document with one animation of one sampler and one channel; the target of the
channel carries the extension `E`. -/
def docChannelExtension : List Nat :=
  cstr ("\x7b\"asset\":\x7b\"version\":\"2.0\"\x7d,\"accessors\":[\x7b\x7d],\"nodes\":[\x7b\x7d],"
    ++ "\"animations\":[\x7b\"samplers\":[\x7b\"input\":0,\"output\":0\x7d],"
    ++ "\"channels\":[\x7b\"sampler\":0,\"target\":"
    ++ "\x7b\"node\":0,\"extensions\":\x7b\"E\":\x7b\x7d\x7d\x7d\x7d]\x7d]\x7d")

/-- The animations of the asset parsed from `docChannelExtension`. -/
def channelExtensionAnimations : List GLTF_Animation :=
  [{ samplers := [{ input := Ptr.elem 0, output := Ptr.elem 0 }],
     channels := [{ sampler := Ptr.elem 0, targetNode := Ptr.elem 0,
                    extensions := [{ name := some (cstr "E"), data := some (cstr "\x7b\x7d") }] }] }]

/-- An animation of two channels: the first one carries two extensions, the second
one none. -/
def twoChannelAnimations : List GLTF_Animation :=
  [{ channels := [{ extensions := [{ name := some (cstr "E") }, { name := some (cstr "F") }] },
                  {}] }]

/-- The integer that `PTR_TO_INDEX(type, idx)` stores in a slot, `(unsigned long long)idx + 1`. -/
def storedInteger (idx : Int) : Nat :=
  (((idx % 18446744073709551616).toNat) + 1) % 18446744073709551616

/-- The object `{"animations":[],"a":1}`, with the keys `animations` and `a`. -/
def docTwoKeys : List Nat := cstr "\x7b\"animations\":[],\"a\":1\x7d"

/-- The array `[-1,"3"]`: a primitive with the text `-1` and a string. -/
def docMinusOne : List Nat := cstr "[-1,\"3\"]"

/-! ### The subtree of a token, the text of a value, arrays of numbers -/

mutual
/-- For every token of a value whose first token has the index `k`, in the order of
the tokens, the index of the first token behind its subtree: `k + 1` for a
string or a primitive, and for a container the index behind all of its
nested keys and values. -/
def JValue.skipEnds : JValue → Nat → List Nat
  | JValue.prim _, k => [k + 1]
  | JValue.str _, k => [k + 1]
  | JValue.arr _ elems, k => (k + (elems.count + 1)) :: elems.skipEnds (k + 1)
  | JValue.obj _ members, k => (k + (members.count + 1)) :: members.skipEnds (k + 1)
/-- The list `skipEnds` for the tokens of the elements of an array. -/
def JElems.skipEnds : JElems → Nat → List Nat
  | JElems.nil, _ => []
  | JElems.cons _ v _ rest, k => v.skipEnds k ++ rest.skipEnds (k + v.count)
/-- The list `skipEnds` for the tokens of the members of an object; the token of a key
is a string and has `k + 1`. -/
def JMembers.skipEnds : JMembers → Nat → List Nat
  | JMembers.nil, _ => []
  | JMembers.cons _ _ _ _ v _ rest, k =>
    (k + 1) :: (v.skipEnds (k + 1) ++ rest.skipEnds (k + 1 + v.count))
end

/-- The text that the tokenizer delimits for a value: the text of the value, and for
a string the text between its quotes. -/
def JValue.rawSlice : JValue → List Nat
  | JValue.str body => body
  | v => v.render

/-- The value is an object. -/
def JValue.isObject : JValue → Bool
  | JValue.obj _ _ => true
  | _ => false

/-- Every member has an object as value. -/
def JMembers.allObjects : JMembers → Bool
  | JMembers.nil => true
  | JMembers.cons _ _ _ _ v _ rest => v.isObject && rest.allObjects

/-- The extensions that the members of an `extensions` object describe, in the words of
the specification: for each member, in the order of the document, the content
of its key as name and the text of its value as data. -/
def JMembers.extensionsOf : JMembers → List GLTF_Extension
  | JMembers.nil => []
  | JMembers.cons _ key _ _ v _ rest => { name := some key, data := some v.render } :: rest.extensionsOf

/-- The token at `i` is an Array of `size` elements and the `size` tokens that follow it
are Primitives. -/
def ArrayOfPrimitives (tokens : List jsmntok_t) (i size : Nat) : Prop :=
  (∃ t, tokens[i]? = some t ∧ t.type = JSMN_ARRAY ∧ t.size = (size : Int)) ∧
    ∀ j, j < size → ∃ u, tokens[i + 1 + j]? = some u ∧ u.type = JSMN_PRIMITIVE

/-- The bounds of every token lie in the text, in order. -/
def TokensFit (data : List Nat) (tokens : List jsmntok_t) : Prop :=
  ∀ t ∈ tokens, 0 ≤ t.start ∧ t.start ≤ t.end_ ∧ t.end_ ≤ (data.length : Int)

/-- The value `[1,"a"]`. -/
def valueArrayOneA : JValue :=
  JValue.arr [] (JElems.cons [] (JValue.prim (cstr "1")) []
    (JElems.cons [] (JValue.str (cstr "a")) [] JElems.nil))

/-- The member `"extras":[1,"a"]`. -/
def memberExtrasArray : JMembers :=
  JMembers.cons [] (cstr "extras") [] [] valueArrayOneA [] JMembers.nil

/-- The text `{"extras":[1,"a"]}`: an entity with an array as `extras`. -/
def docExtrasArray : JValue := JValue.obj [] memberExtrasArray

/-- The members `"A":{},"B":{"x":1}` of an `extensions` object. -/
def membersTwoExtensions : JMembers :=
  JMembers.cons [] (cstr "A") [] [] (JValue.obj [] JMembers.nil) []
    (JMembers.cons [] (cstr "B") [] [] (JValue.obj [] (JMembers.cons [] (cstr "x") [] [] (JValue.prim (cstr "1")) [] JMembers.nil)) [] JMembers.nil)

/-- The member `"extensions":{"A":{},"B":{"x":1}}`. -/
def memberExtensions : JMembers :=
  JMembers.cons [] (cstr "extensions") [] [] (JValue.obj [] membersTwoExtensions) []
    JMembers.nil

/-- The text `{"extensions":{"A":{},"B":{"x":1}}}`: an entity with two unprocessed
extensions. -/
def docExtensions : JValue := JValue.obj [] memberExtensions

/-- The value `[1,2]`. -/
def valueArrayTwo : JValue :=
  JValue.arr [] (JElems.cons [] (JValue.prim (cstr "1")) []
    (JElems.cons [] (JValue.prim (cstr "2")) [] JElems.nil))

/-- The member `"translation":[1,2]`: an array of two numbers. -/
def memberTranslationTwo : JMembers :=
  JMembers.cons [] (cstr "translation") [] [] valueArrayTwo [] JMembers.nil

/-- The text `{"translation":[1,2]}`. -/
def docTranslationTwo : JValue := JValue.obj [] memberTranslationTwo

/-- The value `[1,2,3]`. -/
def valueArrayThree : JValue :=
  JValue.arr [] (JElems.cons [] (JValue.prim (cstr "1")) []
    (JElems.cons [] (JValue.prim (cstr "2")) []
      (JElems.cons [] (JValue.prim (cstr "3")) [] JElems.nil)))

/-- A document with one node whose members are the text `s`. -/
def docNodeWith (s : String) : List Nat :=
  cstr ("\x7b\"asset\":\x7b\"version\":\"2.0\"\x7d,\"nodes\":[\x7b" ++ s ++ "\x7d]\x7d")

end Gltf

/-! # Properties -/

namespace Gltf

open jsmntype_t GLTF_Type GLTF_AnimationPathType GLTF_InterpolationType GLTF_CameraType GLTF_AlphaMode
  GLTF_AttributeType

set_option autoImplicit false

theorem Fix.map_eq_done {α β : Type} {g : α → β} {x : Fix α} {v : β}
    (h : x.map g = Fix.done v) : ∃ a, x = Fix.done a ∧ g a = v := by
  cases x with
  | done a => exact ⟨a, rfl, by simpa [Fix.map] using h⟩
  | ret c a l => simp [Fix.map] at h
  | ub => simp [Fix.map] at h

theorem Fix.andThen_eq_done {α : Type} {f : α → Fix α} {x : Fix α} {v : α}
    (h : x.andThen f = Fix.done v) : ∃ a, x = Fix.done a ∧ f a = Fix.done v := by
  cases x with
  | done a => exact ⟨a, rfl, by simpa [Fix.andThen] using h⟩
  | ret c a l => simp [Fix.andThen] at h
  | ub => simp [Fix.andThen] at h

theorem Fix.codes_done {α : Type} (v : α) : (Fix.done v).Codes := by
  intro c w l h; cases h

theorem Fix.codes_ub {α : Type} : (Fix.ub : Fix α).Codes := by
  intro c w l h; cases h

theorem Fix.codes_map {α β : Type} {g : α → β} {x : Fix α} (hx : x.Codes) : (x.map g).Codes := by
  intro c v l h
  cases x with
  | done a => simp [Fix.map] at h
  | ret c1 a l1 =>
    simp only [Fix.map, Fix.ret.injEq] at h
    obtain ⟨rfl, -, -⟩ := h
    exact hx _ _ _ rfl
  | ub => simp [Fix.map] at h

theorem Fix.codes_andThen {α : Type} {f : α → Fix α} {x : Fix α} (hx : x.Codes)
    (hf : ∀ a, (f a).Codes) : (x.andThen f).Codes := by
  intro c v l h
  cases x with
  | done a => exact hf a _ _ _ (by simpa [Fix.andThen] using h)
  | ret c1 a l1 =>
    simp only [Fix.andThen, Fix.ret.injEq] at h
    obtain ⟨rfl, -, -⟩ := h
    exact hx _ _ _ rfl
  | ub => simp [Fix.andThen] at h

theorem fixAll_codes {α : Type} {f : α → Fix α} (hf : ∀ a, (f a).Codes) :
    ∀ xs : List α, (fixAll f xs).Codes
  | [] => Fix.codes_done _
  | x :: xs => by
    have ih := fixAll_codes hf xs
    intro c v l h
    simp only [fixAll] at h
    cases hx : f x with
    | done x1 =>
      rw [hx] at h
      exact Fix.codes_map ih _ _ _ h
    | ret c1 x1 l1 =>
      rw [hx] at h
      simp only [Fix.ret.injEq] at h
      obtain ⟨rfl, -, -⟩ := h
      exact hf x _ _ _ hx
    | ub => rw [hx] at h; cases h

theorem fixAll_eq_done {α : Type} {f : α → Fix α} :
    ∀ {xs ys : List α}, fixAll f xs = Fix.done ys → List.Forall₂ (fun x y => f x = Fix.done y) xs ys
  | [], ys, h => by
    simp only [fixAll, Fix.done.injEq] at h
    subst h
    exact List.Forall₂.nil
  | x :: xs, ys, h => by
    simp only [fixAll] at h
    cases hx : f x with
    | done x1 =>
      rw [hx] at h
      obtain ⟨zs, hzs, rfl⟩ := Fix.map_eq_done h
      exact List.Forall₂.cons hx (fixAll_eq_done hzs)
    | ret c1 x1 l1 => rw [hx] at h; cases h
    | ub => rw [hx] at h; cases h

theorem PTR_FIX_codes (var : Ptr) (size : Nat) : (PTR_FIX var size).Codes := by
  intro c v l h
  cases var with
  | null => simp [PTR_FIX] at h
  | index w =>
    simp only [PTR_FIX] at h
    split at h
    · simp only [Fix.ret.injEq] at h; exact Or.inl h.1.symm
    · cases h
  | elem i => simp [PTR_FIX] at h

theorem PTR_FIX_REQUIRED_codes (var : Ptr) (size : Nat) : (PTR_FIX_REQUIRED var size).Codes := by
  intro c v l h
  cases var with
  | null => simp only [PTR_FIX_REQUIRED, Fix.ret.injEq] at h; exact Or.inl h.1.symm
  | index w =>
    simp only [PTR_FIX_REQUIRED] at h
    split at h
    · simp only [Fix.ret.injEq] at h; exact Or.inl h.1.symm
    · cases h
  | elem i => simp [PTR_FIX_REQUIRED] at h

theorem PTR_FIX_done {var v : Ptr} {size : Nat} (h : PTR_FIX var size = Fix.done v) :
    SlotResolved size var v := by
  cases var with
  | null =>
    simp only [PTR_FIX, Fix.done.injEq] at h
    exact Or.inl ⟨rfl, h.symm⟩
  | index w =>
    by_cases hlt : w ≥ size
    · simp [PTR_FIX, hlt] at h
    · simp only [PTR_FIX, hlt, ↓reduceIte, Fix.done.injEq] at h
      exact Or.inr ⟨w, by omega, rfl, h.symm⟩
  | elem i => simp [PTR_FIX] at h

theorem PTR_FIX_REQUIRED_done {var v : Ptr} {size : Nat}
    (h : PTR_FIX_REQUIRED var size = Fix.done v) : SlotRequired size var v := by
  cases var with
  | null => simp [PTR_FIX_REQUIRED] at h
  | index w =>
    by_cases hlt : w ≥ size
    · simp [PTR_FIX_REQUIRED, hlt] at h
    · simp only [PTR_FIX_REQUIRED, hlt, ↓reduceIte, Fix.done.injEq] at h
      exact ⟨w, by omega, rfl, h.symm⟩
  | elem i => simp [PTR_FIX_REQUIRED] at h

theorem fixAll_imp {α : Type} {f : α → Fix α} {P : α → α → Prop} {xs ys : List α}
    (h : fixAll f xs = Fix.done ys) (hP : ∀ x y, f x = Fix.done y → P x y) :
    List.Forall₂ P xs ys :=
  (fixAll_eq_done h).imp (fun {x y} hxy => hP x y hxy)

theorem fixPrimitive_done {d : GLTF2} {p q : GLTF_Primitive}
    (h : fixPrimitive d p = Fix.done q) : PrimitiveResolved d p q := by
  unfold fixPrimitive at h
  obtain ⟨p3, h3, h4⟩ := Fix.andThen_eq_done h
  obtain ⟨p2, h2, h3⟩ := Fix.andThen_eq_done h3
  obtain ⟨p1, h1, h2⟩ := Fix.andThen_eq_done h2
  obtain ⟨v1, hv1, rfl⟩ := Fix.map_eq_done h1
  obtain ⟨v2, hv2, rfl⟩ := Fix.map_eq_done h2
  obtain ⟨v3, hv3, rfl⟩ := Fix.map_eq_done h3
  obtain ⟨v4, hv4, rfl⟩ := Fix.map_eq_done h4
  refine ⟨PTR_FIX_done hv1, PTR_FIX_done hv2, ?_, ?_⟩
  · exact fixAll_imp hv3 (fun a b hab => by
      obtain ⟨v, hv, rfl⟩ := Fix.map_eq_done hab
      exact PTR_FIX_done hv)
  · exact fixAll_imp hv4 (fun t u htu => by
      obtain ⟨w, hw, rfl⟩ := Fix.map_eq_done htu
      exact fixAll_imp hw (fun a b hab => by
        obtain ⟨v, hv, rfl⟩ := Fix.map_eq_done hab
        exact PTR_FIX_REQUIRED_done hv))

theorem fixMesh_done {d : GLTF2} {m n : GLTF_Mesh}
    (h : fixMesh d m = Fix.done n) : MeshResolved d m n := by
  obtain ⟨v, hv, rfl⟩ := Fix.map_eq_done h
  exact fixAll_imp hv (fun p q hpq => fixPrimitive_done hpq)

theorem fixAccessor_done {d : GLTF2} {a b : GLTF_Accessor}
    (h : fixAccessor d a = Fix.done b) : AccessorResolved d a b := by
  unfold fixAccessor at h
  obtain ⟨a3, h3, h4⟩ := Fix.andThen_eq_done h
  obtain ⟨a2, h2, h3⟩ := Fix.andThen_eq_done h3
  obtain ⟨a1, h1, h2⟩ := Fix.andThen_eq_done h2
  obtain ⟨v1, hv1, rfl⟩ := Fix.map_eq_done h1
  simp only [Fix.done.injEq] at h4
  subst h4
  have hb : (accessorDerivedStride a3).bufferView = a3.bufferView ∧
      (accessorDerivedStride a3).sparse = a3.sparse := by
    unfold accessorDerivedStride; split <;> exact ⟨rfl, rfl⟩
  have h32 : a3.bufferView = a2.bufferView ∧ a3.sparse = a2.sparse := by
    unfold accessorStrideFromView at h3
    split at h3
    · simp only [Fix.done.injEq] at h3; subst h3; exact ⟨rfl, rfl⟩
    · split at h3
      · simp only [Fix.done.injEq] at h3; subst h3; exact ⟨rfl, rfl⟩
      · cases h3
    · cases h3
  by_cases hs : a.isSparse = 0
  · simp only [hs, ne_eq, not_true_eq_false, ↓reduceIte, Fix.done.injEq] at h2
    subst h2
    refine ⟨?_, fun hne => absurd hs hne, fun _ => ?_⟩
    · rw [hb.1, h32.1]; exact PTR_FIX_done hv1
    · rw [hb.2, h32.2]
  · simp only [ne_eq, hs, not_false_eq_true, ↓reduceIte] at h2
    obtain ⟨sp, hsp, rfl⟩ := Fix.map_eq_done h2
    unfold fixSparse at hsp
    obtain ⟨s1, hs1, hs2⟩ := Fix.andThen_eq_done hsp
    obtain ⟨w1, hw1, rfl⟩ := Fix.map_eq_done hs1
    obtain ⟨w2, hw2, rfl⟩ := Fix.map_eq_done hs2
    refine ⟨?_, fun _ => ⟨?_, ?_⟩, fun h0 => absurd h0 hs⟩
    · rw [hb.1, h32.1]; exact PTR_FIX_done hv1
    · rw [hb.2, h32.2]; exact PTR_FIX_REQUIRED_done hw1
    · rw [hb.2, h32.2]; exact PTR_FIX_REQUIRED_done hw2

theorem childAt_set_same {ns : List GLTF_Node} {i : Nat} {nd : GLTF_Node} (nd1 : GLTF_Node)
    (hi : ns[i]? = some nd) (hc : nd1.children = nd.children) (k m : Nat) :
    childAt (ns.set i nd1) k m = childAt ns k m := by
  unfold childAt
  rw [List.getElem?_set]
  by_cases hik : i = k
  · subst hik
    have hlt : i < ns.length := (List.getElem?_eq_some.mp hi).1
    simp [hlt, hi, hc]
  · simp [hik]

theorem parentAt_set_same {ns : List GLTF_Node} {i : Nat} {nd : GLTF_Node} (nd1 : GLTF_Node)
    (hi : ns[i]? = some nd) (hc : nd1.parent = nd.parent) (x : Nat) :
    parentAt (ns.set i nd1) x = parentAt ns x := by
  unfold parentAt
  rw [List.getElem?_set]
  by_cases hik : i = x
  · subst hik
    have hlt : i < ns.length := (List.getElem?_eq_some.mp hi).1
    simp [hlt, hi, hc]
  · simp [hik]

theorem childAt_set_child {ns : List GLTF_Node} {i j : Nat} {nd : GLTF_Node} {v : Ptr}
    (hi : ns[i]? = some nd) (hj : j < nd.children.length) (k m : Nat) :
    childAt (ns.set i { nd with children := nd.children.set j v }) k m =
      if k = i ∧ m = j then some v else childAt ns k m := by
  unfold childAt
  rw [List.getElem?_set]
  have hlt : i < ns.length := (List.getElem?_eq_some.mp hi).1
  by_cases hik : i = k
  · subst hik
    simp only [hlt, ↓reduceIte, Option.some_bind, true_and, hi]
    rw [List.getElem?_set]
    by_cases hjm : j = m
    · subst hjm; simp [hj]
    · have : ¬ m = j := fun h => hjm h.symm
      simp [hjm, this]
  · have : ¬ k = i := fun h => hik h.symm
    simp [hik, this]

theorem parentAt_set_parent {ns : List GLTF_Node} {c : Nat} {nd : GLTF_Node} {p : Ptr}
    (hc : ns[c]? = some nd) (x : Nat) :
    parentAt (ns.set c { nd with parent := p }) x =
      if x = c then some p else parentAt ns x := by
  unfold parentAt
  rw [List.getElem?_set]
  have hlt : c < ns.length := (List.getElem?_eq_some.mp hc).1
  by_cases hcx : c = x
  · subst hcx; simp [hlt]
  · have : ¬ x = c := fun h => hcx h.symm
    simp [hcx, this]

/-- What a successful iteration of the inner loop of the node pass does. -/
theorem fixChildren_step {i n j : Nat} {ns ns2 : List GLTF_Node}
    (h : fixChildren i (n + 1) j ns = Fix.done ns2) :
    ∃ nd c child, ns[i]? = some nd ∧ nd.children[j]? = some (Ptr.index c) ∧ c < ns.length ∧
      (ns.set i { nd with children := nd.children.set j (Ptr.elem c) })[c]? = some child ∧
      child.parent = Ptr.null ∧
      fixChildren i n (j + 1)
        ((ns.set i { nd with children := nd.children.set j (Ptr.elem c) }).set c
          { child with parent := Ptr.elem i }) = Fix.done ns2 := by
  simp only [fixChildren] at h
  cases hnd : ns[i]? with
  | none => simp [hnd] at h
  | some nd =>
    simp only [hnd] at h
    cases hv : nd.children[j]? with
    | none => simp [hv] at h
    | some var =>
      simp only [hv] at h
      cases hfix : PTR_FIX_REQUIRED var ns.length with
      | ub => simp [hfix] at h
      | ret c v l => simp [hfix] at h
      | done v =>
        obtain ⟨c, hc, rfl, rfl⟩ := PTR_FIX_REQUIRED_done hfix
        simp only [hfix] at h
        cases hch : (ns.set i { nd with children := nd.children.set j (Ptr.elem c) })[c]? with
        | none => simp [hch] at h
        | some child =>
          simp only [hch] at h
          by_cases hp : child.parent = Ptr.null
          · simp only [hp, ne_eq, not_true_eq_false, ↓reduceIte] at h
            exact ⟨nd, c, child, rfl, hv, hc, hch, hp, h⟩
          · simp [hp] at h

theorem chLen_set_same {ns : List GLTF_Node} {i : Nat} {nd : GLTF_Node} (nd1 : GLTF_Node)
    (hi : ns[i]? = some nd) (hc : nd1.children.length = nd.children.length) (k : Nat) :
    chLen (ns.set i nd1) k = chLen ns k := by
  unfold chLen
  rw [List.getElem?_set]
  by_cases hik : i = k
  · subst hik
    have hlt : i < ns.length := (List.getElem?_eq_some.mp hi).1
    simp [hlt, hi, hc]
  · simp [hik]

theorem childAt_lt {ns : List GLTF_Node} {k m : Nat} {v : Ptr} (h : childAt ns k m = some v) :
    ∃ L, chLen ns k = some L ∧ m < L := by
  unfold childAt at h
  unfold chLen
  cases hk : ns[k]? with
  | none => simp [hk] at h
  | some nd =>
    simp only [hk, Option.some_bind] at h
    exact ⟨nd.children.length, rfl, (List.getElem?_eq_some.mp h).1⟩

theorem ParentInv_congr {ns0 : List GLTF_Node} {i j : Nat} (ns : List GLTF_Node)
    {ns1 : List GLTF_Node}
    (hc : ∀ k m, childAt ns1 k m = childAt ns k m) (hp : ∀ x, parentAt ns1 x = parentAt ns x)
    (h : ParentInv ns0 i j ns) : ParentInv ns0 i j ns1 := by
  obtain ⟨h1, h2, h3⟩ := h
  refine ⟨?_, ?_, ?_⟩
  · intro k m c hv hch
    rw [hp]; exact h1 k m c hv (by rw [← hc]; exact hch)
  · intro c p hpar
    rcases h2 c p (by rw [← hp]; exact hpar) with h | ⟨k, m, hv, hch, hpk⟩
    · exact Or.inl h
    · exact Or.inr ⟨k, m, hv, by rw [hc]; exact hch, hpk⟩
  · intro k m k1 m1 c hv hv1 hch hch1
    exact h3 k m k1 m1 c hv hv1 (by rw [← hc]; exact hch) (by rw [← hc]; exact hch1)

theorem ParentInv_step {ns0 : List GLTF_Node} {i j c : Nat} {ns : List GLTF_Node}
    {nd child : GLTF_Node}
    (hi : ns[i]? = some nd) (hj : nd.children[j]? = some (Ptr.index c))
    (hch : (ns.set i { nd with children := nd.children.set j (Ptr.elem c) })[c]? = some child)
    (hp : child.parent = Ptr.null) (hinv : ParentInv ns0 i j ns) :
    ParentInv ns0 i (j + 1)
      ((ns.set i { nd with children := nd.children.set j (Ptr.elem c) }).set c
        { child with parent := Ptr.elem i }) := by
  have hjlt : j < nd.children.length := (List.getElem?_eq_some.mp hj).1
  have F1 : ∀ k m, childAt ((ns.set i { nd with children := nd.children.set j (Ptr.elem c) }).set c
      { child with parent := Ptr.elem i }) k m =
      if k = i ∧ m = j then some (Ptr.elem c) else childAt ns k m := by
    intro k m
    rw [childAt_set_same { child with parent := Ptr.elem i } hch rfl, childAt_set_child hi hjlt]
  have F2 : ∀ x, parentAt ((ns.set i { nd with children := nd.children.set j (Ptr.elem c) }).set c
      { child with parent := Ptr.elem i }) x =
      if x = c then some (Ptr.elem i) else parentAt ns x := by
    intro x
    rw [parentAt_set_parent hch,
      parentAt_set_same { nd with children := nd.children.set j (Ptr.elem c) } hi rfl]
  have F3 : parentAt ns c = some Ptr.null := by
    rw [← parentAt_set_same { nd with children := nd.children.set j (Ptr.elem c) } hi rfl]
    unfold parentAt
    rw [hch]; simp [hp]
  have hold : ∀ k m, Visited i j k m → ¬ (k = i ∧ m = j) := by
    intro k m hv hkm
    rcases hv with h | ⟨_, h⟩ <;> omega
  have hsplit : ∀ k m, Visited i (j + 1) k m → Visited i j k m ∨ (k = i ∧ m = j) := by
    intro k m hv
    rcases hv with h | ⟨h1, h2⟩
    · exact Or.inl (Or.inl h)
    · by_cases hm : m = j
      · exact Or.inr ⟨h1, hm⟩
      · exact Or.inl (Or.inr ⟨h1, by omega⟩)
  have hmono : ∀ k m, Visited i j k m → Visited i (j + 1) k m := by
    intro k m hv
    rcases hv with h | ⟨h1, h2⟩
    · exact Or.inl h
    · exact Or.inr ⟨h1, by omega⟩
  obtain ⟨h1, h2, h3⟩ := hinv
  -- the child of an old visited slot is not `c`
  have hne : ∀ k m c1, Visited i j k m → childAt ns k m = some (Ptr.elem c1) → c1 ≠ c := by
    intro k m c1 hv hc1 heq
    subst heq
    have := h1 k m c1 hv hc1
    rw [F3] at this
    simp at this
  refine ⟨?_, ?_, ?_⟩
  · intro k m c1 hv hc1
    rw [F1] at hc1
    rw [F2]
    rcases hsplit k m hv with hv0 | hnew
    · rw [if_neg (hold k m hv0)] at hc1
      rw [if_neg (hne k m c1 hv0 hc1)]
      exact h1 k m c1 hv0 hc1
    · rw [if_pos hnew] at hc1
      simp only [Option.some.injEq, Ptr.elem.injEq] at hc1
      subst hc1
      simp [hnew.1]
  · intro x p hpar
    rw [F2] at hpar
    by_cases hx : x = c
    · subst hx
      simp only [↓reduceIte, Option.some.injEq] at hpar
      refine Or.inr ⟨i, j, Or.inr ⟨rfl, by omega⟩, ?_, hpar.symm⟩
      rw [F1]; simp
    · rw [if_neg hx] at hpar
      rcases h2 x p hpar with h | ⟨k, m, hv, hc1, hpk⟩
      · exact Or.inl h
      · refine Or.inr ⟨k, m, hmono k m hv, ?_, hpk⟩
        rw [F1, if_neg (hold k m hv)]; exact hc1
  · intro k m k1 m1 c1 hv hv1 hc1 hc2
    rw [F1] at hc1 hc2
    rcases hsplit k m hv with hv0 | hnew <;> rcases hsplit k1 m1 hv1 with hv10 | hnew1
    · rw [if_neg (hold k m hv0)] at hc1
      rw [if_neg (hold k1 m1 hv10)] at hc2
      exact h3 k m k1 m1 c1 hv0 hv10 hc1 hc2
    · rw [if_neg (hold k m hv0)] at hc1
      rw [if_pos hnew1] at hc2
      simp only [Option.some.injEq, Ptr.elem.injEq] at hc2
      exact absurd hc2.symm (hne k m c1 hv0 hc1)
    · rw [if_pos hnew] at hc1
      rw [if_neg (hold k1 m1 hv10)] at hc2
      simp only [Option.some.injEq, Ptr.elem.injEq] at hc1
      exact absurd hc1.symm (hne k1 m1 c1 hv10 hc2)
    · exact ⟨hnew.1.trans hnew1.1.symm, hnew.2.trans hnew1.2.symm⟩

theorem fixChildren_parentInv (ns0 : List GLTF_Node) (i : Nat) :
    ∀ (n j : Nat) (ns ns2 : List GLTF_Node), fixChildren i n j ns = Fix.done ns2 →
      ParentInv ns0 i j ns → ParentInv ns0 i (j + n) ns2 ∧ ∀ k, chLen ns2 k = chLen ns k
  | 0, j, ns, ns2, h, hinv => by
    simp only [fixChildren, Fix.done.injEq] at h
    subst h
    exact ⟨hinv, fun _ => rfl⟩
  | n + 1, j, ns, ns2, h, hinv => by
    obtain ⟨nd, c, child, hi, hj, hc, hch, hp, hrest⟩ := fixChildren_step h
    have hjlt : j < nd.children.length := (List.getElem?_eq_some.mp hj).1
    obtain ⟨ih1, ih2⟩ := fixChildren_parentInv ns0 i n (j + 1) _ ns2 hrest (ParentInv_step hi hj hch hp hinv)
    refine ⟨?_, ?_⟩
    · have : j + 1 + n = j + (n + 1) := by omega
      rw [← this]; exact ih1
    · intro k
      rw [ih2, chLen_set_same { child with parent := Ptr.elem i } hch rfl,
        chLen_set_same { nd with children := nd.children.set j (Ptr.elem c) } hi (by simp)]

theorem fixNodeSlots_frame {d : GLTF2} {nd v : GLTF_Node} (h : fixNodeSlots d nd = Fix.done v) :
    v.children = nd.children ∧ v.parent = nd.parent ∧
      SlotResolved d.meshes.length nd.mesh v.mesh ∧ SlotResolved d.skins.length nd.skin v.skin ∧
      SlotResolved d.cameras.length nd.camera v.camera := by
  unfold fixNodeSlots at h
  obtain ⟨n2, h2, h3⟩ := Fix.andThen_eq_done h
  obtain ⟨n1, h1, h2⟩ := Fix.andThen_eq_done h2
  obtain ⟨v1, hv1, rfl⟩ := Fix.map_eq_done h1
  obtain ⟨v2, hv2, rfl⟩ := Fix.map_eq_done h2
  obtain ⟨v3, hv3, rfl⟩ := Fix.map_eq_done h3
  exact ⟨rfl, rfl, PTR_FIX_done hv1, PTR_FIX_done hv2, PTR_FIX_done hv3⟩

theorem ParentInv_next {ns0 : List GLTF_Node} {i L : Nat} {ns : List GLTF_Node} (hL : chLen ns i = some L)
    (h : ParentInv ns0 i L ns) : ParentInv ns0 (i + 1) 0 ns := by
  have hto : ∀ k m, Visited i L k m → Visited (i + 1) 0 k m := by
    intro k m hv
    rcases hv with h | ⟨h1, _⟩
    · exact Or.inl (by omega)
    · exact Or.inl (by omega)
  have hfrom : ∀ k m v, Visited (i + 1) 0 k m → childAt ns k m = some v → Visited i L k m := by
    intro k m v hv hc
    rcases hv with h | ⟨_, h⟩
    · by_cases hk : k = i
      · subst hk
        obtain ⟨L1, hL1, hm⟩ := childAt_lt hc
        rw [hL] at hL1
        simp only [Option.some.injEq] at hL1
        subst hL1
        exact Or.inr ⟨rfl, hm⟩
      · exact Or.inl (by omega)
    · omega
  obtain ⟨h1, h2, h3⟩ := h
  refine ⟨?_, ?_, ?_⟩
  · intro k m c hv hc
    exact h1 k m c (hfrom k m _ hv hc) hc
  · intro c p hp
    rcases h2 c p hp with h | ⟨k, m, hv, hc, hpk⟩
    · exact Or.inl h
    · exact Or.inr ⟨k, m, hto k m hv, hc, hpk⟩
  · intro k m k1 m1 c hv hv1 hc hc1
    exact h3 k m k1 m1 c (hfrom k m _ hv hc) (hfrom k1 m1 _ hv1 hc1) hc hc1

theorem fixNode_parentInv {d : GLTF2} {ns0 : List GLTF_Node} {i : Nat} {ns ns2 : List GLTF_Node}
    (h : fixNode d i ns = Fix.done ns2) (hinv : ParentInv ns0 i 0 ns) :
    ParentInv ns0 (i + 1) 0 ns2 ∧ ∀ k, chLen ns2 k = chLen ns k := by
  unfold fixNode at h
  cases hnd : ns[i]? with
  | none => simp [hnd] at h
  | some nd =>
    simp only [hnd] at h
    obtain ⟨ns1, hch, hslots⟩ := Fix.andThen_eq_done h
    obtain ⟨hinv1, hlen1⟩ := fixChildren_parentInv ns0 i _ 0 ns ns1 hch hinv
    cases hnd1 : ns1[i]? with
    | none => simp [hnd1] at hslots
    | some nd1 =>
      simp only [hnd1] at hslots
      obtain ⟨v, hv, rfl⟩ := Fix.map_eq_done hslots
      obtain ⟨hvc, hvp, -⟩ := fixNodeSlots_frame hv
      have hlen2 : ∀ k, chLen (ns1.set i v) k = chLen ns k := by
        intro k
        rw [chLen_set_same v hnd1 (by rw [hvc]), hlen1]
      refine ⟨?_, hlen2⟩
      apply ParentInv_next (L := nd.children.length)
      · rw [hlen2]; unfold chLen; rw [hnd]; rfl
      · apply ParentInv_congr ns1
        · intro k m; exact childAt_set_same v hnd1 hvc k m
        · intro x; exact parentAt_set_same v hnd1 hvp x
        · simpa using hinv1

theorem fixNodes_parentInv (d : GLTF2) (ns0 : List GLTF_Node) :
    ∀ (n i : Nat) (ns ns2 : List GLTF_Node), fixNodes d n i ns = Fix.done ns2 →
      ParentInv ns0 i 0 ns → ParentInv ns0 (i + n) 0 ns2 ∧ ∀ k, chLen ns2 k = chLen ns k
  | 0, i, ns, ns2, h, hinv => by
    simp only [fixNodes, Fix.done.injEq] at h
    subst h
    exact ⟨hinv, fun _ => rfl⟩
  | n + 1, i, ns, ns2, h, hinv => by
    simp only [fixNodes] at h
    obtain ⟨ns1, h1, h2⟩ := Fix.andThen_eq_done h
    obtain ⟨hinv1, hlen1⟩ := fixNode_parentInv h1 hinv
    obtain ⟨hinv2, hlen2⟩ := fixNodes_parentInv d ns0 n (i + 1) ns1 ns2 h2 hinv1
    refine ⟨?_, fun k => by rw [hlen2, hlen1]⟩
    have : i + 1 + n = i + (n + 1) := by omega
    rw [← this]; exact hinv2

theorem slotsAt_set_same {ns : List GLTF_Node} {i : Nat} {nd : GLTF_Node} (nd1 : GLTF_Node)
    (hi : ns[i]? = some nd)
    (hc : nd1.mesh = nd.mesh ∧ nd1.skin = nd.skin ∧ nd1.camera = nd.camera) (k : Nat) :
    slotsAt (ns.set i nd1) k = slotsAt ns k := by
  unfold slotsAt
  rw [List.getElem?_set]
  by_cases hik : i = k
  · subst hik
    have hlt : i < ns.length := (List.getElem?_eq_some.mp hi).1
    simp [hlt, hi, hc.1, hc.2.1, hc.2.2]
  · simp [hik]

theorem SlotInv_step {d : GLTF2} {ns0 : List GLTF_Node} {i j c : Nat} {ns : List GLTF_Node}
    {nd child : GLTF_Node}
    (hi : ns[i]? = some nd) (hj : nd.children[j]? = some (Ptr.index c)) (hc : c < ns.length)
    (hch : (ns.set i { nd with children := nd.children.set j (Ptr.elem c) })[c]? = some child)
    (hinv : SlotInv d ns0 i j ns) :
    SlotInv d ns0 i (j + 1)
      ((ns.set i { nd with children := nd.children.set j (Ptr.elem c) }).set c
        { child with parent := Ptr.elem i }) := by
  have hjlt : j < nd.children.length := (List.getElem?_eq_some.mp hj).1
  have F1 : ∀ k m, childAt ((ns.set i { nd with children := nd.children.set j (Ptr.elem c) }).set c
      { child with parent := Ptr.elem i }) k m =
      if k = i ∧ m = j then some (Ptr.elem c) else childAt ns k m := by
    intro k m
    rw [childAt_set_same { child with parent := Ptr.elem i } hch rfl, childAt_set_child hi hjlt]
  have F4 : ∀ k, slotsAt ((ns.set i { nd with children := nd.children.set j (Ptr.elem c) }).set c
      { child with parent := Ptr.elem i }) k = slotsAt ns k := by
    intro k
    rw [slotsAt_set_same { child with parent := Ptr.elem i } hch ⟨rfl, rfl, rfl⟩,
      slotsAt_set_same { nd with children := nd.children.set j (Ptr.elem c) } hi ⟨rfl, rfl, rfl⟩]
  have F5 : childAt ns i j = some (Ptr.index c) := by
    unfold childAt; rw [hi]; exact hj
  have hold : ∀ k m, Visited i j k m → ¬ (k = i ∧ m = j) := by
    intro k m hv hkm
    rcases hv with h | ⟨_, h⟩ <;> omega
  have hnot : ¬ Visited i j i j := by
    intro hv
    rcases hv with h | ⟨_, h⟩ <;> omega
  obtain ⟨h1, h2, h3, h4, h5, h6⟩ := hinv
  refine ⟨?_, ?_, ?_, ?_, ?_, ?_⟩
  · rw [List.length_set, List.length_set]; exact h1
  · intro k
    rw [chLen_set_same { child with parent := Ptr.elem i } hch rfl,
      chLen_set_same { nd with children := nd.children.set j (Ptr.elem c) } hi (by simp)]
    exact h2 k
  · intro k m hv v0 hv0
    rw [F1]
    by_cases hnew : k = i ∧ m = j
    · obtain ⟨rfl, rfl⟩ := hnew
      have := h4 k m hnot
      rw [F5, hv0] at this
      simp only [Option.some.injEq] at this
      exact ⟨c, by omega, this.symm, by simp⟩
    · rw [if_neg hnew]
      apply h3 k m _ v0 hv0
      rcases hv with h | ⟨hk, hm⟩
      · exact Or.inl h
      · exact Or.inr ⟨hk, by omega⟩
  · intro k m hv
    have hv0 : ¬ Visited i j k m := by
      intro h
      apply hv
      rcases h with h | ⟨hk, hm⟩
      · exact Or.inl h
      · exact Or.inr ⟨hk, by omega⟩
    have hnew : ¬ (k = i ∧ m = j) := by
      intro h
      exact hv (Or.inr ⟨h.1, by omega⟩)
    rw [F1, if_neg hnew]
    exact h4 k m hv0
  · intro k nd0 hk hnd0
    rw [F4]; exact h5 k nd0 hk hnd0
  · intro k hk
    rw [F4]; exact h6 k hk

theorem fixChildren_slotInv (d : GLTF2) (ns0 : List GLTF_Node) (i : Nat) :
    ∀ (n j : Nat) (ns ns2 : List GLTF_Node), fixChildren i n j ns = Fix.done ns2 →
      SlotInv d ns0 i j ns → SlotInv d ns0 i (j + n) ns2
  | 0, j, ns, ns2, h, hinv => by
    simp only [fixChildren, Fix.done.injEq] at h
    subst h
    exact hinv
  | n + 1, j, ns, ns2, h, hinv => by
    obtain ⟨nd, c, child, hi, hj, hc, hch, hp, hrest⟩ := fixChildren_step h
    have ih := fixChildren_slotInv d ns0 i n (j + 1) _ ns2 hrest (SlotInv_step hi hj hc hch hinv)
    have : j + 1 + n = j + (n + 1) := by omega
    rw [← this]; exact ih

theorem fixNode_slotInv {d : GLTF2} {ns0 : List GLTF_Node} {i : Nat} {ns ns2 : List GLTF_Node}
    (h : fixNode d i ns = Fix.done ns2) (hinv : SlotInv d ns0 i 0 ns) :
    SlotInv d ns0 (i + 1) 0 ns2 := by
  unfold fixNode at h
  cases hnd : ns[i]? with
  | none => simp [hnd] at h
  | some nd =>
    simp only [hnd] at h
    obtain ⟨ns1, hch, hslots⟩ := Fix.andThen_eq_done h
    have hinv1 := fixChildren_slotInv d ns0 i _ 0 ns ns1 hch hinv
    simp only [Nat.zero_add] at hinv1
    cases hnd1 : ns1[i]? with
    | none => simp [hnd1] at hslots
    | some nd1 =>
      simp only [hnd1] at hslots
      obtain ⟨v, hv, rfl⟩ := Fix.map_eq_done hslots
      obtain ⟨hvc, hvp, hmesh, hskin, hcam⟩ := fixNodeSlots_frame hv
      have hL : chLen ns0 i = some nd.children.length := by
        rw [← hinv.2.1 i]; unfold chLen; rw [hnd]; rfl
      obtain ⟨h1, h2, h3, h4, h5, h6⟩ := hinv1
      have hlt : i < ns1.length := (List.getElem?_eq_some.mp hnd1).1
      have hsl : ∀ k, slotsAt (ns1.set i v) k =
          if k = i then some (v.mesh, v.skin, v.camera) else slotsAt ns1 k := by
        intro k
        unfold slotsAt
        rw [List.getElem?_set]
        by_cases hik : i = k
        · subst hik; simp [hlt]
        · have : ¬ k = i := fun h => hik h.symm
          simp [hik, this]
      refine ⟨?_, ?_, ?_, ?_, ?_, ?_⟩
      · rw [List.length_set]; exact h1
      · intro k
        rw [chLen_set_same v hnd1 (by rw [hvc])]; exact h2 k
      · intro k m hvis v0 hv0
        rw [childAt_set_same v hnd1 hvc]
        apply h3 k m _ v0 hv0
        rcases hvis with h | ⟨_, h⟩
        · by_cases hk : k = i
          · subst hk
            obtain ⟨L1, hL1, hm⟩ := childAt_lt hv0
            rw [hL] at hL1
            simp only [Option.some.injEq] at hL1
            subst hL1
            exact Or.inr ⟨rfl, hm⟩
          · exact Or.inl (by omega)
        · omega
      · intro k m hvis
        rw [childAt_set_same v hnd1 hvc]
        apply h4 k m
        intro h
        apply hvis
        rcases h with h | ⟨h, _⟩
        · exact Or.inl (by omega)
        · exact Or.inl (by omega)
      · intro k nd0 hk hnd0
        rw [hsl]
        by_cases hki : k = i
        · subst hki
          rw [if_pos rfl]
          have h6k := h6 k (Nat.le_refl k)
          unfold slotsAt at h6k
          rw [hnd1, hnd0] at h6k
          simp only [Option.map_some', Option.some.injEq, Prod.mk.injEq] at h6k
          refine ⟨_, rfl, ?_, ?_, ?_⟩
          · rw [← h6k.1]; exact hmesh
          · rw [← h6k.2.1]; exact hskin
          · rw [← h6k.2.2]; exact hcam
        · rw [if_neg hki]
          exact h5 k nd0 (by omega) hnd0
      · intro k hk
        rw [hsl, if_neg (by omega)]
        exact h6 k (by omega)

theorem fixNodes_slotInv (d : GLTF2) (ns0 : List GLTF_Node) :
    ∀ (n i : Nat) (ns ns2 : List GLTF_Node), fixNodes d n i ns = Fix.done ns2 →
      SlotInv d ns0 i 0 ns → SlotInv d ns0 (i + n) 0 ns2
  | 0, i, ns, ns2, h, hinv => by
    simp only [fixNodes, Fix.done.injEq] at h
    subst h
    exact hinv
  | n + 1, i, ns, ns2, h, hinv => by
    simp only [fixNodes] at h
    obtain ⟨ns1, h1, h2⟩ := Fix.andThen_eq_done h
    have ih := fixNodes_slotInv d ns0 n (i + 1) ns1 ns2 h2 (fixNode_slotInv h1 hinv)
    have : i + 1 + n = i + (n + 1) := by omega
    rw [← this]; exact ih

theorem SlotInv_init (d : GLTF2) (ns0 : List GLTF_Node) : SlotInv d ns0 0 0 ns0 := by
  refine ⟨rfl, fun _ => rfl, ?_, fun _ _ _ => rfl, ?_, fun _ _ => rfl⟩
  · intro k m hv
    rcases hv with h | ⟨_, h⟩ <;> omega
  · intro k nd0 hk
    omega

theorem SlotInv_final {d : GLTF2} {ns0 ns : List GLTF_Node}
    (h : SlotInv d ns0 ns0.length 0 ns) :
    List.Forall₂ (fun n m => List.Forall₂ (SlotRequired ns0.length) n.children m.children ∧
      SlotResolved d.meshes.length n.mesh m.mesh ∧ SlotResolved d.skins.length n.skin m.skin ∧
      SlotResolved d.cameras.length n.camera m.camera) ns0 ns := by
  obtain ⟨h1, h2, h3, h4, h5, h6⟩ := h
  rw [List.forall₂_iff_get]
  refine ⟨h1.symm, ?_⟩
  intro k hk0 hk
  have e0 : ns0[k]? = some (ns0.get ⟨k, hk0⟩) := by
    rw [List.getElem?_eq_getElem hk0]; rfl
  have e1 : ns[k]? = some (ns.get ⟨k, hk⟩) := by
    rw [List.getElem?_eq_getElem hk]; rfl
  obtain ⟨s, hs, hm, hsk, hc⟩ := h5 k _ hk0 e0
  unfold slotsAt at hs
  rw [e1] at hs
  simp only [Option.map_some', Option.some.injEq] at hs
  subst hs
  refine ⟨?_, hm, hsk, hc⟩
  have hlen := h2 k
  unfold chLen at hlen
  rw [e0, e1] at hlen
  simp only [Option.map_some', Option.some.injEq] at hlen
  rw [List.forall₂_iff_get]
  refine ⟨hlen.symm, ?_⟩
  intro m hm0 hm1
  have c0 : childAt ns0 k m = some ((ns0.get ⟨k, hk0⟩).children.get ⟨m, hm0⟩) := by
    unfold childAt; rw [e0]
    simp only [Option.some_bind]
    rw [List.getElem?_eq_getElem hm0]; rfl
  have c1 : childAt ns k m = some ((ns.get ⟨k, hk⟩).children.get ⟨m, hm1⟩) := by
    unfold childAt; rw [e1]
    simp only [Option.some_bind]
    rw [List.getElem?_eq_getElem hm1]; rfl
  obtain ⟨c, hc, hv0, hv1⟩ := h3 k m (Or.inl hk0) _ c0
  rw [c1] at hv1
  simp only [Option.some.injEq] at hv1
  exact ⟨c, hc, hv0, hv1⟩

theorem fixTexture_done {d : GLTF2} {t u : GLTF_Texture}
    (h : fixTexture d t = Fix.done u) : TextureResolved d t u := by
  unfold fixTexture at h
  obtain ⟨t1, h1, h2⟩ := Fix.andThen_eq_done h
  obtain ⟨v1, hv1, rfl⟩ := Fix.map_eq_done h1
  obtain ⟨v2, hv2, rfl⟩ := Fix.map_eq_done h2
  exact ⟨PTR_FIX_done hv1, PTR_FIX_done hv2⟩

theorem fixTextureView_done {d : GLTF2} {t u : GLTF_TextureView}
    (h : fixTextureView d t = Fix.done u) : SlotResolved d.textures.length t.texture u.texture := by
  obtain ⟨v, hv, rfl⟩ := Fix.map_eq_done h
  exact PTR_FIX_done hv

theorem fixMaterial_done {d : GLTF2} {m n : GLTF_Material}
    (h : fixMaterial d m = Fix.done n) : MaterialResolved d m n := by
  unfold fixMaterial at h
  obtain ⟨m4, h4, h5⟩ := Fix.andThen_eq_done h
  obtain ⟨m3, h3, h4⟩ := Fix.andThen_eq_done h4
  obtain ⟨m2, h2, h3⟩ := Fix.andThen_eq_done h3
  obtain ⟨m1, h1, h2⟩ := Fix.andThen_eq_done h2
  obtain ⟨v1, hv1, rfl⟩ := Fix.map_eq_done h1
  obtain ⟨v2, hv2, rfl⟩ := Fix.map_eq_done h2
  obtain ⟨v3, hv3, rfl⟩ := Fix.map_eq_done h3
  obtain ⟨v4, hv4, rfl⟩ := Fix.map_eq_done h4
  obtain ⟨v5, hv5, rfl⟩ := Fix.map_eq_done h5
  exact ⟨fixTextureView_done hv1, fixTextureView_done hv2, fixTextureView_done hv3,
    fixTextureView_done hv4, fixTextureView_done hv5⟩

theorem fixSkin_done {d : GLTF2} {s t : GLTF_Skin}
    (h : fixSkin d s = Fix.done t) : SkinResolved d s t := by
  unfold fixSkin at h
  obtain ⟨s2, h2, h3⟩ := Fix.andThen_eq_done h
  obtain ⟨s1, h1, h2⟩ := Fix.andThen_eq_done h2
  obtain ⟨v1, hv1, rfl⟩ := Fix.map_eq_done h1
  obtain ⟨v2, hv2, rfl⟩ := Fix.map_eq_done h2
  obtain ⟨v3, hv3, rfl⟩ := Fix.map_eq_done h3
  exact ⟨fixAll_imp hv1 (fun a b hab => PTR_FIX_REQUIRED_done hab), PTR_FIX_done hv2,
    PTR_FIX_done hv3⟩

theorem fixRoot_done {ns : List GLTF_Node} {var v : Ptr} (h : fixRoot ns var = Fix.done v) :
    SlotRequired ns.length var v ∧ ∃ c nd, v = Ptr.elem c ∧ ns[c]? = some nd ∧ nd.parent = Ptr.null := by
  unfold fixRoot at h
  cases hfix : PTR_FIX_REQUIRED var ns.length with
  | ub => simp [hfix] at h
  | ret c w l => simp [hfix] at h
  | done w =>
    obtain ⟨c, hc, rfl, rfl⟩ := PTR_FIX_REQUIRED_done hfix
    simp only [hfix] at h
    cases hnd : ns[c]? with
    | none => simp [hnd] at h
    | some nd =>
      simp only [hnd] at h
      by_cases hp : nd.parent = Ptr.null
      · simp only [hp, ne_eq, not_true_eq_false, ↓reduceIte, Fix.done.injEq] at h
        subst h
        exact ⟨⟨c, hc, rfl, rfl⟩, c, nd, rfl, hnd, hp⟩
      · simp [hp] at h

theorem fixAnimation_done {d : GLTF2} {a b : GLTF_Animation}
    (h : fixAnimation d a = Fix.done b) : AnimationResolved d a b := by
  unfold fixAnimation at h
  obtain ⟨a1, h1, h2⟩ := Fix.andThen_eq_done h
  obtain ⟨v1, hv1, rfl⟩ := Fix.map_eq_done h1
  obtain ⟨v2, hv2, rfl⟩ := Fix.map_eq_done h2
  have hlen : v1.length = a.samplers.length := (fixAll_eq_done hv1).length_eq.symm
  refine ⟨?_, ?_⟩
  · exact fixAll_imp hv1 (fun s t hst => by
      unfold fixAnimationSampler at hst
      obtain ⟨s1, hs1, hs2⟩ := Fix.andThen_eq_done hst
      obtain ⟨w1, hw1, rfl⟩ := Fix.map_eq_done hs1
      obtain ⟨w2, hw2, rfl⟩ := Fix.map_eq_done hs2
      exact ⟨PTR_FIX_REQUIRED_done hw1, PTR_FIX_REQUIRED_done hw2⟩)
  · exact fixAll_imp hv2 (fun c e hce => by
      unfold fixAnimationChannel at hce
      obtain ⟨c1, hc1, hc2⟩ := Fix.andThen_eq_done hce
      obtain ⟨w1, hw1, rfl⟩ := Fix.map_eq_done hc1
      obtain ⟨w2, hw2, rfl⟩ := Fix.map_eq_done hc2
      have hw1a : PTR_FIX_REQUIRED c.sampler a.samplers.length = Fix.done w1 := by
        rw [← hlen]; exact hw1
      exact ⟨PTR_FIX_REQUIRED_done hw1a, PTR_FIX_done hw2⟩)

/-- The passes of a successful run of the resolver, one by one. -/
theorem fixPasses_done {d e : GLTF2} (h : fixPasses d = Fix.done e) :
    ∃ ms acs ts ims mats bvs sks ns scs sc ans,
      fixAll (fixMesh d) d.meshes = Fix.done ms ∧
      fixAll (fixAccessor d) d.accessors = Fix.done acs ∧
      fixAll (fixTexture d) d.textures = Fix.done ts ∧
      fixAll (fixImage d) d.images = Fix.done ims ∧
      fixAll (fixMaterial d) d.materials = Fix.done mats ∧
      fixAll (fixBufferView d) d.bufferViews = Fix.done bvs ∧
      fixAll (fixSkin d) d.skins = Fix.done sks ∧
      fixNodes d d.nodes.length 0 d.nodes = Fix.done ns ∧
      fixAll (fixScene ns) d.scenes = Fix.done scs ∧
      PTR_FIX d.scene scs.length = Fix.done sc ∧
      fixAll (fixAnimation d) d.animations = Fix.done ans ∧
      e = { d with meshes := ms, accessors := acs, textures := ts, images := ims,
                   materials := mats, bufferViews := bvs, skins := sks, nodes := ns,
                   scenes := scs, scene := sc, animations := ans } := by
  unfold fixPasses at h
  obtain ⟨d10, h10, h11⟩ := Fix.andThen_eq_done h
  obtain ⟨d9, h9, h10⟩ := Fix.andThen_eq_done h10
  obtain ⟨d8, h8, h9⟩ := Fix.andThen_eq_done h9
  obtain ⟨d7, h7, h8⟩ := Fix.andThen_eq_done h8
  obtain ⟨d6, h6, h7⟩ := Fix.andThen_eq_done h7
  obtain ⟨d5, h5, h6⟩ := Fix.andThen_eq_done h6
  obtain ⟨d4, h4, h5⟩ := Fix.andThen_eq_done h5
  obtain ⟨d3, h3, h4⟩ := Fix.andThen_eq_done h4
  obtain ⟨d2, h2, h3⟩ := Fix.andThen_eq_done h3
  obtain ⟨d1, h1, h2⟩ := Fix.andThen_eq_done h2
  obtain ⟨ms, hms, rfl⟩ := Fix.map_eq_done h1
  obtain ⟨acs, hacs, rfl⟩ := Fix.map_eq_done h2
  obtain ⟨ts, hts, rfl⟩ := Fix.map_eq_done h3
  obtain ⟨ims, hims, rfl⟩ := Fix.map_eq_done h4
  obtain ⟨mats, hmats, rfl⟩ := Fix.map_eq_done h5
  obtain ⟨bvs, hbvs, rfl⟩ := Fix.map_eq_done h6
  obtain ⟨sks, hsks, rfl⟩ := Fix.map_eq_done h7
  obtain ⟨ns, hns, rfl⟩ := Fix.map_eq_done h8
  obtain ⟨scs, hscs, rfl⟩ := Fix.map_eq_done h9
  obtain ⟨sc, hsc, rfl⟩ := Fix.map_eq_done h10
  obtain ⟨ans, hans, rfl⟩ := Fix.map_eq_done h11
  exact ⟨ms, acs, ts, ims, mats, bvs, sks, ns, scs, sc, ans, hms, hacs, hts, hims, hmats, hbvs,
    hsks, hns, hscs, hsc, hans, rfl⟩

theorem fixChildren_codes (i : Nat) :
    ∀ (n j : Nat) (ns : List GLTF_Node), (fixChildren i n j ns).Codes
  | 0, j, ns => Fix.codes_done _
  | n + 1, j, ns => by
    intro c v l h
    simp only [fixChildren] at h
    cases hnd : ns[i]? with
    | none => simp [hnd] at h
    | some nd =>
      simp only [hnd] at h
      cases hv : nd.children[j]? with
      | none => simp [hv] at h
      | some var =>
        simp only [hv] at h
        cases hfix : PTR_FIX_REQUIRED var ns.length with
        | ub => simp [hfix] at h
        | ret c1 v1 l1 =>
          simp only [hfix, Fix.ret.injEq] at h
          obtain ⟨rfl, -, -⟩ := h
          exact PTR_FIX_REQUIRED_codes _ _ _ _ _ hfix
        | done w =>
          obtain ⟨c2, hc2, rfl, rfl⟩ := PTR_FIX_REQUIRED_done hfix
          simp only [hfix] at h
          cases hch : (ns.set i { nd with children := nd.children.set j (Ptr.elem c2) })[c2]? with
          | none => simp [hch] at h
          | some child =>
            simp only [hch] at h
            by_cases hp : child.parent = Ptr.null
            · simp only [hp, ne_eq, not_true_eq_false, ↓reduceIte] at h
              exact fixChildren_codes i n (j + 1) _ _ _ _ h
            · simp only [ne_eq, hp, not_false_eq_true, ↓reduceIte, Fix.ret.injEq] at h
              exact Or.inr h.1.symm

theorem fixNodeSlots_codes (d : GLTF2) (nd : GLTF_Node) : (fixNodeSlots d nd).Codes := by
  unfold fixNodeSlots
  exact Fix.codes_andThen (Fix.codes_andThen (Fix.codes_map (PTR_FIX_codes _ _))
    (fun _ => Fix.codes_map (PTR_FIX_codes _ _))) (fun _ => Fix.codes_map (PTR_FIX_codes _ _))

theorem fixNode_codes (d : GLTF2) (i : Nat) (ns : List GLTF_Node) : (fixNode d i ns).Codes := by
  unfold fixNode
  cases ns[i]? with
  | none => exact Fix.codes_ub
  | some nd =>
    refine Fix.codes_andThen (fixChildren_codes i _ _ _) (fun ns1 => ?_)
    cases ns1[i]? with
    | none => exact Fix.codes_ub
    | some nd1 => exact Fix.codes_map (fixNodeSlots_codes d nd1)

theorem fixNodes_codes (d : GLTF2) : ∀ (n i : Nat) (ns : List GLTF_Node), (fixNodes d n i ns).Codes
  | 0, i, ns => Fix.codes_done _
  | n + 1, i, ns => by
    simp only [fixNodes]
    exact Fix.codes_andThen (fixNode_codes d i ns) (fun ns1 => fixNodes_codes d n (i + 1) ns1)

theorem fixRoot_codes (ns : List GLTF_Node) (var : Ptr) : (fixRoot ns var).Codes := by
  intro c v l h
  unfold fixRoot at h
  cases hfix : PTR_FIX_REQUIRED var ns.length with
  | ub => simp [hfix] at h
  | ret c1 v1 l1 =>
    simp only [hfix, Fix.ret.injEq] at h
    obtain ⟨rfl, -, -⟩ := h
    exact PTR_FIX_REQUIRED_codes _ _ _ _ _ hfix
  | done w =>
    obtain ⟨c2, hc2, rfl, rfl⟩ := PTR_FIX_REQUIRED_done hfix
    simp only [hfix] at h
    cases hnd : ns[c2]? with
    | none => simp [hnd] at h
    | some nd =>
      simp only [hnd] at h
      by_cases hp : nd.parent = Ptr.null
      · simp [hp] at h
      · simp only [ne_eq, hp, not_false_eq_true, ↓reduceIte, Fix.ret.injEq] at h
        exact Or.inr h.1.symm

theorem fixPasses_codes (d : GLTF2) : (fixPasses d).Codes := by
  unfold fixPasses
  have hp : ∀ v n, (PTR_FIX v n).Codes := PTR_FIX_codes
  have hr : ∀ v n, (PTR_FIX_REQUIRED v n).Codes := PTR_FIX_REQUIRED_codes
  refine Fix.codes_andThen (Fix.codes_andThen (Fix.codes_andThen (Fix.codes_andThen
    (Fix.codes_andThen (Fix.codes_andThen (Fix.codes_andThen (Fix.codes_andThen
    (Fix.codes_andThen (Fix.codes_andThen (Fix.codes_map (fixAll_codes ?_ _))
    (fun _ => Fix.codes_map (fixAll_codes ?_ _)))
    (fun _ => Fix.codes_map (fixAll_codes ?_ _)))
    (fun _ => Fix.codes_map (fixAll_codes ?_ _)))
    (fun _ => Fix.codes_map (fixAll_codes ?_ _)))
    (fun _ => Fix.codes_map (fixAll_codes ?_ _)))
    (fun _ => Fix.codes_map (fixAll_codes ?_ _)))
    (fun _ => Fix.codes_map (fixNodes_codes d _ _ _)))
    (fun _ => Fix.codes_map (fixAll_codes ?_ _)))
    (fun _ => Fix.codes_map (hp _ _)))
    (fun _ => Fix.codes_map (fixAll_codes ?_ _))
  · intro m
    exact Fix.codes_map (fixAll_codes (fun p => by
      unfold fixPrimitive
      exact Fix.codes_andThen (Fix.codes_andThen (Fix.codes_andThen (Fix.codes_map (hp _ _))
        (fun _ => Fix.codes_map (hp _ _)))
        (fun _ => Fix.codes_map (fixAll_codes (fun a => Fix.codes_map (hp _ _)) _)))
        (fun _ => Fix.codes_map (fixAll_codes (fun t => Fix.codes_map
          (fixAll_codes (fun a => Fix.codes_map (hr _ _)) _)) _))) _)
  · intro a
    unfold fixAccessor
    refine Fix.codes_andThen (Fix.codes_andThen (Fix.codes_andThen (Fix.codes_map (hp _ _))
      (fun a1 => ?_)) (fun a2 => ?_)) (fun _ => Fix.codes_done _)
    · split
      · unfold fixSparse
        exact Fix.codes_map (Fix.codes_andThen (Fix.codes_map (hr _ _))
          (fun _ => Fix.codes_map (hr _ _)))
      · exact Fix.codes_done _
    · unfold accessorStrideFromView
      split
      · exact Fix.codes_done _
      · split
        · exact Fix.codes_done _
        · exact Fix.codes_ub
      · exact Fix.codes_ub
  · intro t
    unfold fixTexture
    exact Fix.codes_andThen (Fix.codes_map (hp _ _)) (fun _ => Fix.codes_map (hp _ _))
  · intro im
    exact Fix.codes_map (hp _ _)
  · intro m
    unfold fixMaterial fixTextureView
    exact Fix.codes_andThen (Fix.codes_andThen (Fix.codes_andThen (Fix.codes_andThen
      (Fix.codes_map (Fix.codes_map (hp _ _)))
      (fun _ => Fix.codes_map (Fix.codes_map (hp _ _))))
      (fun _ => Fix.codes_map (Fix.codes_map (hp _ _))))
      (fun _ => Fix.codes_map (Fix.codes_map (hp _ _))))
      (fun _ => Fix.codes_map (Fix.codes_map (hp _ _)))
  · intro bv
    exact Fix.codes_map (hr _ _)
  · intro sk
    unfold fixSkin
    exact Fix.codes_andThen (Fix.codes_andThen
      (Fix.codes_map (fixAll_codes (fun j => hr _ _) _))
      (fun _ => Fix.codes_map (hp _ _))) (fun _ => Fix.codes_map (hp _ _))
  · intro sc
    exact Fix.codes_map (fixAll_codes (fun r => fixRoot_codes _ r) _)
  · intro an
    unfold fixAnimation
    exact Fix.codes_andThen (Fix.codes_map (fixAll_codes (fun s => by
        unfold fixAnimationSampler
        exact Fix.codes_andThen (Fix.codes_map (hr _ _)) (fun _ => Fix.codes_map (hr _ _))) _))
      (fun _ => Fix.codes_map (fixAll_codes (fun c => by
        unfold fixAnimationChannel
        exact Fix.codes_andThen (Fix.codes_map (hr _ _)) (fun _ => Fix.codes_map (hp _ _))) _))

/-- When `internal_fix_pointers` returns `1`, every pass ran to its end. -/
theorem fixPasses_of_success {d e : GLTF2} {l : List String}
    (h : internal_fix_pointers d = some (1, e, l)) : fixPasses d = Fix.done e := by
  unfold internal_fix_pointers at h
  cases hp : fixPasses d with
  | done v =>
    simp only [hp, Option.some.injEq, Prod.mk.injEq, true_and] at h
    rw [h.1]
  | ret c v l1 =>
    simp only [hp, Option.some.injEq, Prod.mk.injEq] at h
    obtain ⟨rfl, -, -⟩ := h
    rcases fixPasses_codes d _ _ _ hp with h0 | h0 <;> omega
  | ub => simp [hp] at h

theorem ParentInv_init (ns0 : List GLTF_Node) : ParentInv ns0 0 0 ns0 := by
  refine ⟨?_, fun _ _ h => Or.inl h, ?_⟩
  · intro k m c hv
    rcases hv with h | ⟨_, h⟩ <;> omega
  · intro k m k1 m1 c hv
    rcases hv with h | ⟨_, h⟩ <;> omega

/-- The parents and the child slots after a successful run of the resolver. -/
theorem parentInv_of_success {d e : GLTF2} {l : List String}
    (h : internal_fix_pointers d = some (1, e, l)) :
    e.nodes.length = d.nodes.length ∧ ParentInv d.nodes d.nodes.length 0 e.nodes := by
  obtain ⟨ms, acs, ts, ims, mats, bvs, sks, ns, scs, sc, ans, -, -, -, -, -, -, -, hns, -, -, -,
    rfl⟩ := fixPasses_done (fixPasses_of_success h)
  have h1 := (fixNodes_parentInv d d.nodes d.nodes.length 0 d.nodes ns hns (ParentInv_init _)).1
  have h2 := (fixNodes_slotInv d d.nodes d.nodes.length 0 d.nodes ns hns (SlotInv_init _ _)).1
  simp only [Nat.zero_add] at h1
  exact ⟨h2, h1⟩

theorem childAt_of_mem {ns : List GLTF_Node} {i : Nat} {nd : GLTF_Node} {p : Ptr}
    (hi : ns[i]? = some nd) (hp : p ∈ nd.children) : ∃ m, childAt ns i m = some p := by
  obtain ⟨m, hm⟩ := List.getElem?_of_mem hp
  exact ⟨m, by unfold childAt; rw [hi]; exact hm⟩

theorem mem_of_childAt {ns : List GLTF_Node} {i m : Nat} {p : Ptr}
    (h : childAt ns i m = some p) : ∃ nd, ns[i]? = some nd ∧ p ∈ nd.children := by
  unfold childAt at h
  cases hi : ns[i]? with
  | none => simp [hi] at h
  | some nd =>
    simp only [hi, Option.some_bind] at h
    exact ⟨nd, rfl, List.getElem?_mem h⟩

/-- The nodes after a successful run of the resolver, slot by slot. -/
theorem assetResolved_of_success {d e : GLTF2} {l : List String}
    (h : internal_fix_pointers d = some (1, e, l)) : AssetResolved d e := by
  obtain ⟨ms, acs, ts, ims, mats, bvs, sks, ns, scs, sc, ans, hms, hacs, hts, hims, hmats, hbvs,
    hsks, hns, hscs, hsc, hans, rfl⟩ := fixPasses_done (fixPasses_of_success h)
  have hinv := fixNodes_slotInv d d.nodes d.nodes.length 0 d.nodes ns hns (SlotInv_init _ _)
  simp only [Nat.zero_add] at hinv
  have hlen : ns.length = d.nodes.length := hinv.1
  have hslen : scs.length = d.scenes.length := (fixAll_eq_done hscs).length_eq.symm
  refine ⟨?_, ?_, ?_, ?_, ?_, ?_, ?_, ?_, ?_, ?_, ?_⟩
  · exact fixAll_imp hms (fun _ _ hx => fixMesh_done hx)
  · exact fixAll_imp hacs (fun _ _ hx => fixAccessor_done hx)
  · exact fixAll_imp hts (fun _ _ hx => fixTexture_done hx)
  · exact fixAll_imp hims (fun _ _ hx => by
      obtain ⟨v, hv, rfl⟩ := Fix.map_eq_done hx
      exact PTR_FIX_done hv)
  · exact fixAll_imp hmats (fun _ _ hx => fixMaterial_done hx)
  · exact fixAll_imp hbvs (fun _ _ hx => by
      obtain ⟨v, hv, rfl⟩ := Fix.map_eq_done hx
      exact PTR_FIX_REQUIRED_done hv)
  · exact fixAll_imp hsks (fun _ _ hx => fixSkin_done hx)
  · exact SlotInv_final hinv
  · exact fixAll_imp hscs (fun s t hx => by
      obtain ⟨v, hv, rfl⟩ := Fix.map_eq_done hx
      exact fixAll_imp hv (fun a b hab => by
        have := (fixRoot_done hab).1
        rw [hlen] at this
        exact this))
  · have : PTR_FIX d.scene d.scenes.length = Fix.done sc := by rw [← hslen]; exact hsc
    exact PTR_FIX_done this
  · exact fixAll_imp hans (fun _ _ hx => fixAnimation_done hx)

/-- The encoding of the walker: for an index `i` that fits an `int`, the slot
receives `i + 1`, the deferred index `i`. -/
theorem PTR_TO_INDEX_of_index (i : Int) (h0 : 0 ≤ i) (h1 : i < 2147483648) :
    PTR_TO_INDEX i = Ptr.index i.toNat := by
  unfold PTR_TO_INDEX
  have e1 : i % 18446744073709551616 = i := Int.emod_eq_of_lt h0 (by omega)
  have e2 : (i.toNat + 1) % 18446744073709551616 = i.toNat + 1 := Nat.mod_eq_of_lt (by omega)
  simp only [e1, e2]
  simp

@[simp] theorem R.bind_def {α β : Type} (x : R α) (f : α → R β) : (x >>= f) = R.bind x f := rfl

@[simp] theorem R.pure_def {α : Type} (v : α) : (pure v : R α) = R.ok v [] := rfl

theorem R.bind_eq_ok {α β : Type} {x : R α} {f : α → R β} {v : β} {l : List String}
    (h : R.bind x f = R.ok v l) : ∃ a l1 l2, x = R.ok a l1 ∧ f a = R.ok v l2 ∧ l = l1 ++ l2 := by
  cases x with
  | ok a l1 =>
    simp only [R.bind] at h
    cases hf : f a with
    | ok w l2 =>
      rw [hf] at h
      simp only [R.ok.injEq] at h
      exact ⟨a, l1, l2, rfl, by rw [hf, h.1], h.2.symm⟩
    | err c l2 => rw [hf] at h; cases h
    | ub => rw [hf] at h; cases h
  | err c l1 => simp [R.bind] at h
  | ub => simp [R.bind] at h

/-- A property of the record that every iteration of a key loop keeps is kept
by the loop. -/
theorem forLoop_inv {σ : Type} (P : σ → Prop) (body : Nat → σ → R (Nat × σ))
    (hbody : ∀ tk s tk1 s1 l, body tk s = R.ok (tk1, s1) l → P s → P s1) :
    ∀ (n tk : Nat) (s : σ) (tk1 : Nat) (s1 : σ) (l : List String),
      forLoop n body tk s = R.ok (tk1, s1) l → P s → P s1
  | 0, tk, s, tk1, s1, l, h, hP => by
    simp only [forLoop, R.ok.injEq, Prod.mk.injEq] at h
    obtain ⟨⟨-, rfl⟩, -⟩ := h
    exact hP
  | n + 1, tk, s, tk1, s1, l, h, hP => by
    simp only [forLoop, R.bind_def] at h
    obtain ⟨⟨tk2, s2⟩, l1, l2, h1, h2, -⟩ := R.bind_eq_ok h
    exact forLoop_inv P body hbody n tk2 s2 tk1 s1 l2 h2 (hbody tk s tk2 s2 l1 h1 hP)

/-- The collection parsers of the root write one field of the record each. -/
theorem internal_parse_collections_frame (data : List Nat) (tokens : List jsmntok_t) (tk : Nat)
    (d : GLTF2) (tk1 : Nat) (d1 : GLTF2) (l : List String) :
    (internal_parse_accessors data tokens tk d = R.ok (tk1, d1) l →
      d1 = { d with accessors := d1.accessors }) ∧
    (internal_parse_animations data tokens tk d = R.ok (tk1, d1) l →
      d1 = { d with animations := d1.animations }) ∧
    (internal_parse_bufferviews data tokens tk d = R.ok (tk1, d1) l →
      d1 = { d with bufferViews := d1.bufferViews }) ∧
    (internal_parse_buffers data tokens tk d = R.ok (tk1, d1) l →
      d1 = { d with buffers := d1.buffers }) ∧
    (internal_parse_cameras data tokens tk d = R.ok (tk1, d1) l →
      d1 = { d with cameras := d1.cameras }) ∧
    (internal_parse_images data tokens tk d = R.ok (tk1, d1) l →
      d1 = { d with images := d1.images }) ∧
    (internal_parse_materials data tokens tk d = R.ok (tk1, d1) l →
      d1 = { d with materials := d1.materials }) ∧
    (internal_parse_meshes data tokens tk d = R.ok (tk1, d1) l →
      d1 = { d with meshes := d1.meshes }) ∧
    (internal_parse_nodes data tokens tk d = R.ok (tk1, d1) l →
      d1 = { d with nodes := d1.nodes }) ∧
    (internal_parse_image_samplers data tokens tk d = R.ok (tk1, d1) l →
      d1 = { d with imageSamplers := d1.imageSamplers }) ∧
    (internal_parse_scenes data tokens tk d = R.ok (tk1, d1) l →
      d1 = { d with scenes := d1.scenes }) ∧
    (internal_parse_skins data tokens tk d = R.ok (tk1, d1) l →
      d1 = { d with skins := d1.skins }) ∧
    (internal_parse_textures data tokens tk d = R.ok (tk1, d1) l →
      d1 = { d with textures := d1.textures }) := by
  refine ⟨?_, ?_, ?_, ?_, ?_, ?_, ?_, ?_, ?_, ?_, ?_, ?_, ?_⟩ <;>
  · intro h
    simp only [internal_parse_accessors, internal_parse_animations, internal_parse_bufferviews,
      internal_parse_buffers, internal_parse_cameras, internal_parse_images,
      internal_parse_materials, internal_parse_meshes, internal_parse_nodes,
      internal_parse_image_samplers, internal_parse_scenes, internal_parse_skins,
      internal_parse_textures, R.bind_def, R.pure_def] at h
    obtain ⟨⟨a1, a2⟩, _, _, -, h2, -⟩ := R.bind_eq_ok h
    obtain ⟨⟨b1, b2⟩, _, _, -, h3, -⟩ := R.bind_eq_ok h2
    simp only [R.ok.injEq, Prod.mk.injEq] at h3
    obtain ⟨⟨-, rfl⟩, -⟩ := h3
    rfl

theorem GLTF_ASSERT_ok {exp : Bool} {msg : String} {l : List String}
    (h : GLTF_ASSERT exp msg = R.ok () l) : exp = true ∧ l = [] := by
  unfold GLTF_ASSERT at h
  cases exp with
  | true => simp only [↓reduceIte, R.ok.injEq, true_and] at h; exact ⟨rfl, h.symm⟩
  | false => simp at h

/-- A version that passes the last assertion of `internal_parse_asset` is not a
legacy version. -/
theorem internal_parse_asset_ok {atofLt2 : List Nat → Bool} {data : List Nat}
    {tokens : List jsmntok_t} {tk tk1 : Nat} {a a1 : GLTF_Asset} {l : List String}
    (h : internal_parse_asset atofLt2 data tokens tk a = R.ok (tk1, a1) l) :
    isLegacy atofLt2 a1.version = false := by
  unfold internal_parse_asset at h
  simp only [R.bind_def, R.pure_def] at h
  obtain ⟨_, _, _, -, h2, -⟩ := R.bind_eq_ok h
  obtain ⟨size, _, _, -, h3, -⟩ := R.bind_eq_ok h2
  obtain ⟨⟨tk2, a2⟩, _, _, -, h4, -⟩ := R.bind_eq_ok h3
  obtain ⟨_, _, _, h5, h6, -⟩ := R.bind_eq_ok h4
  simp only [R.ok.injEq, Prod.mk.injEq] at h6
  obtain ⟨⟨-, rfl⟩, -⟩ := h6
  have := (GLTF_ASSERT_ok h5).1
  simpa using this

theorem jsonrootKey_legacy (atofLt2 : List Nat → Bool) (data : List Nat)
    (tokens : List jsmntok_t) (tk : Nat) (d : GLTF2) (tk1 : Nat) (d1 : GLTF2) (l : List String)
    (h : jsonrootKey atofLt2 data tokens tk d = R.ok (tk1, d1) l)
    (h0 : isLegacy atofLt2 d.asset.version = false) :
    isLegacy atofLt2 d1.asset.version = false := by
  have fr := internal_parse_collections_frame data tokens (tk + 1) d tk1 d1
  unfold jsonrootKey at h
  simp only [R.bind_def, R.pure_def] at h
  obtain ⟨_, _, _, -, h, -⟩ := R.bind_eq_ok h
  -- accessors
  obtain ⟨b, _, _, -, h, -⟩ := R.bind_eq_ok h
  cases b
  swap
  · simp only [↓reduceIte] at h
    rw [(fr _).1 h]; exact h0
  simp only [Bool.false_eq_true, ↓reduceIte] at h
  -- animation
  obtain ⟨b, _, _, -, h, -⟩ := R.bind_eq_ok h
  cases b
  swap
  · simp only [↓reduceIte] at h
    rw [(fr _).2.1 h]; exact h0
  simp only [Bool.false_eq_true, ↓reduceIte] at h
  -- asset
  obtain ⟨b, _, _, -, h, -⟩ := R.bind_eq_ok h
  cases b
  swap
  · simp only [↓reduceIte] at h
    obtain ⟨⟨tk2, a2⟩, _, _, ha, h, -⟩ := R.bind_eq_ok h
    simp only [R.ok.injEq, Prod.mk.injEq] at h
    obtain ⟨⟨-, rfl⟩, -⟩ := h
    exact internal_parse_asset_ok ha
  simp only [Bool.false_eq_true, ↓reduceIte] at h
  -- bufferViews
  obtain ⟨b, _, _, -, h, -⟩ := R.bind_eq_ok h
  cases b
  swap
  · simp only [↓reduceIte] at h
    rw [(fr _).2.2.1 h]; exact h0
  simp only [Bool.false_eq_true, ↓reduceIte] at h
  -- buffers
  obtain ⟨b, _, _, -, h, -⟩ := R.bind_eq_ok h
  cases b
  swap
  · simp only [↓reduceIte] at h
    rw [(fr _).2.2.2.1 h]; exact h0
  simp only [Bool.false_eq_true, ↓reduceIte] at h
  -- cameras
  obtain ⟨b, _, _, -, h, -⟩ := R.bind_eq_ok h
  cases b
  swap
  · simp only [↓reduceIte] at h
    rw [(fr _).2.2.2.2.1 h]; exact h0
  simp only [Bool.false_eq_true, ↓reduceIte] at h
  -- images
  obtain ⟨b, _, _, -, h, -⟩ := R.bind_eq_ok h
  cases b
  swap
  · simp only [↓reduceIte] at h
    rw [(fr _).2.2.2.2.2.1 h]; exact h0
  simp only [Bool.false_eq_true, ↓reduceIte] at h
  -- materials
  obtain ⟨b, _, _, -, h, -⟩ := R.bind_eq_ok h
  cases b
  swap
  · simp only [↓reduceIte] at h
    rw [(fr _).2.2.2.2.2.2.1 h]; exact h0
  simp only [Bool.false_eq_true, ↓reduceIte] at h
  -- meshes
  obtain ⟨b, _, _, -, h, -⟩ := R.bind_eq_ok h
  cases b
  swap
  · simp only [↓reduceIte] at h
    rw [(fr _).2.2.2.2.2.2.2.1 h]; exact h0
  simp only [Bool.false_eq_true, ↓reduceIte] at h
  -- nodes
  obtain ⟨b, _, _, -, h, -⟩ := R.bind_eq_ok h
  cases b
  swap
  · simp only [↓reduceIte] at h
    rw [(fr _).2.2.2.2.2.2.2.2.1 h]; exact h0
  simp only [Bool.false_eq_true, ↓reduceIte] at h
  -- samplers
  obtain ⟨b, _, _, -, h, -⟩ := R.bind_eq_ok h
  cases b
  swap
  · simp only [↓reduceIte] at h
    rw [(fr _).2.2.2.2.2.2.2.2.2.1 h]; exact h0
  simp only [Bool.false_eq_true, ↓reduceIte] at h
  -- scenes
  obtain ⟨b, _, _, -, h, -⟩ := R.bind_eq_ok h
  cases b
  swap
  · simp only [↓reduceIte] at h
    rw [(fr _).2.2.2.2.2.2.2.2.2.2.1 h]; exact h0
  simp only [Bool.false_eq_true, ↓reduceIte] at h
  -- scene
  obtain ⟨b, _, _, -, h, -⟩ := R.bind_eq_ok h
  cases b
  swap
  · simp only [↓reduceIte] at h
    obtain ⟨v, _, _, -, h, -⟩ := R.bind_eq_ok h
    simp only [R.ok.injEq, Prod.mk.injEq] at h
    obtain ⟨⟨-, rfl⟩, -⟩ := h
    exact h0
  simp only [Bool.false_eq_true, ↓reduceIte] at h
  -- skins
  obtain ⟨b, _, _, -, h, -⟩ := R.bind_eq_ok h
  cases b
  swap
  · simp only [↓reduceIte] at h
    rw [(fr _).2.2.2.2.2.2.2.2.2.2.2.1 h]; exact h0
  simp only [Bool.false_eq_true, ↓reduceIte] at h
  -- textures
  obtain ⟨b, _, _, -, h, -⟩ := R.bind_eq_ok h
  cases b
  swap
  · simp only [↓reduceIte] at h
    rw [(fr _).2.2.2.2.2.2.2.2.2.2.2.2 h]; exact h0
  simp only [Bool.false_eq_true, ↓reduceIte] at h
  -- extensions
  obtain ⟨b, _, _, -, h, -⟩ := R.bind_eq_ok h
  cases b
  swap
  · simp only [↓reduceIte] at h
    obtain ⟨⟨tk2, v⟩, _, _, -, h, -⟩ := R.bind_eq_ok h
    simp only [R.ok.injEq, Prod.mk.injEq] at h
    obtain ⟨⟨-, rfl⟩, -⟩ := h
    exact h0
  simp only [Bool.false_eq_true, ↓reduceIte] at h
  -- extensionsUsed
  obtain ⟨b, _, _, -, h, -⟩ := R.bind_eq_ok h
  cases b
  swap
  · simp only [↓reduceIte] at h
    obtain ⟨⟨tk2, v⟩, _, _, -, h, -⟩ := R.bind_eq_ok h
    simp only [R.ok.injEq, Prod.mk.injEq] at h
    obtain ⟨⟨-, rfl⟩, -⟩ := h
    exact h0
  simp only [Bool.false_eq_true, ↓reduceIte] at h
  -- extensionsRequired
  obtain ⟨b, _, _, -, h, -⟩ := R.bind_eq_ok h
  cases b
  swap
  · simp only [↓reduceIte] at h
    obtain ⟨⟨tk2, v⟩, _, _, -, h, -⟩ := R.bind_eq_ok h
    simp only [R.ok.injEq, Prod.mk.injEq] at h
    obtain ⟨⟨-, rfl⟩, -⟩ := h
    exact h0
  simp only [Bool.false_eq_true, ↓reduceIte] at h
  -- extras
  obtain ⟨b, _, _, -, h, -⟩ := R.bind_eq_ok h
  cases b
  swap
  · simp only [↓reduceIte] at h
    obtain ⟨⟨tk2, v⟩, _, _, -, h, -⟩ := R.bind_eq_ok h
    simp only [R.ok.injEq, Prod.mk.injEq] at h
    obtain ⟨⟨-, rfl⟩, -⟩ := h
    exact h0
  simp only [Bool.false_eq_true, ↓reduceIte] at h
  -- unknown key
  obtain ⟨v, _, _, -, h, -⟩ := R.bind_eq_ok h
  simp only [R.ok.injEq, Prod.mk.injEq] at h
  obtain ⟨⟨-, rfl⟩, -⟩ := h
  exact h0

theorem internal_parse_jsonroot_legacy {atofLt2 : List Nat → Bool} {data : List Nat}
    {tokens : List jsmntok_t} {tk tk1 : Nat} {d d1 : GLTF2} {l : List String}
    (h : internal_parse_jsonroot atofLt2 data tokens tk d = R.ok (tk1, d1) l)
    (h0 : isLegacy atofLt2 d.asset.version = false) :
    isLegacy atofLt2 d1.asset.version = false := by
  unfold internal_parse_jsonroot at h
  simp only [R.bind_def, R.pure_def] at h
  obtain ⟨_, _, _, -, h2, -⟩ := R.bind_eq_ok h
  obtain ⟨size, _, _, -, h3, -⟩ := R.bind_eq_ok h2
  exact forLoop_inv (fun d => isLegacy atofLt2 d.asset.version = false) _
    (fun tk s tk1 s1 l hb hP => jsonrootKey_legacy atofLt2 data tokens tk s tk1 s1 l hb hP)
    _ _ _ _ _ _ h3 h0

theorem Fix.holds_map {α β : Type} {P : β → Prop} {g : α → β} (x : Fix α) (hg : ∀ a, P (g a)) :
    (x.map g).Holds P := by
  cases x with
  | done a => exact hg a
  | ret c a l => exact hg a
  | ub => trivial

theorem Fix.holds_andThen {α : Type} {P : α → Prop} {x : Fix α} {f : α → Fix α}
    (hx : x.Holds P) (hf : ∀ a, P a → (f a).Holds P) : (x.andThen f).Holds P := by
  cases x with
  | done a => exact hf a hx
  | ret c a l => exact hx
  | ub => trivial

/-- The resolver writes no field of the `asset` record, on any path. -/
theorem fixPasses_asset (d : GLTF2) : (fixPasses d).Holds (fun e => e.asset = d.asset) := by
  unfold fixPasses
  refine Fix.holds_andThen (Fix.holds_andThen (Fix.holds_andThen (Fix.holds_andThen
    (Fix.holds_andThen (Fix.holds_andThen (Fix.holds_andThen (Fix.holds_andThen
    (Fix.holds_andThen (Fix.holds_andThen (Fix.holds_map _ (fun _ => rfl))
    (fun a ha => Fix.holds_map _ (fun _ => ha)))
    (fun a ha => Fix.holds_map _ (fun _ => ha)))
    (fun a ha => Fix.holds_map _ (fun _ => ha)))
    (fun a ha => Fix.holds_map _ (fun _ => ha)))
    (fun a ha => Fix.holds_map _ (fun _ => ha)))
    (fun a ha => Fix.holds_map _ (fun _ => ha)))
    (fun a ha => Fix.holds_map _ (fun _ => ha)))
    (fun a ha => Fix.holds_map _ (fun _ => ha)))
    (fun a ha => Fix.holds_map _ (fun _ => ha)))
    (fun a ha => Fix.holds_map _ (fun _ => ha))

theorem internal_fix_pointers_asset {d e : GLTF2} {r : Int} {l : List String}
    (h : internal_fix_pointers d = some (r, e, l)) : e.asset = d.asset := by
  have ha := fixPasses_asset d
  unfold internal_fix_pointers at h
  cases hp : fixPasses d with
  | done v =>
    rw [hp] at h ha
    simp only [Option.some.injEq, Prod.mk.injEq] at h
    rw [← h.2.1]; exact ha
  | ret c v l1 =>
    rw [hp] at h ha
    simp only [Option.some.injEq, Prod.mk.injEq] at h
    rw [← h.2.1]; exact ha
  | ub => rw [hp] at h; cases h

/-- A call of `GLTF_Free` on a record in automatic storage has no defined result. -/
theorem GLTF_Free_automatic (d : GLTF2) : GLTF_Free Storage.automatic d = none := by
  unfold GLTF_Free
  split
  · rfl
  · split <;> rfl

theorem internal_parse_json_legacy {atofLt2 : List Nat → Bool} {offset : Nat} {data : List Nat}
    {size : Nat} {d e : GLTF2} {l : List String}
    (h : internal_parse_json atofLt2 offset data size d = R.ok e l)
    (h0 : isLegacy atofLt2 d.asset.version = false) :
    isLegacy atofLt2 e.asset.version = false := by
  unfold internal_parse_json at h
  simp only [GLTF_Free_automatic] at h
  split at h
  · cases h
  · cases h
  · rename_i outData1 l1 hc
    have h1 : isLegacy atofLt2 outData1.asset.version = false := by
      split at hc
      · split at hc
        · cases hc
        · split at hc
          · cases hc
          · simp only [R.ok.injEq] at hc
            rw [← hc.1]; exact h0
      · simp only [R.ok.injEq] at hc
        rw [← hc.1]; exact h0
    split at h
    · cases h
    · split at h
      · cases h
      · split at h
        · cases h
        · split at h
          · cases h
          · split at h
            · cases h
            · cases h
            · rename_i tk2 outData2 l2 hroot
              have h2 := internal_parse_jsonroot_legacy hroot h1
              split at h
              · cases h
              · rename_i r outData3 l3 hfix
                have h3 := internal_fix_pointers_asset hfix
                split at h
                · cases h
                · simp only [R.ok.injEq] at h
                  rw [← h.1]
                  show isLegacy atofLt2 outData3.asset.version = false
                  rw [h3]; exact h2

theorem parseBinChunk_asset (ptr : List Nat) (size offset : Nat) (d : GLTF2)
    (r : GLTF2 × List String) (h : parseBinChunk ptr size offset d = some r) :
    r.1.asset = d.asset := by
  unfold parseBinChunk at h
  simp only [GLTF_Free_automatic, Option.map_none'] at h
  split at h
  · split at h
    · cases h
    · split at h
      · split at h
        · cases h
        · split at h
          · cases h
          · cases h; rfl
      · cases h; rfl
  · cases h; rfl

theorem legacy_default (atofLt2 : List Nat → Bool) (f : GLTF_FileInfo) :
    isLegacy atofLt2 ({ fileInfo := f } : GLTF2).asset.version = false := rfl

theorem GLTF_ParseFromFile_legacy {atofLt2 : List Nat → Bool} {path : CString}
    {file : Option (List Nat)} {d : GLTF2} {l : List String}
    (h : GLTF_ParseFromFile atofLt2 path file = some (d, l)) :
    isLegacy atofLt2 d.asset.version = false := by
  unfold GLTF_ParseFromFile at h
  simp only [GLTF_Free_automatic, Option.map_none'] at h
  split at h
  · simp only [Option.some.injEq, Prod.mk.injEq] at h; rw [← h.1]; rfl
  · simp only [Option.some.injEq, Prod.mk.injEq] at h; rw [← h.1]; rfl
  · split at h
    · simp only [Option.some.injEq, Prod.mk.injEq] at h; rw [← h.1]; rfl
    · split at h
      · simp only [Option.some.injEq, Prod.mk.injEq] at h; rw [← h.1]; rfl
      · split at h
        · split at h
          · simp only [Option.some.injEq, Prod.mk.injEq] at h; rw [← h.1]; rfl
          · split at h
            · simp only [Option.some.injEq, Prod.mk.injEq] at h; rw [← h.1]; rfl
            · split at h
              · simp only [Option.some.injEq, Prod.mk.injEq] at h; rw [← h.1]; rfl
              · split at h
                · simp only [Option.some.injEq, Prod.mk.injEq] at h; rw [← h.1]; rfl
                · split at h
                  · simp only [Option.some.injEq, Prod.mk.injEq] at h; rw [← h.1]; rfl
                  · split at h
                    · simp only [Option.some.injEq, Prod.mk.injEq] at h; rw [← h.1]; rfl
                    · split at h
                      · cases h
                      · cases h
                      · rename_i parsedData1 l1 hj
                        have h1 := internal_parse_json_legacy hj rfl
                        obtain ⟨r, hr, he⟩ := Option.map_eq_some'.mp h
                        simp only [Prod.mk.injEq] at he
                        rw [← he.1, parseBinChunk_asset _ _ _ _ r hr]; exact h1
        · split at h
          · cases h
          · cases h
          · rename_i parsedData1 l1 hj
            have h1 := internal_parse_json_legacy hj rfl
            simp only [Option.some.injEq, Prod.mk.injEq] at h
            rw [← h.1]; exact h1

/-- The last assertion of `internal_parse_asset`, once the loop over the keys has
run to its end. -/
theorem internal_parse_asset_check (atofLt2 : List Nat → Bool) (data : List Nat)
    (tokens : List jsmntok_t) (tkindex : Nat) (outAsset : GLTF_Asset) (size tk1 : Nat)
    (out1 : GLTF_Asset) (l : List String)
    (h1 : objectAssert tokens tkindex = R.ok () [])
    (h2 : objectSize tokens tkindex = R.ok size [])
    (h3 : forLoop size (assetKey data tokens) (tkindex + 1) outAsset = R.ok (tk1, out1) l) :
    internal_parse_asset atofLt2 data tokens tkindex outAsset =
      if isLegacy atofLt2 out1.version then R.err (-1) (l ++ ["Legacy GLTF is not supported"])
      else R.ok (tk1, out1) l := by
  unfold internal_parse_asset
  simp only [R.bind_def, R.pure_def, h1, h2, h3, R.bind, GLTF_ASSERT]
  cases isLegacy atofLt2 out1.version <;> simp

/-- After a successful run every child slot refers to an existing node. -/
theorem childAt_resolved {d e : GLTF2} (h : AssetResolved d e)
    (hlen : e.nodes.length = d.nodes.length) {i m : Nat} {p : Ptr}
    (hc : childAt e.nodes i m = some p) : ∃ c, c < e.nodes.length ∧ p = Ptr.elem c := by
  have hn := h.2.2.2.2.2.2.2.1
  unfold childAt at hc
  cases hi : e.nodes[i]? with
  | none => rw [hi] at hc; cases hc
  | some nd =>
    rw [hi] at hc
    change nd.children[m]? = some p at hc
    obtain ⟨hi1, hi2⟩ := List.getElem?_eq_some_iff.mp hi
    have hi0 : i < d.nodes.length := hlen ▸ hi1
    have hr := (List.forall₂_iff_get.mp hn).2 i hi0 hi1
    have hch := hr.1
    obtain ⟨hm1, hm2⟩ := List.getElem?_eq_some_iff.mp hc
    simp only [List.get_eq_getElem] at hch
    rw [hi2] at hch
    have hm0 : m < (d.nodes[i]).children.length := by
      rw [List.Forall₂.length_eq hch]; exact hm1
    have hs := (List.forall₂_iff_get.mp hch).2 m hm0 hm1
    obtain ⟨c, hcl, _, hce⟩ := hs
    simp only [List.get_eq_getElem] at hce
    rw [hm2] at hce
    exact ⟨c, hlen ▸ hcl, hce⟩

/-- A parent read in a list of nodes that all have a null parent is null. -/
theorem parentAt_null_of_all {ns : List GLTF_Node} {c : Nat} {p : Ptr}
    (h0 : ∀ nd ∈ ns, nd.parent = Ptr.null) (h : parentAt ns c = some p) : p = Ptr.null := by
  unfold parentAt at h
  cases hc : ns[c]? with
  | none => rw [hc] at h; cases h
  | some nd =>
    rw [hc] at h
    simp only [Option.map_some'] at h
    cases h
    exact h0 nd (List.getElem?_mem hc)

/-- When the JSON stage returns an error, or has no defined result, for a file that
does not start with the GLB magic, `GLTF_ParseFromFile` has no defined result: it
calls `GLTF_Free` on its automatic record. -/
theorem GLTF_ParseFromFile_json_error {atofLt2 : List Nat → Bool} {c : Nat} {cs ptr : List Nat}
    (hlen : 4 ≤ ptr.length)
    (hglb : (strncmp_impl ptr (cstr "glTF") 4 == some 0) = false)
    (hjson : ∀ d l, internal_parse_json atofLt2 0 ptr ptr.length
      { fileInfo := { path := some (c :: cs), type := 1 } } ≠ R.ok d l) :
    GLTF_ParseFromFile atofLt2 (some (c :: cs)) (some ptr) = none := by
  unfold GLTF_ParseFromFile
  simp only [Nat.not_lt.mpr hlen, if_false, hglb, Bool.false_eq_true, GLTF_Free_automatic,
    Option.map_none']
  split
  · rfl
  · rfl
  · rename_i d l hj
    exact absurd hj (hjson d l)

/-- A child slot that can be read belongs to an existing node. -/
theorem childAt_node_lt {ns : List GLTF_Node} {k m : Nat} {p : Ptr}
    (hc : childAt ns k m = some p) : k < ns.length := by
  unfold childAt at hc
  cases hk : ns[k]? with
  | none => rw [hk] at hc; cases hc
  | some nd => exact (List.getElem?_eq_some_iff.mp hk).1

/-- The test of the GLB magic succeeds exactly on the files that start with the
four bytes `glTF`. -/
theorem strncmp_magic (ptr : List Nat) (h4 : 4 ≤ ptr.length) :
    (strncmp_impl ptr (cstr "glTF") 4 == some 0) = decide (ptr.take 4 = cstr "glTF") := by
  have hc : cstr "glTF" = [103, 108, 84, 70] := by decide
  rw [hc]
  match ptr, h4 with
  | a :: b :: c :: d :: rest, _ =>
    simp only [strncmp_impl, List.headD_cons, List.tail_cons, List.take_succ_cons, List.take_zero,
      List.cons.injEq, and_true]
    by_cases ha : a = 103
    · subst ha
      by_cases hb : b = 108
      · subst hb
        by_cases hc1 : c = 84
        · subst hc1
          by_cases hd : d = 70
          · subst hd; simp
          · simp [hd]; omega
        · simp [hc1]; omega
      · simp [hb]; omega
    · simp [ha]; omega

/-- The head of `GLTF_ParseFromFile` on a file that starts with the GLB magic and
has a complete header whose version is not 2. -/
theorem GLTF_ParseFromFile_glb_version {atofLt2 : List Nat → Bool} {c : Nat} {cs ptr : List Nat}
    (hlen : 12 ≤ ptr.length) (hmagic : ptr.take 4 = cstr "glTF") (hver : readU32 ptr 4 ≠ 2) :
    GLTF_ParseFromFile atofLt2 (some (c :: cs)) (some ptr) =
      some ({ fileInfo := { path := some (c :: cs) } },
        [s!"Unsupported GLB version: {readU32 ptr 4} (expected 2)"]) := by
  have hg := strncmp_magic ptr (by omega)
  rw [decide_eq_true hmagic] at hg
  unfold GLTF_ParseFromFile
  simp only [hg, Nat.not_lt.mpr (show 4 ≤ ptr.length by omega), if_false, if_true,
    GLB_HEADER_SIZE, Nat.not_lt.mpr hlen, hver, ne_eq, not_false_eq_true]

/-- The head of `GLTF_ParseFromFile` on a GLB file of version 2 whose header does
not announce the size of the file. -/
theorem GLTF_ParseFromFile_glb_size {atofLt2 : List Nat → Bool} {c : Nat} {cs ptr : List Nat}
    (hlen : 12 ≤ ptr.length) (hmagic : ptr.take 4 = cstr "glTF") (hver : readU32 ptr 4 = 2)
    (hsize : readU32 ptr 8 ≠ ptr.length) :
    GLTF_ParseFromFile atofLt2 (some (c :: cs)) (some ptr) =
      some ({ fileInfo := { path := some (c :: cs) } },
        [s!"GLB size mismatch (header: {readU32 ptr 8}, actual: {ptr.length})"]) := by
  have hg := strncmp_magic ptr (by omega)
  rw [decide_eq_true hmagic] at hg
  unfold GLTF_ParseFromFile
  simp only [hg, Nat.not_lt.mpr (show 4 ≤ ptr.length by omega), if_false, if_true,
    GLB_HEADER_SIZE, Nat.not_lt.mpr hlen, hver, ne_eq, not_true_eq_false, hsize,
    not_false_eq_true]

/-- A file of at least four bytes that does not start with the GLB magic goes to the
JSON stage as a whole. -/
theorem GLTF_ParseFromFile_json {atofLt2 : List Nat → Bool} {c : Nat} {cs ptr : List Nat}
    (hlen : 4 ≤ ptr.length) (hmagic : ptr.take 4 ≠ cstr "glTF") :
    GLTF_ParseFromFile atofLt2 (some (c :: cs)) (some ptr) =
      match internal_parse_json atofLt2 0 ptr ptr.length
          { fileInfo := { path := some (c :: cs), type := 1 } } with
      | R.ub => none
      | R.err _ _ => none
      | R.ok d l => some (d, l) := by
  have hg := strncmp_magic ptr hlen
  rw [decide_eq_false hmagic] at hg
  unfold GLTF_ParseFromFile
  simp only [hg, Nat.not_lt.mpr hlen, if_false, Bool.false_eq_true, GLTF_Free_automatic,
    Option.map_none']

/-- An element of the left list of two lists related element by element is
related to some element. -/
theorem forall₂_of_mem_left {α β : Type} {R : α → β → Prop} {as : List α} {bs : List β}
    (h : List.Forall₂ R as bs) {a : α} (ha : a ∈ as) : ∃ b, R a b := by
  induction h with
  | nil => cases ha
  | cons hr _ ih =>
    rcases List.mem_cons.mp ha with rfl | ha1
    · exact ⟨_, hr⟩
    · exact ih ha1

/-- After a successful run every required slot of the asset held an index of its
target collection. -/
theorem requiredSlots_of_resolved {d e : GLTF2} (h : AssetResolved d e) :
    ∀ s ∈ requiredSlots d, ∃ i, i < s.2 ∧ s.1 = Ptr.index i := by
  obtain ⟨hmesh, hacc, -, -, -, hbv, hskin, hnode, hscene, -, hanim⟩ := h
  intro s hs
  simp only [requiredSlots, List.mem_append, List.mem_flatMap, List.mem_map] at hs
  rcases hs with (((((hs | hs) | hs) | hs) | hs) | hs) | hs
  · obtain ⟨m, hm, p, hp, t, ht, a, ha, rfl⟩ := hs
    obtain ⟨m1, hm1⟩ := forall₂_of_mem_left hmesh hm
    obtain ⟨p1, hp1⟩ := forall₂_of_mem_left hm1 hp
    obtain ⟨t1, ht1⟩ := forall₂_of_mem_left hp1.2.2.2 ht
    obtain ⟨a1, i, hi, hai, -⟩ := forall₂_of_mem_left ht1 ha
    exact ⟨i, hi, hai⟩
  · obtain ⟨a, ha, hs⟩ := hs
    obtain ⟨a1, ha1⟩ := forall₂_of_mem_left hacc ha
    by_cases hsp : a.isSparse = 0
    · simp [hsp] at hs
    · simp only [ne_eq, hsp, not_false_eq_true, ↓reduceIte, List.mem_cons, List.mem_singleton,
        List.not_mem_nil, or_false] at hs
      obtain ⟨⟨i, hi, hai, -⟩, ⟨j, hj, haj, -⟩⟩ := ha1.2.1 hsp
      rcases hs with rfl | rfl
      · exact ⟨i, hi, hai⟩
      · exact ⟨j, hj, haj⟩
  · obtain ⟨v, hv, rfl⟩ := hs
    obtain ⟨v1, i, hi, hvi, -⟩ := forall₂_of_mem_left hbv hv
    exact ⟨i, hi, hvi⟩
  · obtain ⟨sk, hsk, j, hj, rfl⟩ := hs
    obtain ⟨sk1, hsk1⟩ := forall₂_of_mem_left hskin hsk
    obtain ⟨j1, i, hi, hji, -⟩ := forall₂_of_mem_left hsk1.1 hj
    exact ⟨i, hi, hji⟩
  · obtain ⟨n, hn, c, hc, rfl⟩ := hs
    obtain ⟨n1, hn1⟩ := forall₂_of_mem_left hnode hn
    obtain ⟨c1, i, hi, hci, -⟩ := forall₂_of_mem_left hn1.1 hc
    exact ⟨i, hi, hci⟩
  · obtain ⟨sc, hsc, r, hr, rfl⟩ := hs
    obtain ⟨sc1, hsc1⟩ := forall₂_of_mem_left hscene hsc
    obtain ⟨r1, i, hi, hri, -⟩ := forall₂_of_mem_left hsc1 hr
    exact ⟨i, hi, hri⟩
  · obtain ⟨a, ha, hs⟩ := hs
    obtain ⟨a1, ha1⟩ := forall₂_of_mem_left hanim ha
    rcases hs with ⟨sm, hsm, hs⟩ | ⟨ch, hch, rfl⟩
    · obtain ⟨sm1, ⟨i, hi, hsi, -⟩, ⟨j, hj, hsj, -⟩⟩ := forall₂_of_mem_left ha1.1 hsm
      simp only [List.mem_cons, List.mem_singleton, List.not_mem_nil, or_false] at hs
      rcases hs with rfl | rfl
      · exact ⟨i, hi, hsi⟩
      · exact ⟨j, hj, hsj⟩
    · obtain ⟨ch1, ⟨i, hi, hci, -⟩, -⟩ := forall₂_of_mem_left ha1.2 hch
      exact ⟨i, hi, hci⟩

theorem R.holds_bind {α β : Type} {P : β → Prop} {x : R α} {f : α → R β}
    (h : ∀ a, (f a).Holds P) : (R.bind x f).Holds P := by
  intro v l hv
  obtain ⟨a, _, l2, -, h2, -⟩ := R.bind_eq_ok hv
  exact h a v l2 h2

theorem R.holds_ok {α : Type} {P : α → Prop} {v : α} {l : List String} (h : P v) :
    (R.ok v l).Holds P := by
  intro w l1 hw
  simp only [R.ok.injEq] at hw
  exact hw.1 ▸ h

theorem R.holds_ite {α : Type} {P : α → Prop} {c : Prop} [Decidable c] {x y : R α}
    (hx : x.Holds P) (hy : y.Holds P) : (if c then x else y).Holds P := by
  split
  · exact hx
  · exact hy

theorem R.holds_imp {α : Type} {P Q : α → Prop} {x : R α} (hx : x.Holds P)
    (h : ∀ v, P v → Q v) : x.Holds Q :=
  fun v l hv => h v (hx v l hv)

/-- A property of the record that every iteration of a key loop keeps is kept
by the loop. -/
theorem forLoop_holds {σ : Type} (Q : σ → Prop) (body : Nat → σ → R (Nat × σ))
    (hbody : ∀ tk s, Q s → (body tk s).Holds (fun r => Q r.2)) :
    ∀ (n tk : Nat) (s : σ), Q s → (forLoop n body tk s).Holds (fun r => Q r.2)
  | 0, tk, s, hs => by
    simp only [forLoop]
    exact R.holds_ok hs
  | n + 1, tk, s, hs => by
    simp only [forLoop, R.bind_def]
    intro v l hv
    obtain ⟨⟨tk2, s2⟩, l1, l2, h1, h2, -⟩ := R.bind_eq_ok hv
    exact forLoop_holds Q body hbody n tk2 s2 (hbody tk s hs _ _ h1) v l2 h2

/-- A property that every parsed element has holds of all the elements of the
array. -/
theorem parseElems_holds {α : Type} (Q : α → Prop) (zero : α) (parse : Nat → α → R (Nat × α))
    (hparse : ∀ tk, (parse tk zero).Holds (fun r => Q r.2)) :
    ∀ (n tk : Nat), (parseElems zero parse n tk).Holds (fun r => ∀ x ∈ r.2, Q x)
  | 0, tk => by
    simp only [parseElems]
    exact R.holds_ok (fun x hx => by cases hx)
  | n + 1, tk => by
    simp only [parseElems, R.bind_def, R.pure_def]
    intro v l hv
    obtain ⟨⟨tk1, x⟩, l1, l2, h1, h2, -⟩ := R.bind_eq_ok hv
    obtain ⟨⟨tk2, rest⟩, l3, l4, h3, h4, -⟩ := R.bind_eq_ok h2
    simp only [R.ok.injEq] at h4
    obtain ⟨rfl, -⟩ := h4
    intro y hy
    rcases List.mem_cons.mp hy with rfl | hy1
    · exact hparse tk _ _ h1
    · exact parseElems_holds Q zero parse hparse n tk1 _ _ h3 y hy1

/-- The array parsed by `parseElems` has the announced number of elements. -/
theorem parseElems_length {α : Type} (zero : α) (parse : Nat → α → R (Nat × α)) :
    ∀ (n tk : Nat), (parseElems zero parse n tk).Holds (fun r => r.2.length = n)
  | 0, tk => by
    simp only [parseElems]
    exact R.holds_ok rfl
  | n + 1, tk => by
    simp only [parseElems, R.bind_def, R.pure_def]
    intro v l hv
    obtain ⟨⟨tk1, x⟩, l1, l2, h1, h2, -⟩ := R.bind_eq_ok hv
    obtain ⟨⟨tk2, rest⟩, l3, l4, h3, h4, -⟩ := R.bind_eq_ok h2
    simp only [R.ok.injEq] at h4
    obtain ⟨rfl, -⟩ := h4
    simp only [List.length_cons, Nat.add_right_cancel_iff]
    exact parseElems_length zero parse n tk1 _ _ h3

/-- The function `json_parse_array` succeeds on an array token and returns its size. -/
theorem json_parse_array_ok (tokens : List jsmntok_t) (i : Nat) :
    (json_parse_array tokens i).Holds (fun r =>
      ∃ t, tokens[i]? = some t ∧ t.type = JSMN_ARRAY ∧ r = (i + 1, t.size.toNat)) := by
  intro v l hv
  unfold json_parse_array at hv
  simp only [R.bind_def, R.pure_def] at hv
  obtain ⟨ty, _, _, hty, hv, -⟩ := R.bind_eq_ok hv
  by_cases hne : ty = JSMN_ARRAY
  · subst hne
    simp only [ne_eq, not_true_eq_false, ↓reduceIte] at hv
    obtain ⟨t, _, _, ht, hv, -⟩ := R.bind_eq_ok hv
    have ht1 : tokens[i]? = some t := by
      unfold tokGet R.ofOption at ht
      cases hti : tokens[i]? with
      | none => simp [hti] at ht
      | some t1 => simp only [hti, R.ok.injEq] at ht; rw [ht.1]
    refine ⟨t, ht1, ?_, ?_⟩
    · unfold tokType at hty
      have hlt : i < tokens.length := (List.getElem?_eq_some_iff.mp ht1).1
      simp only [hlt, ↓reduceIte, ht1, R.ok.injEq] at hty
      exact hty.1
    · split at hv
      · cases hv
      · simp only [R.ok.injEq] at hv
        exact hv.1.symm
  · simp only [ne_eq, hne, not_false_eq_true, ↓reduceIte] at hv
    cases hv

/-- No key of an accessor writes the stride. -/
theorem accessorKey_stride (data : List Nat) (tokens : List jsmntok_t) (tk : Nat)
    (a : GLTF_Accessor) :
    (accessorKey data tokens tk a).Holds (fun r => r.2.stride = a.stride) := by
  unfold accessorKey
  simp only [R.bind_def, R.pure_def]
  repeat' (first | apply R.holds_ite | exact R.holds_ok rfl | (apply R.holds_bind; intro _))

/-- The walker gives every accessor the stride 0. -/
theorem internal_parse_accessors_stride (data : List Nat) (tokens : List jsmntok_t) (tk : Nat)
    (d : GLTF2) :
    (internal_parse_accessors data tokens tk d).Holds (fun r => ∀ a ∈ r.2.accessors, a.stride = 0) := by
  unfold internal_parse_accessors
  simp only [R.bind_def, R.pure_def]
  apply R.holds_bind; intro p
  intro v l hv
  obtain ⟨⟨tk2, acs⟩, _, _, h1, h2, -⟩ := R.bind_eq_ok hv
  simp only [R.ok.injEq] at h2
  obtain ⟨rfl, -⟩ := h2
  refine parseElems_holds (fun a : GLTF_Accessor => a.stride = 0) {} _ (fun tk3 => ?_) _ _ _ _ h1
  unfold internal_parse_json_accessor
  simp only [R.bind_def, R.pure_def]
  apply R.holds_bind; intro _
  apply R.holds_bind; intro n
  exact forLoop_holds (fun a : GLTF_Accessor => a.stride = 0) _
    (fun tk4 s hs => R.holds_imp (accessorKey_stride data tokens tk4 s) (fun v hv => hv.trans hs))
    n (tk3 + 1) {} rfl

/-- No key of a node writes the parent. -/
theorem nodeKey_parent (data : List Nat) (tokens : List jsmntok_t) (tk : Nat)
    (a : GLTF_Node) :
    (nodeKey data tokens tk a).Holds (fun r => r.2.parent = a.parent) := by
  unfold nodeKey
  simp only [R.bind_def, R.pure_def]
  repeat' (first | apply R.holds_ite | exact R.holds_ok rfl | (apply R.holds_bind; intro _))

/-- The walker gives every node the null parent. -/
theorem internal_parse_nodes_parent (data : List Nat) (tokens : List jsmntok_t) (tk : Nat)
    (d : GLTF2) :
    (internal_parse_nodes data tokens tk d).Holds (fun r => ∀ a ∈ r.2.nodes, a.parent = Ptr.null) := by
  unfold internal_parse_nodes
  simp only [R.bind_def, R.pure_def]
  apply R.holds_bind; intro p
  intro v l hv
  obtain ⟨⟨tk2, acs⟩, _, _, h1, h2, -⟩ := R.bind_eq_ok hv
  simp only [R.ok.injEq] at h2
  obtain ⟨rfl, -⟩ := h2
  refine parseElems_holds (fun a : GLTF_Node => a.parent = Ptr.null) {} _ (fun tk3 => ?_) _ _ _ _ h1
  unfold internal_parse_node
  simp only [R.bind_def, R.pure_def]
  apply R.holds_bind; intro _
  apply R.holds_bind; intro n
  exact forLoop_holds (fun a : GLTF_Node => a.parent = Ptr.null) _
    (fun tk4 s hs => R.holds_imp (nodeKey_parent data tokens tk4 s) (fun v hv => hv.trans hs))
    n (tk3 + 1) _ rfl

/-- The collection parsers of the root write one field of the record each. -/
theorem internal_parse_collections_holds (data : List Nat) (tokens : List jsmntok_t) (tk : Nat)
    (d : GLTF2) :
    (internal_parse_accessors data tokens tk d).Holds
      (fun r => r.2 = { d with accessors := r.2.accessors }) ∧
    (internal_parse_animations data tokens tk d).Holds
      (fun r => r.2 = { d with animations := r.2.animations }) ∧
    (internal_parse_bufferviews data tokens tk d).Holds
      (fun r => r.2 = { d with bufferViews := r.2.bufferViews }) ∧
    (internal_parse_buffers data tokens tk d).Holds
      (fun r => r.2 = { d with buffers := r.2.buffers }) ∧
    (internal_parse_cameras data tokens tk d).Holds
      (fun r => r.2 = { d with cameras := r.2.cameras }) ∧
    (internal_parse_images data tokens tk d).Holds
      (fun r => r.2 = { d with images := r.2.images }) ∧
    (internal_parse_materials data tokens tk d).Holds
      (fun r => r.2 = { d with materials := r.2.materials }) ∧
    (internal_parse_meshes data tokens tk d).Holds
      (fun r => r.2 = { d with meshes := r.2.meshes }) ∧
    (internal_parse_nodes data tokens tk d).Holds
      (fun r => r.2 = { d with nodes := r.2.nodes }) ∧
    (internal_parse_image_samplers data tokens tk d).Holds
      (fun r => r.2 = { d with imageSamplers := r.2.imageSamplers }) ∧
    (internal_parse_scenes data tokens tk d).Holds
      (fun r => r.2 = { d with scenes := r.2.scenes }) ∧
    (internal_parse_skins data tokens tk d).Holds
      (fun r => r.2 = { d with skins := r.2.skins }) ∧
    (internal_parse_textures data tokens tk d).Holds
      (fun r => r.2 = { d with textures := r.2.textures }) := by
  have fr := fun (v : Nat × GLTF2) (l : List String) =>
    internal_parse_collections_frame data tokens tk d v.1 v.2 l
  exact ⟨fun v l h => (fr v l).1 h, fun v l h => (fr v l).2.1 h, fun v l h => (fr v l).2.2.1 h,
    fun v l h => (fr v l).2.2.2.1 h, fun v l h => (fr v l).2.2.2.2.1 h,
    fun v l h => (fr v l).2.2.2.2.2.1 h, fun v l h => (fr v l).2.2.2.2.2.2.1 h,
    fun v l h => (fr v l).2.2.2.2.2.2.2.1 h, fun v l h => (fr v l).2.2.2.2.2.2.2.2.1 h,
    fun v l h => (fr v l).2.2.2.2.2.2.2.2.2.1 h, fun v l h => (fr v l).2.2.2.2.2.2.2.2.2.2.1 h,
    fun v l h => (fr v l).2.2.2.2.2.2.2.2.2.2.2.1 h,
    fun v l h => (fr v l).2.2.2.2.2.2.2.2.2.2.2.2 h⟩

/-- Every key of the root keeps the accessors at stride 0. -/
theorem jsonrootKey_stride (atofLt2 : List Nat → Bool) (data : List Nat)
    (tokens : List jsmntok_t) (tk : Nat) (d : GLTF2) (h0 : ∀ a ∈ d.accessors, a.stride = 0) :
    (jsonrootKey atofLt2 data tokens tk d).Holds (fun r => ∀ a ∈ r.2.accessors, a.stride = 0) := by
  have fr := internal_parse_collections_holds data tokens (tk + 1) d
  have keep : ∀ v : Nat × GLTF2, v.2.accessors = d.accessors → ∀ a ∈ v.2.accessors, a.stride = 0 :=
    fun v hv => hv ▸ h0
  unfold jsonrootKey
  simp only [R.bind_def, R.pure_def]
  repeat' (first
    | apply R.holds_ite
    | exact R.holds_ok h0
    | exact internal_parse_accessors_stride data tokens (tk + 1) d
    | exact R.holds_imp fr.2.1 (fun v hv => keep v (by rw [hv]))
    | exact R.holds_imp fr.2.2.1 (fun v hv => keep v (by rw [hv]))
    | exact R.holds_imp fr.2.2.2.1 (fun v hv => keep v (by rw [hv]))
    | exact R.holds_imp fr.2.2.2.2.1 (fun v hv => keep v (by rw [hv]))
    | exact R.holds_imp fr.2.2.2.2.2.1 (fun v hv => keep v (by rw [hv]))
    | exact R.holds_imp fr.2.2.2.2.2.2.1 (fun v hv => keep v (by rw [hv]))
    | exact R.holds_imp fr.2.2.2.2.2.2.2.1 (fun v hv => keep v (by rw [hv]))
    | exact R.holds_imp fr.2.2.2.2.2.2.2.2.1 (fun v hv => keep v (by rw [hv]))
    | exact R.holds_imp fr.2.2.2.2.2.2.2.2.2.1 (fun v hv => keep v (by rw [hv]))
    | exact R.holds_imp fr.2.2.2.2.2.2.2.2.2.2.1 (fun v hv => keep v (by rw [hv]))
    | exact R.holds_imp fr.2.2.2.2.2.2.2.2.2.2.2.1 (fun v hv => keep v (by rw [hv]))
    | exact R.holds_imp fr.2.2.2.2.2.2.2.2.2.2.2.2 (fun v hv => keep v (by rw [hv]))
    | (apply R.holds_bind; intro _))

/-- Every key of the root keeps the parents of the nodes null. -/
theorem jsonrootKey_parent (atofLt2 : List Nat → Bool) (data : List Nat)
    (tokens : List jsmntok_t) (tk : Nat) (d : GLTF2) (h0 : ∀ a ∈ d.nodes, a.parent = Ptr.null) :
    (jsonrootKey atofLt2 data tokens tk d).Holds (fun r => ∀ a ∈ r.2.nodes, a.parent = Ptr.null) := by
  have fr := internal_parse_collections_holds data tokens (tk + 1) d
  have keep : ∀ v : Nat × GLTF2, v.2.nodes = d.nodes → ∀ a ∈ v.2.nodes, a.parent = Ptr.null :=
    fun v hv => hv ▸ h0
  unfold jsonrootKey
  simp only [R.bind_def, R.pure_def]
  repeat' (first
    | apply R.holds_ite
    | exact R.holds_ok h0
    | exact internal_parse_nodes_parent data tokens (tk + 1) d
    | exact R.holds_imp fr.1 (fun v hv => keep v (by rw [hv]))
    | exact R.holds_imp fr.2.1 (fun v hv => keep v (by rw [hv]))
    | exact R.holds_imp fr.2.2.1 (fun v hv => keep v (by rw [hv]))
    | exact R.holds_imp fr.2.2.2.1 (fun v hv => keep v (by rw [hv]))
    | exact R.holds_imp fr.2.2.2.2.1 (fun v hv => keep v (by rw [hv]))
    | exact R.holds_imp fr.2.2.2.2.2.1 (fun v hv => keep v (by rw [hv]))
    | exact R.holds_imp fr.2.2.2.2.2.2.1 (fun v hv => keep v (by rw [hv]))
    | exact R.holds_imp fr.2.2.2.2.2.2.2.1 (fun v hv => keep v (by rw [hv]))
    | exact R.holds_imp fr.2.2.2.2.2.2.2.2.2.1 (fun v hv => keep v (by rw [hv]))
    | exact R.holds_imp fr.2.2.2.2.2.2.2.2.2.2.1 (fun v hv => keep v (by rw [hv]))
    | exact R.holds_imp fr.2.2.2.2.2.2.2.2.2.2.2.1 (fun v hv => keep v (by rw [hv]))
    | exact R.holds_imp fr.2.2.2.2.2.2.2.2.2.2.2.2 (fun v hv => keep v (by rw [hv]))
    | (apply R.holds_bind; intro _))

/-- The walker leaves every accessor at stride 0 and every node without a
parent, when it starts from a record in which this holds. -/
theorem internal_parse_jsonroot_fresh (atofLt2 : List Nat → Bool) (data : List Nat)
    (tokens : List jsmntok_t) (tk : Nat) (d : GLTF2) :
    ((∀ a ∈ d.accessors, a.stride = 0) →
      (internal_parse_jsonroot atofLt2 data tokens tk d).Holds
        (fun r => ∀ a ∈ r.2.accessors, a.stride = 0)) ∧
    ((∀ a ∈ d.nodes, a.parent = Ptr.null) →
      (internal_parse_jsonroot atofLt2 data tokens tk d).Holds
        (fun r => ∀ a ∈ r.2.nodes, a.parent = Ptr.null)) := by
  constructor
  · intro h0
    unfold internal_parse_jsonroot
    simp only [R.bind_def, R.pure_def]
    apply R.holds_bind; intro _
    apply R.holds_bind; intro n
    exact forLoop_holds (fun d : GLTF2 => ∀ a ∈ d.accessors, a.stride = 0) _
      (fun tk1 s hs => jsonrootKey_stride atofLt2 data tokens tk1 s hs) n (tk + 1) d h0
  · intro h0
    unfold internal_parse_jsonroot
    simp only [R.bind_def, R.pure_def]
    apply R.holds_bind; intro _
    apply R.holds_bind; intro n
    exact forLoop_holds (fun d : GLTF2 => ∀ a ∈ d.nodes, a.parent = Ptr.null) _
      (fun tk1 s hs => jsonrootKey_parent atofLt2 data tokens tk1 s hs) n (tk + 1) d h0

/-- The stride that the accessor pass leaves in an accessor: the one of its
buffer view when it has one, its own otherwise, and the derived stride when
that one is zero. -/
theorem fixAccessor_stride {d : GLTF2} {a b : GLTF_Accessor}
    (h : fixAccessor d a = Fix.done b) :
    b.type = a.type ∧ b.componentType = a.componentType ∧
    ((b.bufferView = Ptr.null ∧
        b.stride = if a.stride = 0 then internal_calculate_attribute_size a.type a.componentType
          else a.stride) ∨
      ∃ i bv, b.bufferView = Ptr.elem i ∧ d.bufferViews[i]? = some bv ∧
        b.stride = if bv.stride = 0 then internal_calculate_attribute_size a.type a.componentType
          else bv.stride) := by
  unfold fixAccessor at h
  obtain ⟨a3, h3, h4⟩ := Fix.andThen_eq_done h
  obtain ⟨a2, h2, h3⟩ := Fix.andThen_eq_done h3
  obtain ⟨a1, h1, h2⟩ := Fix.andThen_eq_done h2
  obtain ⟨v1, hv1, rfl⟩ := Fix.map_eq_done h1
  simp only [Fix.done.injEq] at h4
  subst h4
  have h21 : a2.bufferView = v1 ∧ a2.stride = a.stride ∧ a2.type = a.type ∧
      a2.componentType = a.componentType := by
    by_cases hs : a.isSparse = 0
    · simp only [hs, ne_eq, not_true_eq_false, ↓reduceIte, Fix.done.injEq] at h2
      subst h2
      exact ⟨rfl, rfl, rfl, rfl⟩
    · simp only [ne_eq, hs, not_false_eq_true, ↓reduceIte] at h2
      obtain ⟨sp, -, rfl⟩ := Fix.map_eq_done h2
      exact ⟨rfl, rfl, rfl, rfl⟩
  obtain ⟨hbv, hst, hty, hct⟩ := h21
  have hd : ∀ x : GLTF_Accessor, (accessorDerivedStride x).type = x.type ∧
      (accessorDerivedStride x).componentType = x.componentType ∧
      (accessorDerivedStride x).bufferView = x.bufferView ∧
      (accessorDerivedStride x).stride =
        if x.stride = 0 then internal_calculate_attribute_size x.type x.componentType
        else x.stride := by
    intro x
    unfold accessorDerivedStride
    split <;> simp_all
  unfold accessorStrideFromView at h3
  split at h3
  · rename_i hnull
    simp only [Fix.done.injEq] at h3
    subst h3
    refine ⟨(hd a2).1.trans hty, (hd a2).2.1.trans hct, Or.inl ⟨(hd a2).2.2.1.trans hnull, ?_⟩⟩
    rw [(hd a2).2.2.2, hst, hty, hct]
  · rename_i i hi
    split at h3
    · rename_i bv hbvi
      simp only [Fix.done.injEq] at h3
      subst h3
      refine ⟨(hd _).1.trans hty, (hd _).2.1.trans hct, Or.inr ⟨i, bv, (hd _).2.2.1.trans hi, hbvi, ?_⟩⟩
      rw [(hd _).2.2.2]
      simp only [hty, hct]
    · cases h3
  · cases h3

/-- The buffer view pass writes the buffer slot only. -/
theorem fixBufferView_stride {d : GLTF2} {v w : GLTF_BufferView}
    (h : fixBufferView d v = Fix.done w) : w.stride = v.stride := by
  unfold fixBufferView at h
  obtain ⟨x, -, rfl⟩ := Fix.map_eq_done h
  rfl

/-- Two lists related element by element, read at one index. -/
theorem forall₂_getElem? {α β : Type} {R : α → β → Prop} {as : List α} {bs : List β}
    (h : List.Forall₂ R as bs) :
    ∀ (k : Nat) (b : β), bs[k]? = some b → ∃ a, as[k]? = some a ∧ R a b := by
  induction h with
  | nil => intro k b hb; simp at hb
  | cons hr _ ih =>
    intro k b hb
    cases k with
    | zero =>
      simp only [List.getElem?_cons_zero, Option.some.injEq] at hb
      subst hb
      exact ⟨_, by simp, hr⟩
    | succ k =>
      simp only [List.getElem?_cons_succ] at hb
      simpa using ih k b hb

/-- Two lists related element by element, read at one index of the left one. -/
theorem forall₂_getElem?_left {α β : Type} {R : α → β → Prop} {as : List α} {bs : List β}
    (h : List.Forall₂ R as bs) :
    ∀ (k : Nat) (a : α), as[k]? = some a → ∃ b, bs[k]? = some b ∧ R a b := by
  induction h with
  | nil => intro k b hb; simp at hb
  | cons hr _ ih =>
    intro k a ha
    cases k with
    | zero =>
      simp only [List.getElem?_cons_zero, Option.some.injEq] at ha
      subst ha
      exact ⟨_, by simp, hr⟩
    | succ k =>
      simp only [List.getElem?_cons_succ] at ha
      simpa using ih k a ha

/-- The strides after a successful run of the resolver on accessors that all
had the stride 0. -/
theorem stride_of_success {d e : GLTF2} {l : List String}
    (h : internal_fix_pointers d = some (1, e, l)) (h0 : ∀ a ∈ d.accessors, a.stride = 0) :
    ∀ (k : Nat) (b : GLTF_Accessor), e.accessors[k]? = some b →
      (b.bufferView = Ptr.null ∨ ∃ i v, b.bufferView = Ptr.elem i ∧ e.bufferViews[i]? = some v) ∧
      (∀ (i : Nat) (v : GLTF_BufferView), b.bufferView = Ptr.elem i → e.bufferViews[i]? = some v → v.stride ≠ 0 →
        b.stride = v.stride) ∧
      ((b.bufferView = Ptr.null ∨
          ∃ i v, b.bufferView = Ptr.elem i ∧ e.bufferViews[i]? = some v ∧ v.stride = 0) →
        b.stride = internal_calculate_attribute_size b.type b.componentType) := by
  obtain ⟨ms, acs, ts, ims, mats, bvs, sks, ns, scs, sc, ans, -, hacs, -, -, -, hbvs, -, -, -, -,
    -, rfl⟩ := fixPasses_done (fixPasses_of_success h)
  have hA := fixAll_eq_done hacs
  have hB := fixAll_eq_done hbvs
  intro k b hb
  change acs[k]? = some b at hb
  obtain ⟨a, ha, hab⟩ := forall₂_getElem? hA k b hb
  have ha0 : a.stride = 0 := h0 a (List.getElem?_mem ha)
  obtain ⟨hty, hct, hcase⟩ := fixAccessor_stride hab
  rw [ha0] at hcase
  simp only [↓reduceIte] at hcase
  have view : ∀ (i : Nat) (bv : GLTF_BufferView), d.bufferViews[i]? = some bv →
      ∀ v : GLTF_BufferView, bvs[i]? = some v → v.stride = bv.stride := by
    intro i bv hbv v hv
    obtain ⟨w, hw, hvw⟩ := forall₂_getElem?_left hB i bv hbv
    rw [hv] at hw
    cases hw
    exact fixBufferView_stride hvw
  rcases hcase with ⟨hnull, hs⟩ | ⟨i, bv, hi, hbv, hs⟩
  · refine ⟨Or.inl hnull, ?_, ?_⟩
    · intro j v hj
      rw [hnull] at hj
      cases hj
    · intro _
      rw [hs, hty, hct]
  · obtain ⟨w, hw, hvw⟩ := forall₂_getElem?_left hB i bv hbv
    have hws : w.stride = bv.stride := fixBufferView_stride hvw
    refine ⟨Or.inr ⟨i, w, hi, hw⟩, ?_, ?_⟩
    · intro j v hj hv hne
      rw [hi] at hj
      cases hj
      change bvs[i]? = some v at hv
      have := view i bv hbv v hv
      rw [hs, ← this, if_neg hne]
    · intro hc
      rcases hc with hn | ⟨j, v, hj, hv, hz⟩
      · rw [hi] at hn
        cases hn
      · rw [hi] at hj
        cases hj
        change bvs[i]? = some v at hv
        have := view i bv hbv v hv
        rw [hs, ← this, if_pos hz, hty, hct]

/-- The test of a key against a name, on a string token whose text lies in the
buffer: the comparison of the bytes from the start of the token with the name,
over the length of the name. -/
theorem keyIs_string {data : List Nat} {tokens : List jsmntok_t} {tk : Nat} {t : jsmntok_t}
    (ht : tokens[tk]? = some t) (hty : t.type = JSMN_STRING) (hs : 0 ≤ t.start)
    (hle : t.start.toNat ≤ data.length) (str : String) :
    keyIs data tokens tk str =
      match strncmp_impl (data.drop t.start.toNat) (cstr str) (cstr str).length with
      | some c => R.ok (c == 0) []
      | none => R.ub := by
  have hlt : tk < tokens.length := (List.getElem?_eq_some_iff.mp ht).1
  unfold keyIs json_strncmp tokType tokGet dataFrom R.ofOption
  simp only [hlt, ↓reduceIte, ht, hty, R.bind_def, R.pure_def, R.bind, ne_eq, not_true_eq_false,
    hs, hle, and_self, List.append_nil]
  cases strncmp_impl (data.drop t.start.toNat) (cstr str) (cstr str).length <;> rfl

/-- The assertion at the head of a key loop passes on a string token. -/
theorem keyAssert_string {tokens : List jsmntok_t} {tk : Nat} {t : jsmntok_t}
    (ht : tokens[tk]? = some t) (hty : t.type = JSMN_STRING) :
    keyAssert tokens tk = R.ok () [] := by
  have hlt : tk < tokens.length := (List.getElem?_eq_some_iff.mp ht).1
  unfold keyAssert tokType
  simp only [hlt, ↓reduceIte, ht, hty, R.bind_def, R.pure_def, R.bind, List.append_nil]

/-- The root hands a key whose text starts with `animations` to
`internal_parse_animations`. -/
theorem jsonrootKey_animations (atofLt2 : List Nat → Bool) {data : List Nat}
    {tokens : List jsmntok_t} {tk : Nat} {t : jsmntok_t} (d : GLTF2)
    (ht : tokens[tk]? = some t) (hty : t.type = JSMN_STRING) (hs : 0 ≤ t.start)
    (htxt : (data.drop t.start.toNat).take 10 = cstr "animations") :
    jsonrootKey atofLt2 data tokens tk d = internal_parse_animations data tokens (tk + 1) d := by
  have hc : cstr "animations" = [97, 110, 105, 109, 97, 116, 105, 111, 110, 115] := by decide
  have hdrop : data.drop t.start.toNat =
      97 :: 110 :: 105 :: 109 :: 97 :: 116 :: 105 :: 111 :: 110 :: 115 ::
        (data.drop t.start.toNat).drop 10 := by
    have := List.take_append_drop 10 (data.drop t.start.toNat)
    rw [htxt, hc] at this
    exact this.symm
  have hle : t.start.toNat ≤ data.length := by
    by_contra hgt
    have : data.drop t.start.toNat = [] := List.drop_eq_nil_of_le (by omega)
    rw [this] at hdrop
    cases hdrop
  have h1 : keyIs data tokens tk "accessors" = R.ok false [] := by
    rw [keyIs_string ht hty hs hle, hdrop]
    have hn : cstr "accessors" = [97, 99, 99, 101, 115, 115, 111, 114, 115] := by decide
    rw [hn]
    rfl
  have h2 : keyIs data tokens tk "animation" = R.ok true [] := by
    rw [keyIs_string ht hty hs hle, hdrop]
    have hn : cstr "animation" = [97, 110, 105, 109, 97, 116, 105, 111, 110] := by decide
    rw [hn]
    rfl
  unfold jsonrootKey
  simp only [R.bind_def, R.pure_def, keyAssert_string ht hty, h1, h2, R.bind, List.nil_append,
    Bool.false_eq_true, ↓reduceIte, List.append_nil]
  cases internal_parse_animations data tokens (tk + 1) d <;> simp

/-- On success `internal_parse_animations` has read an array token and built as
many animations as the array has elements, and nothing else of the record has
changed. -/
theorem internal_parse_animations_count (data : List Nat) (tokens : List jsmntok_t) (tk : Nat)
    (d : GLTF2) :
    (internal_parse_animations data tokens tk d).Holds (fun r =>
      ∃ t, tokens[tk]? = some t ∧ t.type = JSMN_ARRAY ∧ r.2.animations.length = t.size.toNat ∧
        r.2 = { d with animations := r.2.animations }) := by
  intro v l hv
  have hfr := (internal_parse_collections_holds data tokens tk d).2.1 v l hv
  unfold internal_parse_animations at hv
  simp only [R.bind_def, R.pure_def] at hv
  obtain ⟨⟨tk1, n⟩, _, _, h1, hv, -⟩ := R.bind_eq_ok hv
  obtain ⟨⟨tk2, ans⟩, _, _, h2, hv, -⟩ := R.bind_eq_ok hv
  simp only [R.ok.injEq] at hv
  obtain ⟨rfl, -⟩ := hv
  obtain ⟨t, ht, hty, hr⟩ := json_parse_array_ok tokens tk _ _ h1
  simp only [Prod.mk.injEq] at hr
  obtain ⟨rfl, rfl⟩ := hr
  exact ⟨t, ht, hty, parseElems_length _ _ _ _ _ _ h2, hfr⟩
/-- Every key of the root keeps the file-info record. -/
theorem jsonrootKey_fileInfo (atofLt2 : List Nat → Bool) (data : List Nat)
    (tokens : List jsmntok_t) (tk : Nat) (d : GLTF2) (f : GLTF_FileInfo) (h0 : d.fileInfo = f) :
    (jsonrootKey atofLt2 data tokens tk d).Holds (fun r => r.2.fileInfo = f) := by
  have fr := internal_parse_collections_holds data tokens (tk + 1) d
  have keep : ∀ v : Nat × GLTF2, v.2.fileInfo = d.fileInfo → v.2.fileInfo = f :=
    fun v hv => hv.trans h0
  unfold jsonrootKey
  simp only [R.bind_def, R.pure_def]
  repeat' (first
    | apply R.holds_ite
    | exact R.holds_ok h0
    | exact R.holds_imp fr.1 (fun v hv => keep v (by rw [hv]))
    | exact R.holds_imp fr.2.1 (fun v hv => keep v (by rw [hv]))
    | exact R.holds_imp fr.2.2.1 (fun v hv => keep v (by rw [hv]))
    | exact R.holds_imp fr.2.2.2.1 (fun v hv => keep v (by rw [hv]))
    | exact R.holds_imp fr.2.2.2.2.1 (fun v hv => keep v (by rw [hv]))
    | exact R.holds_imp fr.2.2.2.2.2.1 (fun v hv => keep v (by rw [hv]))
    | exact R.holds_imp fr.2.2.2.2.2.2.1 (fun v hv => keep v (by rw [hv]))
    | exact R.holds_imp fr.2.2.2.2.2.2.2.1 (fun v hv => keep v (by rw [hv]))
    | exact R.holds_imp fr.2.2.2.2.2.2.2.2.1 (fun v hv => keep v (by rw [hv]))
    | exact R.holds_imp fr.2.2.2.2.2.2.2.2.2.1 (fun v hv => keep v (by rw [hv]))
    | exact R.holds_imp fr.2.2.2.2.2.2.2.2.2.2.1 (fun v hv => keep v (by rw [hv]))
    | exact R.holds_imp fr.2.2.2.2.2.2.2.2.2.2.2.1 (fun v hv => keep v (by rw [hv]))
    | exact R.holds_imp fr.2.2.2.2.2.2.2.2.2.2.2.2 (fun v hv => keep v (by rw [hv]))
    | (apply R.holds_bind; intro _))

/-- The walker keeps the file-info record. -/
theorem internal_parse_jsonroot_fileInfo (atofLt2 : List Nat → Bool) (data : List Nat)
    (tokens : List jsmntok_t) (tk : Nat) (d : GLTF2) :
    (internal_parse_jsonroot atofLt2 data tokens tk d).Holds
      (fun r => r.2.fileInfo = d.fileInfo) := by
  unfold internal_parse_jsonroot
  simp only [R.bind_def, R.pure_def]
  apply R.holds_bind; intro _
  apply R.holds_bind; intro n
  exact forLoop_holds (fun e : GLTF2 => e.fileInfo = d.fileInfo) _
    (fun tk1 s hs => jsonrootKey_fileInfo atofLt2 data tokens tk1 s d.fileInfo hs) n (tk + 1) d rfl

/-- The resolver writes no field of the file-info record, on any path. -/
theorem fixPasses_fileInfo (d : GLTF2) : (fixPasses d).Holds (fun e => e.fileInfo = d.fileInfo) := by
  unfold fixPasses
  refine Fix.holds_andThen (Fix.holds_andThen (Fix.holds_andThen (Fix.holds_andThen
    (Fix.holds_andThen (Fix.holds_andThen (Fix.holds_andThen (Fix.holds_andThen
    (Fix.holds_andThen (Fix.holds_andThen (Fix.holds_map _ (fun _ => rfl))
    (fun a ha => Fix.holds_map _ (fun _ => ha)))
    (fun a ha => Fix.holds_map _ (fun _ => ha)))
    (fun a ha => Fix.holds_map _ (fun _ => ha)))
    (fun a ha => Fix.holds_map _ (fun _ => ha)))
    (fun a ha => Fix.holds_map _ (fun _ => ha)))
    (fun a ha => Fix.holds_map _ (fun _ => ha)))
    (fun a ha => Fix.holds_map _ (fun _ => ha)))
    (fun a ha => Fix.holds_map _ (fun _ => ha)))
    (fun a ha => Fix.holds_map _ (fun _ => ha)))
    (fun a ha => Fix.holds_map _ (fun _ => ha))

theorem internal_fix_pointers_fileInfo {d e : GLTF2} {r : Int} {l : List String}
    (h : internal_fix_pointers d = some (r, e, l)) : e.fileInfo = d.fileInfo := by
  have ha := fixPasses_fileInfo d
  unfold internal_fix_pointers at h
  cases hp : fixPasses d with
  | done v =>
    rw [hp] at h ha
    simp only [Option.some.injEq, Prod.mk.injEq] at h
    rw [← h.2.1]; exact ha
  | ret c v l1 =>
    rw [hp] at h ha
    simp only [Option.some.injEq, Prod.mk.injEq] at h
    rw [← h.2.1]; exact ha
  | ub => rw [hp] at h; cases h

/-- The JSON stage writes the fields `jsonTkCount`, `json` and `jsonSize` of the
file-info record and no other: the BIN fields are those of the record it was
given. -/
theorem internal_parse_json_bin {atofLt2 : List Nat → Bool} {offset : Nat} {data : List Nat}
    {size : Nat} {d e : GLTF2} {l : List String}
    (h : internal_parse_json atofLt2 offset data size d = R.ok e l) :
    e.fileInfo.bin = d.fileInfo.bin ∧ e.fileInfo.binSize = d.fileInfo.binSize := by
  unfold internal_parse_json at h
  simp only [GLTF_Free_automatic] at h
  split at h
  · cases h
  · cases h
  · rename_i outData1 l1 hc
    have h1 : outData1.fileInfo.bin = d.fileInfo.bin ∧
        outData1.fileInfo.binSize = d.fileInfo.binSize := by
      split at hc
      · split at hc
        · cases hc
        · split at hc
          · cases hc
          · simp only [R.ok.injEq] at hc
            rw [← hc.1]; exact ⟨rfl, rfl⟩
      · simp only [R.ok.injEq] at hc
        rw [← hc.1]; exact ⟨rfl, rfl⟩
    split at h
    · cases h
    · split at h
      · cases h
      · split at h
        · cases h
        · split at h
          · cases h
          · split at h
            · cases h
            · cases h
            · rename_i tk2 outData2 l2 hroot
              have h2 := internal_parse_jsonroot_fileInfo atofLt2 data _ 0 outData1 _ _ hroot
              split at h
              · cases h
              · rename_i r outData3 l3 hfix
                have h3 := internal_fix_pointers_fileInfo hfix
                split at h
                · cases h
                · simp only [R.ok.injEq] at h
                  rw [← h.1]
                  show outData3.fileInfo.bin = d.fileInfo.bin ∧
                    outData3.fileInfo.binSize = d.fileInfo.binSize
                  rw [h3, h2]; exact h1

/-- A byte string read as a little-endian `unsigned int` is below `2^32`. -/
theorem readU32_lt (ptr : List Nat) (hb : ∀ b ∈ ptr, b < 256) (off : Nat) :
    readU32 ptr off < 4294967296 := by
  have hg : ∀ i, ptr.getD i 0 < 256 := by
    intro i
    rw [List.getD_eq_getElem?_getD]
    cases hi : ptr[i]? with
    | none => simp
    | some b =>
      obtain ⟨hlt, hget⟩ := List.getElem?_eq_some_iff.mp hi
      simpa using hb b (hget ▸ List.getElem_mem hlt)
  have h0 := hg off
  have h1 := hg (off + 1)
  have h2 := hg (off + 2)
  have h3 := hg (off + 3)
  unfold readU32
  omega

/-- A GLB file whose header and JSON chunk header are accepted goes to the JSON
stage with the chunk, and then to the reading of the chunk that follows. -/
theorem GLTF_ParseFromFile_glb (atofLt2 : List Nat → Bool) (c : Nat) (cs ptr : List Nat)
    (hb : ∀ b ∈ ptr, b < 256) (hlen : 20 ≤ ptr.length) (hmagic : ptr.take 4 = cstr "glTF")
    (hver : readU32 ptr 4 = 2) (hsize : readU32 ptr 8 = ptr.length)
    (htype : readU32 ptr 16 = JSON_CHUNK_TYPE) (hfit : 20 + readU32 ptr 12 ≤ ptr.length) :
    GLTF_ParseFromFile atofLt2 (some (c :: cs)) (some ptr) =
      match internal_parse_json atofLt2 20 (ptr.drop 20) (readU32 ptr 12)
          { fileInfo := { path := some (c :: cs) } } with
      | R.ub => none
      | R.err _ _ => none
      | R.ok d l =>
        (parseBinChunk ptr ptr.length (20 + readU32 ptr 12) d).map
          (fun r => (r.1, l ++ r.2)) := by
  have hg := strncmp_magic ptr (by omega)
  rw [decide_eq_true hmagic] at hg
  have hs := readU32_lt ptr hb 8
  rw [hsize] at hs
  have e1 : addU32 12 8 = 20 := rfl
  have e2 : addU32 12 4 = 16 := rfl
  have e3 : addU32 16 4 = 20 := rfl
  have e4 : addU32 20 (readU32 ptr 12) = 20 + readU32 ptr 12 := by
    unfold addU32; omega
  unfold GLTF_ParseFromFile
  simp only [hg, Nat.not_lt.mpr (show 4 ≤ ptr.length by omega), if_false, if_true,
    GLB_HEADER_SIZE, GLB_CHUNK_HEADER_SIZE, Nat.not_lt.mpr (show 12 ≤ ptr.length by omega),
    hver, ne_eq, not_true_eq_false, hsize, e1, e2, e3, e4, htype,
    show ¬ (20 > ptr.length) by omega, show ¬ (20 + readU32 ptr 12 > ptr.length) by omega,
    GLTF_Free_automatic, Option.map_none']

/-- The reading of a BIN chunk that fits in the file. -/
theorem parseBinChunk_bin {ptr : List Nat} {offset N : Nat} (d : GLTF2)
    (hs : ptr.length < 4294967296) (hfit : offset + 8 + N ≤ ptr.length)
    (hN : readU32 ptr offset = N) (hty : readU32 ptr (offset + 4) = BIN_CHUNK_TYPE) :
    parseBinChunk ptr ptr.length offset d =
      some ({ d with fileInfo := { d.fileInfo with
          bin := some ((ptr.drop (offset + 8)).take N), binSize := N } }, []) := by
  have e1 : addU32 offset 8 = offset + 8 := by unfold addU32; omega
  have e2 : addU32 offset 4 = offset + 4 := by unfold addU32; omega
  have e3 : addU32 (offset + 4) 4 = offset + 8 := by unfold addU32; omega
  have e4 : addU32 (offset + 8) N = offset + 8 + N := by unfold addU32; omega
  unfold parseBinChunk
  simp only [GLB_CHUNK_HEADER_SIZE, e1, e2, e3, hN, hty, e4,
    show offset < ptr.length by omega, show ¬ (offset + 8 > ptr.length) by omega,
    show ¬ (offset + 8 + N > ptr.length) by omega, if_true, if_false]

/-- The reading of a chunk of another type than BIN: nothing is copied. -/
theorem parseBinChunk_other {ptr : List Nat} {offset : Nat} (d : GLTF2)
    (hs : ptr.length < 4294967296) (hfit : offset + 8 ≤ ptr.length)
    (hty : readU32 ptr (offset + 4) ≠ BIN_CHUNK_TYPE) :
    parseBinChunk ptr ptr.length offset d = some (d, []) := by
  have e1 : addU32 offset 8 = offset + 8 := by unfold addU32; omega
  have e2 : addU32 offset 4 = offset + 4 := by unfold addU32; omega
  unfold parseBinChunk
  simp only [GLB_CHUNK_HEADER_SIZE, e1, e2, hty,
    show ¬ (offset + 8 > ptr.length) by omega, if_false]
  split <;> rfl

/-- The end of the file after the JSON chunk: there is no chunk to read. -/
theorem parseBinChunk_end (ptr : List Nat) (d : GLTF2) :
    parseBinChunk ptr ptr.length ptr.length d = some (d, []) := by
  unfold parseBinChunk
  simp only [Nat.lt_irrefl, if_false]

theorem digitChar_toNat (d : Nat) (h : d < 10) : (Nat.digitChar d).toNat = 48 + d := by
  interval_cases d <;> rfl

/-- Reading the decimal digits written by `Nat.toDigitsCore` gives the number back. -/
theorem digitsValue_toDigitsCore : ∀ (fuel n : Nat) (ds : List Char), n < fuel →
    digitsValue ((Nat.toDigitsCore 10 fuel n ds).map Char.toNat) 0 =
      digitsValue (ds.map Char.toNat) n
  | 0, n, ds, h => by omega
  | fuel + 1, n, ds, h => by
    have hd := digitChar_toNat (n % 10) (Nat.mod_lt _ (by decide))
    unfold Nat.toDigitsCore
    simp only
    split
    · rename_i h0
      have hn : n % 10 = n := by omega
      simp only [List.map_cons, hd, digitsValue]
      rw [if_pos (by omega)]
      congr 1
      omega
    · rename_i h0
      rw [digitsValue_toDigitsCore fuel (n / 10) _ (by omega)]
      simp only [List.map_cons, hd, digitsValue]
      rw [if_pos (by omega)]
      congr 1
      omega

/-- The text written by `Nat.toDigitsCore` starts with a digit. -/
theorem toDigitsCore_head : ∀ (fuel n : Nat) (ds : List Char),
    ∃ c rest, (Nat.toDigitsCore 10 (fuel + 1) n ds).map Char.toNat = c :: rest ∧ 48 ≤ c ∧ c ≤ 57
  | 0, n, ds => by
    have hd := digitChar_toNat (n % 10) (Nat.mod_lt _ (by decide))
    have hm := Nat.mod_lt n (show 10 > 0 by decide)
    unfold Nat.toDigitsCore
    simp only
    split
    · exact ⟨(n % 10).digitChar.toNat, ds.map Char.toNat, rfl, by omega, by omega⟩
    · unfold Nat.toDigitsCore
      exact ⟨(n % 10).digitChar.toNat, ds.map Char.toNat, rfl, by omega, by omega⟩
  | fuel + 1, n, ds => by
    have hd := digitChar_toNat (n % 10) (Nat.mod_lt _ (by decide))
    have hm := Nat.mod_lt n (show 10 > 0 by decide)
    unfold Nat.toDigitsCore
    simp only
    split
    · exact ⟨(n % 10).digitChar.toNat, ds.map Char.toNat, rfl, by omega, by omega⟩
    · exact toDigitsCore_head fuel (n / 10) _

theorem decimal_head (n : Nat) : ∃ c rest, decimal n = c :: rest ∧ 48 ≤ c ∧ c ≤ 57 :=
  toDigitsCore_head n n []

theorem digitsValue_decimal (n : Nat) : digitsValue (decimal n) 0 = n := by
  have h := digitsValue_toDigitsCore (n + 1) n [] (by omega)
  simpa [decimal, Nat.toDigits, digitsValue] using h

/-- The conversion `atoi` reads a decimal text back. -/
theorem atoi_decimal (n : Nat) (h : n < 2147483648) : atoi (decimal n) = some (n : Int) := by
  obtain ⟨c, rest, hc, h1, h2⟩ := decimal_head n
  have hv := digitsValue_decimal n
  have hs : isspace c = false := by
    have e1 : (c == 32) = false := by simp; omega
    have e2 : decide (c ≤ 13) = false := by simp; omega
    simp [isspace, e1, e2]
  have hst : strtolValue (decimal n) = (n : Int) := by
    unfold strtolValue
    rw [hc, List.dropWhile_cons_of_neg (by simp [hs])]
    simp only
    rw [if_neg (by omega), if_neg (by omega), ← hc, hv]
  unfold atoi
  simp only [hst]
  rw [if_pos (by omega)]

/-- The conversion `atoi` on a minus sign followed by a decimal text. -/
theorem atoi_minus_decimal (n : Nat) (h : n ≤ 2147483648) :
    atoi (45 :: decimal n) = some (-(n : Int)) := by
  have hv := digitsValue_decimal n
  have hst : strtolValue (45 :: decimal n) = -(n : Int) := by
    unfold strtolValue
    rw [List.dropWhile_cons_of_neg (by decide)]
    simp only
    rw [if_pos trivial, hv]
  unfold atoi
  simp only [hst]
  rw [if_pos (by omega)]

/-- The comparison of `strncmp_impl` over the length of a literal without a NUL byte
returns 0 exactly when the compared bytes are those of the literal. -/
theorem strncmp_impl_prefix : ∀ (lit p rest : List Nat), (∀ c ∈ lit, c ≠ 0) →
    p.length = lit.length → (strncmp_impl (p ++ rest) lit lit.length = some 0 ↔ p = lit)
  | [], p, rest, _, hl => by
    have : p = [] := List.length_eq_zero.mp hl
    subst this
    simp [strncmp_impl]
  | c :: lit, [], rest, _, hl => by simp at hl
  | c :: lit, a :: p, rest, h0, hl => by
    have hc : c ≠ 0 := h0 c (List.mem_cons_self _ _)
    have ih := strncmp_impl_prefix lit p rest (fun x hx => h0 x (List.mem_cons_of_mem _ hx))
      (by simpa using hl)
    simp only [List.cons_append, List.length_cons, strncmp_impl, List.headD_cons, List.tail_cons,
      ne_eq, ite_not, List.cons.injEq]
    by_cases hac : a = c
    · subst hac
      simp only [if_true, if_neg hc, true_and]
      exact ih
    · simp only [if_neg hac, Option.some.injEq, false_and, iff_false]
      omega

/-- The test of one category in `internal_parse_attribute_type`, on a name whose part before
the first underscore is `p`. -/
theorem attributeIs_eq (p rest : List Nat) (lit : String) (h0 : ∀ c ∈ cstr lit, c ≠ 0) :
    attributeIs (p ++ rest) p.length lit = decide (p = cstr lit) := by
  unfold attributeIs
  by_cases hl : p.length = (cstr lit).length
  · have h := strncmp_impl_prefix (cstr lit) p (rest ++ [0]) h0 hl
    rw [List.append_assoc]
    by_cases hp : p = cstr lit
    · rw [h.mpr hp, decide_eq_true hp]
      simp [hl]
    · have h1 : ¬ strncmp_impl (p ++ (rest ++ [0])) (cstr lit) (cstr lit).length = some 0 :=
        fun hh => hp (h.mp hh)
      simp [hp, h1]
  · have hp : p ≠ cstr lit := fun hh => hl (by rw [hh])
    simp [hl, hp]

/-- The category that `internal_parse_attribute_type` computes from the part of the name before
the first underscore is the one of the specification. -/
theorem attribute_kind_eq (p rest : List Nat) :
    (if attributeIs (p ++ rest) p.length "POSITION" then AttributeType_Position
      else if attributeIs (p ++ rest) p.length "NORMAL" then AttributeType_Normal
      else if attributeIs (p ++ rest) p.length "TANGENT" then AttributeType_Tangent
      else if attributeIs (p ++ rest) p.length "TEXCOORD" then AttributeType_TexCoord
      else if attributeIs (p ++ rest) p.length "COLOR" then AttributeType_Color
      else if attributeIs (p ++ rest) p.length "JOINTS" then AttributeType_Joints
      else if attributeIs (p ++ rest) p.length "WEIGHTS" then AttributeType_Weights
      else AttributeType_Invalid) = specAttributeKind p := by
  rw [attributeIs_eq p rest "POSITION" (by decide), attributeIs_eq p rest "NORMAL" (by decide),
    attributeIs_eq p rest "TANGENT" (by decide), attributeIs_eq p rest "TEXCOORD" (by decide),
    attributeIs_eq p rest "COLOR" (by decide), attributeIs_eq p rest "JOINTS" (by decide),
    attributeIs_eq p rest "WEIGHTS" (by decide)]
  simp only [decide_eq_true_eq, specAttributeKind]

theorem strchr_impl_none (p : List Nat) (h : 95 ∉ p) : strchr_impl p 95 = none := by
  unfold strchr_impl
  simp only
  rw [if_neg]
  rw [List.indexOf_eq_length.mpr h]
  exact Nat.lt_irrefl _

theorem indexOf_append_cons (c : Nat) : ∀ (p s : List Nat), c ∉ p →
    (p ++ c :: s).indexOf c = p.length
  | [], s, _ => by simp
  | a :: p, s, h => by
    have hac : a ≠ c := fun hh => h (hh ▸ List.mem_cons_self _ _)
    have ih := indexOf_append_cons c p s (fun hh => h (List.mem_cons_of_mem _ hh))
    simp only [List.cons_append, List.length_cons]
    rw [List.indexOf_cons_ne _ hac, ih]

theorem strchr_impl_some (p s : List Nat) (h : 95 ∉ p) :
    strchr_impl (p ++ 95 :: s) 95 = some p.length := by
  unfold strchr_impl
  simp only
  rw [indexOf_append_cons 95 p s h, if_pos]
  simp

/-- A name without an underscore: the category of the whole name, and the index
is left as it was. -/
theorem attribute_type_bare (p : List Nat) (h : 95 ∉ p) (index : Int) :
    internal_parse_attribute_type p index = R.ok (specAttributeKind p, index) [] := by
  have hh : p.headD 0 ≠ 95 := by
    cases p with
    | nil => simp
    | cons a p => 
      simp only [List.headD_cons]
      exact fun hh => h (hh ▸ List.mem_cons_self _ _)
  have hk := attribute_kind_eq p []
  rw [List.append_nil] at hk
  unfold internal_parse_attribute_type
  rw [if_neg hh]
  simp only [strchr_impl_none p h, hk]

/-- A name with an underscore after a non-empty first part `p`. -/
theorem attribute_type_suffix (p s : List Nat) (h : 95 ∉ p) (hp : p ≠ []) (index : Int) :
    internal_parse_attribute_type (p ++ 95 :: s) index =
      if specAttributeKind p ≠ AttributeType_Invalid then
        match atoi s with
        | none => R.ub
        | some v =>
          if v < 0 then R.ok (AttributeType_Invalid, 0) [] else R.ok (specAttributeKind p, v) []
      else R.ok (specAttributeKind p, index) [] := by
  have hh : (p ++ 95 :: s).headD 0 ≠ 95 := by
    cases p with
    | nil => exact absurd rfl hp
    | cons a p =>
      simp only [List.cons_append, List.headD_cons]
      exact fun hh => h (hh ▸ List.mem_cons_self _ _)
  have hk := attribute_kind_eq p (95 :: s)
  have hd : (p ++ 95 :: s).drop (p.length + 1) = s := by
    rw [← List.drop_drop, List.drop_left]
    rfl
  unfold internal_parse_attribute_type
  rw [if_neg hh]
  simp only [strchr_impl_some p s h, hk, hd]
  try rfl

/-- The names of the seven categories hold no underscore and are not empty. -/
theorem specAttributeKind_valid (p : List Nat) (h : specAttributeKind p ≠ AttributeType_Invalid) :
    95 ∉ p ∧ p ≠ [] := by
  unfold specAttributeKind at h
  repeat' split at h
  all_goals first
    | exact absurd rfl h
    | (rename_i hp; subst hp; decide)

/-- The loop over the attributes keeps every entry: the array has one element
for each key, and its first element holds the name read from the first key,
the classification of that name and the accessor index read from the value. -/
theorem attribute_list_loop_kept (data : List Nat) (tokens : List jsmntok_t) :
    ∀ (n tk : Nat), (internal_parse_attribute_list_loop data tokens n tk).Holds
      (fun r => r.2.length = n ∧
        (0 < n → ∃ tk1 name l0 kind lk v l1 rest,
          json_parse_string data tokens tk = R.ok (tk1, some name) l0 ∧
          internal_parse_attribute_type name 0 = R.ok kind lk ∧
          json_to_int data tokens tk1 = R.ok v l1 ∧
          r.2 = { name := some name, type := kind.1, index := kind.2, data := PTR_TO_INDEX v }
            :: rest))
  | 0, tk => by
    simp only [internal_parse_attribute_list_loop]
    exact R.holds_ok ⟨rfl, fun h => absurd h (Nat.lt_irrefl 0)⟩
  | n + 1, tk => by
    intro r l hr
    simp only [internal_parse_attribute_list_loop, R.bind_def, R.pure_def] at hr
    obtain ⟨_, _, l2, -, h2, -⟩ := R.bind_eq_ok hr
    split at h2
    · rename_i tk1 name l0 hs
      obtain ⟨⟨ty, idx⟩, lk, l3, hk, h3, -⟩ := R.bind_eq_ok h2
      obtain ⟨v, l1, l4, hv, h4, -⟩ := R.bind_eq_ok h3
      obtain ⟨⟨tk2, rest⟩, l5, l6, hrest, h6, -⟩ := R.bind_eq_ok h4
      simp only [R.ok.injEq] at h6
      obtain ⟨rfl, -⟩ := h6
      have ih := (attribute_list_loop_kept data tokens n (tk1 + 1) _ _ hrest).1
      exact ⟨by simp only [List.length_cons, ih], fun _ =>
        ⟨tk1, name, l0, (ty, idx), lk, v, l1, rest, hs, hk, hv, rfl⟩⟩
    · cases h2

theorem R.holds_bind_of {α β : Type} {P1 : α → Prop} {P : β → Prop} {x : R α} {f : α → R β}
    (hx : x.Holds P1) (h : ∀ a, P1 a → (f a).Holds P) : (R.bind x f).Holds P := by
  intro v l hv
  obtain ⟨a, l1, l2, h1, h2, -⟩ := R.bind_eq_ok hv
  exact h a (hx a l1 h1) v l2 h2

theorem R.holds_bind_eq {α β : Type} {P : β → Prop} {x : R α} {f : α → R β}
    (h : ∀ a l, x = R.ok a l → (f a).Holds P) : (R.bind x f).Holds P := by
  intro v l hv
  obtain ⟨a, l1, l2, h1, h2, -⟩ := R.bind_eq_ok hv
  exact h a l1 h1 v l2 h2

theorem R.holds_dite {α : Type} {P : α → Prop} {c : Prop} [Decidable c] {x y : R α}
    (hx : c → x.Holds P) (hy : ¬ c → y.Holds P) : (if c then x else y).Holds P := by
  split
  · exact hx ‹_›
  · exact hy ‹_›

theorem R.holds_err {α : Type} {P : α → Prop} {c : Int} {l : List String} :
    (R.err c l : R α).Holds P := by
  intro v l1 h
  cases h

theorem R.holds_ub {α : Type} {P : α → Prop} : (R.ub : R α).Holds P := by
  intro v l1 h
  cases h

/-! ### The cursor moves forward -/

theorem json_parse_string_mono (data : List Nat) (tokens : List jsmntok_t) (i : Nat) :
    (json_parse_string data tokens i).Holds (fun r => i < r.1) := by
  unfold json_parse_string
  simp only [R.bind_def, R.pure_def]
  repeat' (first
    | apply R.holds_ite
    | exact R.holds_err
    | exact R.holds_ub
    | exact R.holds_ok (Nat.lt_succ_self _)
    | (apply R.holds_bind; intro _))

theorem json_parse_array_mono (tokens : List jsmntok_t) (i : Nat) :
    (json_parse_array tokens i).Holds (fun r => r.1 = i + 1) := by
  unfold json_parse_array
  simp only [R.bind_def, R.pure_def]
  repeat' (first
    | apply R.holds_ite
    | exact R.holds_err
    | exact R.holds_ub
    | exact R.holds_ok rfl
    | (apply R.holds_bind; intro _))

theorem parseRefs_mono (data : List Nat) (tokens : List jsmntok_t) :
    ∀ (n tk : Nat), (parseRefs data tokens n tk).Holds (fun r => tk ≤ r.1)
  | 0, tk => by
    simp only [parseRefs]
    exact R.holds_ok (Nat.le_refl _)
  | n + 1, tk => by
    simp only [parseRefs, R.bind_def, R.pure_def]
    apply R.holds_bind; intro _
    refine R.holds_bind_of (parseRefs_mono data tokens n (tk + 1)) ?_
    intro a ha
    exact R.holds_ok (by show tk ≤ a.1; omega)

theorem json_parse_array_float_loop_mono (data : List Nat) (tokens : List jsmntok_t) :
    ∀ (n i j : Nat) (out : List CFloat),
      (json_parse_array_float_loop data tokens n i j out).Holds (fun r => i ≤ r.1)
  | 0, i, j, out => by
    simp only [json_parse_array_float_loop]
    exact R.holds_ok (Nat.le_refl _)
  | n + 1, i, j, out => by
    simp only [json_parse_array_float_loop, R.bind_def, R.pure_def]
    apply R.holds_bind; intro _
    apply R.holds_ite
    · exact R.holds_err
    · apply R.holds_bind; intro f
      apply R.holds_ite
      · exact R.holds_imp (json_parse_array_float_loop_mono data tokens n (i + 1) (j + 1) _)
          (fun v hv => by omega)
      · exact R.holds_ub

theorem json_parse_array_float_mono (data : List Nat) (tokens : List jsmntok_t) (i : Nat)
    (out : List CFloat) (size : Int) :
    (json_parse_array_float data tokens i out size).Holds (fun r => i < r.1) := by
  unfold json_parse_array_float
  simp only [R.bind_def, R.pure_def]
  apply R.holds_bind; intro _
  apply R.holds_ite
  · exact R.holds_err
  · apply R.holds_bind; intro _
    apply R.holds_ite
    · exact R.holds_err
    · exact R.holds_imp (json_parse_array_float_loop_mono data tokens _ (i + 1) 0 out)
        (fun v hv => by omega)

theorem json_parse_skip_loop_mono (tokens : List jsmntok_t) :
    ∀ (fuel i : Nat) (e : Int), (json_parse_skip_loop tokens fuel i e).Holds (fun r => i ≤ r)
  | 0, i, e => by
    simp only [json_parse_skip_loop]
    exact R.holds_ub
  | fuel + 1, i, e => by
    simp only [json_parse_skip_loop, R.bind_def, R.pure_def]
    apply R.holds_ite
    · apply R.holds_bind; intro ty
      cases ty
      · exact R.holds_err
      · apply R.holds_bind; intro _
        exact R.holds_imp (json_parse_skip_loop_mono tokens fuel (i + 1) _) (fun v hv => by omega)
      · apply R.holds_bind; intro _
        exact R.holds_imp (json_parse_skip_loop_mono tokens fuel (i + 1) _) (fun v hv => by omega)
      · exact R.holds_imp (json_parse_skip_loop_mono tokens fuel (i + 1) _) (fun v hv => by omega)
      · exact R.holds_imp (json_parse_skip_loop_mono tokens fuel (i + 1) _) (fun v hv => by omega)
    · exact R.holds_ok (Nat.le_refl _)

theorem json_parse_skip_mono (tokens : List jsmntok_t) (i : Nat) :
    (json_parse_skip tokens i).Holds (fun r => i < r) := by
  unfold json_parse_skip
  cases hf : tokens.length + 2 - i with
  | zero =>
    simp only [json_parse_skip_loop]
    exact R.holds_ub
  | succ fuel =>
    simp only [json_parse_skip_loop, R.bind_def, R.pure_def]
    apply R.holds_dite
    · intro _
      apply R.holds_bind; intro ty
      cases ty
      · exact R.holds_err
      · apply R.holds_bind; intro _
        exact R.holds_imp (json_parse_skip_loop_mono tokens fuel (i + 1) _) (fun v hv => by omega)
      · apply R.holds_bind; intro _
        exact R.holds_imp (json_parse_skip_loop_mono tokens fuel (i + 1) _) (fun v hv => by omega)
      · exact R.holds_imp (json_parse_skip_loop_mono tokens fuel (i + 1) _) (fun v hv => by omega)
      · exact R.holds_imp (json_parse_skip_loop_mono tokens fuel (i + 1) _) (fun v hv => by omega)
    · intro hlt
      exact absurd (by omega : (i : Int) < (i : Int) + 1) hlt

theorem internal_parse_extras_mono (data : List Nat) (tokens : List jsmntok_t) (tk : Nat) :
    (internal_parse_extras data tokens tk).Holds (fun r => tk < r.1) := by
  unfold internal_parse_extras
  simp only [R.bind_def, R.pure_def]
  apply R.holds_bind; intro _
  refine R.holds_bind_of (json_parse_skip_mono tokens tk) ?_
  intro a ha
  exact R.holds_ok ha

theorem internal_parse_unprocessed_extension_mono (data : List Nat) (tokens : List jsmntok_t)
    (tk : Nat) (e : GLTF_Extension) :
    (internal_parse_unprocessed_extension data tokens tk e).Holds (fun r => tk < r.1) := by
  unfold internal_parse_unprocessed_extension
  simp only [R.bind_def, R.pure_def]
  apply R.holds_bind; intro _
  apply R.holds_bind; intro _
  apply R.holds_bind; intro _
  apply R.holds_bind; intro _
  apply R.holds_bind; intro _
  apply R.holds_bind; intro _
  refine R.holds_bind_of (json_parse_skip_mono tokens (tk + 1)) ?_
  intro a ha
  exact R.holds_ok (by show tk < a; omega)

theorem internal_parse_unprocessed_extensions_loop_mono (data : List Nat)
    (tokens : List jsmntok_t) :
    ∀ (n tk : Nat), (internal_parse_unprocessed_extensions_loop data tokens n tk).Holds
      (fun r => tk ≤ r.1)
  | 0, tk => by
    simp only [internal_parse_unprocessed_extensions_loop]
    exact R.holds_ok (Nat.le_refl _)
  | n + 1, tk => by
    simp only [internal_parse_unprocessed_extensions_loop, R.bind_def, R.pure_def]
    apply R.holds_bind; intro _
    refine R.holds_bind_of (internal_parse_unprocessed_extension_mono data tokens tk {}) ?_
    intro a ha
    refine R.holds_bind_of (internal_parse_unprocessed_extensions_loop_mono data tokens n a.1) ?_
    intro b hb
    exact R.holds_ok (by show tk ≤ b.1; omega)

theorem internal_parse_unprocessed_extensions_mono (data : List Nat) (tokens : List jsmntok_t)
    (tk : Nat) :
    (internal_parse_unprocessed_extensions data tokens tk).Holds (fun r => tk < r.1) := by
  unfold internal_parse_unprocessed_extensions
  simp only [R.bind_def, R.pure_def]
  apply R.holds_bind; intro _
  apply R.holds_bind; intro _
  apply R.holds_bind; intro _
  exact R.holds_imp (internal_parse_unprocessed_extensions_loop_mono data tokens _ (tk + 1 + 1))
    (fun v hv => by omega)

theorem parseWeights_mono (data : List Nat) (tokens : List jsmntok_t) (tk : Nat) :
    (parseWeights data tokens tk).Holds (fun r => tk < r.1) := by
  unfold parseWeights
  simp only [R.bind_def, R.pure_def]
  refine R.holds_bind_of (json_parse_array_mono tokens (tk + 1)) ?_
  intro a ha
  rw [ha]
  exact R.holds_imp (json_parse_array_float_mono data tokens (tk + 1 + 1 - 1) _ _)
    (fun v hv => by omega)

theorem internal_parse_attribute_list_loop_mono (data : List Nat) (tokens : List jsmntok_t) :
    ∀ (n tk : Nat), (internal_parse_attribute_list_loop data tokens n tk).Holds (fun r => tk ≤ r.1)
  | 0, tk => by
    simp only [internal_parse_attribute_list_loop]
    exact R.holds_ok (Nat.le_refl _)
  | n + 1, tk => by
    intro r l hr
    simp only [internal_parse_attribute_list_loop, R.bind_def, R.pure_def] at hr
    obtain ⟨_, _, l2, -, h2, -⟩ := R.bind_eq_ok hr
    split at h2
    · rename_i tk1 name l0 hs
      have h1 := json_parse_string_mono data tokens tk _ _ hs
      obtain ⟨⟨ty, idx⟩, lk, l3, hk, h3, -⟩ := R.bind_eq_ok h2
      obtain ⟨v, l1, l4, hv, h4, -⟩ := R.bind_eq_ok h3
      obtain ⟨⟨tk2, rest⟩, l5, l6, hrest, h6, -⟩ := R.bind_eq_ok h4
      simp only [R.ok.injEq] at h6
      obtain ⟨rfl, -⟩ := h6
      have ih := internal_parse_attribute_list_loop_mono data tokens n (tk1 + 1) _ _ hrest
      show tk ≤ tk2
      simp only at h1 ih
      omega
    · cases h2

theorem internal_parse_attribute_list_mono (data : List Nat) (tokens : List jsmntok_t) (tk : Nat) :
    (internal_parse_attribute_list data tokens tk).Holds (fun r => tk < r.1) := by
  unfold internal_parse_attribute_list
  simp only [R.bind_def, R.pure_def]
  apply R.holds_bind; intro _
  apply R.holds_bind; intro _
  apply R.holds_ite
  · exact R.holds_ub
  · exact R.holds_imp (internal_parse_attribute_list_loop_mono data tokens _ (tk + 1))
      (fun v hv => by omega)

theorem parseTargets_mono (data : List Nat) (tokens : List jsmntok_t) :
    ∀ (n tk : Nat), (parseTargets data tokens n tk).Holds (fun r => tk ≤ r.1)
  | 0, tk => by
    simp only [parseTargets]
    exact R.holds_ok (Nat.le_refl _)
  | n + 1, tk => by
    simp only [parseTargets, R.bind_def, R.pure_def]
    refine R.holds_bind_of (internal_parse_attribute_list_mono data tokens tk) ?_
    intro a ha
    refine R.holds_bind_of (parseTargets_mono data tokens n a.1) ?_
    intro b hb
    exact R.holds_ok (by show tk ≤ b.1; omega)

/-- A key loop moves its cursor forward, and keeps a part `proj` of the record
unless the cursor passes a token accepted by `M`, when every iteration does. -/
theorem forLoop_frame {σ τ : Type} (proj : σ → τ) (M : Nat → Prop)
    (body : Nat → σ → R (Nat × σ))
    (hbody : ∀ c s, (body c s).Holds (fun r =>
      c < r.1 ∧ (proj r.2 = proj s ∨ ∃ k, c ≤ k ∧ k < r.1 ∧ M k))) :
    ∀ (n c : Nat) (s : σ), (forLoop n body c s).Holds (fun r =>
      c ≤ r.1 ∧ (proj r.2 = proj s ∨ ∃ k, c ≤ k ∧ k < r.1 ∧ M k))
  | 0, c, s => by
    simp only [forLoop]
    exact R.holds_ok ⟨Nat.le_refl _, Or.inl rfl⟩
  | n + 1, c, s => by
    simp only [forLoop, R.bind_def]
    refine R.holds_bind_of (hbody c s) ?_
    intro a ha
    refine R.holds_imp (forLoop_frame proj M body hbody n a.1 a.2) ?_
    intro r hr
    refine ⟨by omega, ?_⟩
    rcases hr.2 with h | ⟨k, h1, h2, h3⟩
    · rcases ha.2 with h' | ⟨k, h1, h2, h3⟩
      · exact Or.inl (h.trans h')
      · exact Or.inr ⟨k, h1, by omega, h3⟩
    · exact Or.inr ⟨k, by omega, h2, h3⟩

theorem imageSamplerKey_frame (data : List Nat) (tokens : List jsmntok_t) (c : Nat)
    (s : GLTF_ImageSampler) :
    (imageSamplerKey data tokens c s).Holds (fun r => c < r.1 ∧
      (r.2.wrapS = s.wrapS ∨ ∃ k, c ≤ k ∧ k < r.1 ∧ ReadsAs data tokens "wrapS" k) ∧
      (r.2.wrapT = s.wrapT ∨ ∃ k, c ≤ k ∧ k < r.1 ∧ ReadsAs data tokens "wrapT" k)) := by
  unfold imageSamplerKey
  simp only [R.bind_def, R.pure_def]
  repeat' (first
    | (apply R.holds_dite <;> intro _)
    | (refine R.holds_ok ⟨?_, ?_, ?_⟩ <;> first
        | (simp only []; omega)
        | exact Or.inl rfl
        | exact Or.inr ⟨c, Nat.le_refl _, by simp only []; omega, ⟨_, by subst_vars; assumption⟩⟩)
    | (refine R.holds_bind_of (json_parse_string_mono data tokens _) ?_; intro _ _)
    | (refine R.holds_bind_of (internal_parse_extras_mono data tokens _) ?_; intro _ _)
    | (refine R.holds_bind_of (internal_parse_unprocessed_extensions_mono data tokens _) ?_; intro _ _)
    | (refine R.holds_bind_of (json_parse_skip_mono tokens _) ?_; intro _ _)
    | (refine R.holds_bind_eq ?_; intro _ _ _))

theorem internal_parse_image_sampler_frame (data : List Nat) (tokens : List jsmntok_t) (tk : Nat)
    (s : GLTF_ImageSampler) :
    (internal_parse_image_sampler data tokens tk s).Holds (fun r => tk < r.1 ∧
      (r.2.wrapS = WrapMode_Repeat ∨ KeyIn data tokens tk r.1 "wrapS") ∧
      (r.2.wrapT = WrapMode_Repeat ∨ KeyIn data tokens tk r.1 "wrapT")) := by
  unfold internal_parse_image_sampler
  simp only [R.bind_def, R.pure_def]
  apply R.holds_bind; intro _
  apply R.holds_bind; intro n
  have hS := forLoop_frame (fun s : GLTF_ImageSampler => s.wrapS) (ReadsAs data tokens "wrapS")
    (imageSamplerKey data tokens)
    (fun c s => R.holds_imp (imageSamplerKey_frame data tokens c s) (fun r h => ⟨h.1, h.2.1⟩))
    n (tk + 1) { s with wrapS := WrapMode_Repeat, wrapT := WrapMode_Repeat }
  have hT := forLoop_frame (fun s : GLTF_ImageSampler => s.wrapT) (ReadsAs data tokens "wrapT")
    (imageSamplerKey data tokens)
    (fun c s => R.holds_imp (imageSamplerKey_frame data tokens c s) (fun r h => ⟨h.1, h.2.2⟩))
    n (tk + 1) { s with wrapS := WrapMode_Repeat, wrapT := WrapMode_Repeat }
  intro r l hr
  have h1 := hS r l hr
  have h2 := hT r l hr
  refine ⟨by omega, ?_, ?_⟩
  · rcases h1.2 with h | ⟨k, hk1, hk2, hk3⟩
    · exact Or.inl h
    · exact Or.inr ⟨k, by omega, hk2, hk3⟩
  · rcases h2.2 with h | ⟨k, hk1, hk2, hk3⟩
    · exact Or.inl h
    · exact Or.inr ⟨k, by omega, hk2, hk3⟩

theorem primitiveKey_frame (data : List Nat) (tokens : List jsmntok_t) (c : Nat)
    (s : GLTF_Primitive) :
    (primitiveKey data tokens c s).Holds (fun r => c < r.1 ∧
      (r.2.type = s.type ∨ ∃ k, c ≤ k ∧ k < r.1 ∧ ReadsAs data tokens "mode" k)) := by
  unfold primitiveKey
  simp only [R.bind_def, R.pure_def]
  repeat' (first
    | (apply R.holds_dite <;> intro _)
    | (refine R.holds_ok ⟨?_, ?_⟩ <;> first
        | (simp only [] at *; omega)
        | (simp only []; omega)
        | exact Or.inl rfl
        | exact Or.inr ⟨c, Nat.le_refl _, by simp only []; omega, ⟨_, by subst_vars; assumption⟩⟩)
    | (refine R.holds_bind_of (json_parse_array_mono tokens _) ?_; intro _ _)
    | (refine R.holds_bind_of (parseTargets_mono data tokens _ _) ?_; intro _ _)
    | (refine R.holds_bind_of (internal_parse_attribute_list_mono data tokens _) ?_; intro _ _)
    | (refine R.holds_bind_of (internal_parse_extras_mono data tokens _) ?_; intro _ _)
    | (refine R.holds_bind_of (internal_parse_unprocessed_extensions_mono data tokens _) ?_; intro _ _)
    | (refine R.holds_bind_of (json_parse_skip_mono tokens _) ?_; intro _ _)
    | (refine R.holds_bind_eq ?_; intro _ _ _))

theorem nodeKey_frame (data : List Nat) (tokens : List jsmntok_t) (c : Nat) (s : GLTF_Node) :
    (nodeKey data tokens c s).Holds (fun r => c < r.1 ∧
      (r.2.rotation = s.rotation ∨ ∃ k, c ≤ k ∧ k < r.1 ∧ ReadsAs data tokens "rotation" k) ∧
      (r.2.scale = s.scale ∨ ∃ k, c ≤ k ∧ k < r.1 ∧ ReadsAs data tokens "scale" k) ∧
      (r.2.matrix = s.matrix ∨ ∃ k, c ≤ k ∧ k < r.1 ∧ ReadsAs data tokens "matrix" k) ∧
      (r.2.translation = s.translation ∨
        ∃ k, c ≤ k ∧ k < r.1 ∧ ReadsAs data tokens "translation" k)) := by
  unfold nodeKey
  simp only [R.bind_def, R.pure_def]
  repeat' (first
    | (apply R.holds_dite <;> intro _)
    | (refine R.holds_ok ⟨?_, ?_, ?_, ?_, ?_⟩ <;> first
        | (simp only [] at *; omega)
        | (simp only []; omega)
        | exact Or.inl rfl
        | exact Or.inr ⟨c, Nat.le_refl _, by simp only []; omega, ⟨_, by subst_vars; assumption⟩⟩)
    | (refine R.holds_bind_of (json_parse_string_mono data tokens _) ?_; intro _ _)
    | (refine R.holds_bind_of (json_parse_array_mono tokens _) ?_; intro _ _)
    | (refine R.holds_bind_of (parseRefs_mono data tokens _ _) ?_; intro _ _)
    | (refine R.holds_bind_of (json_parse_array_float_mono data tokens _ _ _) ?_; intro _ _)
    | (refine R.holds_bind_of (parseWeights_mono data tokens _) ?_; intro _ _)
    | (refine R.holds_bind_of (internal_parse_extras_mono data tokens _) ?_; intro _ _)
    | (refine R.holds_bind_of (internal_parse_unprocessed_extensions_mono data tokens _) ?_; intro _ _)
    | (refine R.holds_bind_of (json_parse_skip_mono tokens _) ?_; intro _ _)
    | (refine R.holds_bind_eq ?_; intro _ _ _))

theorem textureViewKey_frame (data : List Nat) (tokens : List jsmntok_t) (c : Nat)
    (s : GLTF_TextureView) :
    (textureViewKey data tokens c s).Holds (fun r => c < r.1 ∧
      (r.2.scale = s.scale ∨ ∃ k, c ≤ k ∧ k < r.1 ∧
        (ReadsAs data tokens "scale" k ∨ ReadsAs data tokens "strength" k))) := by
  unfold textureViewKey
  simp only [R.bind_def, R.pure_def]
  repeat' (first
    | (apply R.holds_dite <;> intro _)
    | (refine R.holds_ok ⟨?_, ?_⟩ <;> first
        | (simp only [] at *; omega)
        | (simp only []; omega)
        | exact Or.inl rfl
        | exact Or.inr ⟨c, Nat.le_refl _, by simp only []; omega,
            Or.inl ⟨_, by subst_vars; assumption⟩⟩
        | exact Or.inr ⟨c, Nat.le_refl _, by simp only []; omega,
            Or.inr ⟨_, by subst_vars; assumption⟩⟩)
    | (refine R.holds_bind_of (internal_parse_unprocessed_extensions_mono data tokens _) ?_; intro _ _)
    | (refine R.holds_bind_of (json_parse_skip_mono tokens _) ?_; intro _ _)
    | (refine R.holds_bind_eq ?_; intro _ _ _))

theorem internal_parse_primitive_frame (data : List Nat) (tokens : List jsmntok_t) (tk : Nat)
    (s : GLTF_Primitive) :
    (internal_parse_primitive data tokens tk s).Holds (fun r => tk < r.1 ∧
      (r.2.type = PrimitiveType_Triangles ∨ KeyIn data tokens tk r.1 "mode")) := by
  unfold internal_parse_primitive
  simp only [R.bind_def, R.pure_def]
  apply R.holds_bind; intro _
  apply R.holds_bind; intro n
  have hS := forLoop_frame (fun s : GLTF_Primitive => s.type) (ReadsAs data tokens "mode")
    (primitiveKey data tokens) (primitiveKey_frame data tokens)
    n (tk + 1) { s with type := PrimitiveType_Triangles }
  intro r l hr
  have h1 := hS r l hr
  refine ⟨by omega, ?_⟩
  rcases h1.2 with h | ⟨k, hk1, hk2, hk3⟩
  · exact Or.inl h
  · exact Or.inr ⟨k, by omega, hk2, hk3⟩

theorem internal_parse_texture_view_frame (data : List Nat) (tokens : List jsmntok_t) (tk : Nat)
    (s : GLTF_TextureView) :
    (internal_parse_texture_view data tokens tk s).Holds (fun r => tk < r.1 ∧
      (r.2.scale = CFloat.one ∨ KeyIn data tokens tk r.1 "scale" ∨
        KeyIn data tokens tk r.1 "strength")) := by
  unfold internal_parse_texture_view
  simp only [R.bind_def, R.pure_def]
  apply R.holds_bind; intro _
  apply R.holds_bind; intro n
  have hS := forLoop_frame (fun s : GLTF_TextureView => s.scale)
    (fun k => ReadsAs data tokens "scale" k ∨ ReadsAs data tokens "strength" k)
    (textureViewKey data tokens) (textureViewKey_frame data tokens)
    n (tk + 1) { s with scale := CFloat.one }
  intro r l hr
  have h1 := hS r l hr
  refine ⟨by omega, ?_⟩
  rcases h1.2 with h | ⟨k, hk1, hk2, hk3 | hk3⟩
  · exact Or.inl h
  · exact Or.inr (Or.inl ⟨k, by omega, hk2, hk3⟩)
  · exact Or.inr (Or.inr ⟨k, by omega, hk2, hk3⟩)

theorem internal_parse_texture_view_mono (data : List Nat) (tokens : List jsmntok_t) (tk : Nat)
    (s : GLTF_TextureView) :
    (internal_parse_texture_view data tokens tk s).Holds (fun r => tk < r.1) :=
  R.holds_imp (internal_parse_texture_view_frame data tokens tk s) (fun _ h => h.1)

theorem internal_parse_node_frame (data : List Nat) (tokens : List jsmntok_t) (tk : Nat) :
    (internal_parse_node data tokens tk {}).Holds (fun r => tk < r.1 ∧
      (r.2.rotation = [CFloat.zero, CFloat.zero, CFloat.zero, CFloat.one] ∨
        KeyIn data tokens tk r.1 "rotation") ∧
      (r.2.scale = [CFloat.one, CFloat.one, CFloat.one] ∨ KeyIn data tokens tk r.1 "scale") ∧
      (r.2.matrix = [CFloat.one, CFloat.zero, CFloat.zero, CFloat.zero,
          CFloat.zero, CFloat.one, CFloat.zero, CFloat.zero,
          CFloat.zero, CFloat.zero, CFloat.one, CFloat.zero,
          CFloat.zero, CFloat.zero, CFloat.zero, CFloat.one] ∨
        KeyIn data tokens tk r.1 "matrix") ∧
      (r.2.translation = [CFloat.zero, CFloat.zero, CFloat.zero] ∨
        KeyIn data tokens tk r.1 "translation")) := by
  unfold internal_parse_node
  simp only [R.bind_def, R.pure_def]
  apply R.holds_bind; intro _
  apply R.holds_bind; intro n
  have hb := nodeKey_frame data tokens
  have hR := forLoop_frame (fun s : GLTF_Node => s.rotation) (ReadsAs data tokens "rotation")
    (nodeKey data tokens) (fun c s => R.holds_imp (hb c s) (fun r h => ⟨h.1, h.2.1⟩))
  have hS := forLoop_frame (fun s : GLTF_Node => s.scale) (ReadsAs data tokens "scale")
    (nodeKey data tokens) (fun c s => R.holds_imp (hb c s) (fun r h => ⟨h.1, h.2.2.1⟩))
  have hM := forLoop_frame (fun s : GLTF_Node => s.matrix) (ReadsAs data tokens "matrix")
    (nodeKey data tokens) (fun c s => R.holds_imp (hb c s) (fun r h => ⟨h.1, h.2.2.2.1⟩))
  have hT := forLoop_frame (fun s : GLTF_Node => s.translation)
    (ReadsAs data tokens "translation")
    (nodeKey data tokens) (fun c s => R.holds_imp (hb c s) (fun r h => ⟨h.1, h.2.2.2.2⟩))
  intro r l hr
  have h1 := hR n (tk + 1) _ r l hr
  have h2 := hS n (tk + 1) _ r l hr
  have h3 := hM n (tk + 1) _ r l hr
  have h4 := hT n (tk + 1) _ r l hr
  refine ⟨by omega, ?_, ?_, ?_, ?_⟩
  · rcases h1.2 with h | ⟨k, hk1, hk2, hk3⟩
    · exact Or.inl h
    · exact Or.inr ⟨k, by omega, hk2, hk3⟩
  · rcases h2.2 with h | ⟨k, hk1, hk2, hk3⟩
    · exact Or.inl h
    · exact Or.inr ⟨k, by omega, hk2, hk3⟩
  · rcases h3.2 with h | ⟨k, hk1, hk2, hk3⟩
    · exact Or.inl h
    · exact Or.inr ⟨k, by omega, hk2, hk3⟩
  · rcases h4.2 with h | ⟨k, hk1, hk2, hk3⟩
    · exact Or.inl h
    · exact Or.inr ⟨k, by omega, hk2, hk3⟩

theorem pbrKey_frame (data : List Nat) (tokens : List jsmntok_t) (c : Nat)
    (s : GLTF_PBRMetallicRoughness) :
    (pbrKey data tokens c s).Holds (fun r => c < r.1 ∧
      (r.2.baseColor = s.baseColor ∨
        ∃ k, c ≤ k ∧ k < r.1 ∧ ReadsAs data tokens "baseColorFactor" k) ∧
      (r.2.metallicFactor = s.metallicFactor ∨
        ∃ k, c ≤ k ∧ k < r.1 ∧ ReadsAs data tokens "metallicFactor" k) ∧
      (r.2.roughnessFactor = s.roughnessFactor ∨
        ∃ k, c ≤ k ∧ k < r.1 ∧ ReadsAs data tokens "roughnessFactor" k)) := by
  unfold pbrKey
  simp only [R.bind_def, R.pure_def]
  repeat' (first
    | (apply R.holds_dite <;> intro _)
    | (refine R.holds_ok ⟨?_, ?_, ?_, ?_⟩ <;> first
        | (simp only [] at *; omega)
        | (simp only []; omega)
        | exact Or.inl rfl
        | exact Or.inr ⟨c, Nat.le_refl _, by simp only []; omega, ⟨_, by subst_vars; assumption⟩⟩)
    | (refine R.holds_bind_of (json_parse_array_float_mono data tokens _ _ _) ?_; intro _ _)
    | (refine R.holds_bind_of (internal_parse_texture_view_mono data tokens _ _) ?_; intro _ _)
    | (refine R.holds_bind_of (json_parse_skip_mono tokens _) ?_; intro _ _)
    | (refine R.holds_bind_eq ?_; intro _ _ _))

theorem internal_parse_pbr_metallic_roughness_frame (data : List Nat) (tokens : List jsmntok_t)
    (tk : Nat) (s : GLTF_PBRMetallicRoughness) :
    (internal_parse_pbr_metallic_roughness data tokens tk s).Holds (fun r => tk < r.1 ∧
      (r.2.baseColor = s.baseColor ∨
        ∃ k, tk ≤ k ∧ k < r.1 ∧ ReadsAs data tokens "baseColorFactor" k) ∧
      (r.2.metallicFactor = s.metallicFactor ∨
        ∃ k, tk ≤ k ∧ k < r.1 ∧ ReadsAs data tokens "metallicFactor" k) ∧
      (r.2.roughnessFactor = s.roughnessFactor ∨
        ∃ k, tk ≤ k ∧ k < r.1 ∧ ReadsAs data tokens "roughnessFactor" k)) := by
  unfold internal_parse_pbr_metallic_roughness
  simp only [R.bind_def, R.pure_def]
  apply R.holds_bind; intro _
  apply R.holds_bind; intro n
  have hb := pbrKey_frame data tokens
  have hB := forLoop_frame (fun s : GLTF_PBRMetallicRoughness => s.baseColor)
    (ReadsAs data tokens "baseColorFactor")
    (pbrKey data tokens) (fun c s => R.holds_imp (hb c s) (fun r h => ⟨h.1, h.2.1⟩))
  have hM := forLoop_frame (fun s : GLTF_PBRMetallicRoughness => s.metallicFactor)
    (ReadsAs data tokens "metallicFactor")
    (pbrKey data tokens) (fun c s => R.holds_imp (hb c s) (fun r h => ⟨h.1, h.2.2.1⟩))
  have hR := forLoop_frame (fun s : GLTF_PBRMetallicRoughness => s.roughnessFactor)
    (ReadsAs data tokens "roughnessFactor")
    (pbrKey data tokens) (fun c s => R.holds_imp (hb c s) (fun r h => ⟨h.1, h.2.2.2⟩))
  intro r l hr
  have h1 := hB n (tk + 1) _ r l hr
  have h2 := hM n (tk + 1) _ r l hr
  have h3 := hR n (tk + 1) _ r l hr
  refine ⟨by omega, ?_, ?_, ?_⟩
  · rcases h1.2 with h | ⟨k, hk1, hk2, hk3⟩
    · exact Or.inl h
    · exact Or.inr ⟨k, by omega, hk2, hk3⟩
  · rcases h2.2 with h | ⟨k, hk1, hk2, hk3⟩
    · exact Or.inl h
    · exact Or.inr ⟨k, by omega, hk2, hk3⟩
  · rcases h3.2 with h | ⟨k, hk1, hk2, hk3⟩
    · exact Or.inl h
    · exact Or.inr ⟨k, by omega, hk2, hk3⟩

theorem materialKey_frame (data : List Nat) (tokens : List jsmntok_t) (c : Nat)
    (s : GLTF_Material) :
    (materialKey data tokens c s).Holds (fun r => c < r.1 ∧
      (r.2.alphaCutoff = s.alphaCutoff ∨
        ∃ k, c ≤ k ∧ k < r.1 ∧ ReadsAs data tokens "alphaCutoff" k) ∧
      (r.2.PBRmetallicRoughness.baseColor = s.PBRmetallicRoughness.baseColor ∨
        ∃ k, c ≤ k ∧ k < r.1 ∧ ReadsAs data tokens "baseColorFactor" k) ∧
      (r.2.PBRmetallicRoughness.metallicFactor = s.PBRmetallicRoughness.metallicFactor ∨
        ∃ k, c ≤ k ∧ k < r.1 ∧ ReadsAs data tokens "metallicFactor" k) ∧
      (r.2.PBRmetallicRoughness.roughnessFactor = s.PBRmetallicRoughness.roughnessFactor ∨
        ∃ k, c ≤ k ∧ k < r.1 ∧ ReadsAs data tokens "roughnessFactor" k)) := by
  unfold materialKey
  simp only [R.bind_def, R.pure_def]
  repeat' (first
    | (apply R.holds_dite <;> intro _)
    | (refine R.holds_ok ⟨?_, ?_, ?_, ?_, ?_⟩ <;> first
        | (simp only [] at *; omega)
        | (simp only []; omega)
        | exact Or.inl rfl
        | exact Or.inr ⟨c, Nat.le_refl _, by simp only []; omega, ⟨_, by subst_vars; assumption⟩⟩)
    | (refine R.holds_bind_of (json_parse_string_mono data tokens _) ?_; intro _ _)
    | (refine R.holds_bind_of (json_parse_array_float_mono data tokens _ _ _) ?_; intro _ _)
    | (refine R.holds_bind_of (internal_parse_texture_view_mono data tokens _ _) ?_; intro _ _)
    | (refine R.holds_bind_of (internal_parse_extras_mono data tokens _) ?_; intro _ _)
    | (refine R.holds_bind_of (internal_parse_unprocessed_extensions_mono data tokens _) ?_; intro _ _)
    | (refine R.holds_bind_of (json_parse_skip_mono tokens _) ?_; intro _ _)
    | (refine R.holds_bind_of
        (internal_parse_pbr_metallic_roughness_frame data tokens (c + 1) s.PBRmetallicRoughness) ?_;
       intro a ha;
       refine R.holds_ok ⟨by simp only [] at *; omega, Or.inl rfl, ?_, ?_, ?_⟩)
    | (refine R.holds_bind_eq ?_; intro _ _ _))
  · rcases ha.2.1 with h | ⟨k, hk1, hk2, hk3⟩
    · exact Or.inl h
    · exact Or.inr ⟨k, by omega, hk2, hk3⟩
  · rcases ha.2.2.1 with h | ⟨k, hk1, hk2, hk3⟩
    · exact Or.inl h
    · exact Or.inr ⟨k, by omega, hk2, hk3⟩
  · rcases ha.2.2.2 with h | ⟨k, hk1, hk2, hk3⟩
    · exact Or.inl h
    · exact Or.inr ⟨k, by omega, hk2, hk3⟩

theorem internal_parse_material_frame (data : List Nat) (tokens : List jsmntok_t) (tk : Nat) :
    (internal_parse_material data tokens tk {}).Holds (fun r => tk < r.1 ∧
      (r.2.PBRmetallicRoughness.baseColor = [CFloat.one, CFloat.one, CFloat.one, CFloat.one] ∨
        KeyIn data tokens tk r.1 "baseColorFactor") ∧
      (r.2.PBRmetallicRoughness.metallicFactor = CFloat.one ∨
        KeyIn data tokens tk r.1 "metallicFactor") ∧
      (r.2.PBRmetallicRoughness.roughnessFactor = CFloat.one ∨
        KeyIn data tokens tk r.1 "roughnessFactor") ∧
      (r.2.alphaCutoff = CFloat.half ∨ KeyIn data tokens tk r.1 "alphaCutoff")) := by
  unfold internal_parse_material
  simp only [R.bind_def, R.pure_def]
  apply R.holds_bind; intro _
  apply R.holds_bind; intro n
  have hb := materialKey_frame data tokens
  have hA := forLoop_frame (fun s : GLTF_Material => s.alphaCutoff)
    (ReadsAs data tokens "alphaCutoff")
    (materialKey data tokens) (fun c s => R.holds_imp (hb c s) (fun r h => ⟨h.1, h.2.1⟩))
  have hB := forLoop_frame (fun s : GLTF_Material => s.PBRmetallicRoughness.baseColor)
    (ReadsAs data tokens "baseColorFactor")
    (materialKey data tokens) (fun c s => R.holds_imp (hb c s) (fun r h => ⟨h.1, h.2.2.1⟩))
  have hM := forLoop_frame (fun s : GLTF_Material => s.PBRmetallicRoughness.metallicFactor)
    (ReadsAs data tokens "metallicFactor")
    (materialKey data tokens) (fun c s => R.holds_imp (hb c s) (fun r h => ⟨h.1, h.2.2.2.1⟩))
  have hR := forLoop_frame (fun s : GLTF_Material => s.PBRmetallicRoughness.roughnessFactor)
    (ReadsAs data tokens "roughnessFactor")
    (materialKey data tokens) (fun c s => R.holds_imp (hb c s) (fun r h => ⟨h.1, h.2.2.2.2⟩))
  intro r l hr
  have h1 := hB n (tk + 1) _ r l hr
  have h2 := hM n (tk + 1) _ r l hr
  have h3 := hR n (tk + 1) _ r l hr
  have h4 := hA n (tk + 1) _ r l hr
  refine ⟨by omega, ?_, ?_, ?_, ?_⟩
  · rcases h1.2 with h | ⟨k, hk1, hk2, hk3⟩
    · exact Or.inl h
    · exact Or.inr ⟨k, by omega, hk2, hk3⟩
  · rcases h2.2 with h | ⟨k, hk1, hk2, hk3⟩
    · exact Or.inl h
    · exact Or.inr ⟨k, by omega, hk2, hk3⟩
  · rcases h3.2 with h | ⟨k, hk1, hk2, hk3⟩
    · exact Or.inl h
    · exact Or.inr ⟨k, by omega, hk2, hk3⟩
  · rcases h4.2 with h | ⟨k, hk1, hk2, hk3⟩
    · exact Or.inl h
    · exact Or.inr ⟨k, by omega, hk2, hk3⟩

/-! ### The tokenizer: scanning -/

theorem primitiveScan_ge (js : List Nat) (len : Nat) :
    ∀ (fuel pos : Nat) (r : Sum Nat Nat), primitiveScan js len fuel pos = some r →
      match r with
      | Sum.inl p => pos ≤ p
      | Sum.inr p => pos ≤ p ∧ (pos ≤ len → p ≤ len)
  | 0, pos, r, h => by simp [primitiveScan] at h
  | fuel + 1, pos, r, h => by
    unfold primitiveScan at h
    split at h
    · rename_i hlt
      split at h
      · cases h
      · rename_i c hc
        split at h
        · cases h; exact ⟨Nat.le_refl _, fun _ => by omega⟩
        · split at h
          · cases h; exact ⟨Nat.le_refl _, fun _ => by omega⟩
          · split at h
            · cases h; exact Nat.le_refl _
            · have ih := primitiveScan_ge js len fuel (pos + 1) r h
              cases r with
              | inl p => simp only at ih ⊢; omega
              | inr p => simp only at ih ⊢; exact ⟨by omega, fun _ => ih.2 (by omega)⟩
    · cases h; exact ⟨Nat.le_refl _, fun h => h⟩

theorem primitiveScan_total (js : List Nat) (len : Nat) (hlen : len ≤ js.length) :
    ∀ (fuel pos : Nat), pos ≤ len → len + 1 - pos ≤ fuel →
      ∃ r, primitiveScan js len fuel pos = some r
  | 0, pos, h1, h2 => by omega
  | fuel + 1, pos, h1, h2 => by
    unfold primitiveScan
    split
    · rename_i hlt
      have hsome : ∃ c, js[pos]? = some c := ⟨js[pos], List.getElem?_eq_getElem (by omega)⟩
      obtain ⟨c, hc⟩ := hsome
      simp only [hc]
      split
      · exact ⟨_, rfl⟩
      · split
        · exact ⟨_, rfl⟩
        · split
          · exact ⟨_, rfl⟩
          · exact primitiveScan_total js len hlen fuel (pos + 1) (by omega) (by omega)
    · exact ⟨_, rfl⟩

theorem hexScan_spec (js : List Nat) (len : Nat) (hlen : len ≤ js.length) :
    ∀ (k pos : Nat), pos ≤ len →
      ∃ r, hexScan js len k pos = some r ∧ ∀ p, r = Sum.inr p → pos ≤ p ∧ p ≤ len
  | 0, pos, h1 => ⟨_, rfl, fun p hp => by cases hp; exact ⟨Nat.le_refl _, h1⟩⟩
  | k + 1, pos, h1 => by
    unfold hexScan
    split
    · rename_i hlt
      have hsome : ∃ c, js[pos]? = some c := ⟨js[pos], List.getElem?_eq_getElem (by omega)⟩
      obtain ⟨c, hc⟩ := hsome
      simp only [hc]
      split
      · exact ⟨_, rfl, fun p hp => by cases hp; exact ⟨Nat.le_refl _, h1⟩⟩
      · split
        · obtain ⟨r, hr, hp⟩ := hexScan_spec js len hlen k (pos + 1) (by omega)
          exact ⟨r, hr, fun p hpp => by have := hp p hpp; omega⟩
        · exact ⟨_, rfl, fun p hp => by cases hp⟩
    · exact ⟨_, rfl, fun p hp => by cases hp; exact ⟨Nat.le_refl _, h1⟩⟩

theorem stringScan_quote (js : List Nat) (len : Nat) (hlen : len ≤ js.length) :
    ∀ (fuel pos p : Nat), pos ≤ len → stringScan js len fuel pos = some (StringScan.quote p) →
      pos ≤ p ∧ p < len
  | 0, pos, p, _, h => by simp [stringScan] at h
  | fuel + 1, pos, p, h1, h => by
    unfold stringScan at h
    split at h
    · rename_i hlt
      split at h
      · cases h
      · rename_i c hc
        split at h
        · cases h
        · split at h
          · cases h; exact ⟨Nat.le_refl _, hlt⟩
          · split at h
            · rename_i hesc
              split at h
              · cases h
              · split at h
                · have := stringScan_quote js len hlen fuel (pos + 2) p (by omega) h
                  omega
                · split at h
                  · split at h
                    · cases h
                    · cases h
                    · rename_i q hq
                      obtain ⟨r, hr, hp⟩ := hexScan_spec js len hlen 4 (pos + 2) (by omega)
                      rw [hq] at hr
                      cases hr
                      have hq2 := hp q rfl
                      have := stringScan_quote js len hlen fuel q p hq2.2 h
                      omega
                  · cases h
            · have := stringScan_quote js len hlen fuel (pos + 1) p (by omega) h
              omega
    · cases h

theorem stringScan_total (js : List Nat) (len : Nat) (hlen : len ≤ js.length) :
    ∀ (fuel pos : Nat), pos ≤ len → len + 1 - pos ≤ fuel →
      ∃ r, stringScan js len fuel pos = some r
  | 0, pos, h1, h2 => by omega
  | fuel + 1, pos, h1, h2 => by
    unfold stringScan
    split
    · rename_i hlt
      have hsome : ∃ c, js[pos]? = some c := ⟨js[pos], List.getElem?_eq_getElem (by omega)⟩
      obtain ⟨c, hc⟩ := hsome
      simp only [hc]
      split
      · exact ⟨_, rfl⟩
      · split
        · exact ⟨_, rfl⟩
        · split
          · rename_i hesc
            have hsome1 : ∃ e, js[pos + 1]? = some e :=
              ⟨js[pos + 1], List.getElem?_eq_getElem (by omega)⟩
            obtain ⟨e, he⟩ := hsome1
            simp only [he]
            split
            · exact stringScan_total js len hlen fuel (pos + 2) (by omega) (by omega)
            · split
              · obtain ⟨r, hr, hp⟩ := hexScan_spec js len hlen 4 (pos + 2) (by omega)
                rw [hr]
                cases r with
                | inl u => exact ⟨_, rfl⟩
                | inr q =>
                  have hq := hp q rfl
                  exact stringScan_total js len hlen fuel q hq.2 (by omega)
              · exact ⟨_, rfl⟩
          · exact stringScan_total js len hlen fuel (pos + 1) (by omega) (by omega)
    · exact ⟨_, rfl⟩

/-! ### The tokenizer: the buffer -/

theorem findDown_some {p : jsmntok_t → Bool} {toks : List jsmntok_t} :
    ∀ {n i : Nat}, findDown p toks n = some i →
      i < n ∧ (∃ t, toks[i]? = some t ∧ p t = true) ∧
        ∀ j, i < j → j < n → ∃ u, toks[j]? = some u ∧ p u = false
  | 0, i, h => by simp [findDown] at h
  | n + 1, i, h => by
    unfold findDown at h
    split at h
    · cases h
    · rename_i t ht
      split at h
      · rename_i hp
        cases h
        exact ⟨Nat.lt_succ_self _, ⟨t, ht, hp⟩, fun j h1 h2 => by omega⟩
      · rename_i hp
        obtain ⟨h1, h2, h3⟩ := findDown_some h
        refine ⟨by omega, h2, fun j hj1 hj2 => ?_⟩
        by_cases hjn : j = n
        · subst hjn
          exact ⟨t, ht, by simpa using hp⟩
        · exact h3 j hj1 (by omega)

theorem findDown_none {p : jsmntok_t → Bool} {toks : List jsmntok_t} :
    ∀ {n : Nat}, n ≤ toks.length → findDown p toks n = none →
      ∀ j, j < n → ∃ u, toks[j]? = some u ∧ p u = false
  | 0, _, _ => fun j hj => by omega
  | n + 1, hn, h => by
    unfold findDown at h
    have ht : toks[n]? = some toks[n] := List.getElem?_eq_getElem (by omega)
    rw [ht] at h
    simp only at h
    split at h
    · cases h
    · rename_i hp
      intro j hj
      by_cases hjn : j = n
      · subst hjn
        exact ⟨_, ht, by simpa using hp⟩
      · exact findDown_none (by omega) h j (by omega)

/-- The downward scan sees the slots below its start only. -/
theorem findDown_congr {p : jsmntok_t → Bool} {a b : List jsmntok_t} :
    ∀ {n : Nat}, (∀ j, j < n → a[j]? = b[j]?) → findDown p a n = findDown p b n
  | 0, _ => rfl
  | n + 1, h => by
    unfold findDown
    rw [h n (Nat.lt_succ_self _)]
    cases b[n]? with
    | none => rfl
    | some t =>
      simp only
      rw [findDown_congr (fun j hj => h j (by omega))]

/-- The downward scan steps over the slots that the test rejects. -/
theorem findDown_skip {p : jsmntok_t → Bool} {toks : List jsmntok_t} :
    ∀ (n m : Nat), m ≤ n → (∀ j, m ≤ j → j < n → ∃ u, toks[j]? = some u ∧ p u = false) →
      findDown p toks n = findDown p toks m
  | 0, m, hm, _ => by
    have : m = 0 := by omega
    subst this; rfl
  | n + 1, m, hm, h => by
    by_cases hmn : m = n + 1
    · subst hmn; rfl
    · obtain ⟨u, hu, hpu⟩ := h n (by omega) (Nat.lt_succ_self _)
      have e : findDown p toks (n + 1) = findDown p toks n := by
        simp only [findDown, hu, hpu, Bool.false_eq_true, if_false]
      rw [e]
      exact findDown_skip n m (by omega) (fun j h1 h2 => h j h1 (by omega))

theorem incSize_some {toks : List jsmntok_t} {s : Int} (h0 : 0 ≤ s) (h1 : s < toks.length) :
    incSize toks s = some (bump toks s) := by
  have hlt : s.toNat < toks.length := by omega
  have hne : s ≠ -1 := by omega
  unfold incSize tokAt bump
  rw [if_pos h0, if_neg hne, List.getElem?_eq_getElem hlt]

theorem bump_length (toks : List jsmntok_t) (s : Int) : (bump toks s).length = toks.length := by
  unfold bump
  split
  · rfl
  · split
    · simp
    · rfl

theorem bump_neg_one (toks : List jsmntok_t) : bump toks (-1) = toks := by
  unfold bump
  rw [if_pos rfl]

/-- Counting a child changes neither the kind nor the bounds of a token. -/
theorem bump_getElem? (toks : List jsmntok_t) (s : Int) (j : Nat) :
    ∃ d : Int, (bump toks s)[j]? = (toks[j]?).map (fun t => { t with size := t.size + d }) := by
  unfold bump
  split
  · exact ⟨0, by cases toks[j]? <;> simp⟩
  · split
    · rename_i t ht
      by_cases hj : s.toNat = j
      · subst hj
        refine ⟨1, ?_⟩
        rw [List.getElem?_set_self (by
          obtain ⟨h, -⟩ := List.getElem?_eq_some_iff.mp ht
          exact h), ht]
        rfl
      · refine ⟨0, ?_⟩
        rw [List.getElem?_set_ne hj]
        cases toks[j]? <;> simp
    · exact ⟨0, by cases toks[j]? <;> simp⟩

theorem bump_isOpen (toks : List jsmntok_t) (s : Int) (j : Nat) :
    (bump toks s)[j]?.map isOpen = toks[j]?.map isOpen ∧
    (bump toks s)[j]?.map (fun t => t.type) = toks[j]?.map (fun t => t.type) := by
  obtain ⟨d, hd⟩ := bump_getElem? toks s j
  rw [hd]
  cases toks[j]? <;> simp [isOpen]

theorem findDown_bump (p : jsmntok_t → Bool) (hp : ∀ t d, p { t with size := t.size + d } = p t)
    (toks : List jsmntok_t) (s : Int) :
    ∀ (n : Nat), findDown p (bump toks s) n = findDown p toks n
  | 0 => rfl
  | n + 1 => by
    obtain ⟨d, hd⟩ := bump_getElem? toks s n
    unfold findDown
    rw [hd]
    cases toks[n]? with
    | none => rfl
    | some t =>
      simp only [Option.map_some', hp]
      rw [findDown_bump p hp toks s n]

theorem bump_append (toks ext : List jsmntok_t) (s : Int)
    (hs : s = -1 ∨ (0 ≤ s ∧ s < toks.length)) : bump (toks ++ ext) s = bump toks s ++ ext := by
  rcases hs with rfl | ⟨h0, h1⟩
  · rw [bump_neg_one, bump_neg_one]
  · have hlt : s.toNat < toks.length := by omega
    have hne : s ≠ -1 := by omega
    unfold bump
    rw [if_neg hne, if_neg hne, List.getElem?_append_left hlt, List.getElem?_eq_getElem hlt]
    simp only
    rw [List.set_append_left _ _ hlt]

/-- The case of an opening bracket with room in the buffer: the token is
allocated after the parent has counted it. -/
theorem jsmn_parse_case_open {c : Nat} {parser : JsmnParser} {js : List Nat} {len : Nat}
    {toks : List jsmntok_t} {cap : Nat} {count : Int} (hc : c = 123 ∨ c = 91)
    (hlen : toks.length = parser.toknext) (hcap : parser.toknext < cap)
    (hs : parser.toksuper = -1 ∨ (0 ≤ parser.toksuper ∧ parser.toksuper < parser.toknext)) :
    jsmn_parse_case c parser js len (some toks) cap count =
      some (Sum.inr ({ parser with toknext := parser.toknext + 1, toksuper := parser.toknext },
        some (bump toks parser.toksuper ++
          [{ type := if c = 123 then JSMN_OBJECT else JSMN_ARRAY, start := parser.pos,
             end_ := -1, size := 0 }]),
        count + 1)) := by
  have hb := bump_append toks [{ type := JSMN_UNDEFINED, start := -1, end_ := -1, size := 0 }]
    parser.toksuper (by rw [hlen]; exact hs)
  have hbl := bump_length toks parser.toksuper
  unfold jsmn_parse_case
  rw [if_pos hc]
  simp only [jsmn_alloc_token, if_neg (show ¬ parser.toknext ≥ cap by omega)]
  have hinc : (if parser.toksuper ≠ -1 then
        incSize (toks ++ [{ type := JSMN_UNDEFINED, start := -1, end_ := -1, size := 0 }])
          parser.toksuper
      else some (toks ++ [{ type := JSMN_UNDEFINED, start := -1, end_ := -1, size := 0 }])) =
      some (bump toks parser.toksuper ++
        [{ type := JSMN_UNDEFINED, start := -1, end_ := -1, size := 0 }]) := by
    rcases hs with h | ⟨h0, h1⟩
    · rw [if_neg (by rw [h]; decide), h, bump_neg_one]
    · rw [if_pos (by omega), incSize_some h0 (by rw [List.length_append, hlen]; omega), hb]
  rw [hinc]
  simp only [Nat.add_sub_cancel]
  have hget : (bump toks parser.toksuper ++
      [{ type := JSMN_UNDEFINED, start := -1, end_ := -1, size := 0 }])[parser.toknext]? =
      some { type := JSMN_UNDEFINED, start := -1, end_ := -1, size := 0 } := by
    rw [List.getElem?_append_right (by omega), hbl, hlen, Nat.sub_self]
    rfl
  rw [hget]
  simp only
  have hset : (bump toks parser.toksuper ++
      [({ type := JSMN_UNDEFINED, start := -1, end_ := -1, size := 0 } : jsmntok_t)]).set parser.toknext
        ({ type := if c = 123 then JSMN_OBJECT else JSMN_ARRAY, start := parser.pos, end_ := -1, size := 0 } : jsmntok_t) =
      bump toks parser.toksuper ++
        [{ type := if c = 123 then JSMN_OBJECT else JSMN_ARRAY, start := parser.pos, end_ := -1,
           size := 0 }] := by
    rw [List.set_append_right _ _ (by omega), hbl, hlen, Nat.sub_self]
    rfl
  rw [hset]
  simp

/-- The case of an opening bracket with a full buffer. -/
theorem jsmn_parse_case_open_nomem {c : Nat} {parser : JsmnParser} {js : List Nat} {len : Nat}
    {toks : List jsmntok_t} {cap : Nat} {count : Int} (hc : c = 123 ∨ c = 91)
    (hcap : cap ≤ parser.toknext) :
    jsmn_parse_case c parser js len (some toks) cap count =
      some (Sum.inl { r := JSMN_ERROR_NOMEM, parser := parser, tokens := some toks }) := by
  unfold jsmn_parse_case
  rw [if_pos hc]
  simp only [jsmn_alloc_token, if_pos (show parser.toknext ≥ cap from hcap)]

theorem jsmn_fill_last (toks : List jsmntok_t) (n : Nat) (hn : toks.length = n)
    (type : jsmntype_t) (start end_ : Int) :
    jsmn_fill_token (toks ++ [{ type := JSMN_UNDEFINED, start := -1, end_ := -1, size := 0 }])
        (n + 1 - 1) type start end_ =
      toks ++ [{ type := type, start := start, end_ := end_, size := 0 }] := by
  unfold jsmn_fill_token
  rw [Nat.add_sub_cancel, List.set_append_right _ _ (by omega), hn, Nat.sub_self]
  rfl

/-- The case of a quote whose string is closed, with room in the buffer. -/
theorem jsmn_parse_case_string {parser : JsmnParser} {js : List Nat} {len : Nat}
    {toks : List jsmntok_t} {cap : Nat} {count : Int} {p : Nat}
    (hscan : stringScan js len (len + 1 - parser.pos) (parser.pos + 1) = some (StringScan.quote p))
    (hlen : toks.length = parser.toknext) (hcap : parser.toknext < cap)
    (hs : parser.toksuper = -1 ∨ (0 ≤ parser.toksuper ∧ parser.toksuper < parser.toknext)) :
    jsmn_parse_case 34 parser js len (some toks) cap count =
      some (Sum.inr ({ parser with toknext := parser.toknext + 1, pos := p },
        some (bump toks parser.toksuper ++
          [{ type := JSMN_STRING, start := (parser.pos : Int) + 1, end_ := p, size := 0 }]),
        count + 1)) := by
  have hb := bump_append toks
    [{ type := JSMN_STRING, start := (parser.pos : Int) + 1, end_ := p, size := 0 }]
    parser.toksuper (by rw [hlen]; exact hs)
  unfold jsmn_parse_case
  rw [if_neg (by decide), if_neg (by decide), if_pos rfl]
  unfold jsmn_parse_string
  simp only [hscan, jsmn_alloc_token, if_neg (show ¬ parser.toknext ≥ cap by omega),
    jsmn_fill_last toks parser.toknext hlen]
  rw [if_neg (by decide)]
  rcases hs with h | ⟨h0, h1⟩
  · rw [if_neg (by rw [h]; decide), h, bump_neg_one]
  · rw [if_pos (by omega), incSize_some h0 (by rw [List.length_append, hlen]; omega), hb]

/-- The case of a quote in the counting pass. -/
theorem jsmn_parse_case_string_count {parser : JsmnParser} {js : List Nat} {len : Nat}
    {cap : Nat} {count : Int} {p : Nat}
    (hscan : stringScan js len (len + 1 - parser.pos) (parser.pos + 1) =
      some (StringScan.quote p)) :
    jsmn_parse_case 34 parser js len none cap count =
      some (Sum.inr ({ parser with pos := p }, none, count + 1)) := by
  unfold jsmn_parse_case
  rw [if_neg (by decide), if_neg (by decide), if_pos rfl]
  unfold jsmn_parse_string
  simp only [hscan]
  rw [if_neg (by decide)]

/-- The bytes that the switch of `jsmn_parse` hands to `jsmn_parse_primitive`. -/
theorem jsmn_parse_case_default {c : Nat} (parser : JsmnParser) (js : List Nat) (len : Nat)
    (tokens : TokBuf) (cap : Nat) (count : Int)
    (h1 : c ≠ 123) (h2 : c ≠ 91) (h3 : c ≠ 125) (h4 : c ≠ 93) (h5 : c ≠ 34) (h6 : c ≠ 9)
    (h7 : c ≠ 13) (h8 : c ≠ 10) (h9 : c ≠ 32) (h10 : c ≠ 58) (h11 : c ≠ 44) :
    jsmn_parse_case c parser js len tokens cap count =
      match jsmn_parse_primitive parser js len tokens cap with
      | none => none
      | some out =>
        if out.r < 0 then some (Sum.inl out)
        else
          match out.tokens with
          | none => some (Sum.inr (out.parser, none, count + 1))
          | some toks =>
            if out.parser.toksuper ≠ -1 then
              match incSize toks out.parser.toksuper with
              | none => none
              | some toks1 => some (Sum.inr (out.parser, some toks1, count + 1))
            else some (Sum.inr (out.parser, some toks, count + 1)) := by
  unfold jsmn_parse_case
  rw [if_neg (by omega), if_neg (by omega), if_neg h5, if_neg (by omega), if_neg h10, if_neg h11]
  try rfl

/-- The case of a primitive, with room in the buffer. -/
theorem jsmn_parse_case_primitive {c : Nat} {parser : JsmnParser} {js : List Nat} {len : Nat}
    {toks : List jsmntok_t} {cap : Nat} {count : Int} {p : Nat}
    (h1 : c ≠ 123) (h2 : c ≠ 91) (h3 : c ≠ 125) (h4 : c ≠ 93) (h5 : c ≠ 34) (h6 : c ≠ 9)
    (h7 : c ≠ 13) (h8 : c ≠ 10) (h9 : c ≠ 32) (h10 : c ≠ 58) (h11 : c ≠ 44)
    (hscan : primitiveScan js len (len + 1 - parser.pos) parser.pos = some (Sum.inr p))
    (hlen : toks.length = parser.toknext) (hcap : parser.toknext < cap)
    (hs : parser.toksuper = -1 ∨ (0 ≤ parser.toksuper ∧ parser.toksuper < parser.toknext)) :
    jsmn_parse_case c parser js len (some toks) cap count =
      some (Sum.inr ({ parser with toknext := parser.toknext + 1, pos := p - 1 },
        some (bump toks parser.toksuper ++
          [{ type := JSMN_PRIMITIVE, start := (parser.pos : Int), end_ := p, size := 0 }]),
        count + 1)) := by
  have hb := bump_append toks
    [{ type := JSMN_PRIMITIVE, start := (parser.pos : Int), end_ := p, size := 0 }]
    parser.toksuper (by rw [hlen]; exact hs)
  rw [jsmn_parse_case_default parser js len _ cap count h1 h2 h3 h4 h5 h6 h7 h8 h9 h10 h11]
  unfold jsmn_parse_primitive
  simp only [hscan, jsmn_alloc_token, if_neg (show ¬ parser.toknext ≥ cap by omega),
    jsmn_fill_last toks parser.toknext hlen]
  rw [if_neg (by decide)]
  rcases hs with h | ⟨h0, h1⟩
  · rw [if_neg (by rw [h]; decide), h, bump_neg_one]
  · rw [if_pos (by omega), incSize_some h0 (by rw [List.length_append, hlen]; omega), hb]

/-- The case of a primitive in the counting pass. -/
theorem jsmn_parse_case_primitive_count {c : Nat} {parser : JsmnParser} {js : List Nat}
    {len : Nat} {cap : Nat} {count : Int} {p : Nat}
    (h1 : c ≠ 123) (h2 : c ≠ 91) (h3 : c ≠ 125) (h4 : c ≠ 93) (h5 : c ≠ 34) (h6 : c ≠ 9)
    (h7 : c ≠ 13) (h8 : c ≠ 10) (h9 : c ≠ 32) (h10 : c ≠ 58) (h11 : c ≠ 44)
    (hscan : primitiveScan js len (len + 1 - parser.pos) parser.pos = some (Sum.inr p)) :
    jsmn_parse_case c parser js len none cap count =
      some (Sum.inr ({ parser with pos := p - 1 }, none, count + 1)) := by
  rw [jsmn_parse_case_default parser js len _ cap count h1 h2 h3 h4 h5 h6 h7 h8 h9 h10 h11]
  unfold jsmn_parse_primitive
  simp only [hscan]
  rw [if_neg (by decide)]

/-- The case of white space. -/
theorem jsmn_parse_case_space {c : Nat} (parser : JsmnParser) (js : List Nat) (len : Nat)
    (tokens : TokBuf) (cap : Nat) (count : Int) (hc : c = 9 ∨ c = 13 ∨ c = 10 ∨ c = 32) :
    jsmn_parse_case c parser js len tokens cap count = some (Sum.inr (parser, tokens, count)) := by
  unfold jsmn_parse_case
  rw [if_neg (by omega), if_neg (by omega), if_neg (by omega), if_pos hc]

/-- The case of a colon. -/
theorem jsmn_parse_case_colon (parser : JsmnParser) (js : List Nat) (len : Nat)
    (tokens : TokBuf) (cap : Nat) (count : Int) :
    jsmn_parse_case 58 parser js len tokens cap count =
      some (Sum.inr ({ parser with toksuper := (parser.toknext : Int) - 1 }, tokens, count)) := by
  unfold jsmn_parse_case
  rw [if_neg (by decide), if_neg (by decide), if_neg (by decide), if_neg (by decide), if_pos rfl]

/-- The cases of brackets and commas in the counting pass. -/
theorem jsmn_parse_case_count {c : Nat} (parser : JsmnParser) (js : List Nat) (len : Nat)
    (cap : Nat) (count : Int) :
    ((c = 123 ∨ c = 91) → jsmn_parse_case c parser js len none cap count =
      some (Sum.inr (parser, none, count + 1))) ∧
    ((c = 125 ∨ c = 93 ∨ c = 44) → jsmn_parse_case c parser js len none cap count =
      some (Sum.inr (parser, none, count))) := by
  constructor
  · intro hc
    unfold jsmn_parse_case
    rw [if_pos hc]
  · intro hc
    unfold jsmn_parse_case
    rcases hc with hc | hc | hc
    · rw [if_neg (by omega), if_pos (Or.inl hc)]
    · rw [if_neg (by omega), if_pos (Or.inr hc)]
    · rw [if_neg (by omega), if_neg (by omega), if_neg (by omega), if_neg (by omega),
        if_neg (by omega), if_pos hc]

/-- The case of a closing bracket that matches the innermost open container. -/
theorem jsmn_parse_case_close {c : Nat} {parser : JsmnParser} {js : List Nat} {len : Nat}
    {toks : List jsmntok_t} {cap : Nat} {count : Int} {i : Nat} {t : jsmntok_t}
    (hc : c = 125 ∨ c = 93) (hf : findDown isOpen toks parser.toknext = some i)
    (ht : toks[i]? = some t) (hty : t.type = if c = 125 then JSMN_OBJECT else JSMN_ARRAY) :
    jsmn_parse_case c parser js len (some toks) cap count =
      some (Sum.inr
        ({ parser with toksuper :=
            match findDown isOpen (toks.set i { t with end_ := (parser.pos : Int) + 1 }) (i + 1) with
            | none => -1
            | some k => (k : Int) },
          some (toks.set i { t with end_ := (parser.pos : Int) + 1 }), count)) := by
  unfold jsmn_parse_case
  rw [if_neg (by omega), if_pos hc]
  simp only [hf, ht]
  rw [if_neg (not_not.mpr hty)]
  generalize findDown isOpen (toks.set i { t with end_ := (parser.pos : Int) + 1 }) (i + 1) = r
  cases r <;> rfl

/-- The case of a closing bracket without an open container. -/
theorem jsmn_parse_case_close_unmatched {c : Nat} {parser : JsmnParser} {js : List Nat}
    {len : Nat} {toks : List jsmntok_t} {cap : Nat} {count : Int}
    (hc : c = 125 ∨ c = 93) (hf : findDown isOpen toks parser.toknext = none) :
    jsmn_parse_case c parser js len (some toks) cap count =
      some (Sum.inl { r := JSMN_ERROR_INVAL, parser := parser, tokens := some toks }) := by
  unfold jsmn_parse_case
  rw [if_neg (by omega), if_pos hc]
  simp only [hf]

/-- The case of a closing bracket of another kind than the innermost open
container. -/
theorem jsmn_parse_case_close_mismatch {c : Nat} {parser : JsmnParser} {js : List Nat}
    {len : Nat} {toks : List jsmntok_t} {cap : Nat} {count : Int} {i : Nat} {t : jsmntok_t}
    (hc : c = 125 ∨ c = 93) (hf : findDown isOpen toks parser.toknext = some i)
    (ht : toks[i]? = some t) (hty : t.type ≠ if c = 125 then JSMN_OBJECT else JSMN_ARRAY) :
    jsmn_parse_case c parser js len (some toks) cap count =
      some (Sum.inl { r := JSMN_ERROR_INVAL, parser := parser, tokens := some toks }) := by
  unfold jsmn_parse_case
  rw [if_neg (by omega), if_pos hc]
  simp only [hf, ht]
  rw [if_pos hty]

/-- The case of a comma: the buffer is kept, and `toksuper` goes back to the
innermost open container when it is on a string or a primitive. -/
theorem jsmn_parse_case_comma {parser : JsmnParser} {js : List Nat} {len : Nat}
    {toks : List jsmntok_t} {cap : Nat} {count : Int}
    (hlen : toks.length = parser.toknext)
    (hs : parser.toksuper = -1 ∨ (0 ≤ parser.toksuper ∧ parser.toksuper < parser.toknext)) :
    ∃ s : Int, jsmn_parse_case 44 parser js len (some toks) cap count =
        some (Sum.inr ({ parser with toksuper := s }, some toks, count)) ∧
      (s = -1 ∨ (0 ≤ s ∧ s < parser.toknext)) ∧
      (s = parser.toksuper ∨
        ∃ t i, tokAt toks parser.toksuper = some t ∧ t.type ≠ JSMN_ARRAY ∧ t.type ≠ JSMN_OBJECT ∧
          findDown (fun u => (u.type == JSMN_ARRAY || u.type == JSMN_OBJECT) && isOpen u) toks
            parser.toknext = some i ∧ s = i) := by
  unfold jsmn_parse_case
  rw [if_neg (by decide), if_neg (by decide), if_neg (by decide), if_neg (by decide),
    if_neg (by decide), if_pos rfl]
  simp only
  rcases hs with h | ⟨h0, h1⟩
  · rw [if_neg (by rw [h]; decide)]
    exact ⟨parser.toksuper, rfl, Or.inl h, Or.inl rfl⟩
  · rw [if_pos (by omega)]
    have hlt : parser.toksuper.toNat < toks.length := by omega
    have htok : tokAt toks parser.toksuper = some toks[parser.toksuper.toNat] := by
      unfold tokAt
      rw [if_pos h0, List.getElem?_eq_getElem hlt]
    rw [htok]
    simp only
    split
    · rename_i hty
      cases hfd : findDown (fun u => (u.type == JSMN_ARRAY || u.type == JSMN_OBJECT) && isOpen u)
          toks parser.toknext with
      | none => exact ⟨parser.toksuper, rfl, Or.inr ⟨h0, h1⟩, Or.inl rfl⟩
      | some i =>
        have hi := (findDown_some hfd).1
        exact ⟨i, rfl, Or.inr ⟨by omega, by omega⟩, Or.inr ⟨_, i, rfl, hty.1, hty.2, rfl, rfl⟩⟩
    · exact ⟨parser.toksuper, rfl, Or.inr ⟨h0, h1⟩, Or.inl rfl⟩

theorem JSMN_ERROR_NOMEM_neg : JSMN_ERROR_NOMEM < 0 := by decide

theorem JSMN_ERROR_INVAL_neg : JSMN_ERROR_INVAL < 0 := by decide

theorem JSMN_ERROR_PART_neg : JSMN_ERROR_PART < 0 := by decide

theorem primitiveScan_progress {js : List Nat} {len pos c p : Nat} (hpos : pos < len)
    (hc : js[pos]? = some c) (hc0 : c ≠ 0) (hend : primitiveEnd c = false)
    (h : primitiveScan js len (len + 1 - pos) pos = some (Sum.inr p)) : pos + 1 ≤ p ∧ p ≤ len := by
  have hf : len + 1 - pos = (len - pos - 1) + 1 + 1 := by omega
  rw [hf] at h
  unfold primitiveScan at h
  rw [if_pos hpos, hc] at h
  simp only [if_neg hc0, hend, Bool.false_eq_true, if_false] at h
  split at h
  · cases h
  · have := primitiveScan_ge js len _ _ _ h
    simp only at this
    exact ⟨this.1, this.2 (by omega)⟩

/-- One case of the switch on a buffer that satisfies the invariant: it returns
an error and leaves the buffer as it was, or it goes on with a buffer that
satisfies the invariant, from a position that is not before the one it
started on. -/
theorem jsmn_parse_case_wf {c : Nat} {parser : JsmnParser} {js : List Nat} {len : Nat}
    {toks : List jsmntok_t} {cap : Nat} (count : Int)
    (hwf : TokWF cap parser toks) (hpos : parser.pos < len) (hlen : len ≤ js.length)
    (hc : js[parser.pos]? = some c) (hc0 : c ≠ 0) :
    (∃ out, jsmn_parse_case c parser js len (some toks) cap count = some (Sum.inl out) ∧
        out.r < 0 ∧ out.tokens = some toks ∧ out.parser.toknext = parser.toknext) ∨
    (∃ p1 toks1 c1,
        jsmn_parse_case c parser js len (some toks) cap count =
          some (Sum.inr (p1, some toks1, c1)) ∧
        TokWF cap p1 toks1 ∧ parser.pos ≤ p1.pos ∧ p1.pos < len ∧
        c1 - p1.toknext = count - parser.toknext ∧ parser.toknext ≤ p1.toknext) := by
  obtain ⟨hl, hcap, hs⟩ := hwf
  by_cases h1 : c = 123 ∨ c = 91
  · by_cases hroom : parser.toknext < cap
    · right
      refine ⟨_, _, _, jsmn_parse_case_open h1 hl hroom hs, ⟨?_, ?_, ?_⟩, Nat.le_refl _, hpos, ?_,
        Nat.le_succ _⟩
      · simp only [List.length_append, bump_length, hl, List.length_singleton]
      · exact hroom
      · right; simp only; omega
      · simp only [Nat.cast_add, Nat.cast_one]; omega
    · left
      exact ⟨{ r := JSMN_ERROR_NOMEM, parser := parser, tokens := some toks }, jsmn_parse_case_open_nomem h1 (by omega), JSMN_ERROR_NOMEM_neg, rfl, rfl⟩
  by_cases h2 : c = 125 ∨ c = 93
  · cases hf : findDown isOpen toks parser.toknext with
    | none =>
      left
      exact ⟨{ r := JSMN_ERROR_INVAL, parser := parser, tokens := some toks }, jsmn_parse_case_close_unmatched h2 hf, JSMN_ERROR_INVAL_neg, rfl, rfl⟩
    | some i =>
      obtain ⟨hi, ⟨t, ht, -⟩, -⟩ := findDown_some hf
      by_cases hty : t.type = if c = 125 then JSMN_OBJECT else JSMN_ARRAY
      · right
        refine ⟨_, _, _, jsmn_parse_case_close h2 hf ht hty, ⟨?_, hcap, ?_⟩, Nat.le_refl _, hpos,
          rfl, Nat.le_refl _⟩
        · simp only [List.length_set, hl]
        · simp only
          cases hk : findDown isOpen (toks.set i { t with end_ := (parser.pos : Int) + 1 })
              (i + 1) with
          | none => left; rfl
          | some k =>
            have := (findDown_some hk).1
            right; simp only; omega
      · left
        exact ⟨{ r := JSMN_ERROR_INVAL, parser := parser, tokens := some toks }, jsmn_parse_case_close_mismatch h2 hf ht hty, JSMN_ERROR_INVAL_neg, rfl, rfl⟩
  by_cases h3 : c = 34
  · subst h3
    obtain ⟨r, hr⟩ := stringScan_total js len hlen (len + 1 - parser.pos) (parser.pos + 1)
      (by omega) (by omega)
    cases r with
    | quote p =>
      have hp := stringScan_quote js len hlen _ _ p (by omega) hr
      by_cases hroom : parser.toknext < cap
      · right
        refine ⟨_, _, _, jsmn_parse_case_string hr hl hroom hs, ⟨?_, ?_, ?_⟩, ?_, ?_, ?_,
          Nat.le_succ _⟩
        · simp only [List.length_append, bump_length, hl, List.length_singleton]
        · exact hroom
        · rcases hs with h | h
          · left; exact h
          · right; simp only [Nat.cast_add, Nat.cast_one]; omega
        · simp only; omega
        · exact hp.2
        · simp only [Nat.cast_add, Nat.cast_one]; omega
      · left
        refine ⟨{ r := JSMN_ERROR_NOMEM, parser := { parser with pos := parser.pos }, tokens := some toks }, ?_, JSMN_ERROR_NOMEM_neg, rfl, rfl⟩
        unfold jsmn_parse_case
        rw [if_neg (by decide), if_neg (by decide), if_pos rfl]
        unfold jsmn_parse_string
        simp only [hr, jsmn_alloc_token, if_pos (show parser.toknext ≥ cap by omega)]
        rw [if_pos (by decide)]
    | inval =>
      left
      refine ⟨{ r := JSMN_ERROR_INVAL, parser := { parser with pos := parser.pos }, tokens := some toks }, ?_, JSMN_ERROR_INVAL_neg, rfl, rfl⟩
      unfold jsmn_parse_case
      rw [if_neg (by decide), if_neg (by decide), if_pos rfl]
      unfold jsmn_parse_string
      simp only [hr]
      rw [if_pos (by decide)]
    | part =>
      left
      refine ⟨{ r := JSMN_ERROR_PART, parser := { parser with pos := parser.pos }, tokens := some toks }, ?_, JSMN_ERROR_PART_neg, rfl, rfl⟩
      unfold jsmn_parse_case
      rw [if_neg (by decide), if_neg (by decide), if_pos rfl]
      unfold jsmn_parse_string
      simp only [hr]
      rw [if_pos (by decide)]
  by_cases h4 : c = 9 ∨ c = 13 ∨ c = 10 ∨ c = 32
  · right
    exact ⟨_, _, _, jsmn_parse_case_space parser js len _ cap count h4, ⟨hl, hcap, hs⟩,
      Nat.le_refl _, hpos, rfl, Nat.le_refl _⟩
  by_cases h5 : c = 58
  · subst h5
    right
    refine ⟨_, _, _, jsmn_parse_case_colon parser js len _ cap count, ⟨hl, hcap, ?_⟩,
      Nat.le_refl _, hpos, rfl, Nat.le_refl _⟩
    simp only
    by_cases h0 : parser.toknext = 0
    · left; rw [h0]; rfl
    · right; omega
  by_cases h6 : c = 44
  · subst h6
    obtain ⟨s, hs1, hs2, -⟩ := @jsmn_parse_case_comma parser js len toks cap count
      hl hs
    right
    exact ⟨_, _, _, hs1, ⟨hl, hcap, hs2⟩, Nat.le_refl _, hpos, rfl, Nat.le_refl _⟩
  · have hend : primitiveEnd c = false := by
      simp only [primitiveEnd, Bool.or_eq_false_iff, beq_eq_false_iff_ne, ne_eq]
      omega
    obtain ⟨r, hr⟩ := primitiveScan_total js len hlen (len + 1 - parser.pos) parser.pos
      (by omega) (Nat.le_refl _)
    have hdef := jsmn_parse_case_default parser js len (some toks) cap count
      (c := c) (by omega) (by omega) (by omega) (by omega) h3 (by omega) (by omega) (by omega)
      (by omega) h5 h6
    cases r with
    | inl q =>
      left
      refine ⟨{ r := JSMN_ERROR_INVAL, parser := { parser with pos := parser.pos }, tokens := some toks }, ?_, JSMN_ERROR_INVAL_neg, rfl, rfl⟩
      rw [hdef]
      unfold jsmn_parse_primitive
      simp only [hr]
      rw [if_pos (by decide)]
    | inr p =>
      have hp := primitiveScan_progress hpos hc hc0 hend hr
      by_cases hroom : parser.toknext < cap
      · right
        refine ⟨_, _, _, jsmn_parse_case_primitive (by omega) (by omega) (by omega) (by omega) h3
          (by omega) (by omega) (by omega) (by omega) h5 h6 hr hl hroom hs, ⟨?_, ?_, ?_⟩, ?_, ?_, ?_,
          Nat.le_succ _⟩
        · simp only [List.length_append, bump_length, hl, List.length_singleton]
        · exact hroom
        · rcases hs with h | h
          · left; exact h
          · right; simp only [Nat.cast_add, Nat.cast_one]; omega
        · simp only; omega
        · simp only; omega
        · simp only [Nat.cast_add, Nat.cast_one]; omega
      · left
        refine ⟨{ r := JSMN_ERROR_NOMEM, parser := { parser with pos := parser.pos }, tokens := some toks }, ?_, JSMN_ERROR_NOMEM_neg, rfl, rfl⟩
        rw [hdef]
        unfold jsmn_parse_primitive
        simp only [hr, jsmn_alloc_token, if_pos (show parser.toknext ≥ cap by omega)]
        rw [if_pos (by decide)]

/-! ### The tokenizer: the main loop -/

theorem jsmn_parse_loop_end {js : List Nat} {len cap fuel : Nat} {parser : JsmnParser}
    {tokens : TokBuf} {count : Int}
    (h : ¬ parser.pos < len ∨ js[parser.pos]? = some 0) :
    jsmn_parse_loop js len cap (fuel + 1) parser tokens count =
      some (jsmn_parse_end parser tokens count) := by
  unfold jsmn_parse_loop jsmn_parse_end
  by_cases hp : parser.pos < len
  · have h0 := h.resolve_left (not_not.mpr hp)
    rw [if_pos hp, h0]
    simp only [if_true]
    cases tokens with
    | none => rfl
    | some toks => simp only; cases findDown isOpen toks parser.toknext <;> rfl
  · rw [if_neg hp]
    cases tokens with
    | none => rfl
    | some toks => simp only; cases findDown isOpen toks parser.toknext <;> rfl

theorem jsmn_parse_loop_step {js : List Nat} {len cap fuel : Nat} {parser : JsmnParser}
    {tokens : TokBuf} {count : Int} {c : Nat} (hp : parser.pos < len)
    (hc : js[parser.pos]? = some c) (hc0 : c ≠ 0) :
    jsmn_parse_loop js len cap (fuel + 1) parser tokens count =
      match jsmn_parse_case c parser js len tokens cap count with
      | none => none
      | some (Sum.inl out) => some out
      | some (Sum.inr (parser1, tokens1, count1)) =>
        jsmn_parse_loop js len cap fuel { parser1 with pos := parser1.pos + 1 } tokens1 count1 := by
  conv_lhs => unfold jsmn_parse_loop
  simp only [if_pos hp, hc, if_neg hc0]
  try rfl

/-- More iterations than the bytes that are left do not change the result of
the loop, on the buffers that satisfy the invariant and in the counting
pass. -/
theorem jsmn_parse_loop_fuel {js : List Nat} {len cap : Nat} (hlen : len ≤ js.length)
    (G : JsmnParser → TokBuf → Prop)
    (hG : ∀ (parser : JsmnParser) (tokens : TokBuf) (count : Int) (c : Nat),
      G parser tokens → parser.pos < len → js[parser.pos]? = some c → c ≠ 0 →
      (∃ out, jsmn_parse_case c parser js len tokens cap count = some (Sum.inl out)) ∨
      (∃ p1 t1 c1, jsmn_parse_case c parser js len tokens cap count =
          some (Sum.inr (p1, t1, c1)) ∧
        G { p1 with pos := p1.pos + 1 } t1 ∧ parser.pos ≤ p1.pos ∧ p1.pos < len)) :
    ∀ (k : Nat) (parser : JsmnParser) (tokens : TokBuf) (count : Int) (f : Nat),
      len - parser.pos ≤ k → parser.pos ≤ len → G parser tokens → len + 1 - parser.pos ≤ f →
      jsmn_parse_loop js len cap f parser tokens count =
        jsmn_parse_loop js len cap (len + 1 - parser.pos) parser tokens count
  | k, parser, tokens, count, f, hk, hpl, hg, hf => by
    obtain ⟨f1, rfl⟩ : ∃ f1, f = f1 + 1 := ⟨f - 1, by omega⟩
    obtain ⟨m, hm⟩ : ∃ m, len + 1 - parser.pos = m + 1 := ⟨len - parser.pos, by omega⟩
    rw [hm]
    by_cases hp : parser.pos < len
    · have hsome : js[parser.pos]? = some js[parser.pos] := List.getElem?_eq_getElem (by omega)
      by_cases hc0 : js[parser.pos] = 0
      · rw [jsmn_parse_loop_end (Or.inr (hc0 ▸ hsome)), jsmn_parse_loop_end (Or.inr (hc0 ▸ hsome))]
      · rw [jsmn_parse_loop_step hp hsome hc0, jsmn_parse_loop_step hp hsome hc0]
        rcases hG parser tokens count _ hg hp hsome hc0 with ⟨out, ho⟩ | ⟨p1, t1, c1, ho, hg1, h1, h2⟩
        · rw [ho]
        · rw [ho]
          simp only
          cases k with
          | zero => omega
          | succ k =>
            rw [jsmn_parse_loop_fuel hlen G hG k { p1 with pos := p1.pos + 1 } t1 c1 f1
                (by simp only; omega) (by simp only; omega) hg1 (by simp only; omega),
              jsmn_parse_loop_fuel hlen G hG k { p1 with pos := p1.pos + 1 } t1 c1 m
                (by simp only; omega) (by simp only; omega) hg1 (by simp only; omega)]
    · rw [jsmn_parse_loop_end (Or.inl hp), jsmn_parse_loop_end (Or.inl hp)]

/-- One case of the switch in the counting pass: it returns an error, or it goes
on without a buffer, from a position that is not before the one it started
on. -/
theorem jsmn_parse_case_none {c : Nat} {parser : JsmnParser} {js : List Nat} {len : Nat}
    {cap : Nat} (count : Int) (hpos : parser.pos < len) (hlen : len ≤ js.length)
    (hc : js[parser.pos]? = some c) (hc0 : c ≠ 0) :
    (∃ out, jsmn_parse_case c parser js len none cap count = some (Sum.inl out) ∧ out.r < 0) ∨
    (∃ p1 c1, jsmn_parse_case c parser js len none cap count = some (Sum.inr (p1, none, c1)) ∧
        parser.pos ≤ p1.pos ∧ p1.pos < len) := by
  by_cases h1 : c = 123 ∨ c = 91
  · right
    exact ⟨_, _, (jsmn_parse_case_count parser js len cap count).1 h1, Nat.le_refl _, hpos⟩
  by_cases h2 : c = 125 ∨ c = 93
  · right
    exact ⟨_, _, (jsmn_parse_case_count parser js len cap count).2 (by omega), Nat.le_refl _, hpos⟩
  by_cases h3 : c = 34
  · subst h3
    obtain ⟨r, hr⟩ := stringScan_total js len hlen (len + 1 - parser.pos) (parser.pos + 1)
      (by omega) (by omega)
    cases r with
    | quote p =>
      have hp := stringScan_quote js len hlen _ _ p (by omega) hr
      right
      exact ⟨_, _, jsmn_parse_case_string_count hr, by simp only; omega, hp.2⟩
    | inval =>
      left
      refine ⟨{ r := JSMN_ERROR_INVAL, parser := { parser with pos := parser.pos }, tokens := none }, ?_, JSMN_ERROR_INVAL_neg⟩
      unfold jsmn_parse_case
      rw [if_neg (by decide), if_neg (by decide), if_pos rfl]
      unfold jsmn_parse_string
      simp only [hr]
      rw [if_pos (by decide)]
    | part =>
      left
      refine ⟨{ r := JSMN_ERROR_PART, parser := { parser with pos := parser.pos }, tokens := none }, ?_, JSMN_ERROR_PART_neg⟩
      unfold jsmn_parse_case
      rw [if_neg (by decide), if_neg (by decide), if_pos rfl]
      unfold jsmn_parse_string
      simp only [hr]
      rw [if_pos (by decide)]
  by_cases h4 : c = 9 ∨ c = 13 ∨ c = 10 ∨ c = 32
  · right
    exact ⟨_, _, jsmn_parse_case_space parser js len _ cap count h4, Nat.le_refl _, hpos⟩
  by_cases h5 : c = 58
  · subst h5
    right
    exact ⟨_, _, jsmn_parse_case_colon parser js len _ cap count, Nat.le_refl _, hpos⟩
  by_cases h6 : c = 44
  · right
    exact ⟨_, _, (jsmn_parse_case_count parser js len cap count).2 (by omega), Nat.le_refl _, hpos⟩
  · have hend : primitiveEnd c = false := by
      simp only [primitiveEnd, Bool.or_eq_false_iff, beq_eq_false_iff_ne, ne_eq]
      omega
    obtain ⟨r, hr⟩ := primitiveScan_total js len hlen (len + 1 - parser.pos) parser.pos
      (by omega) (Nat.le_refl _)
    cases r with
    | inl q =>
      left
      refine ⟨{ r := JSMN_ERROR_INVAL, parser := { parser with pos := parser.pos }, tokens := none }, ?_, JSMN_ERROR_INVAL_neg⟩
      rw [jsmn_parse_case_default parser js len none cap count
        (c := c) (by omega) (by omega) (by omega) (by omega) h3 (by omega) (by omega) (by omega)
        (by omega) h5 h6]
      unfold jsmn_parse_primitive
      simp only [hr]
      rw [if_pos (by decide)]
    | inr p =>
      have hp := primitiveScan_progress hpos hc hc0 hend hr
      right
      exact ⟨_, _, jsmn_parse_case_primitive_count (by omega) (by omega) (by omega) (by omega) h3
        (by omega) (by omega) (by omega) (by omega) h5 h6 hr, by simp only; omega,
        by simp only; omega⟩

/-- The result of the filling pass from a state of the loop does not depend on
the number of iterations allowed, once it is the number of bytes left plus
one. -/
theorem jsmn_parse_loop_fuel_fill {js : List Nat} {len cap : Nat} (hlen : len ≤ js.length)
    (parser : JsmnParser) (toks : List jsmntok_t) (count : Int) (f : Nat)
    (hwf : TokWF cap parser toks) (hpl : parser.pos ≤ len) (hf : len + 1 - parser.pos ≤ f) :
    jsmn_parse_loop js len cap f parser (some toks) count =
      jsmn_parse_loop js len cap (len + 1 - parser.pos) parser (some toks) count := by
  refine jsmn_parse_loop_fuel hlen (fun p t => ∃ ts, t = some ts ∧ TokWF cap p ts) ?_
    (len - parser.pos) parser (some toks) count f (Nat.le_refl _) hpl ⟨toks, rfl, hwf⟩ hf
  rintro p t cnt c ⟨ts, rfl, hw⟩ hp hc hc0
  rcases jsmn_parse_case_wf cnt hw hp hlen hc hc0 with
    ⟨out, ho, -⟩ | ⟨p1, t1, c1, ho, hw1, h1, h2, -⟩
  · exact Or.inl ⟨out, ho⟩
  · exact Or.inr ⟨p1, some t1, c1, ho, ⟨t1, rfl, hw1⟩, h1, h2⟩

/-- The same for the counting pass. -/
theorem jsmn_parse_loop_fuel_count {js : List Nat} {len cap : Nat} (hlen : len ≤ js.length)
    (parser : JsmnParser) (count : Int) (f : Nat)
    (hpl : parser.pos ≤ len) (hf : len + 1 - parser.pos ≤ f) :
    jsmn_parse_loop js len cap f parser none count =
      jsmn_parse_loop js len cap (len + 1 - parser.pos) parser none count := by
  refine jsmn_parse_loop_fuel hlen (fun _ t => t = none) ?_
    (len - parser.pos) parser none count f (Nat.le_refl _) hpl rfl hf
  rintro p t cnt c rfl hp hc hc0
  rcases jsmn_parse_case_none cnt hp hlen hc hc0 with ⟨out, ho, -⟩ | ⟨p1, c1, ho, h1, h2⟩
  · exact Or.inl ⟨out, ho⟩
  · exact Or.inr ⟨p1, none, c1, ho, rfl, h1, h2⟩

/-- One iteration of the filling pass, from the number of iterations that the
bytes left ask for, to the one that the next state asks for. -/
theorem jsmn_parse_loop_next {js : List Nat} {len cap : Nat} (hlen : len ≤ js.length)
    {parser p1 : JsmnParser} {toks t1 : List jsmntok_t} {count c1 : Int} {c : Nat}
    (hwf1 : TokWF cap p1 t1) (hp : parser.pos < len) (hc : js[parser.pos]? = some c)
    (hc0 : c ≠ 0) (h1 : parser.pos ≤ p1.pos) (h2 : p1.pos < len)
    (ho : jsmn_parse_case c parser js len (some toks) cap count =
      some (Sum.inr (p1, some t1, c1))) :
    jsmn_parse_loop js len cap (len + 1 - parser.pos) parser (some toks) count =
      jsmn_parse_loop js len cap (len + 1 - (p1.pos + 1)) { p1 with pos := p1.pos + 1 }
        (some t1) c1 := by
  obtain ⟨m, hm⟩ : ∃ m, len + 1 - parser.pos = m + 1 := ⟨len - parser.pos, by omega⟩
  rw [hm, jsmn_parse_loop_step hp hc hc0, ho]
  simp only
  exact jsmn_parse_loop_fuel_fill hlen { p1 with pos := p1.pos + 1 } t1 c1 m hwf1
    (by simp only; omega) (by simp only; omega)

/-- One iteration of the counting pass. -/
theorem jsmn_parse_loop_next_count {js : List Nat} {len cap : Nat} (hlen : len ≤ js.length)
    {parser p1 : JsmnParser} {count c1 : Int} {c : Nat}
    (hp : parser.pos < len) (hc : js[parser.pos]? = some c)
    (hc0 : c ≠ 0) (h1 : parser.pos ≤ p1.pos) (h2 : p1.pos < len)
    (ho : jsmn_parse_case c parser js len none cap count = some (Sum.inr (p1, none, c1))) :
    jsmn_parse_loop js len cap (len + 1 - parser.pos) parser none count =
      jsmn_parse_loop js len cap (len + 1 - (p1.pos + 1)) { p1 with pos := p1.pos + 1 }
        none c1 := by
  obtain ⟨m, hm⟩ : ∃ m, len + 1 - parser.pos = m + 1 := ⟨len - parser.pos, by omega⟩
  rw [hm, jsmn_parse_loop_step hp hc hc0, ho]
  simp only
  exact jsmn_parse_loop_fuel_count hlen { p1 with pos := p1.pos + 1 } c1 m
    (by simp only; omega) (by simp only; omega)

/-- The filling pass returns, from every state that satisfies the invariant,
and leaves a buffer that satisfies it; when it returns a count, the count has
grown by the number of tokens allocated. -/
theorem jsmn_parse_loop_total {js : List Nat} {len cap : Nat} (hlen : len ≤ js.length) :
    ∀ (k : Nat) (parser : JsmnParser) (toks : List jsmntok_t) (count : Int),
      len - parser.pos ≤ k → parser.pos ≤ len → TokWF cap parser toks →
      ∃ out ts, jsmn_parse_loop js len cap (len + 1 - parser.pos) parser (some toks) count =
          some out ∧
        out.tokens = some ts ∧ ts.length = out.parser.toknext ∧ out.parser.toknext ≤ cap ∧
        parser.toknext ≤ out.parser.toknext ∧
        (0 ≤ out.r → out.r - out.parser.toknext = count - parser.toknext)
  | k, parser, toks, count, hk, hpl, hwf => by
    obtain ⟨m, hm⟩ : ∃ m, len + 1 - parser.pos = m + 1 := ⟨len - parser.pos, by omega⟩
    have hend : ∃ ts, (jsmn_parse_end parser (some toks) count).tokens = some ts ∧
        ts.length = (jsmn_parse_end parser (some toks) count).parser.toknext ∧
        (jsmn_parse_end parser (some toks) count).parser.toknext ≤ cap ∧
        parser.toknext ≤ (jsmn_parse_end parser (some toks) count).parser.toknext ∧
        (0 ≤ (jsmn_parse_end parser (some toks) count).r →
          (jsmn_parse_end parser (some toks) count).r -
            (jsmn_parse_end parser (some toks) count).parser.toknext =
            count - parser.toknext) := by
      unfold jsmn_parse_end
      simp only
      cases findDown isOpen toks parser.toknext with
      | none => exact ⟨toks, rfl, hwf.1, hwf.2.1, Nat.le_refl _, fun _ => rfl⟩
      | some i =>
        exact ⟨toks, rfl, hwf.1, hwf.2.1, Nat.le_refl _, fun h => absurd h (not_le.mpr JSMN_ERROR_PART_neg)⟩
    by_cases hp : parser.pos < len
    · have hsome : js[parser.pos]? = some js[parser.pos] := List.getElem?_eq_getElem (by omega)
      by_cases hc0 : js[parser.pos] = 0
      · rw [hm, jsmn_parse_loop_end (Or.inr (hc0 ▸ hsome))]
        obtain ⟨ts, h1, h2, h3, h4, h5⟩ := hend
        exact ⟨_, ts, rfl, h1, h2, h3, h4, h5⟩
      · rcases jsmn_parse_case_wf count hwf hp hlen hsome hc0 with
          ⟨out, ho, hr, ht, hn⟩ | ⟨p1, t1, c1, ho, hw1, h1, h2, hcnt, hmono⟩
        · rw [hm, jsmn_parse_loop_step hp hsome hc0, ho]
          exact ⟨out, toks, rfl, ht, by rw [hn]; exact hwf.1, by rw [hn]; exact hwf.2.1,
            by rw [hn], fun h => by omega⟩
        · rw [jsmn_parse_loop_next hlen hw1 hp hsome hc0 h1 h2 ho]
          cases k with
          | zero => omega
          | succ k =>
            obtain ⟨out, ts, e1, e2, e3, e4, e5, e6⟩ := jsmn_parse_loop_total hlen k
              { p1 with pos := p1.pos + 1 } t1 c1 (by simp only; omega) (by simp only; omega) hw1
            exact ⟨out, ts, e1, e2, e3, e4, by simp only at e5; omega,
              fun h => by have := e6 h; simp only at this; omega⟩
    · rw [hm, jsmn_parse_loop_end (Or.inl hp)]
      obtain ⟨ts, h1, h2, h3, h4, h5⟩ := hend
      exact ⟨_, ts, rfl, h1, h2, h3, h4, h5⟩

/-- The case of a quote. -/
theorem jsmn_parse_case_quote (parser : JsmnParser) (js : List Nat) (len : Nat)
    (tokens : TokBuf) (cap : Nat) (count : Int) :
    jsmn_parse_case 34 parser js len tokens cap count =
      match jsmn_parse_string parser js len tokens cap with
      | none => none
      | some out =>
        if out.r < 0 then some (Sum.inl out)
        else
          match out.tokens with
          | none => some (Sum.inr (out.parser, none, count + 1))
          | some toks =>
            if out.parser.toksuper ≠ -1 then
              match incSize toks out.parser.toksuper with
              | none => none
              | some toks1 => some (Sum.inr (out.parser, some toks1, count + 1))
            else some (Sum.inr (out.parser, some toks, count + 1)) := by
  unfold jsmn_parse_case
  rw [if_neg (by decide), if_neg (by decide), if_pos rfl]
  try rfl

/-- One case of the switch with a smaller capacity: it does what it does with
the larger one, or it returns `JSMN_ERROR_NOMEM`. -/
theorem jsmn_parse_case_capacity (c : Nat) (parser : JsmnParser) (js : List Nat) (len : Nat)
    (toks : List jsmntok_t) (count : Int) {cap1 cap2 : Nat} (hcap : cap1 ≤ cap2) :
    jsmn_parse_case c parser js len (some toks) cap1 count =
        jsmn_parse_case c parser js len (some toks) cap2 count ∨
    ∃ out, jsmn_parse_case c parser js len (some toks) cap1 count = some (Sum.inl out) ∧
      out.r = JSMN_ERROR_NOMEM := by
  by_cases hroom : parser.toknext < cap1
  · left
    have ha : jsmn_alloc_token parser toks cap1 = jsmn_alloc_token parser toks cap2 := by
      unfold jsmn_alloc_token
      rw [if_neg (by omega), if_neg (by omega)]
    unfold jsmn_parse_case jsmn_parse_string jsmn_parse_primitive
    simp only [ha]
  · have ha : jsmn_alloc_token parser toks cap1 = none := by
      unfold jsmn_alloc_token
      rw [if_pos (by omega)]
    by_cases h1 : c = 123 ∨ c = 91
    · right
      exact ⟨_, jsmn_parse_case_open_nomem h1 (by omega), rfl⟩
    by_cases h2 : c = 125 ∨ c = 93
    · left
      unfold jsmn_parse_case
      rw [if_neg h1, if_pos h2, if_neg h1, if_pos h2]
    by_cases h3 : c = 34
    · subst h3
      rw [jsmn_parse_case_quote, jsmn_parse_case_quote]
      cases hr : stringScan js len (len + 1 - parser.pos) (parser.pos + 1) with
      | none =>
        left
        unfold jsmn_parse_string
        simp only [hr]
      | some r =>
        cases r with
        | quote p =>
          right
          refine ⟨{ r := JSMN_ERROR_NOMEM, parser := { parser with pos := parser.pos }, tokens := some toks }, ?_, rfl⟩
          unfold jsmn_parse_string
          simp only [hr, ha]
          rw [if_pos (by decide)]
        | inval =>
          left
          unfold jsmn_parse_string
          simp only [hr]
        | part =>
          left
          unfold jsmn_parse_string
          simp only [hr]
    by_cases h4 : c = 9 ∨ c = 13 ∨ c = 10 ∨ c = 32
    · left
      rw [jsmn_parse_case_space parser js len _ cap1 count h4,
        jsmn_parse_case_space parser js len _ cap2 count h4]
    by_cases h5 : c = 58
    · subst h5
      left
      rw [jsmn_parse_case_colon, jsmn_parse_case_colon]
    by_cases h6 : c = 44
    · left
      unfold jsmn_parse_case
      rw [if_neg h1, if_neg h2, if_neg h3, if_neg h4, if_neg h5, if_pos h6,
        if_neg h1, if_neg h2, if_neg h3, if_neg h4, if_neg h5, if_pos h6]
    · rw [jsmn_parse_case_default parser js len (some toks) cap1 count
          (c := c) (by omega) (by omega) (by omega) (by omega) h3 (by omega) (by omega) (by omega)
          (by omega) h5 h6,
        jsmn_parse_case_default parser js len (some toks) cap2 count
          (c := c) (by omega) (by omega) (by omega) (by omega) h3 (by omega) (by omega) (by omega)
          (by omega) h5 h6]
      cases hr : primitiveScan js len (len + 1 - parser.pos) parser.pos with
      | none =>
        left
        unfold jsmn_parse_primitive
        simp only [hr]
      | some r =>
        cases r with
        | inl q =>
          left
          unfold jsmn_parse_primitive
          simp only [hr]
        | inr p =>
          right
          refine ⟨{ r := JSMN_ERROR_NOMEM, parser := { parser with pos := parser.pos }, tokens := some toks }, ?_, rfl⟩
          unfold jsmn_parse_primitive
          simp only [hr, ha]
          rw [if_pos (by decide)]

/-- The filling pass with a smaller capacity returns what it returns with the
larger one, or `JSMN_ERROR_NOMEM`. -/
theorem jsmn_parse_loop_capacity {js : List Nat} {len cap1 cap2 : Nat} (hlen : len ≤ js.length)
    (hcap : cap1 ≤ cap2) :
    ∀ (k : Nat) (parser : JsmnParser) (toks : List jsmntok_t) (count : Int),
      len - parser.pos ≤ k → parser.pos ≤ len → TokWF cap1 parser toks →
      jsmn_parse_loop js len cap1 (len + 1 - parser.pos) parser (some toks) count =
          jsmn_parse_loop js len cap2 (len + 1 - parser.pos) parser (some toks) count ∨
      ∃ out, jsmn_parse_loop js len cap1 (len + 1 - parser.pos) parser (some toks) count =
          some out ∧ out.r = JSMN_ERROR_NOMEM
  | k, parser, toks, count, hk, hpl, hwf => by
    have hwf2 : TokWF cap2 parser toks := ⟨hwf.1, by have := hwf.2.1; omega, hwf.2.2⟩
    obtain ⟨m, hm⟩ : ∃ m, len + 1 - parser.pos = m + 1 := ⟨len - parser.pos, by omega⟩
    by_cases hp : parser.pos < len
    · have hsome : js[parser.pos]? = some js[parser.pos] := List.getElem?_eq_getElem (by omega)
      by_cases hc0 : js[parser.pos] = 0
      · left
        rw [hm, jsmn_parse_loop_end (Or.inr (hc0 ▸ hsome)),
          jsmn_parse_loop_end (Or.inr (hc0 ▸ hsome))]
      · rcases jsmn_parse_case_capacity js[parser.pos] parser js len toks count hcap with
          he | ⟨out, ho, hr⟩
        · rcases jsmn_parse_case_wf count hwf hp hlen hsome hc0 with
            ⟨out, ho, -⟩ | ⟨p1, t1, c1, ho, hw1, h1, h2, -⟩
          · left
            rw [hm, jsmn_parse_loop_step hp hsome hc0, jsmn_parse_loop_step hp hsome hc0, ← he, ho]
          · have hw2 : TokWF cap2 p1 t1 := ⟨hw1.1, by have := hw1.2.1; omega, hw1.2.2⟩
            rw [jsmn_parse_loop_next hlen hw1 hp hsome hc0 h1 h2 ho,
              jsmn_parse_loop_next hlen hw2 hp hsome hc0 h1 h2 (he ▸ ho)]
            cases k with
            | zero => omega
            | succ k =>
              exact jsmn_parse_loop_capacity hlen hcap k { p1 with pos := p1.pos + 1 } t1 c1
                (by simp only; omega) (by simp only; omega) hw1
        · right
          refine ⟨out, ?_, hr⟩
          rw [hm, jsmn_parse_loop_step hp hsome hc0, ho]
    · left
      rw [hm, jsmn_parse_loop_end (Or.inl hp), jsmn_parse_loop_end (Or.inl hp)]

theorem TokWF_init (cap : Nat) : TokWF cap jsmn_init [] :=
  ⟨rfl, Nat.zero_le _, Or.inl rfl⟩

/-- The function `jsmn_parse` on a fresh parser and an empty buffer, as the loop from
the first byte. -/
theorem jsmn_parse_init (js : List Nat) (cap : Nat) (tokens : TokBuf) :
    jsmn_parse jsmn_init js js.length tokens cap =
      jsmn_parse_loop js js.length cap (js.length + 1 - jsmn_init.pos) jsmn_init tokens 0 := rfl

/-- A state that the loop reaches satisfies the invariant, and the result of
`jsmn_parse` is the result of the loop from that state. -/
theorem Reaches.run {js : List Nat} {cap : Nat} {parser : JsmnParser} {toks : List jsmntok_t}
    {count : Int} (h : Reaches js cap parser toks count) :
    TokWF cap parser toks ∧ parser.pos ≤ js.length ∧
    jsmn_parse jsmn_init js js.length (some []) cap =
      jsmn_parse_loop js js.length cap (js.length + 1 - parser.pos) parser (some toks) count := by
  induction h with
  | start => exact ⟨TokWF_init cap, Nat.zero_le _, rfl⟩
  | step hr hc hc0 ho ih =>
    rename_i parser toks count c parser1 toks1 count1
    obtain ⟨hwf, hpl, hrun⟩ := ih
    have hp : parser.pos < js.length := by
      obtain ⟨h, -⟩ := List.getElem?_eq_some_iff.mp hc
      exact h
    rcases jsmn_parse_case_wf count hwf hp (Nat.le_refl _) hc hc0 with
      ⟨out, ho1, -⟩ | ⟨p1, t1, c1, ho1, hw1, h1, h2, -⟩
    · rw [ho] at ho1; cases ho1
    · rw [ho] at ho1
      simp only [Option.some.injEq, Sum.inr.injEq, Prod.mk.injEq] at ho1
      obtain ⟨rfl, rfl, rfl⟩ := ho1
      refine ⟨hw1, by simp only; omega, ?_⟩
      rw [hrun]
      exact jsmn_parse_loop_next (Nat.le_refl _) hw1 hp hc hc0 h1 h2 ho

/-! ### The grammar of strings and primitives -/

theorem isStringBody_u (a b c d : Nat) (rest : List Nat) :
    isStringBody (92 :: 117 :: a :: b :: c :: d :: rest) =
      (isHex a && isHex b && isHex c && isHex d && isStringBody rest) := by
  rw [isStringBody]

theorem isStringBody_esc (e : Nat) (rest : List Nat)
    (he : ∀ a b c d r, e = 117 → rest ≠ a :: b :: c :: d :: r) :
    isStringBody (92 :: e :: rest) =
      ((e == 34 || e == 92 || e == 47 || e == 98 || e == 102 || e == 110 || e == 114 ||
        e == 116) && isStringBody rest) := by
  rw [isStringBody]
  intro a b c d r h1 h2
  exact he a b c d r h1 h2

theorem isStringBody_plain (c : Nat) (rest : List Nat) (hc : c ≠ 92) :
    isStringBody (c :: rest) = (decide (32 ≤ c) && c != 34 && c != 92 && isStringBody rest) := by
  rw [isStringBody]
  · intro a b c' d r h _
    exact hc h
  · intro e r h _
    exact hc h

/-- The shapes of a valid string body. -/
theorem isStringBody_cases {c : Nat} {rest : List Nat} (h : isStringBody (c :: rest) = true) :
    (c ≠ 92 ∧ 32 ≤ c ∧ c ≠ 34 ∧ isStringBody rest = true) ∨
    (c = 92 ∧ ∃ e r, rest = e :: r ∧
      (e = 34 ∨ e = 92 ∨ e = 47 ∨ e = 98 ∨ e = 102 ∨ e = 110 ∨ e = 114 ∨ e = 116) ∧
      isStringBody r = true) ∨
    (c = 92 ∧ ∃ a b c1 d r, rest = 117 :: a :: b :: c1 :: d :: r ∧ isHex a = true ∧
      isHex b = true ∧ isHex c1 = true ∧ isHex d = true ∧ isStringBody r = true) := by
  by_cases hc : c = 92
  · subst hc
    cases rest with
    | nil =>
      rw [isStringBody] at h
      · simp at h
      · intro a b c1 d r _ h2
        cases h2
      · intro e r _ h2
        cases h2
    | cons e r =>
      by_cases hu : ∃ a b c1 d r1, e = 117 ∧ r = a :: b :: c1 :: d :: r1
      · obtain ⟨a, b, c1, d, r1, rfl, rfl⟩ := hu
        rw [isStringBody_u] at h
        simp only [Bool.and_eq_true] at h
        exact Or.inr (Or.inr ⟨rfl, a, b, c1, d, r1, rfl, h.1.1.1.1, h.1.1.1.2, h.1.1.2, h.1.2, h.2⟩)
      · rw [isStringBody_esc e r (fun a b c1 d r1 h1 h2 => hu ⟨a, b, c1, d, r1, h1, h2⟩)] at h
        simp only [Bool.and_eq_true, Bool.or_eq_true, beq_iff_eq] at h
        exact Or.inr (Or.inl ⟨rfl, e, r, rfl, by omega, h.2⟩)
  · rw [isStringBody_plain c rest hc] at h
    simp only [Bool.and_eq_true, decide_eq_true_eq, bne_iff_ne, ne_eq] at h
    exact Or.inl ⟨hc, h.1.1.1, h.1.1.2, h.2⟩

/-! ### Texts at an offset -/

theorem prefix_drop_cons {js : List Nat} {p c : Nat} {seg : List Nat}
    (h : c :: seg <+: js.drop p) : js[p]? = some c ∧ seg <+: js.drop (p + 1) := by
  obtain ⟨t, ht⟩ := h
  have h1 : js[p]? = some c := by
    have := congrArg (fun l => l[0]?) ht
    simp only [List.cons_append, List.getElem?_cons_zero, List.getElem?_drop, Nat.add_zero] at this
    exact this.symm
  refine ⟨h1, ⟨t, ?_⟩⟩
  have := congrArg List.tail ht
  simp only [List.cons_append, List.tail_cons, List.tail_drop] at this
  exact this

theorem prefix_drop_append {js : List Nat} {p : Nat} {a b : List Nat}
    (h : a ++ b <+: js.drop p) : a <+: js.drop p ∧ b <+: js.drop (p + a.length) := by
  obtain ⟨t, ht⟩ := h
  refine ⟨⟨b ++ t, by rw [← List.append_assoc]; exact ht⟩, ⟨t, ?_⟩⟩
  have := congrArg (List.drop a.length) ht
  rw [List.append_assoc, List.drop_left, List.drop_drop] at this
  exact this

theorem prefix_drop_length {js : List Nat} {p : Nat} {a : List Nat}
    (h : a <+: js.drop p) (ha : a ≠ []) : p + a.length ≤ js.length := by
  have := h.length_le
  rw [List.length_drop] at this
  cases a with
  | nil => exact absurd rfl ha
  | cons c a =>
    simp only [List.length_cons] at this ⊢
    omega

/-! ### The scans on valid texts -/

theorem stringScan_step {js : List Nat} {len fuel pos c : Nat} (hp : pos < len)
    (hc : js[pos]? = some c) :
    stringScan js len (fuel + 1) pos =
      if c = 0 then some StringScan.part
      else if c = 34 then some (StringScan.quote pos)
      else if c = 92 ∧ pos + 1 < len then
        match js[pos + 1]? with
        | none => none
        | some e =>
          if e = 34 ∨ e = 47 ∨ e = 92 ∨ e = 98 ∨ e = 102 ∨ e = 114 ∨ e = 110 ∨ e = 116 then
            stringScan js len fuel (pos + 2)
          else if e = 117 then
            match hexScan js len 4 (pos + 2) with
            | none => none
            | some (Sum.inl _) => some StringScan.inval
            | some (Sum.inr p) => stringScan js len fuel p
          else some StringScan.inval
      else stringScan js len fuel (pos + 1) := by
  conv_lhs => unfold stringScan
  simp only [if_pos hp, hc]
  try rfl

theorem stringScan_esc {js : List Nat} {len fuel pos e : Nat} (hp : pos + 1 < len)
    (hc : js[pos]? = some 92) (he : js[pos + 1]? = some e)
    (hset : e = 34 ∨ e = 47 ∨ e = 92 ∨ e = 98 ∨ e = 102 ∨ e = 114 ∨ e = 110 ∨ e = 116) :
    stringScan js len (fuel + 1) pos = stringScan js len fuel (pos + 2) := by
  rw [stringScan_step (by omega) hc, if_neg (by decide), if_neg (by decide),
    if_pos ⟨rfl, hp⟩, he]
  show (if e = 34 ∨ e = 47 ∨ e = 92 ∨ e = 98 ∨ e = 102 ∨ e = 114 ∨ e = 110 ∨ e = 116 then _
    else _) = _
  rw [if_pos hset]

theorem stringScan_u {js : List Nat} {len fuel pos p : Nat} (hp : pos + 1 < len)
    (hc : js[pos]? = some 92) (he : js[pos + 1]? = some 117)
    (hx : hexScan js len 4 (pos + 2) = some (Sum.inr p)) :
    stringScan js len (fuel + 1) pos = stringScan js len fuel p := by
  rw [stringScan_step (by omega) hc, if_neg (by decide), if_neg (by decide),
    if_pos ⟨rfl, hp⟩, he]
  show (if (117 : Nat) = 34 ∨ (117 : Nat) = 47 ∨ (117 : Nat) = 92 ∨ (117 : Nat) = 98 ∨
      (117 : Nat) = 102 ∨ (117 : Nat) = 114 ∨ (117 : Nat) = 110 ∨ (117 : Nat) = 116 then _
    else _) = _
  rw [if_neg (by decide), if_pos rfl, hx]

theorem hexScan_digits {js : List Nat} {q : Nat} {a b c d : Nat}
    (h : [a, b, c, d] <+: js.drop q) (ha : isHex a = true) (hb : isHex b = true)
    (hc : isHex c = true) (hd : isHex d = true) :
    hexScan js js.length 4 q = some (Sum.inr (q + 4)) := by
  have hl := prefix_drop_length h (by simp)
  simp only [List.length_cons, List.length_nil] at hl
  obtain ⟨h0, h⟩ := prefix_drop_cons h
  obtain ⟨h1, h⟩ := prefix_drop_cons h
  obtain ⟨h2, h⟩ := prefix_drop_cons h
  obtain ⟨h3, -⟩ := prefix_drop_cons h
  have nz : ∀ x, isHex x = true → x ≠ 0 := by
    intro x hx h0
    subst h0
    revert hx
    decide
  simp only [hexScan, h0, h1, h2, h3, ha, hb, hc, hd, if_neg (nz a ha), if_neg (nz b hb),
    if_neg (nz c hc), if_neg (nz d hd), if_pos (show q < js.length by omega),
    if_pos (show q + 1 < js.length by omega), if_pos (show q + 1 + 1 < js.length by omega),
    if_pos (show q + 1 + 1 + 1 < js.length by omega), if_true]

/-- The loop of `jsmn_parse_string` on the text of a valid string: it stops on the
closing quote. -/
theorem stringScan_body (js : List Nat) : ∀ (n : Nat) (body : List Nat) (q fuel : Nat),
    body.length ≤ n → isStringBody body = true → body ++ [34] <+: js.drop q →
    body.length + 1 ≤ fuel →
    stringScan js js.length fuel q = some (StringScan.quote (q + body.length))
  | n, [], q, fuel, _, _, h, hf => by
    obtain ⟨f, rfl⟩ : ∃ f, fuel = f + 1 := ⟨fuel - 1, by simp at hf; omega⟩
    have hl := prefix_drop_length h (by simp)
    obtain ⟨h0, -⟩ := prefix_drop_cons h
    simp only [List.nil_append, List.length_cons, List.length_nil] at hl
    rw [stringScan_step (by omega) h0, if_neg (by decide), if_pos rfl]
    rfl
  | 0, c :: rest, q, fuel, hn, _, _, _ => by simp at hn
  | n + 1, c :: rest, q, fuel, hn, hb, h, hf => by
    obtain ⟨f, rfl⟩ : ∃ f, fuel = f + 1 := ⟨fuel - 1, by simp at hf; omega⟩
    have hl := prefix_drop_length h (by simp)
    simp only [List.cons_append] at h
    obtain ⟨h0, h'⟩ := prefix_drop_cons h
    simp only [List.length_cons, List.length_append, List.length_nil] at hl hf hn ⊢
    rcases isStringBody_cases hb with ⟨hc, h32, h34, hr⟩ | ⟨rfl, e, r, rfl, he, hr⟩ |
      ⟨rfl, a, b, c1, d, r, rfl, ha, hb1, hc1, hd, hr⟩
    · rw [stringScan_step (by omega) h0, if_neg (by omega), if_neg h34,
        if_neg (fun hh => hc hh.1),
        stringScan_body js n rest (q + 1) f (by omega) hr h' (by omega)]
      congr 2
      omega
    · simp only [List.cons_append] at h'
      obtain ⟨h1, h''⟩ := prefix_drop_cons h'
      simp only [List.length_cons] at hl hf hn ⊢
      rw [stringScan_esc (by omega) h0 h1 (by omega),
        stringScan_body js n r (q + 2) f (by omega) hr h'' (by omega)]
      congr 2
      omega
    · simp only [List.cons_append] at h'
      obtain ⟨h1, h''⟩ := prefix_drop_cons h'
      have h4 := prefix_drop_append (a := [a, b, c1, d]) (b := r ++ [34]) h''
      have hx := hexScan_digits h4.1 ha hb1 hc1 hd
      simp only [List.length_cons, List.length_nil] at hl hf hn h4 ⊢
      rw [stringScan_u (by omega) h0 h1 hx,
        stringScan_body js n r (q + 1 + 1 + 4) f (by omega) hr h4.2 (by omega)]
      congr 2
      omega

theorem primitiveScan_step {js : List Nat} {len fuel pos c : Nat} (hp : pos < len)
    (hc : js[pos]? = some c) :
    primitiveScan js len (fuel + 1) pos =
      if c = 0 then some (Sum.inr pos)
      else if primitiveEnd c then some (Sum.inr pos)
      else if c < 32 ∨ c ≥ 127 then some (Sum.inl pos)
      else primitiveScan js len fuel (pos + 1) := by
  conv_lhs => unfold primitiveScan
  simp only [if_pos hp, hc]

/-- The loop of `jsmn_parse_primitive` on a text of accepted bytes that a delimiter or
the end of the text follows: it stops behind the text. -/
theorem primitiveScan_text (js : List Nat) : ∀ (t : List Nat) (p fuel : Nat),
    (∀ c ∈ t, isPrimByte c = true) → t <+: js.drop p → Delim js (p + t.length) →
    t.length + 1 ≤ fuel →
    primitiveScan js js.length fuel p = some (Sum.inr (p + t.length))
  | [], p, fuel, _, _, hd, hf => by
    obtain ⟨f, rfl⟩ : ∃ f, fuel = f + 1 := ⟨fuel - 1, by simp at hf; omega⟩
    simp only [List.length_nil, Nat.add_zero] at hd ⊢
    rcases hd with hd | ⟨c, hc, hend⟩
    · unfold primitiveScan
      rw [if_neg (by omega)]
    · have hp : p < js.length := (List.getElem?_eq_some_iff.mp hc).1
      rw [primitiveScan_step hp hc]
      split
      · rfl
      · simp only [hend, if_true]
  | c :: t, p, fuel, hb, h, hd, hf => by
    obtain ⟨f, rfl⟩ : ∃ f, fuel = f + 1 := ⟨fuel - 1, by simp at hf; omega⟩
    have hl := prefix_drop_length h (by simp)
    obtain ⟨h0, h'⟩ := prefix_drop_cons h
    have hc := hb c (List.mem_cons_self _ _)
    simp only [isPrimByte, Bool.and_eq_true, decide_eq_true_eq, Bool.not_eq_true'] at hc
    simp only [List.length_cons] at hl hf hd ⊢
    rw [primitiveScan_step (by omega) h0, if_neg (by omega), hc.2]
    simp only [Bool.false_eq_true, if_false]
    rw [if_neg (by omega), primitiveScan_text js t (p + 1) f
      (fun x hx => hb x (List.mem_cons_of_mem _ hx)) h'
      (by rw [show p + 1 + t.length = p + (t.length + 1) by omega]; exact hd) (by omega)]
    congr 2
    omega

/-- A byte of a number or of a literal name. -/
theorem isNumberByte_ok {c : Nat} (h : isNumberByte c = true) :
    isPrimByte c = true ∧ c ≠ 0 ∧ c ≠ 123 ∧ c ≠ 91 ∧ c ≠ 125 ∧ c ≠ 93 ∧ c ≠ 34 ∧ c ≠ 9 ∧
      c ≠ 13 ∧ c ≠ 10 ∧ c ≠ 32 ∧ c ≠ 58 ∧ c ≠ 44 := by
  simp only [isNumberByte, isDigit, Bool.or_eq_true, Bool.and_eq_true, decide_eq_true_eq,
    beq_iff_eq] at h
  have hr : 43 ≤ c ∧ c ≤ 101 ∧ c ≠ 44 ∧ c ≠ 58 ∧ c ≠ 93 ∧ c ≠ 91 := by omega
  refine ⟨?_, by omega, by omega, by omega, by omega, by omega, by omega, by omega, by omega,
    by omega, by omega, by omega, by omega⟩
  simp only [isPrimByte, primitiveEnd, Bool.and_eq_true, decide_eq_true_eq, Bool.not_eq_true',
    Bool.or_eq_false_iff, beq_eq_false_iff_ne, ne_eq]
  omega

/-- The text of a number or of a literal name is not empty, is made of bytes
that `jsmn_parse_primitive` accepts, and starts with a byte that the switch of `jsmn_parse`
hands to it. -/
theorem isPrimitiveText_ok {t : List Nat} (h : isPrimitiveText t = true) :
    (∀ c ∈ t, isPrimByte c = true) ∧
    ∃ c r, t = c :: r ∧ c ≠ 0 ∧ c ≠ 123 ∧ c ≠ 91 ∧ c ≠ 125 ∧ c ≠ 93 ∧ c ≠ 34 ∧ c ≠ 9 ∧
      c ≠ 13 ∧ c ≠ 10 ∧ c ≠ 32 ∧ c ≠ 58 ∧ c ≠ 44 := by
  simp only [isPrimitiveText, Bool.or_eq_true, beq_iff_eq] at h
  rcases h with ((h | h) | h) | h
  · subst h; exact ⟨by decide, 116, cstr "rue", rfl, by decide⟩
  · subst h; exact ⟨by decide, 102, cstr "alse", rfl, by decide⟩
  · subst h; exact ⟨by decide, 110, cstr "ull", rfl, by decide⟩
  · simp only [isNumber, Bool.and_eq_true, bne_iff_ne, ne_eq, List.all_eq_true] at h
    obtain ⟨⟨hne, hall⟩, -⟩ := h
    refine ⟨fun c hc => (isNumberByte_ok (hall c hc)).1, ?_⟩
    cases t with
    | nil => exact absurd rfl hne
    | cons c r => exact ⟨c, r, rfl, (isNumberByte_ok (hall c (List.mem_cons_self _ _))).2⟩

/-! ### Steps of the loop on a text -/

theorem loopOut_step {js : List Nat} {cap : Nat} {parser : JsmnParser} (p1 : JsmnParser)
    {toks t1 : List jsmntok_t} {count c1 : Int} {c : Nat}
    (hwf1 : TokWF cap p1 t1) (hc : js[parser.pos]? = some c) (hc0 : c ≠ 0)
    (h1 : parser.pos ≤ p1.pos) (h2 : p1.pos < js.length)
    (ho : jsmn_parse_case c parser js js.length (some toks) cap count =
      some (Sum.inr (p1, some t1, c1))) :
    loopOut js cap parser (some toks) count =
      loopOut js cap { p1 with pos := p1.pos + 1 } (some t1) c1 :=
  jsmn_parse_loop_next (Nat.le_refl _) hwf1 (List.getElem?_eq_some_iff.mp hc).1 hc hc0 h1 h2 ho

theorem loopOut_step_count {js : List Nat} {cap : Nat} {parser : JsmnParser}
    (p1 : JsmnParser) {count c1 : Int} {c : Nat} (hc : js[parser.pos]? = some c) (hc0 : c ≠ 0)
    (h1 : parser.pos ≤ p1.pos) (h2 : p1.pos < js.length)
    (ho : jsmn_parse_case c parser js js.length none cap count =
      some (Sum.inr (p1, none, c1))) :
    loopOut js cap parser none count = loopOut js cap { p1 with pos := p1.pos + 1 } none c1 :=
  jsmn_parse_loop_next_count (Nat.le_refl _) (List.getElem?_eq_some_iff.mp hc).1 hc hc0 h1 h2 ho

theorem isWs_cases {c : Nat} (h : isWs c = true) : c = 9 ∨ c = 13 ∨ c = 10 ∨ c = 32 := by
  simp only [isWs, Bool.or_eq_true, beq_iff_eq] at h
  omega

/-- White space in the counting pass. -/
theorem count_ws (js : List Nat) (cap : Nat) : ∀ (ws : List Nat) (p : Nat) (cnt : Int),
    ws.all isWs = true → ws <+: js.drop p →
    loopOut js cap { pos := p, toknext := 0, toksuper := -1 } none cnt =
      loopOut js cap { pos := p + ws.length, toknext := 0, toksuper := -1 } none cnt
  | [], p, cnt, _, _ => rfl
  | c :: ws, p, cnt, hw, h => by
    obtain ⟨h0, h'⟩ := prefix_drop_cons h
    simp only [List.all_cons, Bool.and_eq_true] at hw
    have hc := isWs_cases hw.1
    rw [loopOut_step_count { pos := p, toknext := 0, toksuper := -1 } h0 (by omega)
      (Nat.le_refl _) (List.getElem?_eq_some_iff.mp h0).1
      (jsmn_parse_case_space _ js js.length none cap cnt hc)]
    rw [count_ws js cap ws (p + 1) cnt hw.2 h']
    simp only [List.length_cons]
    rw [show p + 1 + ws.length = p + (ws.length + 1) by omega]

/-- White space in the filling pass. -/
theorem fill_ws (js : List Nat) (cap : Nat) (n : Nat) (s : Int) (toks : List jsmntok_t)
    (hwf : TokWF cap { pos := 0, toknext := n, toksuper := s } toks) :
    ∀ (ws : List Nat) (p : Nat) (cnt : Int),
    ws.all isWs = true → ws <+: js.drop p →
    loopOut js cap { pos := p, toknext := n, toksuper := s } (some toks) cnt =
      loopOut js cap { pos := p + ws.length, toknext := n, toksuper := s } (some toks) cnt
  | [], p, cnt, _, _ => rfl
  | c :: ws, p, cnt, hw, h => by
    obtain ⟨h0, h'⟩ := prefix_drop_cons h
    simp only [List.all_cons, Bool.and_eq_true] at hw
    have hc := isWs_cases hw.1
    rw [loopOut_step { pos := p, toknext := n, toksuper := s } hwf h0 (by omega)
      (Nat.le_refl _) (List.getElem?_eq_some_iff.mp h0).1
      (jsmn_parse_case_space _ js js.length (some toks) cap cnt hc)]
    rw [fill_ws js cap n s toks hwf ws (p + 1) cnt hw.2 h']
    simp only [List.length_cons]
    rw [show p + 1 + ws.length = p + (ws.length + 1) by omega]

/-- A bracket, a comma or a colon in the counting pass. -/
theorem count_char (js : List Nat) (cap : Nat) (p : Nat) (cnt : Int) (c : Nat)
    (h0 : js[p]? = some c) :
    ((c = 123 ∨ c = 91) →
      loopOut js cap { pos := p, toknext := 0, toksuper := -1 } none cnt =
        loopOut js cap { pos := p + 1, toknext := 0, toksuper := -1 } none (cnt + 1)) ∧
    ((c = 125 ∨ c = 93 ∨ c = 44 ∨ c = 58) →
      loopOut js cap { pos := p, toknext := 0, toksuper := -1 } none cnt =
        loopOut js cap { pos := p + 1, toknext := 0, toksuper := -1 } none cnt) := by
  have hp := (List.getElem?_eq_some_iff.mp h0).1
  constructor
  · intro hc
    exact loopOut_step_count { pos := p, toknext := 0, toksuper := -1 } h0 (by omega)
      (Nat.le_refl _) hp ((jsmn_parse_case_count _ js js.length cap cnt).1 hc)
  · intro hc
    by_cases h58 : c = 58
    · subst h58
      exact loopOut_step_count { pos := p, toknext := 0, toksuper := -1 } h0 (by omega)
        (Nat.le_refl _) hp (jsmn_parse_case_colon _ js js.length none cap cnt)
    · exact loopOut_step_count { pos := p, toknext := 0, toksuper := -1 } h0 (by omega)
        (Nat.le_refl _) hp ((jsmn_parse_case_count _ js js.length cap cnt).2 (by omega))

/-- A valid string in the counting pass. -/
theorem count_string (js : List Nat) (cap : Nat) (body : List Nat) (p : Nat) (cnt : Int)
    (hb : isStringBody body = true) (h : 34 :: body ++ [34] <+: js.drop p) :
    loopOut js cap { pos := p, toknext := 0, toksuper := -1 } none cnt =
      loopOut js cap { pos := p + (body.length + 2), toknext := 0, toksuper := -1 } none
        (cnt + 1) := by
  have hl := prefix_drop_length h (by simp)
  simp only [List.cons_append] at h
  obtain ⟨h0, h'⟩ := prefix_drop_cons h
  simp only [List.length_cons, List.length_append, List.length_nil] at hl
  have hscan := stringScan_body js body.length body (p + 1) (js.length + 1 - p) (Nat.le_refl _)
    hb h' (by omega)
  rw [loopOut_step_count { pos := p + 1 + body.length, toknext := 0, toksuper := -1 } h0
    (by decide) (by simp only; omega) (by simp only; omega)
    (jsmn_parse_case_string_count hscan)]
  simp only
  rw [show p + 1 + body.length + 1 = p + (body.length + 2) by omega]

/-- A number or a literal name in the counting pass. -/
theorem count_prim (js : List Nat) (cap : Nat) (t : List Nat) (p : Nat) (cnt : Int)
    (ht : isPrimitiveText t = true) (h : t <+: js.drop p) (hd : Delim js (p + t.length)) :
    loopOut js cap { pos := p, toknext := 0, toksuper := -1 } none cnt =
      loopOut js cap { pos := p + t.length, toknext := 0, toksuper := -1 } none (cnt + 1) := by
  obtain ⟨hall, c, r, rfl, c0, c1, c2, c3, c4, c5, c6, c7, c8, c9, c10, c11⟩ :=
    isPrimitiveText_ok ht
  have hl := prefix_drop_length h (by simp)
  obtain ⟨h0, -⟩ := prefix_drop_cons h
  simp only [List.length_cons] at hl hd ⊢
  have hscan := primitiveScan_text js (c :: r) p (js.length + 1 - p) hall h
    (by simpa using hd) (by simp only [List.length_cons]; omega)
  simp only [List.length_cons] at hscan
  rw [loopOut_step_count { pos := p + (r.length + 1) - 1, toknext := 0, toksuper := -1 }
    h0 c0 (by simp only; omega) (by simp only; omega)
    (jsmn_parse_case_primitive_count c1 c2 c3 c4 c5 c6 c7 c8 c9 c10 c11 hscan)]
  simp only
  rw [show p + (r.length + 1) - 1 + 1 = p + (r.length + 1) by omega]

/-! ### The counting pass on a valid text -/

theorem delim_after {js : List Nat} {q : Nat} {ws tail : List Nat} (hw : ws.all isWs = true)
    (h : ws ++ tail <+: js.drop q) (h1 : tail = [] → Delim js (q + ws.length))
    (h2 : ∀ c r, tail = c :: r → primitiveEnd c = true) : Delim js q := by
  cases ws with
  | nil =>
    cases tail with
    | nil => exact h1 rfl
    | cons c r => exact Or.inr ⟨c, (prefix_drop_cons h).1, h2 c r rfl⟩
  | cons w ws =>
    simp only [List.all_cons, Bool.and_eq_true] at hw
    refine Or.inr ⟨w, (prefix_drop_cons h).1, ?_⟩
    rcases isWs_cases hw.1 with e | e | e | e <;> subst e <;> decide

theorem elems_sep_cases (es : JElems) :
    (es.sep = [] ∧ es.render = []) ∨ es.sep = [44] := by
  cases es with
  | nil => exact Or.inl ⟨rfl, by simp [JElems.render]⟩
  | cons _ _ _ _ => exact Or.inr rfl

theorem members_sep_cases (ms : JMembers) :
    (ms.sep = [] ∧ ms.render = []) ∨ ms.sep = [44] := by
  cases ms with
  | nil => exact Or.inl ⟨rfl, by simp [JMembers.render]⟩
  | cons _ _ _ _ _ _ _ => exact Or.inr rfl

/-- The byte after a value inside a container ends a primitive. -/
theorem delim_inner {js : List Nat} {q : Nat} {ws sep rest : List Nat} (hw : ws.all isWs = true)
    (hs : (sep = [] ∧ rest = []) ∨ sep = [44])
    (h : ws ++ (sep ++ rest) <+: js.drop q)
    (hd : Delim js (q + ws.length + sep.length + rest.length)) : Delim js q := by
  refine delim_after hw h ?_ ?_
  · intro e
    obtain ⟨e1, e2⟩ := List.append_eq_nil.mp e
    subst e1 e2
    simpa using hd
  · intro c r e
    rcases hs with ⟨e1, e2⟩ | e1
    · subst e1 e2
      cases e
    · subst e1
      cases e
      decide

/-- The comma between two children, in the counting pass. -/
theorem count_sep (js : List Nat) (cap : Nat) (sep : List Nat) (p : Nat) (cnt : Int)
    (hs : sep = [] ∨ sep = [44]) (h : sep <+: js.drop p) :
    loopOut js cap { pos := p, toknext := 0, toksuper := -1 } none cnt =
      loopOut js cap { pos := p + sep.length, toknext := 0, toksuper := -1 } none cnt := by
  rcases hs with e | e
  · subst e; rfl
  · subst e
    exact (count_char js cap p cnt 44 (prefix_drop_cons h).1).2 (by omega)

theorem loopOut_congr (js : List Nat) (cap : Nat) {p q n m : Nat} {s r : Int} {t u : TokBuf}
    {c d : Int} (hp : p = q) (hn : n = m) (hs : s = r) (ht : t = u) (hc : c = d) :
    loopOut js cap { pos := p, toknext := n, toksuper := s } t c =
      loopOut js cap { pos := q, toknext := m, toksuper := r } u d := by
  subst hp hn hs ht hc; rfl

mutual
/-- The counting pass over the text of a value counts its tokens. -/
theorem count_value (js : List Nat) (cap : Nat) : ∀ (v : JValue) (p : Nat) (cnt : Int),
    v.wf = true → v.render <+: js.drop p → Delim js (p + v.render.length) →
    loopOut js cap { pos := p, toknext := 0, toksuper := -1 } none cnt =
      loopOut js cap { pos := p + v.render.length, toknext := 0, toksuper := -1 } none
        (cnt + v.count)
  | JValue.prim text, p, cnt, hwf, h, hd => by
    simp only [JValue.wf] at hwf
    simp only [JValue.render, JValue.count] at h hd ⊢
    exact count_prim js cap text p cnt hwf h hd
  | JValue.str body, p, cnt, hwf, h, _ => by
    simp only [JValue.wf] at hwf
    simp only [JValue.render, JValue.count] at h ⊢
    rw [count_string js cap body p cnt hwf h]
    exact loopOut_congr js cap (by simp) rfl rfl rfl rfl
  | JValue.arr ws es, p, cnt, hwf, h, _ => by
    simp only [JValue.wf, Bool.and_eq_true] at hwf
    simp only [JValue.render, JValue.count, List.cons_append, List.append_assoc] at h ⊢
    obtain ⟨h0, h1⟩ := prefix_drop_cons h
    obtain ⟨h2, h3⟩ := prefix_drop_append h1
    obtain ⟨h4, h5⟩ := prefix_drop_append h3
    have h6 := (prefix_drop_cons h5).1
    rw [(count_char js cap p cnt 91 h0).1 (by omega), count_ws js cap ws (p + 1) _ hwf.1 h2,
      count_elems js cap es (p + 1 + ws.length) _ hwf.2 h4 (Or.inr ⟨93, h6, by decide⟩),
      (count_char js cap _ _ 93 h6).2 (by omega)]
    exact loopOut_congr js cap (by simp; omega) rfl rfl rfl (by push_cast; omega)
  | JValue.obj ws ms, p, cnt, hwf, h, _ => by
    simp only [JValue.wf, Bool.and_eq_true] at hwf
    simp only [JValue.render, JValue.count, List.cons_append, List.append_assoc] at h ⊢
    obtain ⟨h0, h1⟩ := prefix_drop_cons h
    obtain ⟨h2, h3⟩ := prefix_drop_append h1
    obtain ⟨h4, h5⟩ := prefix_drop_append h3
    have h6 := (prefix_drop_cons h5).1
    rw [(count_char js cap p cnt 123 h0).1 (by omega), count_ws js cap ws (p + 1) _ hwf.1 h2,
      count_members js cap ms (p + 1 + ws.length) _ hwf.2 h4 (Or.inr ⟨125, h6, by decide⟩),
      (count_char js cap _ _ 125 h6).2 (by omega)]
    exact loopOut_congr js cap (by simp; omega) rfl rfl rfl (by push_cast; omega)
/-- The counting pass over the elements of an array. -/
theorem count_elems (js : List Nat) (cap : Nat) : ∀ (es : JElems) (p : Nat) (cnt : Int),
    es.wf = true → es.render <+: js.drop p → Delim js (p + es.render.length) →
    loopOut js cap { pos := p, toknext := 0, toksuper := -1 } none cnt =
      loopOut js cap { pos := p + es.render.length, toknext := 0, toksuper := -1 } none
        (cnt + es.count)
  | JElems.nil, p, cnt, _, _, _ => by
    exact loopOut_congr js cap (by simp [JElems.render]) rfl rfl rfl (by simp [JElems.count])
  | JElems.cons ws1 v ws2 rest, p, cnt, hwf, h, hd => by
    simp only [JElems.wf, Bool.and_eq_true] at hwf
    obtain ⟨⟨⟨w1, w2⟩, w3⟩, w4⟩ := hwf
    simp only [JElems.render, JElems.count, List.append_assoc, List.length_append] at h hd ⊢
    obtain ⟨h1, h2⟩ := prefix_drop_append h
    obtain ⟨h3, h4⟩ := prefix_drop_append h2
    obtain ⟨h5, h6⟩ := prefix_drop_append h4
    obtain ⟨h7, h8⟩ := prefix_drop_append h6
    have hs := elems_sep_cases rest
    have hdv : Delim js (p + ws1.length + v.render.length) :=
      delim_inner w3 hs h4 (by
        rw [show p + ws1.length + v.render.length + ws2.length + rest.sep.length +
          rest.render.length = p + (ws1.length + (v.render.length + (ws2.length +
            (rest.sep.length + rest.render.length)))) by omega]
        exact hd)
    rw [count_ws js cap ws1 p _ w1 h1, count_value js cap v _ _ w2 h3 hdv,
      count_ws js cap ws2 _ _ w3 h5,
      count_sep js cap rest.sep _ _ (hs.imp (fun e => e.1) id) h7,
      count_elems js cap rest _ _ w4 h8 (by
        rw [show p + ws1.length + v.render.length + ws2.length + rest.sep.length +
          rest.render.length = p + (ws1.length + (v.render.length + (ws2.length +
            (rest.sep.length + rest.render.length)))) by omega]
        exact hd)]
    exact loopOut_congr js cap (by omega) rfl rfl rfl (by push_cast; omega)
/-- The counting pass over the members of an object. -/
theorem count_members (js : List Nat) (cap : Nat) : ∀ (ms : JMembers) (p : Nat) (cnt : Int),
    ms.wf = true → ms.render <+: js.drop p → Delim js (p + ms.render.length) →
    loopOut js cap { pos := p, toknext := 0, toksuper := -1 } none cnt =
      loopOut js cap { pos := p + ms.render.length, toknext := 0, toksuper := -1 } none
        (cnt + ms.count)
  | JMembers.nil, p, cnt, _, _, _ => by
    exact loopOut_congr js cap (by simp [JMembers.render]) rfl rfl rfl (by simp [JMembers.count])
  | JMembers.cons ws1 key ws2 ws3 v ws4 rest, p, cnt, hwf, h, hd => by
    simp only [JMembers.wf, Bool.and_eq_true] at hwf
    obtain ⟨⟨⟨⟨⟨⟨w1, wk⟩, w2⟩, w3⟩, wv⟩, w4⟩, wr⟩ := hwf
    simp only [JMembers.render, JMembers.count, List.append_assoc, List.length_append,
      List.length_cons, List.length_nil, List.cons_append, List.nil_append] at h hd ⊢
    obtain ⟨h1, h2⟩ := prefix_drop_append h
    have hk : 34 :: key ++ [34] <+: js.drop (p + ws1.length) := by
      obtain ⟨t, ht⟩ := h2
      exact ⟨ws2 ++ 58 :: (ws3 ++ (v.render ++ (ws4 ++ (rest.sep ++ rest.render)))) ++ t, by
        rw [← ht]; simp⟩
    have h2a : (34 :: key ++ [34]) ++ (ws2 ++ 58 :: (ws3 ++ (v.render ++ (ws4 ++
        (rest.sep ++ rest.render))))) <+: js.drop (p + ws1.length) := by
      simpa using h2
    obtain ⟨-, h3⟩ := prefix_drop_append h2a
    simp only [List.length_cons, List.length_append, List.length_nil] at h3
    obtain ⟨h4, h5⟩ := prefix_drop_append h3
    obtain ⟨h6, h7⟩ := prefix_drop_cons h5
    obtain ⟨h8, h9⟩ := prefix_drop_append h7
    obtain ⟨h10, h11⟩ := prefix_drop_append h9
    obtain ⟨h12, h13⟩ := prefix_drop_append h11
    obtain ⟨h14, h15⟩ := prefix_drop_append h13
    have hs := members_sep_cases rest
    have hdv : Delim js (p + ws1.length + (key.length + 0 + 1 + 1) + ws2.length + 1 + ws3.length +
        v.render.length) :=
      delim_inner w4 hs h11 (by
        refine (congrArg (Delim js) ?_).mp hd
        omega)
    rw [count_ws js cap ws1 p _ w1 h1, count_string js cap key _ _ wk hk]
    rw [loopOut_congr js cap (q := p + ws1.length + (key.length + 0 + 1 + 1)) (by omega) rfl rfl
      rfl rfl]
    rw [count_ws js cap ws2 _ _ w2 h4, (count_char js cap _ _ 58 h6).2 (by omega),
      count_ws js cap ws3 _ _ w3 h8, count_value js cap v _ _ wv h10 hdv,
      count_ws js cap ws4 _ _ w4 h12,
      count_sep js cap rest.sep _ _ (hs.imp (fun e => e.1) id) h14,
      count_members js cap rest _ _ wr h15 (by
        refine (congrArg (Delim js) ?_).mp hd
        omega)]
    exact loopOut_congr js cap (by omega) rfl rfl rfl (by push_cast; omega)
end

/-! ### The buffer around an open container -/

theorem getElem?_mid (base kids : List jsmntok_t) (h : jsmntok_t) :
    (base ++ h :: kids)[base.length]? = some h := by
  rw [List.getElem?_append_right (Nat.le_refl _), Nat.sub_self]
  exact List.getElem?_cons_zero

theorem getElem?_kids (base kids : List jsmntok_t) (h : jsmntok_t) (j : Nat)
    (h1 : base.length + 1 ≤ j) (h2 : j < base.length + 1 + kids.length) :
    ∃ u, (base ++ h :: kids)[j]? = some u ∧ u ∈ kids := by
  rw [List.getElem?_append_right (by omega)]
  obtain ⟨m, hm⟩ : ∃ m, j - base.length = m + 1 := ⟨j - base.length - 1, by omega⟩
  rw [hm, List.getElem?_cons_succ]
  have hlt : m < kids.length := by omega
  exact ⟨kids[m], List.getElem?_eq_getElem hlt, List.getElem_mem hlt⟩

theorem findDown_mid (P : jsmntok_t → Bool) (base kids : List jsmntok_t) (h : jsmntok_t)
    (hP : P h = true) (hk : ∀ u ∈ kids, P u = false) :
    findDown P (base ++ h :: kids) (base.length + 1 + kids.length) = some base.length := by
  rw [findDown_skip (base.length + 1 + kids.length) (base.length + 1) (by omega) (by
    intro j h1 h2
    obtain ⟨u, hu, hmem⟩ := getElem?_kids base kids h j h1 h2
    exact ⟨u, hu, hk u hmem⟩)]
  simp only [findDown, getElem?_mid, hP, if_true]

theorem findDown_base (P : jsmntok_t → Bool) (base ext : List jsmntok_t) :
    findDown P (base ++ ext) base.length = findDown P base base.length :=
  findDown_congr (fun _ hj => List.getElem?_append_left hj)

theorem superAfter_mid (base kids : List jsmntok_t) (h : jsmntok_t) (hP : isOpen h = true)
    (hk : ∀ u ∈ kids, isOpen u = false) : superAfter (base ++ h :: kids) = base.length := by
  unfold superAfter
  rw [show (base ++ h :: kids).length = base.length + 1 + kids.length by simp; omega,
    findDown_mid isOpen base kids h hP hk]

theorem superAfter_bump (toks : List jsmntok_t) (s : Int) :
    superAfter (bump toks s) = superAfter toks := by
  unfold superAfter
  rw [bump_length, findDown_bump isOpen (fun _ _ => rfl)]

theorem superAfter_valid (toks : List jsmntok_t) :
    superAfter toks = -1 ∨ (0 ≤ superAfter toks ∧ superAfter toks < toks.length) := by
  unfold superAfter
  cases h : findDown isOpen toks toks.length with
  | none => exact Or.inl rfl
  | some k =>
    have := (findDown_some h).1
    exact Or.inr ⟨by simp, by simp only; omega⟩

theorem set_mid (base kids : List jsmntok_t) (h t : jsmntok_t) :
    (base ++ h :: kids).set base.length t = base ++ t :: kids := by
  rw [List.set_append_right _ _ (Nat.le_refl _), Nat.sub_self]
  rfl

theorem bump_mid (base kids : List jsmntok_t) (h : jsmntok_t) :
    bump (base ++ h :: kids) (base.length : Int) =
      base ++ ({ h with size := h.size + 1 } : jsmntok_t) :: kids := by
  unfold bump
  rw [if_neg (by omega), Int.toNat_ofNat, getElem?_mid]
  exact set_mid base kids h _

theorem isOpen_openTok (ty : jsmntype_t) (st : Nat) (k : Int) : isOpen (openTok ty st k) = true := by
  have : (st : Int) ≠ -1 := by omega
  simp [isOpen, openTok, this]

theorem tokAt_mid (base kids : List jsmntok_t) (h : jsmntok_t) :
    tokAt (base ++ h :: kids) (base.length : Int) = some h := by
  unfold tokAt
  rw [if_pos (by omega), Int.toNat_ofNat, getElem?_mid]

/-! ### Steps of the filling pass -/

theorem fill_open (js : List Nat) (cap p n : Nat) (s : Int) (toks : List jsmntok_t) (cnt : Int)
    (c : Nat) (h0 : js[p]? = some c) (hc : c = 123 ∨ c = 91) (hl : toks.length = n)
    (hcap : n < cap) (hs : s = -1 ∨ (0 ≤ s ∧ s < n)) :
    loopOut js cap { pos := p, toknext := n, toksuper := s } (some toks) cnt =
      loopOut js cap { pos := p + 1, toknext := n + 1, toksuper := n }
        (some (bump toks s ++ [openTok (if c = 123 then JSMN_OBJECT else JSMN_ARRAY) p 0]))
        (cnt + 1) :=
  loopOut_step { pos := p, toknext := n + 1, toksuper := n }
    ⟨by simp [bump_length, hl], Nat.succ_le_of_lt hcap, Or.inr ⟨by simp, by simp⟩⟩ h0
    (by omega) (Nat.le_refl _) (List.getElem?_eq_some_iff.mp h0).1
    (jsmn_parse_case_open hc hl hcap hs)

theorem fill_colon (js : List Nat) (cap p n : Nat) (s : Int) (toks : List jsmntok_t) (cnt : Int)
    (h0 : js[p]? = some 58) (hl : toks.length = n) (hcap : n ≤ cap) :
    loopOut js cap { pos := p, toknext := n, toksuper := s } (some toks) cnt =
      loopOut js cap { pos := p + 1, toknext := n, toksuper := (n : Int) - 1 } (some toks) cnt :=
  loopOut_step { pos := p, toknext := n, toksuper := (n : Int) - 1 }
    ⟨hl, hcap, by simp only; omega⟩ h0 (by decide) (Nat.le_refl _)
    (List.getElem?_eq_some_iff.mp h0).1 (jsmn_parse_case_colon _ js js.length _ cap cnt)

theorem fill_string (js : List Nat) (cap : Nat) (body : List Nat) (p n : Nat) (s : Int)
    (toks : List jsmntok_t) (cnt : Int) (hb : isStringBody body = true)
    (h : 34 :: body ++ [34] <+: js.drop p) (hl : toks.length = n) (hcap : n < cap)
    (hs : s = -1 ∨ (0 ≤ s ∧ s < n)) :
    loopOut js cap { pos := p, toknext := n, toksuper := s } (some toks) cnt =
      loopOut js cap { pos := p + (body.length + 2), toknext := n + 1, toksuper := s }
        (some (bump toks s ++ [({ type := JSMN_STRING, start := ((p + 1 : Nat) : Int), end_ := ((p + 1 + body.length : Nat) : Int), size := 0 } : jsmntok_t)]))
        (cnt + 1) := by
  have hlen := prefix_drop_length h (by simp)
  simp only [List.cons_append] at h
  obtain ⟨h0, h1⟩ := prefix_drop_cons h
  simp only [List.length_cons, List.length_append, List.length_nil] at hlen
  have hscan := stringScan_body js body.length body (p + 1) (js.length + 1 - p) (Nat.le_refl _)
    hb h1 (by omega)
  rw [loopOut_step { pos := p + 1 + body.length, toknext := n + 1, toksuper := s }
    ⟨by simp [bump_length, hl], Nat.succ_le_of_lt hcap, by simp only; omega⟩ h0
    (by decide) (by simp only; omega) (by simp only; omega)
    (jsmn_parse_case_string hscan hl hcap hs)]
  exact loopOut_congr js cap (by simp only; omega) rfl rfl rfl rfl

theorem fill_prim (js : List Nat) (cap : Nat) (t : List Nat) (p n : Nat) (s : Int)
    (toks : List jsmntok_t) (cnt : Int) (ht : isPrimitiveText t = true) (h : t <+: js.drop p)
    (hd : Delim js (p + t.length)) (hl : toks.length = n) (hcap : n < cap)
    (hs : s = -1 ∨ (0 ≤ s ∧ s < n)) :
    loopOut js cap { pos := p, toknext := n, toksuper := s } (some toks) cnt =
      loopOut js cap { pos := p + t.length, toknext := n + 1, toksuper := s }
        (some (bump toks s ++ [({ type := JSMN_PRIMITIVE, start := (p : Int), end_ := ((p + t.length : Nat) : Int), size := 0 } : jsmntok_t)]))
        (cnt + 1) := by
  obtain ⟨hall, c, r, rfl, c0, c1, c2, c3, c4, c5, c6, c7, c8, c9, c10, c11⟩ :=
    isPrimitiveText_ok ht
  have hlen := prefix_drop_length h (by simp)
  obtain ⟨h0, -⟩ := prefix_drop_cons h
  simp only [List.length_cons] at hlen hd ⊢
  have hscan := primitiveScan_text js (c :: r) p (js.length + 1 - p) hall h
    (by simpa using hd) (by simp only [List.length_cons]; omega)
  simp only [List.length_cons] at hscan
  rw [loopOut_step { pos := p + (r.length + 1) - 1, toknext := n + 1, toksuper := s }
    ⟨by simp [bump_length, hl], Nat.succ_le_of_lt hcap, by simp only; omega⟩
    h0 c0 (by simp only; omega) (by simp only; omega)
    (jsmn_parse_case_primitive c1 c2 c3 c4 c5 c6 c7 c8 c9 c10 c11 hscan hl hcap hs)]
  exact loopOut_congr js cap (by simp only; omega) rfl rfl rfl rfl

/-- A comma when `toksuper` is the open container. -/
theorem fill_comma_keep (js : List Nat) (cap p n : Nat) (base kids : List jsmntok_t)
    (ty : jsmntype_t) (st : Nat) (k : Int) (cnt : Int) (h0 : js[p]? = some 44)
    (hty : ty = JSMN_ARRAY ∨ ty = JSMN_OBJECT) (hn : n = base.length + 1 + kids.length)
    (hcap : n ≤ cap) :
    loopOut js cap { pos := p, toknext := n, toksuper := base.length }
        (some (base ++ openTok ty st k :: kids)) cnt =
      loopOut js cap { pos := p + 1, toknext := n, toksuper := base.length }
        (some (base ++ openTok ty st k :: kids)) cnt := by
  refine loopOut_step { pos := p, toknext := n, toksuper := base.length }
    ⟨by simp; omega, hcap, Or.inr ⟨by simp, by simp only; omega⟩⟩ h0 (by decide) (Nat.le_refl _)
    (List.getElem?_eq_some_iff.mp h0).1 ?_
  unfold jsmn_parse_case
  rw [if_neg (by decide), if_neg (by decide), if_neg (by decide), if_neg (by decide),
    if_neg (by decide), if_pos rfl]
  simp only
  rw [if_pos (by omega), tokAt_mid]
  simp only
  rw [if_neg (by
    rcases hty with e | e <;> subst e <;> simp [openTok])]

/-- A comma when `toksuper` is a token that is not a container, inside an open
container: `toksuper` goes back to the container. -/
theorem fill_comma_back (js : List Nat) (cap p n : Nat) (s : Int) (base kids : List jsmntok_t)
    (ty : jsmntype_t) (st : Nat) (k : Int) (cnt : Int) (t : jsmntok_t) (h0 : js[p]? = some 44)
    (hty : ty = JSMN_ARRAY ∨ ty = JSMN_OBJECT) (hn : n = base.length + 1 + kids.length)
    (hcap : n ≤ cap) (hk : ∀ u ∈ kids, isOpen u = false) (hs : s ≠ -1)
    (ht : tokAt (base ++ openTok ty st k :: kids) s = some t) (h1 : t.type ≠ JSMN_ARRAY)
    (h2 : t.type ≠ JSMN_OBJECT) :
    loopOut js cap { pos := p, toknext := n, toksuper := s }
        (some (base ++ openTok ty st k :: kids)) cnt =
      loopOut js cap { pos := p + 1, toknext := n, toksuper := base.length }
        (some (base ++ openTok ty st k :: kids)) cnt := by
  refine loopOut_step { pos := p, toknext := n, toksuper := base.length }
    ⟨by simp; omega, hcap, Or.inr ⟨by simp, by simp only; omega⟩⟩ h0 (by decide) (Nat.le_refl _)
    (List.getElem?_eq_some_iff.mp h0).1 ?_
  unfold jsmn_parse_case
  rw [if_neg (by decide), if_neg (by decide), if_neg (by decide), if_neg (by decide),
    if_neg (by decide), if_pos rfl]
  simp only
  rw [if_pos hs, ht]
  simp only
  rw [if_pos ⟨h1, h2⟩, hn, findDown_mid _ base kids _ (by
    rcases hty with e | e <;> subst e <;> simp [isOpen_openTok] <;> simp [openTok]) (by
    intro u hu
    simp [hk u hu])]

/-- The bracket that closes the innermost open container. -/
theorem fill_close (js : List Nat) (cap p n : Nat) (s : Int) (base kids : List jsmntok_t)
    (ty : jsmntype_t) (st : Nat) (k : Int) (cnt : Int) (c : Nat) (h0 : js[p]? = some c)
    (hc : c = 125 ∨ c = 93) (hty : ty = if c = 125 then JSMN_OBJECT else JSMN_ARRAY)
    (hn : n = base.length + 1 + kids.length) (hcap : n ≤ cap)
    (hk : ∀ u ∈ kids, isOpen u = false) :
    loopOut js cap { pos := p, toknext := n, toksuper := s }
        (some (base ++ openTok ty st k :: kids)) cnt =
      loopOut js cap { pos := p + 1, toknext := n, toksuper := superAfter base }
        (some (base ++ ({ type := ty, start := (st : Int), end_ := ((p + 1 : Nat) : Int), size := k } : jsmntok_t) :: kids)) cnt := by
  have hf : findDown isOpen (base ++ openTok ty st k :: kids) n = some base.length := by
    rw [hn]
    exact findDown_mid isOpen base kids _ (isOpen_openTok ty st k) hk
  have hcase := @jsmn_parse_case_close c { pos := p, toknext := n, toksuper := s } js js.length _
    cap cnt _ _ hc hf (getElem?_mid base kids _) hty
  rw [set_mid] at hcase
  have hne : ((p : Int) + 1 == -1) = false := by
    have : (p : Int) + 1 ≠ -1 := by omega
    simpa using this
  have hcase1 : jsmn_parse_case c { pos := p, toknext := n, toksuper := s } js js.length
      (some (base ++ openTok ty st k :: kids)) cap cnt =
      some (Sum.inr ({ pos := p, toknext := n, toksuper := superAfter base },
        some (base ++ ({ type := ty, start := (st : Int), end_ := ((p + 1 : Nat) : Int), size := k } : jsmntok_t) :: kids), cnt)) := by
    rw [hcase]
    simp only [findDown, getElem?_mid, isOpen, hne, Bool.and_false, Bool.false_eq_true, if_false,
      findDown_base, superAfter, openTok, Nat.cast_add, Nat.cast_one]
  have hv := superAfter_valid base
  refine loopOut_step { pos := p, toknext := n, toksuper := superAfter base }
    ?_ h0 (by omega) (Nat.le_refl _) (List.getElem?_eq_some_iff.mp h0).1 hcase1
  exact ⟨by simp; omega, hcap, by simp only; omega⟩

/-! ### The tokens of a value -/

mutual
theorem value_tokens_closed : ∀ (v : JValue) (p : Nat) (u : jsmntok_t),
    u ∈ v.tokens p → isOpen u = false
  | JValue.prim text, p, u, h => by
    simp only [JValue.tokens, List.mem_singleton] at h
    subst h
    simp only [isOpen, Bool.and_eq_false_iff, beq_eq_false_iff_ne, ne_eq]
    exact Or.inr (by omega)
  | JValue.str body, p, u, h => by
    simp only [JValue.tokens, List.mem_singleton] at h
    subst h
    simp only [isOpen, Bool.and_eq_false_iff, beq_eq_false_iff_ne, ne_eq]
    exact Or.inr (by omega)
  | JValue.arr ws es, p, u, h => by
    simp only [JValue.tokens, List.mem_cons] at h
    rcases h with h | h
    · subst h
      simp only [isOpen, Bool.and_eq_false_iff, beq_eq_false_iff_ne, ne_eq]
      exact Or.inr (by omega)
    · exact elems_tokens_closed es _ u h
  | JValue.obj ws ms, p, u, h => by
    simp only [JValue.tokens, List.mem_cons] at h
    rcases h with h | h
    · subst h
      simp only [isOpen, Bool.and_eq_false_iff, beq_eq_false_iff_ne, ne_eq]
      exact Or.inr (by omega)
    · exact members_tokens_closed ms _ u h
theorem elems_tokens_closed : ∀ (es : JElems) (p : Nat) (u : jsmntok_t),
    u ∈ es.tokens p → isOpen u = false
  | JElems.nil, p, u, h => by simp [JElems.tokens] at h
  | JElems.cons ws1 v ws2 rest, p, u, h => by
    simp only [JElems.tokens, List.mem_append] at h
    rcases h with h | h
    · exact value_tokens_closed v _ u h
    · exact elems_tokens_closed rest _ u h
theorem members_tokens_closed : ∀ (ms : JMembers) (p : Nat) (u : jsmntok_t),
    u ∈ ms.tokens p → isOpen u = false
  | JMembers.nil, p, u, h => by simp [JMembers.tokens] at h
  | JMembers.cons ws1 key ws2 ws3 v ws4 rest, p, u, h => by
    simp only [JMembers.tokens, List.mem_cons, List.mem_append] at h
    rcases h with h | h | h
    · subst h
      simp only [isOpen, Bool.and_eq_false_iff, beq_eq_false_iff_ne, ne_eq]
      exact Or.inr (by omega)
    · exact value_tokens_closed v _ u h
    · exact members_tokens_closed rest _ u h
end

mutual
theorem value_tokens_length : ∀ (v : JValue) (p : Nat), (v.tokens p).length = v.count
  | JValue.prim _, _ => rfl
  | JValue.str _, _ => rfl
  | JValue.arr _ es, p => by
    simp only [JValue.tokens, JValue.count, List.length_cons, elems_tokens_length es]
  | JValue.obj _ ms, p => by
    simp only [JValue.tokens, JValue.count, List.length_cons, members_tokens_length ms]
theorem elems_tokens_length : ∀ (es : JElems) (p : Nat), (es.tokens p).length = es.count
  | JElems.nil, _ => rfl
  | JElems.cons _ v _ rest, p => by
    simp only [JElems.tokens, JElems.count, List.length_append, value_tokens_length v,
      elems_tokens_length rest]
theorem members_tokens_length : ∀ (ms : JMembers) (p : Nat), (ms.tokens p).length = ms.count
  | JMembers.nil, _ => rfl
  | JMembers.cons _ _ _ _ v _ rest, p => by
    simp only [JMembers.tokens, JMembers.count, List.length_cons, List.length_append,
      value_tokens_length v, members_tokens_length rest]
    omega
end

theorem bump_openTok (base kids ext : List jsmntok_t) (ty : jsmntype_t) (st : Nat) (k : Int) :
    bump (base ++ openTok ty st k :: kids) (base.length : Int) ++ ext =
      base ++ openTok ty st (k + 1) :: (kids ++ ext) := by
  rw [bump_mid, List.append_assoc, List.cons_append]
  rfl

theorem bump_key (base kids ext : List jsmntok_t) (h t : jsmntok_t) (i : Int)
    (hi : i = ((base.length + 1 + kids.length : Nat) : Int)) :
    bump (base ++ h :: (kids ++ [t])) i ++ ext =
      base ++ h :: (kids ++ ({ t with size := t.size + 1 } : jsmntok_t) :: ext) := by
  have e : base ++ h :: (kids ++ [t]) = (base ++ h :: kids) ++ t :: [] := by simp
  have hl : (base ++ h :: kids).length = base.length + 1 + kids.length := by simp; omega
  rw [e, hi, ← hl, bump_mid]
  simp

theorem afterSuper_mid (v : JValue) (base kids : List jsmntok_t) (h : jsmntok_t)
    (hP : isOpen h = true) (hk : ∀ u ∈ kids, isOpen u = false) :
    afterSuper v (base ++ h :: kids) (base.length : Int) = (base.length : Int) := by
  cases v <;> simp only [afterSuper] <;> exact superAfter_mid base kids h hP hk

theorem afterSuper_key (v : JValue) (base kids : List jsmntok_t) (h : jsmntok_t) (s : Int)
    (hP : isOpen h = true) (hk : ∀ u ∈ kids, isOpen u = false) :
    afterSuper v (base ++ h :: kids) s = (base.length : Int) ∨
      afterSuper v (base ++ h :: kids) s = s := by
  cases v
  · exact Or.inr rfl
  · exact Or.inr rfl
  · exact Or.inl (superAfter_mid base kids h hP hk)
  · exact Or.inl (superAfter_mid base kids h hP hk)

theorem afterSuper_valid (v : JValue) (toks : List jsmntok_t) (s : Int)
    (hs : s = -1 ∨ (0 ≤ s ∧ s < toks.length)) :
    afterSuper v toks s = -1 ∨ (0 ≤ afterSuper v toks s ∧ afterSuper v toks s < toks.length) := by
  cases v
  · exact hs
  · exact hs
  · exact superAfter_valid toks
  · exact superAfter_valid toks

/-- The comma between two elements of an array, in the filling pass. -/
theorem fill_sep_arr (js : List Nat) (cap : Nat) (sep : List Nat) (p n : Nat)
    (base kids : List jsmntok_t) (st : Nat) (k : Int) (cnt : Int)
    (hs : sep = [] ∨ sep = [44]) (h : sep <+: js.drop p)
    (hn : n = base.length + 1 + kids.length) (hcap : n ≤ cap) :
    loopOut js cap { pos := p, toknext := n, toksuper := base.length }
        (some (base ++ openTok JSMN_ARRAY st k :: kids)) cnt =
      loopOut js cap { pos := p + sep.length, toknext := n, toksuper := base.length }
        (some (base ++ openTok JSMN_ARRAY st k :: kids)) cnt := by
  rcases hs with e | e
  · subst e; rfl
  · subst e
    exact fill_comma_keep js cap p n base kids JSMN_ARRAY st k cnt (prefix_drop_cons h).1
      (Or.inl rfl) hn hcap

/-- The comma between two members of an object, in the filling pass: `toksuper` is the
object, or a key, and the comma sets it to the object. -/
theorem fill_sep_obj (js : List Nat) (cap : Nat) (sep : List Nat) (p n : Nat) (s : Int)
    (base kids : List jsmntok_t) (st : Nat) (k : Int) (cnt : Int)
    (hs : sep = [] ∨ sep = [44]) (h : sep <+: js.drop p)
    (hn : n = base.length + 1 + kids.length) (hcap : n ≤ cap)
    (hk : ∀ u ∈ kids, isOpen u = false)
    (hsv : s = -1 ∨ (0 ≤ s ∧ s < n))
    (hso : s = base.length ∨ (s ≠ -1 ∧ ∃ t, tokAt (base ++ openTok JSMN_OBJECT st k :: kids) s =
      some t ∧ t.type ≠ JSMN_ARRAY ∧ t.type ≠ JSMN_OBJECT)) :
    ∃ s2 : Int, (s2 = -1 ∨ (0 ≤ s2 ∧ s2 < n)) ∧ (sep = [44] → s2 = base.length) ∧
      loopOut js cap { pos := p, toknext := n, toksuper := s }
          (some (base ++ openTok JSMN_OBJECT st k :: kids)) cnt =
        loopOut js cap { pos := p + sep.length, toknext := n, toksuper := s2 }
          (some (base ++ openTok JSMN_OBJECT st k :: kids)) cnt := by
  rcases hs with e | e
  · subst e
    exact ⟨s, hsv, fun e => absurd e (by decide), rfl⟩
  · subst e
    refine ⟨base.length, Or.inr ⟨by simp, by omega⟩, fun _ => rfl, ?_⟩
    rcases hso with e | ⟨hne, t, ht, h1, h2⟩
    · subst e
      exact fill_comma_keep js cap p n base kids JSMN_OBJECT st k cnt (prefix_drop_cons h).1
        (Or.inr rfl) hn hcap
    · exact fill_comma_back js cap p n s base kids JSMN_OBJECT st k cnt t (prefix_drop_cons h).1
        (Or.inr rfl) hn hcap hk hne ht h1 h2

theorem tokAt_key (base kids ext : List jsmntok_t) (h t : jsmntok_t) (i : Int)
    (hi : i = ((base.length + 1 + kids.length : Nat) : Int)) :
    tokAt (base ++ h :: (kids ++ t :: ext)) i = some t := by
  have e : base ++ h :: (kids ++ t :: ext) = (base ++ h :: kids) ++ t :: ext := by simp
  have hl : (base ++ h :: kids).length = base.length + 1 + kids.length := by simp; omega
  rw [e, hi, ← hl, tokAt_mid]

/-! ### The filling pass on a valid text -/

mutual
/-- The filling pass over the text of a value appends the tokens of the value,
after the parent has counted one more child. -/
theorem fill_value (js : List Nat) (cap : Nat) : ∀ (v : JValue) (p n : Nat) (s : Int)
    (toks : List jsmntok_t) (cnt : Int),
    v.wf = true → v.render <+: js.drop p → Delim js (p + v.render.length) →
    toks.length = n → (s = -1 ∨ (0 ≤ s ∧ s < n)) → n + v.count ≤ cap →
    loopOut js cap { pos := p, toknext := n, toksuper := s } (some toks) cnt =
      loopOut js cap
        { pos := p + v.render.length, toknext := n + v.count, toksuper := afterSuper v toks s }
        (some (bump toks s ++ v.tokens p)) (cnt + v.count)
  | JValue.prim text, p, n, s, toks, cnt, hwf, h, hd, hl, hs, hcap => by
    simp only [JValue.wf] at hwf
    simp only [JValue.render, JValue.count, JValue.tokens, afterSuper] at h hd hcap ⊢
    exact fill_prim js cap text p n s toks cnt hwf h hd hl (by omega) hs
  | JValue.str body, p, n, s, toks, cnt, hwf, h, _, hl, hs, hcap => by
    simp only [JValue.wf] at hwf
    simp only [JValue.render, JValue.count, JValue.tokens, afterSuper] at h hcap ⊢
    refine Eq.trans (fill_string js cap body p n s toks cnt hwf h hl (by omega) hs) ?_
    exact loopOut_congr js cap (by simp) rfl rfl rfl rfl
  | JValue.arr ws es, p, n, s, toks, cnt, hwf, h, _, hl, hs, hcap => by
    simp only [JValue.wf, Bool.and_eq_true] at hwf
    simp only [JValue.render, JValue.count, JValue.tokens, afterSuper, List.cons_append,
      List.append_assoc] at h hcap ⊢
    obtain ⟨h0, h1⟩ := prefix_drop_cons h
    obtain ⟨h2, h3⟩ := prefix_drop_append h1
    obtain ⟨h4, h5⟩ := prefix_drop_append h3
    have h6 := (prefix_drop_cons h5).1
    have hbl := bump_length toks s
    have hel := elems_tokens_length es (p + 1 + ws.length)
    refine Eq.trans (fill_open js cap p n s toks cnt 91 h0 (Or.inr rfl) hl (by omega) hs) ?_
    rw [if_neg (by decide)]
    refine Eq.trans (fill_ws js cap _ _ _
      ⟨by simp [hbl, hl], by simp only; omega, Or.inr ⟨by simp, by simp⟩⟩ ws _ _ hwf.1 h2) ?_
    refine Eq.trans (fill_elems js cap es _ _ _ _ (bump toks s) [] p 0 _ hwf.2 h4
      (Or.inr ⟨93, h6, by decide⟩) rfl (by simp [hbl, hl]) (by simp [hbl, hl])
      (fun _ hu => absurd hu (List.not_mem_nil _)) (by omega)) ?_
    refine Eq.trans (fill_close js cap _ _ _ (bump toks s) _ JSMN_ARRAY p _ _ 93 h6 (Or.inr rfl)
      (by decide) (by simp [hbl, hl, hel]) (by omega)
      (fun u hu => elems_tokens_closed es _ u (by simpa using hu))) ?_
    exact loopOut_congr js cap (by simp; omega) (by omega) (superAfter_bump toks s)
      (by simp; omega) (by push_cast; omega)
  | JValue.obj ws ms, p, n, s, toks, cnt, hwf, h, _, hl, hs, hcap => by
    simp only [JValue.wf, Bool.and_eq_true] at hwf
    simp only [JValue.render, JValue.count, JValue.tokens, afterSuper, List.cons_append,
      List.append_assoc] at h hcap ⊢
    obtain ⟨h0, h1⟩ := prefix_drop_cons h
    obtain ⟨h2, h3⟩ := prefix_drop_append h1
    obtain ⟨h4, h5⟩ := prefix_drop_append h3
    have h6 := (prefix_drop_cons h5).1
    have hbl := bump_length toks s
    have hel := members_tokens_length ms (p + 1 + ws.length)
    refine Eq.trans (fill_open js cap p n s toks cnt 123 h0 (Or.inl rfl) hl (by omega) hs) ?_
    rw [if_pos rfl]
    refine Eq.trans (fill_ws js cap _ _ _
      ⟨by simp [hbl, hl], by simp only; omega, Or.inr ⟨by simp, by simp⟩⟩ ws _ _ hwf.1 h2) ?_
    obtain ⟨s1, -, e1⟩ := fill_members js cap ms (p + 1 + ws.length) (n + 1) n
      (bump toks s ++ [openTok JSMN_OBJECT p 0]) (bump toks s) [] p 0 (cnt + 1) hwf.2 h4
      (Or.inr ⟨125, h6, by decide⟩) rfl (by simp [hbl, hl])
      (fun _ hu => absurd hu (List.not_mem_nil _)) (Or.inr ⟨by omega, by omega⟩)
      (fun _ => by simp [hbl, hl]) (by omega)
    refine Eq.trans e1 ?_
    refine Eq.trans (fill_close js cap _ _ _ (bump toks s) _ JSMN_OBJECT p _ _ 125 h6 (Or.inl rfl)
      (by decide) (by simp [hbl, hl, hel]) (by omega)
      (fun u hu => members_tokens_closed ms _ u (by simpa using hu))) ?_
    exact loopOut_congr js cap (by simp; omega) (by omega) (superAfter_bump toks s)
      (by simp; omega) (by push_cast; omega)
/-- The filling pass over the elements of an open array. -/
theorem fill_elems (js : List Nat) (cap : Nat) : ∀ (es : JElems) (p n : Nat) (a : Int)
    (toks base kids : List jsmntok_t) (st : Nat) (k : Int) (cnt : Int),
    es.wf = true → es.render <+: js.drop p → Delim js (p + es.render.length) →
    toks = base ++ openTok JSMN_ARRAY st k :: kids → n = base.length + 1 + kids.length →
    a = base.length → (∀ u ∈ kids, isOpen u = false) → n + es.count ≤ cap →
    loopOut js cap { pos := p, toknext := n, toksuper := a } (some toks) cnt =
      loopOut js cap { pos := p + es.render.length, toknext := n + es.count, toksuper := a }
        (some (base ++ openTok JSMN_ARRAY st (k + es.length) :: (kids ++ es.tokens p)))
        (cnt + es.count)
  | JElems.nil, p, n, a, toks, base, kids, st, k, cnt, _, _, _, ht, hn, ha, _, _ => by
    subst ht hn ha
    exact loopOut_congr js cap (by simp [JElems.render]) (by simp [JElems.count]) rfl
      (by simp [JElems.tokens, JElems.length]) (by simp [JElems.count])
  | JElems.cons ws1 v ws2 rest, p, n, a, toks, base, kids, st, k, cnt, hwf, h, hd, ht, hn, ha,
      hk, hcap => by
    subst ht hn ha
    simp only [JElems.wf, Bool.and_eq_true] at hwf
    obtain ⟨⟨⟨w1, w2⟩, w3⟩, w4⟩ := hwf
    simp only [JElems.render, JElems.count, JElems.tokens, JElems.length, List.append_assoc,
      List.length_append] at h hd hcap ⊢
    obtain ⟨h1, h2⟩ := prefix_drop_append h
    obtain ⟨h3, h4⟩ := prefix_drop_append h2
    obtain ⟨h5, h6⟩ := prefix_drop_append h4
    obtain ⟨h7, h8⟩ := prefix_drop_append h6
    have hs := elems_sep_cases rest
    have hde : Delim js (p + ws1.length + v.render.length + ws2.length + rest.sep.length +
        rest.render.length) := by
      refine (congrArg (Delim js) ?_).mp hd
      omega
    have hdv : Delim js (p + ws1.length + v.render.length) := delim_inner w3 hs h4 hde
    have hvl := value_tokens_length v (p + ws1.length)
    have hT : (base ++ openTok JSMN_ARRAY st k :: kids).length = base.length + 1 + kids.length := by
      simp; omega
    have hT2 : (base ++ openTok JSMN_ARRAY st (k + 1) ::
        (kids ++ v.tokens (p + ws1.length))).length = base.length + 1 + kids.length + v.count := by
      simp [hvl]; omega
    have hk2 : ∀ u ∈ kids ++ v.tokens (p + ws1.length), isOpen u = false := by
      intro u hu
      rcases List.mem_append.mp hu with hu | hu
      · exact hk u hu
      · exact value_tokens_closed v _ u hu
    refine Eq.trans (fill_ws js cap _ _ _
      ⟨hT, by simp only; omega, Or.inr ⟨by simp, by simp only; omega⟩⟩ ws1 _ _ w1 h1) ?_
    refine Eq.trans (fill_value js cap v _ _ _ _ _ w2 h3 hdv hT (Or.inr ⟨by simp, by omega⟩)
      (by omega)) ?_
    rw [afterSuper_mid v base kids _ (isOpen_openTok _ _ _) hk, bump_openTok]
    refine Eq.trans (fill_ws js cap _ _ _
      ⟨hT2, by simp only; omega, Or.inr ⟨by simp, by simp only; omega⟩⟩ ws2 _ _ w3 h5) ?_
    refine Eq.trans (fill_sep_arr js cap rest.sep _ _ base _ st _ _ (hs.imp (fun e => e.1) id) h7
      (by simp [hvl]; omega) (by omega)) ?_
    refine Eq.trans (fill_elems js cap rest _ _ _ _ base (kids ++ v.tokens (p + ws1.length)) st
      (k + 1) _ w4 h8 hde rfl (by simp [hvl]; omega) rfl hk2 (by omega)) ?_
    exact loopOut_congr js cap (by omega) (by omega) rfl
      (by simp only [List.append_assoc, Nat.cast_add, Nat.cast_one, Int.add_assoc, Int.add_comm 1]) (by push_cast; omega)
/-- The filling pass over the members of an open object. -/
theorem fill_members (js : List Nat) (cap : Nat) : ∀ (ms : JMembers) (p n : Nat) (s : Int)
    (toks base kids : List jsmntok_t) (st : Nat) (k : Int) (cnt : Int),
    ms.wf = true → ms.render <+: js.drop p → Delim js (p + ms.render.length) →
    toks = base ++ openTok JSMN_OBJECT st k :: kids → n = base.length + 1 + kids.length →
    (∀ u ∈ kids, isOpen u = false) → (s = -1 ∨ (0 ≤ s ∧ s < n)) →
    (ms.sep = [44] → s = base.length) → n + ms.count ≤ cap →
    ∃ s1 : Int, (s1 = -1 ∨ (0 ≤ s1 ∧ s1 < n + ms.count)) ∧
      loopOut js cap { pos := p, toknext := n, toksuper := s } (some toks) cnt =
        loopOut js cap { pos := p + ms.render.length, toknext := n + ms.count, toksuper := s1 }
          (some (base ++ openTok JSMN_OBJECT st (k + ms.length) :: (kids ++ ms.tokens p)))
          (cnt + ms.count)
  | JMembers.nil, p, n, s, toks, base, kids, st, k, cnt, _, _, _, ht, hn, _, hsv, _, _ => by
    subst ht hn
    exact ⟨s, by simpa [JMembers.count] using hsv,
      loopOut_congr js cap (by simp [JMembers.render]) (by simp [JMembers.count]) rfl
        (by simp [JMembers.tokens, JMembers.length]) (by simp [JMembers.count])⟩
  | JMembers.cons ws1 key ws2 ws3 v ws4 rest, p, n, s, toks, base, kids, st, k, cnt, hwf, h, hd,
      ht, hn, hk, _, hso, hcap => by
    have hs0 : s = base.length := hso rfl
    subst ht hn hs0
    simp only [JMembers.wf, Bool.and_eq_true] at hwf
    obtain ⟨⟨⟨⟨⟨⟨w1, wk⟩, w2⟩, w3⟩, wv⟩, w4⟩, wr⟩ := hwf
    simp only [JMembers.render, JMembers.count, JMembers.tokens, JMembers.length,
      List.append_assoc, List.length_append, List.length_cons, List.length_nil, List.cons_append,
      List.nil_append] at h hd hcap ⊢
    obtain ⟨h1, h2⟩ := prefix_drop_append h
    have hkey : 34 :: key ++ [34] <+: js.drop (p + ws1.length) := by
      obtain ⟨t, ht⟩ := h2
      exact ⟨ws2 ++ 58 :: (ws3 ++ (v.render ++ (ws4 ++ (rest.sep ++ rest.render)))) ++ t, by
        rw [← ht]; simp⟩
    have h2a : (34 :: key ++ [34]) ++ (ws2 ++ 58 :: (ws3 ++ (v.render ++ (ws4 ++
        (rest.sep ++ rest.render))))) <+: js.drop (p + ws1.length) := by
      simpa using h2
    obtain ⟨-, h3a⟩ := prefix_drop_append h2a
    have h3 : ws2 ++ 58 :: (ws3 ++ (v.render ++ (ws4 ++ (rest.sep ++ rest.render)))) <+:
        js.drop (p + ws1.length + (key.length + 2)) := by
      have e : p + ws1.length + (34 :: key ++ [34]).length = p + ws1.length + (key.length + 2) := by
        simp
      rw [← e]
      exact h3a
    obtain ⟨h4, h5⟩ := prefix_drop_append h3
    obtain ⟨h6, h7⟩ := prefix_drop_cons h5
    obtain ⟨h8, h9⟩ := prefix_drop_append h7
    obtain ⟨h10, h11⟩ := prefix_drop_append h9
    obtain ⟨h12, h13⟩ := prefix_drop_append h11
    obtain ⟨h14, h15⟩ := prefix_drop_append h13
    have hs := members_sep_cases rest
    have hde : Delim js (p + ws1.length + (key.length + 2) + ws2.length + 1 + ws3.length +
        v.render.length + ws4.length + rest.sep.length + rest.render.length) := by
      refine (congrArg (Delim js) ?_).mp hd
      omega
    have hdv : Delim js (p + ws1.length + (key.length + 2) + ws2.length + 1 + ws3.length +
        v.render.length) := delim_inner w4 hs h11 hde
    have hvl := value_tokens_length v
      (p + ws1.length + (key.length + 2) + ws2.length + 1 + ws3.length)
    have hT : (base ++ openTok JSMN_OBJECT st k :: kids).length = base.length + 1 + kids.length := by
      simp; omega
    have hT1 : (base ++ openTok JSMN_OBJECT st (k + 1) :: (kids ++
        [({ type := JSMN_STRING, start := ((p + ws1.length + 1 : Nat) : Int), end_ := ((p + ws1.length + 1 + key.length : Nat) : Int), size := 0 } : jsmntok_t)])).length =
        base.length + 1 + kids.length + 1 := by
      simp; omega
    have hk1 : ∀ u ∈ kids ++
        [({ type := JSMN_STRING, start := ((p + ws1.length + 1 : Nat) : Int), end_ := ((p + ws1.length + 1 + key.length : Nat) : Int), size := 0 } : jsmntok_t)],
        isOpen u = false := by
      intro u hu
      rcases List.mem_append.mp hu with hu | hu
      · exact hk u hu
      · rw [List.mem_singleton.mp hu]
        simp only [isOpen, Bool.and_eq_false_iff, beq_eq_false_iff_ne, ne_eq]
        exact Or.inr (by omega)
    have hk2 : ∀ u ∈ kids ++
        ({ type := JSMN_STRING, start := ((p + ws1.length + 1 : Nat) : Int), end_ := ((p + ws1.length + 1 + key.length : Nat) : Int), size := 1 } : jsmntok_t) ::
          v.tokens (p + ws1.length + (key.length + 2) + ws2.length + 1 + ws3.length),
        isOpen u = false := by
      intro u hu
      rcases List.mem_append.mp hu with hu | hu
      · exact hk u hu
      · rcases List.mem_cons.mp hu with hu | hu
        · rw [hu]
          simp only [isOpen, Bool.and_eq_false_iff, beq_eq_false_iff_ne, ne_eq]
          exact Or.inr (by omega)
        · exact value_tokens_closed v _ u hu
    have hT2 : (base ++ openTok JSMN_OBJECT st (k + 1) :: (kids ++
        ({ type := JSMN_STRING, start := ((p + ws1.length + 1 : Nat) : Int), end_ := ((p + ws1.length + 1 + key.length : Nat) : Int), size := 1 } : jsmntok_t) ::
          v.tokens (p + ws1.length + (key.length + 2) + ws2.length + 1 + ws3.length))).length =
        base.length + 1 + kids.length + 1 + v.count := by
      simp [hvl]; omega
    have hS := afterSuper_key v base _ (openTok JSMN_OBJECT st (k + 1))
      (((base.length + 1 + kids.length + 1 : Nat) : Int) - 1) (isOpen_openTok _ _ _) hk1
    have hSv := afterSuper_valid v (base ++ openTok JSMN_OBJECT st (k + 1) :: (kids ++
        [({ type := JSMN_STRING, start := ((p + ws1.length + 1 : Nat) : Int), end_ := ((p + ws1.length + 1 + key.length : Nat) : Int), size := 0 } : jsmntok_t)]))
      (((base.length + 1 + kids.length + 1 : Nat) : Int) - 1) (Or.inr ⟨by omega, by omega⟩)
    have e1 : loopOut js cap
        { pos := p, toknext := base.length + 1 + kids.length, toksuper := base.length }
        (some (base ++ openTok JSMN_OBJECT st k :: kids)) cnt =
      loopOut js cap
        { pos := p + ws1.length + (key.length + 2) + ws2.length + 1 + ws3.length +
            v.render.length + ws4.length,
          toknext := base.length + 1 + kids.length + 1 + v.count,
          toksuper := afterSuper v (base ++ openTok JSMN_OBJECT st (k + 1) :: (kids ++
            [({ type := JSMN_STRING, start := ((p + ws1.length + 1 : Nat) : Int), end_ := ((p + ws1.length + 1 + key.length : Nat) : Int), size := 0 } : jsmntok_t)]))
            (((base.length + 1 + kids.length + 1 : Nat) : Int) - 1) }
        (some (base ++ openTok JSMN_OBJECT st (k + 1) :: (kids ++
          ({ type := JSMN_STRING, start := ((p + ws1.length + 1 : Nat) : Int), end_ := ((p + ws1.length + 1 + key.length : Nat) : Int), size := 1 } : jsmntok_t) ::
            v.tokens (p + ws1.length + (key.length + 2) + ws2.length + 1 + ws3.length))))
        (cnt + 1 + v.count) := by
      refine Eq.trans (fill_ws js cap _ _ _
        ⟨hT, by simp only; omega, Or.inr ⟨by simp, by simp only; omega⟩⟩ ws1 _ _ w1 h1) ?_
      refine Eq.trans (fill_string js cap key _ _ _ _ _ wk hkey hT (by omega)
        (Or.inr ⟨by simp, by omega⟩)) ?_
      rw [bump_openTok]
      refine Eq.trans (fill_ws js cap _ _ _
        ⟨hT1, by simp only; omega, Or.inr ⟨by simp, by simp only; omega⟩⟩ ws2 _ _ w2 h4) ?_
      refine Eq.trans (fill_colon js cap _ _ _ _ _ h6 hT1 (by omega)) ?_
      refine Eq.trans (fill_ws js cap _ _ _
        ⟨hT1, by simp only; omega, Or.inr ⟨by simp only; omega, by simp only; omega⟩⟩ ws3 _ _ w3
        h8) ?_
      refine Eq.trans (fill_value js cap v _ _ _ _ _ wv h10 hdv hT1
        (Or.inr ⟨by omega, by omega⟩) (by omega)) ?_
      rw [bump_key base kids _ _ _ _ (by push_cast; omega)]
      refine Eq.trans (fill_ws js cap _ _ _
        ⟨hT2, by simp only; omega, by
          rw [hT1] at hSv
          simp only
          omega⟩ ws4 _ _ w4 h12) ?_
      rfl
    generalize afterSuper v (base ++ openTok JSMN_OBJECT st (k + 1) :: (kids ++
        [({ type := JSMN_STRING, start := ((p + ws1.length + 1 : Nat) : Int), end_ := ((p + ws1.length + 1 + key.length : Nat) : Int), size := 0 } : jsmntok_t)]))
        (((base.length + 1 + kids.length + 1 : Nat) : Int) - 1) = s1 at hS hSv e1
    rw [hT1] at hSv
    obtain ⟨s2, hv2, hso2, e2⟩ := fill_sep_obj js cap rest.sep
      (p + ws1.length + (key.length + 2) + ws2.length + 1 + ws3.length + v.render.length +
        ws4.length)
      (base.length + 1 + kids.length + 1 + v.count) s1 base
      (kids ++ ({ type := JSMN_STRING, start := ((p + ws1.length + 1 : Nat) : Int), end_ := ((p + ws1.length + 1 + key.length : Nat) : Int), size := 1 } : jsmntok_t) ::
        v.tokens (p + ws1.length + (key.length + 2) + ws2.length + 1 + ws3.length))
      st (k + 1) (cnt + 1 + v.count) (hs.imp (fun e => e.1) id) h14 (by simp [hvl]; omega)
      (by omega) hk2 (by omega) (by
        rcases hS with e | e
        · exact Or.inl e
        · refine Or.inr ⟨by omega, _, tokAt_key base kids _ _ _ s1 (by omega), ?_, ?_⟩ <;> simp)
    obtain ⟨s3, hv3, e3⟩ := fill_members js cap rest
      (p + ws1.length + (key.length + 2) + ws2.length + 1 + ws3.length + v.render.length +
        ws4.length + rest.sep.length)
      (base.length + 1 + kids.length + 1 + v.count) s2 _ base
      (kids ++ ({ type := JSMN_STRING, start := ((p + ws1.length + 1 : Nat) : Int), end_ := ((p + ws1.length + 1 + key.length : Nat) : Int), size := 1 } : jsmntok_t) ::
        v.tokens (p + ws1.length + (key.length + 2) + ws2.length + 1 + ws3.length))
      st (k + 1) (cnt + 1 + v.count) wr h15 hde rfl (by simp [hvl]; omega) hk2 hv2
      hso2 (by omega)
    refine ⟨s3, by omega, ?_⟩
    refine e1.trans (e2.trans (e3.trans ?_))
    exact loopOut_congr js cap (by omega) (by omega) rfl
      (by simp only [List.append_assoc, List.cons_append, Nat.cast_add, Nat.cast_one,
        Int.add_assoc, Int.add_comm 1]) (by push_cast; omega)
end

/-! ### The two passes on a valid text -/

theorem loopOut_end (js : List Nat) (cap : Nat) (parser : JsmnParser) (tokens : TokBuf)
    (count : Int) (h : parser.pos = js.length) :
    loopOut js cap parser tokens count = some (jsmn_parse_end parser tokens count) := by
  unfold loopOut
  rw [h, show js.length + 1 - js.length = 0 + 1 by omega]
  exact jsmn_parse_loop_end (Or.inl (by omega))

theorem findDown_closed (toks : List jsmntok_t) (h : ∀ u ∈ toks, isOpen u = false) :
    findDown isOpen toks toks.length = none := by
  rw [findDown_skip toks.length 0 (Nat.zero_le _) (fun j _ hj =>
    ⟨toks[j], List.getElem?_eq_getElem hj, h _ (List.getElem_mem hj)⟩)]
  rfl

theorem afterSuper_top (v : JValue) : afterSuper v [] (-1) = -1 := by
  cases v <;> rfl

theorem delim_top (js ws2 : List Nat) (q : Nat) (hw : ws2.all isWs = true)
    (h : ws2 <+: js.drop q) (hl : js.length = q + ws2.length) : Delim js q :=
  @delim_after js q ws2 [] hw (by simpa using h) (fun _ => Or.inl (by omega))
    (fun _ _ e => by cases e)

theorem text_parts (ws1 body ws2 : List Nat) :
    ws1 <+: (ws1 ++ body ++ ws2).drop 0 ∧ body <+: (ws1 ++ body ++ ws2).drop (0 + ws1.length) ∧
      ws2 <+: (ws1 ++ body ++ ws2).drop (0 + ws1.length + body.length) := by
  have h : ws1 ++ (body ++ ws2) <+: (ws1 ++ body ++ ws2).drop 0 := by
    rw [List.drop_zero, List.append_assoc]
  obtain ⟨h1, h2⟩ := prefix_drop_append h
  obtain ⟨h3, h4⟩ := prefix_drop_append h2
  exact ⟨h1, h3, h4⟩

/-- The counting pass on a valid text returns the number of tokens of its value. -/
theorem jsmn_parse_count_pass (ws1 : List Nat) (v : JValue) (ws2 : List Nat) (c : Nat)
    (h1 : ws1.all isWs = true) (hv : v.wf = true) (h2 : ws2.all isWs = true) :
    jsmn_parse jsmn_init (ws1 ++ v.render ++ ws2) (ws1 ++ v.render ++ ws2).length none c =
      some { r := v.count,
             parser := { pos := (ws1 ++ v.render ++ ws2).length, toknext := 0, toksuper := -1 },
             tokens := none } := by
  obtain ⟨p1, p2, p3⟩ := text_parts ws1 v.render ws2
  have hl : (ws1 ++ v.render ++ ws2).length = 0 + ws1.length + v.render.length + ws2.length := by
    simp only [List.length_append]
    omega
  rw [jsmn_parse_init]
  show loopOut _ c { pos := 0, toknext := 0, toksuper := -1 } none 0 = _
  rw [count_ws _ c ws1 0 0 h1 p1,
    count_value _ c v _ _ hv p2 (delim_top _ ws2 _ h2 p3 hl),
    count_ws _ c ws2 _ _ h2 p3, loopOut_end _ _ _ _ _ hl.symm]
  simp only [jsmn_parse_end, zero_add, hl]

/-- The filling pass on a valid text, with room for the tokens of its value, returns
their number and leaves the tokens that the specification describes. -/
theorem jsmn_parse_fill_pass (ws1 : List Nat) (v : JValue) (ws2 : List Nat) (c : Nat)
    (h1 : ws1.all isWs = true) (hv : v.wf = true) (h2 : ws2.all isWs = true)
    (hc : v.count ≤ c) :
    jsmn_parse jsmn_init (ws1 ++ v.render ++ ws2) (ws1 ++ v.render ++ ws2).length (some []) c =
      some { r := v.count,
             parser := { pos := (ws1 ++ v.render ++ ws2).length, toknext := v.count,
                         toksuper := -1 },
             tokens := some (v.tokens ws1.length) } := by
  obtain ⟨p1, p2, p3⟩ := text_parts ws1 v.render ws2
  have hl : (ws1 ++ v.render ++ ws2).length = 0 + ws1.length + v.render.length + ws2.length := by
    simp only [List.length_append]
    omega
  have hvl := value_tokens_length v (0 + ws1.length)
  rw [jsmn_parse_init]
  show loopOut _ c { pos := 0, toknext := 0, toksuper := -1 } (some []) 0 = _
  rw [fill_ws _ c 0 (-1) [] ⟨rfl, Nat.zero_le _, Or.inl rfl⟩ ws1 0 0 h1 p1,
    fill_value _ c v _ 0 (-1) [] 0 hv p2 (delim_top _ ws2 _ h2 p3 hl) rfl (Or.inl rfl) (by omega),
    afterSuper_top, bump_neg_one,
    fill_ws _ c (0 + v.count) (-1) _
      ⟨by rw [List.nil_append, hvl, Nat.zero_add], by simp only; omega, Or.inl rfl⟩ ws2 _ _ h2 p3,
    loopOut_end _ _ _ _ _ hl.symm]
  have hf : findDown isOpen (v.tokens ws1.length) v.count = none := by
    have := findDown_closed (v.tokens ws1.length) (value_tokens_closed v _)
    rwa [value_tokens_length] at this
  simp only [jsmn_parse_end, zero_add, hl, List.nil_append, hf]

theorem objectSizeSum_append (a b : List jsmntok_t) :
    objectSizeSum (a ++ b) = objectSizeSum a + objectSizeSum b := by
  simp [objectSizeSum]

mutual
theorem value_objectSizeSum : ∀ (v : JValue) (p : Nat),
    objectSizeSum (v.tokens p) = v.pairs
  | JValue.prim _, _ => by simp [JValue.tokens, JValue.pairs, objectSizeSum]
  | JValue.str _, _ => by simp [JValue.tokens, JValue.pairs, objectSizeSum]
  | JValue.arr ws es, p => by
    have := elems_objectSizeSum es (p + 1 + ws.length)
    simp only [JValue.tokens, JValue.pairs]
    rw [← this]
    simp [objectSizeSum]
  | JValue.obj ws ms, p => by
    have := members_objectSizeSum ms (p + 1 + ws.length)
    simp only [JValue.tokens, JValue.pairs]
    push_cast
    rw [← this]
    simp [objectSizeSum]
theorem elems_objectSizeSum : ∀ (es : JElems) (p : Nat),
    objectSizeSum (es.tokens p) = es.pairs
  | JElems.nil, _ => by simp [JElems.tokens, JElems.pairs, objectSizeSum]
  | JElems.cons _ v _ rest, p => by
    simp only [JElems.tokens, JElems.pairs, objectSizeSum_append, Nat.cast_add,
      value_objectSizeSum v, elems_objectSizeSum rest]
theorem members_objectSizeSum : ∀ (ms : JMembers) (p : Nat),
    objectSizeSum (ms.tokens p) = ms.pairs
  | JMembers.nil, _ => by simp [JMembers.tokens, JMembers.pairs, objectSizeSum]
  | JMembers.cons _ _ _ _ v _ rest, p => by
    have e : ∀ (t : jsmntok_t) (l : List jsmntok_t), t.type = JSMN_STRING →
        objectSizeSum (t :: l) = objectSizeSum l := by
      intro t l ht
      simp [objectSizeSum, ht]
    simp only [JMembers.tokens, JMembers.pairs, Nat.cast_add]
    rw [e _ _ rfl, objectSizeSum_append, value_objectSizeSum v,
      members_objectSizeSum rest]
end

/-! ### The walker on the tokens of a valid text -/

/-! ### Comparison of a key with a literal -/

/-- The comparison of `strncmp_impl` over the length of a literal without quote and NUL
byte, on a text that a quote ends: it returns a value, which is 0 exactly when
the literal is a prefix of the text. -/
theorem strncmp_impl_quote : ∀ (lit content rest : List Nat),
    (∀ b ∈ lit, b ≠ 34 ∧ b ≠ 0) →
    ∃ c, strncmp_impl (content ++ 34 :: rest) lit lit.length = some c ∧
      (c = 0 ↔ lit <+: content)
  | [], content, rest, _ => ⟨0, by simp [strncmp_impl], by simp⟩
  | l :: lit, [], rest, h => by
    have hl := (h l (List.mem_cons_self _ _)).1
    refine ⟨(34 : Int) - (l : Int), ?_, ?_⟩
    · simp only [List.nil_append, List.length_cons, strncmp_impl, List.headD_cons, ne_eq]
      rw [if_pos (fun e => hl e.symm)]
      rfl
    · simp only [List.prefix_nil, reduceCtorEq, iff_false]
      omega
  | l :: lit, a :: content, rest, h => by
    have hl := h l (List.mem_cons_self _ _)
    obtain ⟨c, hc, hiff⟩ := strncmp_impl_quote lit content rest
      (fun x hx => h x (List.mem_cons_of_mem _ hx))
    by_cases hal : a = l
    · subst hal
      refine ⟨c, ?_, ?_⟩
      · simp only [List.cons_append, List.length_cons, strncmp_impl, List.headD_cons,
          List.tail_cons, ne_eq, not_true_eq_false, if_false, if_neg hl.2]
        exact hc
      · rw [hiff, List.cons_prefix_cons]
        simp
    · refine ⟨(a : Int) - (l : Int), ?_, ?_⟩
      · simp only [List.cons_append, List.length_cons, strncmp_impl, List.headD_cons, ne_eq]
        rw [if_pos hal]
      · rw [List.cons_prefix_cons]
        constructor
        · intro e; omega
        · intro e; exact absurd e.1.symm hal

/-- The text from the start of a token is the content of the token followed by the
byte at its end. -/
theorem drop_content (data : List Nat) (s e : Nat) (c : Nat) (hse : s ≤ e)
    (hq : data[e]? = some c) :
    data.drop s = (data.drop s).take (e - s) ++ c :: data.drop (e + 1) := by
  have he : e < data.length := (List.getElem?_eq_some_iff.mp hq).1
  have h1 : data.drop s = (data.drop s).take (e - s) ++ (data.drop s).drop (e - s) :=
    (List.take_append_drop _ _).symm
  have h2 : (data.drop s).drop (e - s) = data.drop e := by
    rw [List.drop_drop]
    congr 1
    omega
  have h3 : data.drop e = c :: data.drop (e + 1) := by
    rw [List.drop_eq_getElem_cons he]
    congr 1
    have := List.getElem?_eq_getElem he
    rw [hq] at this
    exact (Option.some.inj this).symm
  rw [h2, h3] at h1
  exact h1

/-- The function `json_strncmp` on a string token whose end is a quote, for a literal
without quote and NUL byte. -/
theorem json_strncmp_quote {data : List Nat} {tokens : List jsmntok_t} {i : Nat} {tok : jsmntok_t}
    (lit : String) (ht : tokens[i]? = some tok) (hty : tok.type = JSMN_STRING)
    (hs : 0 ≤ tok.start) (hse : tok.start ≤ tok.end_)
    (hq : data[tok.end_.toNat]? = some 34) (hlit : ∀ b ∈ cstr lit, b ≠ 34 ∧ b ≠ 0) :
    ∃ c, json_strncmp data tokens i lit = R.ok c [] ∧
      (c = 0 ↔ cstr lit <+: (data.drop tok.start.toNat).take (tok.end_ - tok.start).toNat) := by
  have hlt : i < tokens.length := (List.getElem?_eq_some_iff.mp ht).1
  have he : tok.end_.toNat < data.length := (List.getElem?_eq_some_iff.mp hq).1
  have hd := drop_content data tok.start.toNat tok.end_.toNat 34 (by omega) hq
  have hsub : tok.end_.toNat - tok.start.toNat = (tok.end_ - tok.start).toNat := by omega
  rw [hsub] at hd
  obtain ⟨c, hc, hiff⟩ := strncmp_impl_quote (cstr lit)
    ((data.drop tok.start.toNat).take (tok.end_ - tok.start).toNat)
    (data.drop (tok.end_.toNat + 1)) hlit
  rw [← hd] at hc
  refine ⟨c, ?_, hiff⟩
  unfold json_strncmp tokType tokGet dataFrom R.ofOption
  simp only [hlt, ↓reduceIte, ht, hty, R.bind_def, R.pure_def, R.bind, ne_eq, not_true_eq_false,
    hs, show tok.start.toNat ≤ data.length by omega, and_self, List.append_nil, hc]

/-- The function `json_strncmp` on a token that is not a string. -/
theorem json_strncmp_not_string {data : List Nat} {tokens : List jsmntok_t} {i : Nat}
    {tok : jsmntok_t} (lit : String) (ht : tokens[i]? = some tok) (hty : tok.type ≠ JSMN_STRING) :
    json_strncmp data tokens i lit = R.ok (-1) [] := by
  have hlt : i < tokens.length := (List.getElem?_eq_some_iff.mp ht).1
  unfold json_strncmp tokType
  simp only [hlt, ↓reduceIte, ht, R.bind_def, R.pure_def, R.bind, ne_eq, hty, not_false_eq_true,
    List.append_nil]

/-! ### The deferred index -/

theorem PTR_TO_INDEX_stored (idx : Int) :
    PTR_TO_INDEX idx =
      if storedInteger idx = 0 then Ptr.null else Ptr.index (storedInteger idx - 1) := rfl

theorem storedInteger_int (v : Int) (h0 : -2147483648 ≤ v) (h1 : v < 2147483648) :
    (storedInteger v : Int) = if v = -1 then 0 else if 0 ≤ v then v + 1
      else 18446744073709551616 + v + 1 := by
  unfold storedInteger
  by_cases hv : 0 ≤ v
  · have e1 : v % 18446744073709551616 = v := Int.emod_eq_of_lt hv (by omega)
    rw [e1, if_neg (by omega), if_pos hv]
    have e2 : (v.toNat + 1) % 18446744073709551616 = v.toNat + 1 := Nat.mod_eq_of_lt (by omega)
    rw [e2]
    omega
  · have e1 : v % 18446744073709551616 = v + 18446744073709551616 := by
      rw [← Int.add_mul_emod_self (a := v) (b := 1) (c := 18446744073709551616)]
      exact Int.emod_eq_of_lt (by omega) (by omega)
    rw [e1]
    by_cases hm : v = -1
    · subst hm
      rfl
    · rw [if_neg hm, if_neg hv]
      have e2 : ((v + 18446744073709551616).toNat + 1) % 18446744073709551616 =
          (v + 18446744073709551616).toNat + 1 := Nat.mod_eq_of_lt (by omega)
      rw [e2]
      omega

/-! ### Segments of a token buffer -/

theorem seg_drop_cons {α : Type} {l : List α} {i : Nat} {t : α} {seg : List α}
    (h : t :: seg <+: l.drop i) : l[i]? = some t ∧ seg <+: l.drop (i + 1) := by
  obtain ⟨r, hr⟩ := h
  have h1 : l[i]? = some t := by
    have := congrArg (fun x => x[0]?) hr
    simp only [List.cons_append, List.getElem?_cons_zero, List.getElem?_drop, Nat.add_zero] at this
    exact this.symm
  refine ⟨h1, ⟨r, ?_⟩⟩
  have := congrArg List.tail hr
  simp only [List.cons_append, List.tail_cons, List.tail_drop] at this
  exact this

theorem seg_drop_append {α : Type} {l : List α} {i : Nat} {a b : List α}
    (h : a ++ b <+: l.drop i) : a <+: l.drop i ∧ b <+: l.drop (i + a.length) := by
  obtain ⟨r, hr⟩ := h
  refine ⟨⟨b ++ r, by rw [← List.append_assoc]; exact hr⟩, ⟨r, ?_⟩⟩
  have := congrArg (List.drop a.length) hr
  rw [List.append_assoc, List.drop_left, List.drop_drop] at this
  exact this

theorem seg_drop_length {α : Type} {l : List α} {i : Nat} {a : List α}
    (h : a <+: l.drop i) (ha : a ≠ []) : i + a.length ≤ l.length := by
  have := h.length_le
  rw [List.length_drop] at this
  cases a with
  | nil => exact absurd rfl ha
  | cons c a =>
    simp only [List.length_cons] at this ⊢
    omega

/-! ### The function `json_parse_skip` on the tokens of a value -/

theorem tokType_some {tokens : List jsmntok_t} {i : Nat} {t : jsmntok_t}
    (ht : tokens[i]? = some t) : tokType tokens i = R.ok t.type [] := by
  have hlt : i < tokens.length := (List.getElem?_eq_some_iff.mp ht).1
  unfold tokType
  simp only [hlt, ↓reduceIte, ht]

theorem tokGet_some {tokens : List jsmntok_t} {i : Nat} {t : jsmntok_t}
    (ht : tokens[i]? = some t) : tokGet tokens i = R.ok t [] := by
  unfold tokGet R.ofOption
  simp only [ht]

/-- One iteration of the loop of `json_parse_skip` on a string or a primitive. -/
theorem json_parse_skip_loop_leaf {tokens : List jsmntok_t} {i : Nat} {t : jsmntok_t}
    (fuel : Nat) (e : Int) (ht : tokens[i]? = some t)
    (hty : t.type = JSMN_PRIMITIVE ∨ t.type = JSMN_STRING) (hie : (i : Int) < e) :
    json_parse_skip_loop tokens (fuel + 1) i e = json_parse_skip_loop tokens fuel (i + 1) e := by
  conv_lhs => unfold json_parse_skip_loop
  rw [if_pos hie, tokType_some ht]
  rcases hty with h | h <;> rw [h] <;> simp only [R.bind_def, R.bind] <;>
    cases json_parse_skip_loop tokens fuel (i + 1) e <;> simp

/-- One iteration of the loop of `json_parse_skip` on an array. -/
theorem json_parse_skip_loop_array {tokens : List jsmntok_t} {i : Nat} {t : jsmntok_t}
    (fuel : Nat) (e : Int) (ht : tokens[i]? = some t) (hty : t.type = JSMN_ARRAY)
    (hie : (i : Int) < e) :
    json_parse_skip_loop tokens (fuel + 1) i e =
      json_parse_skip_loop tokens fuel (i + 1) (e + t.size) := by
  conv_lhs => unfold json_parse_skip_loop
  rw [if_pos hie, tokType_some ht, hty]
  simp only [R.bind_def, R.bind, tokGet_some ht]
  cases json_parse_skip_loop tokens fuel (i + 1) (e + t.size) <;> simp

/-- One iteration of the loop of `json_parse_skip` on an object. -/
theorem json_parse_skip_loop_object {tokens : List jsmntok_t} {i : Nat} {t : jsmntok_t}
    (fuel : Nat) (e : Int) (ht : tokens[i]? = some t) (hty : t.type = JSMN_OBJECT)
    (hie : (i : Int) < e) :
    json_parse_skip_loop tokens (fuel + 1) i e =
      json_parse_skip_loop tokens fuel (i + 1) (e + t.size * 2) := by
  conv_lhs => unfold json_parse_skip_loop
  rw [if_pos hie, tokType_some ht, hty]
  simp only [R.bind_def, R.bind, tokGet_some ht]
  cases json_parse_skip_loop tokens fuel (i + 1) (e + t.size * 2) <;> simp

theorem skip_congr (tokens : List jsmntok_t) {f g i j : Nat} {e d : Int} (hf : f = g)
    (hi : i = j) (he : e = d) :
    json_parse_skip_loop tokens f i e = json_parse_skip_loop tokens g j d := by
  subst hf hi he; rfl

mutual
/-- The loop of `json_parse_skip` over the tokens of a value: the cursor moves behind them
and the bound grows by the number of the tokens below the first one. -/
theorem skip_value (tokens : List jsmntok_t) : ∀ (v : JValue) (p i fuel : Nat) (e : Int),
    v.tokens p <+: tokens.drop i → (i : Int) < e →
    json_parse_skip_loop tokens (fuel + v.count) i e =
      json_parse_skip_loop tokens fuel (i + v.count) (e + v.count - 1)
  | JValue.prim text, p, i, fuel, e, h, hie => by
    simp only [JValue.tokens, JValue.count] at h ⊢
    rw [json_parse_skip_loop_leaf fuel e (seg_drop_cons h).1 (Or.inl rfl) hie]
    exact skip_congr tokens rfl rfl (by omega)
  | JValue.str body, p, i, fuel, e, h, hie => by
    simp only [JValue.tokens, JValue.count] at h ⊢
    rw [json_parse_skip_loop_leaf fuel e (seg_drop_cons h).1 (Or.inr rfl) hie]
    exact skip_congr tokens rfl rfl (by omega)
  | JValue.arr ws es, p, i, fuel, e, h, hie => by
    simp only [JValue.tokens, JValue.count] at h ⊢
    obtain ⟨h0, h1⟩ := seg_drop_cons h
    rw [skip_congr tokens (show fuel + (es.count + 1) = (fuel + es.count) + 1 by omega) rfl rfl,
      json_parse_skip_loop_array _ e h0 rfl hie,
      skip_elems tokens es _ (i + 1) fuel _ h1 (by simp only; omega)]
    exact skip_congr tokens rfl (by omega) (by simp only; push_cast; omega)
  | JValue.obj ws ms, p, i, fuel, e, h, hie => by
    simp only [JValue.tokens, JValue.count] at h ⊢
    obtain ⟨h0, h1⟩ := seg_drop_cons h
    rw [skip_congr tokens (show fuel + (ms.count + 1) = (fuel + ms.count) + 1 by omega) rfl rfl,
      json_parse_skip_loop_object _ e h0 rfl hie,
      skip_members tokens ms _ (i + 1) fuel _ h1 (by simp only; omega)]
    exact skip_congr tokens rfl (by omega) (by simp only; push_cast; omega)
/-- The loop of `json_parse_skip` over the tokens of the elements of an array. -/
theorem skip_elems (tokens : List jsmntok_t) : ∀ (es : JElems) (p i fuel : Nat) (e : Int),
    es.tokens p <+: tokens.drop i → (i : Int) + es.length ≤ e →
    json_parse_skip_loop tokens (fuel + es.count) i e =
      json_parse_skip_loop tokens fuel (i + es.count) (e + es.count - es.length)
  | JElems.nil, p, i, fuel, e, _, _ => by
    simp only [JElems.count, JElems.length]
    exact skip_congr tokens rfl rfl (by omega)
  | JElems.cons ws1 v ws2 rest, p, i, fuel, e, h, hie => by
    simp only [JElems.tokens, JElems.count, JElems.length] at h hie ⊢
    obtain ⟨h0, h1⟩ := seg_drop_append h
    rw [value_tokens_length] at h1
    rw [skip_congr tokens (show fuel + (v.count + rest.count) = (fuel + rest.count) + v.count by
        omega) rfl rfl,
      skip_value tokens v _ i _ e h0 (by push_cast at hie; omega),
      skip_elems tokens rest _ _ fuel _ h1 (by push_cast at hie ⊢; omega)]
    exact skip_congr tokens rfl (by omega) (by push_cast; omega)
/-- The loop of `json_parse_skip` over the tokens of the members of an object. -/
theorem skip_members (tokens : List jsmntok_t) : ∀ (ms : JMembers) (p i fuel : Nat) (e : Int),
    ms.tokens p <+: tokens.drop i → (i : Int) + ms.length * 2 ≤ e →
    json_parse_skip_loop tokens (fuel + ms.count) i e =
      json_parse_skip_loop tokens fuel (i + ms.count) (e + ms.count - ms.length * 2)
  | JMembers.nil, p, i, fuel, e, _, _ => by
    simp only [JMembers.count, JMembers.length]
    exact skip_congr tokens rfl rfl (by omega)
  | JMembers.cons ws1 key ws2 ws3 v ws4 rest, p, i, fuel, e, h, hie => by
    simp only [JMembers.tokens, JMembers.count, JMembers.length] at h hie ⊢
    obtain ⟨h0, h1⟩ := seg_drop_cons h
    obtain ⟨h2, h3⟩ := seg_drop_append h1
    rw [value_tokens_length] at h3
    rw [skip_congr tokens (show fuel + (1 + v.count + rest.count) =
        ((fuel + rest.count) + v.count) + 1 by omega) rfl rfl,
      json_parse_skip_loop_leaf _ e h0 (Or.inr rfl) (by push_cast at hie; omega),
      skip_value tokens v _ (i + 1) _ e h2 (by push_cast at hie ⊢; omega),
      skip_members tokens rest _ _ fuel _ h3 (by push_cast at hie ⊢; omega)]
    exact skip_congr tokens rfl (by omega) (by push_cast; omega)
end

/-- The function `json_parse_skip` on the first token of a value whose tokens stand in the
buffer: the index behind them. -/
theorem json_parse_skip_value (tokens : List jsmntok_t) (v : JValue) (p i : Nat)
    (h : v.tokens p <+: tokens.drop i) :
    json_parse_skip tokens i = R.ok (i + v.count) [] := by
  have hl := seg_drop_length h (by
    intro e
    have := value_tokens_length v p
    rw [e] at this
    cases v <;> simp [JValue.count] at this)
  rw [value_tokens_length] at hl
  unfold json_parse_skip
  rw [skip_congr tokens (show tokens.length + 2 - i = (tokens.length + 2 - i - v.count) + v.count
      by omega) rfl rfl,
    skip_value tokens v p i _ _ h (by omega)]
  obtain ⟨m, hm⟩ : ∃ m, tokens.length + 2 - i - v.count = m + 1 :=
    ⟨tokens.length + 1 - i - v.count, by omega⟩
  rw [hm]
  unfold json_parse_skip_loop
  rw [if_neg (by push_cast; omega)]

/-- The function `json_parse_skip` on the token of a key. -/
theorem json_parse_skip_leaf {tokens : List jsmntok_t} {i : Nat} {t : jsmntok_t}
    (ht : tokens[i]? = some t) (hty : t.type = JSMN_PRIMITIVE ∨ t.type = JSMN_STRING) :
    json_parse_skip tokens i = R.ok (i + 1) [] := by
  have hlt : i < tokens.length := (List.getElem?_eq_some_iff.mp ht).1
  unfold json_parse_skip
  obtain ⟨m, hm⟩ : ∃ m, tokens.length + 2 - i = (m + 1) + 1 := ⟨tokens.length - i, by omega⟩
  rw [hm, json_parse_skip_loop_leaf _ _ ht hty (by omega)]
  unfold json_parse_skip_loop
  rw [if_neg (by push_cast; omega)]

/-- The function `json_parse_skip` on a token of type `JSMN_UNDEFINED`. -/
theorem json_parse_skip_undefined (tokens : List jsmntok_t) (i : Nat)
    (h : tokType tokens i = R.ok JSMN_UNDEFINED []) :
    json_parse_skip tokens i = R.err (-1) [] := by
  unfold json_parse_skip
  obtain ⟨m, hm⟩ : ∃ m, tokens.length + 2 - i = m + 1 := by
    refine ⟨tokens.length + 1 - i, ?_⟩
    unfold tokType at h
    split at h
    · omega
    · split at h
      · omega
      · cases h
  rw [hm]
  unfold json_parse_skip_loop
  rw [if_pos (by omega), h]
  rfl

mutual
theorem value_skipEnds_length : ∀ (v : JValue) (k : Nat), (v.skipEnds k).length = v.count
  | JValue.prim _, _ => rfl
  | JValue.str _, _ => rfl
  | JValue.arr _ es, k => by
    simp only [JValue.skipEnds, JValue.count, List.length_cons, elems_skipEnds_length es]
  | JValue.obj _ ms, k => by
    simp only [JValue.skipEnds, JValue.count, List.length_cons, members_skipEnds_length ms]
theorem elems_skipEnds_length : ∀ (es : JElems) (k : Nat), (es.skipEnds k).length = es.count
  | JElems.nil, _ => rfl
  | JElems.cons _ v _ rest, k => by
    simp only [JElems.skipEnds, JElems.count, List.length_append, value_skipEnds_length v,
      elems_skipEnds_length rest]
theorem members_skipEnds_length : ∀ (ms : JMembers) (k : Nat), (ms.skipEnds k).length = ms.count
  | JMembers.nil, _ => rfl
  | JMembers.cons _ _ _ _ v _ rest, k => by
    simp only [JMembers.skipEnds, JMembers.count, List.length_cons, List.length_append,
      value_skipEnds_length v, members_skipEnds_length rest]
    omega
end

mutual
/-- The function `json_parse_skip` on every token of a value. -/
theorem skip_at_value (tokens : List jsmntok_t) : ∀ (v : JValue) (p k j e : Nat),
    v.tokens p <+: tokens.drop k → (v.skipEnds k)[j]? = some e →
    json_parse_skip tokens (k + j) = R.ok e []
  | JValue.prim text, p, k, j, e, h, hj => by
    cases j with
    | zero =>
      simp only [JValue.skipEnds, List.getElem?_cons_zero, Option.some.injEq] at hj
      rw [← hj]
      exact json_parse_skip_value tokens (JValue.prim text) p k h
    | succ j => simp [JValue.skipEnds] at hj
  | JValue.str body, p, k, j, e, h, hj => by
    cases j with
    | zero =>
      simp only [JValue.skipEnds, List.getElem?_cons_zero, Option.some.injEq] at hj
      rw [← hj]
      exact json_parse_skip_value tokens (JValue.str body) p k h
    | succ j => simp [JValue.skipEnds] at hj
  | JValue.arr ws es, p, k, j, e, h, hj => by
    cases j with
    | zero =>
      simp only [JValue.skipEnds, List.getElem?_cons_zero, Option.some.injEq] at hj
      rw [← hj]
      exact json_parse_skip_value tokens (JValue.arr ws es) p k h
    | succ j =>
      simp only [JValue.skipEnds, List.getElem?_cons_succ] at hj
      simp only [JValue.tokens] at h
      have := skip_at_elems tokens es _ (k + 1) j e (seg_drop_cons h).2 hj
      rw [show k + (j + 1) = k + 1 + j by omega]
      exact this
  | JValue.obj ws ms, p, k, j, e, h, hj => by
    cases j with
    | zero =>
      simp only [JValue.skipEnds, List.getElem?_cons_zero, Option.some.injEq] at hj
      rw [← hj]
      exact json_parse_skip_value tokens (JValue.obj ws ms) p k h
    | succ j =>
      simp only [JValue.skipEnds, List.getElem?_cons_succ] at hj
      simp only [JValue.tokens] at h
      have := skip_at_members tokens ms _ (k + 1) j e (seg_drop_cons h).2 hj
      rw [show k + (j + 1) = k + 1 + j by omega]
      exact this
/-- The function `json_parse_skip` on every token of the elements of an array. -/
theorem skip_at_elems (tokens : List jsmntok_t) : ∀ (es : JElems) (p k j e : Nat),
    es.tokens p <+: tokens.drop k → (es.skipEnds k)[j]? = some e →
    json_parse_skip tokens (k + j) = R.ok e []
  | JElems.nil, p, k, j, e, _, hj => by simp [JElems.skipEnds] at hj
  | JElems.cons ws1 v ws2 rest, p, k, j, e, h, hj => by
    simp only [JElems.tokens] at h
    simp only [JElems.skipEnds] at hj
    obtain ⟨h0, h1⟩ := seg_drop_append h
    rw [value_tokens_length] at h1
    by_cases hlt : j < v.count
    · rw [List.getElem?_append_left (by rw [value_skipEnds_length]; exact hlt)] at hj
      exact skip_at_value tokens v _ k j e h0 hj
    · rw [List.getElem?_append_right (by rw [value_skipEnds_length]; omega),
        value_skipEnds_length] at hj
      have := skip_at_elems tokens rest _ (k + v.count) (j - v.count) e h1 hj
      rw [show k + v.count + (j - v.count) = k + j by omega] at this
      exact this
/-- The function `json_parse_skip` on every token of the members of an object. -/
theorem skip_at_members (tokens : List jsmntok_t) : ∀ (ms : JMembers) (p k j e : Nat),
    ms.tokens p <+: tokens.drop k → (ms.skipEnds k)[j]? = some e →
    json_parse_skip tokens (k + j) = R.ok e []
  | JMembers.nil, p, k, j, e, _, hj => by simp [JMembers.skipEnds] at hj
  | JMembers.cons ws1 key ws2 ws3 v ws4 rest, p, k, j, e, h, hj => by
    simp only [JMembers.tokens] at h
    simp only [JMembers.skipEnds] at hj
    obtain ⟨h0, h1⟩ := seg_drop_cons h
    obtain ⟨h2, h3⟩ := seg_drop_append h1
    rw [value_tokens_length] at h3
    cases j with
    | zero =>
      simp only [List.getElem?_cons_zero, Option.some.injEq] at hj
      rw [← hj]
      exact json_parse_skip_leaf h0 (Or.inr rfl)
    | succ j =>
      simp only [List.getElem?_cons_succ] at hj
      by_cases hlt : j < v.count
      · rw [List.getElem?_append_left (by rw [value_skipEnds_length]; exact hlt)] at hj
        have := skip_at_value tokens v _ (k + 1) j e h2 hj
        rw [show k + (j + 1) = k + 1 + j by omega]
        exact this
      · rw [List.getElem?_append_right (by rw [value_skipEnds_length]; omega),
          value_skipEnds_length] at hj
        have := skip_at_members tokens rest _ (k + 1 + v.count) (j - v.count) e h3 hj
        rw [show k + 1 + v.count + (j - v.count) = k + (j + 1) by omega] at this
        exact this
end

/-! ### Copies of the text of a token -/

theorem strncpy_impl_text : ∀ (t s : List Nat), t <+: s → (∀ b ∈ t, b ≠ 0) →
    strncpy_impl s t.length = some t
  | [], s, _, _ => by simp [strncpy_impl]
  | c :: t, [], h, _ => by simp at h
  | c :: t, a :: s, h, h0 => by
    rw [List.cons_prefix_cons] at h
    obtain ⟨rfl, h1⟩ := h
    have hc : c ≠ 0 := h0 c (List.mem_cons_self _ _)
    simp only [List.length_cons, strncpy_impl, if_neg hc,
      strncpy_impl_text t s h1 (fun b hb => h0 b (List.mem_cons_of_mem _ hb)), Option.map_some']

theorem cstring_text (t : List Nat) (h0 : ∀ b ∈ t, b ≠ 0) : cstring t = t := by
  unfold cstring
  rw [List.takeWhile_eq_self_iff]
  intro b hb
  simpa using h0 b hb

/-- The function `rawCopy` on a token whose bounds delimit a text without NUL byte. -/
theorem rawCopy_text {data : List Nat} {tokens : List jsmntok_t} {i : Nat} {t : jsmntok_t}
    (text : List Nat) (s : Nat) (ht : tokens[i]? = some t) (hs : t.start = (s : Int))
    (he : t.end_ = ((s + text.length : Nat) : Int)) (hle : s ≤ data.length)
    (htxt : text <+: data.drop s) (hnz : ∀ b ∈ text, b ≠ 0) :
    rawCopy data tokens i = R.ok (some text) [] := by
  have hsize : t.end_ - (s : Int) = (text.length : Int) := by rw [he]; push_cast; omega
  unfold rawCopy tokGet dataFrom R.ofOption
  simp only [ht, R.bind_def, R.pure_def, R.bind, hs, hsize, Int.toNat_ofNat, hle,
    Int.natCast_nonneg, and_self, ↓reduceIte, List.append_nil,
    show ¬ ((text.length : Int) < 0) by omega, strncpy_impl_text text _ htxt hnz,
    cstring_text text hnz]

theorem isWs_nonzero {ws : List Nat} (h : ws.all isWs = true) : ∀ b ∈ ws, b ≠ 0 := by
  intro b hb
  have := isWs_cases (List.all_eq_true.mp h b hb)
  omega

theorem isHex_nonzero {c : Nat} (h : isHex c = true) : c ≠ 0 := by
  intro e
  subst e
  revert h
  decide

theorem isStringBody_nonzero : ∀ (n : Nat) (body : List Nat), body.length ≤ n →
    isStringBody body = true → ∀ b ∈ body, b ≠ 0
  | _, [], _, _ => by simp
  | 0, c :: rest, hn, _ => by simp at hn
  | n + 1, c :: rest, hn, h => by
    simp only [List.length_cons] at hn
    rcases isStringBody_cases h with ⟨_, h32, _, hr⟩ | ⟨rfl, e, r, rfl, he, hr⟩ |
      ⟨rfl, a, b, c1, d, r, rfl, ha, hb, hc, hd, hr⟩
    · intro x hx
      rcases List.mem_cons.mp hx with rfl | hx
      · omega
      · exact isStringBody_nonzero n rest (by omega) hr x hx
    · intro x hx
      simp only [List.mem_cons] at hx
      rcases hx with rfl | rfl | hx
      · omega
      · omega
      · exact isStringBody_nonzero n r (by simp only [List.length_cons] at hn; omega) hr x hx
    · intro x hx
      simp only [List.mem_cons] at hx
      rcases hx with rfl | rfl | rfl | rfl | rfl | rfl | hx
      · omega
      · omega
      · exact isHex_nonzero ha
      · exact isHex_nonzero hb
      · exact isHex_nonzero hc
      · exact isHex_nonzero hd
      · exact isStringBody_nonzero n r (by simp only [List.length_cons] at hn; omega) hr x hx

theorem isPrimitiveText_nonzero {t : List Nat} (h : isPrimitiveText t = true) :
    ∀ b ∈ t, b ≠ 0 := by
  intro b hb
  have := (isPrimitiveText_ok h).1 b hb
  simp only [isPrimByte, Bool.and_eq_true, decide_eq_true_eq] at this
  omega

theorem sep_nonzero {sep : List Nat} (h : sep = [] ∨ sep = [44]) : ∀ b ∈ sep, b ≠ 0 := by
  rcases h with rfl | rfl <;> simp

mutual
theorem value_render_nonzero : ∀ (v : JValue), v.wf = true → ∀ b ∈ v.render, b ≠ 0
  | JValue.prim text, h => by
    simp only [JValue.wf] at h
    simp only [JValue.render]
    exact isPrimitiveText_nonzero h
  | JValue.str body, h => by
    simp only [JValue.wf] at h
    simp only [JValue.render, List.cons_append, List.mem_cons, List.mem_append,
      List.mem_singleton, List.not_mem_nil, or_false]
    intro b hb
    rcases hb with rfl | hb | rfl
    · omega
    · exact isStringBody_nonzero _ body (Nat.le_refl _) h b hb
    · omega
  | JValue.arr ws es, h => by
    simp only [JValue.wf, Bool.and_eq_true] at h
    simp only [JValue.render, List.cons_append, List.mem_cons, List.mem_append,
      List.mem_singleton, List.not_mem_nil, or_false]
    intro b hb
    rcases hb with rfl | (hb | hb) | rfl
    · omega
    · exact isWs_nonzero h.1 b hb
    · exact elems_render_nonzero es h.2 b hb
    · omega
  | JValue.obj ws ms, h => by
    simp only [JValue.wf, Bool.and_eq_true] at h
    simp only [JValue.render, List.cons_append, List.mem_cons, List.mem_append,
      List.mem_singleton, List.not_mem_nil, or_false]
    intro b hb
    rcases hb with rfl | (hb | hb) | rfl
    · omega
    · exact isWs_nonzero h.1 b hb
    · exact members_render_nonzero ms h.2 b hb
    · omega
theorem elems_render_nonzero : ∀ (es : JElems), es.wf = true → ∀ b ∈ es.render, b ≠ 0
  | JElems.nil, _ => by simp [JElems.render]
  | JElems.cons ws1 v ws2 rest, h => by
    simp only [JElems.wf, Bool.and_eq_true] at h
    obtain ⟨⟨⟨w1, w2⟩, w3⟩, w4⟩ := h
    simp only [JElems.render, List.mem_append]
    intro b hb
    rcases hb with (((hb | hb) | hb) | hb) | hb
    · exact isWs_nonzero w1 b hb
    · exact value_render_nonzero v w2 b hb
    · exact isWs_nonzero w3 b hb
    · exact sep_nonzero ((elems_sep_cases rest).imp (fun e => e.1) id) b hb
    · exact elems_render_nonzero rest w4 b hb
theorem members_render_nonzero : ∀ (ms : JMembers), ms.wf = true → ∀ b ∈ ms.render, b ≠ 0
  | JMembers.nil, _ => by simp [JMembers.render]
  | JMembers.cons ws1 key ws2 ws3 v ws4 rest, h => by
    simp only [JMembers.wf, Bool.and_eq_true] at h
    obtain ⟨⟨⟨⟨⟨⟨w1, wk⟩, w2⟩, w3⟩, wv⟩, w4⟩, wr⟩ := h
    simp only [JMembers.render, List.mem_append, List.cons_append, List.mem_cons,
      List.mem_singleton, List.not_mem_nil, or_false]
    intro b hb
    rcases hb with (((((((hb | (rfl | hb | rfl)) | hb) | rfl) | hb) | hb) | hb) | hb) | hb
    · exact isWs_nonzero w1 b hb
    · omega
    · exact isStringBody_nonzero _ key (Nat.le_refl _) wk b hb
    · omega
    · exact isWs_nonzero w2 b hb
    · omega
    · exact isWs_nonzero w3 b hb
    · exact value_render_nonzero v wv b hb
    · exact isWs_nonzero w4 b hb
    · exact sep_nonzero ((members_sep_cases rest).imp (fun e => e.1) id) b hb
    · exact members_render_nonzero rest wr b hb
end

theorem value_tokens_ne_nil (v : JValue) (p : Nat) : v.tokens p ≠ [] := by
  cases v <;> simp [JValue.tokens]

theorem value_render_ne_nil (v : JValue) (h : v.wf = true) : v.render ≠ [] := by
  cases v with
  | prim text =>
    simp only [JValue.wf] at h
    obtain ⟨-, c, r, e, -⟩ := isPrimitiveText_ok h
    simp [JValue.render, e]
  | str _ => simp [JValue.render]
  | arr _ _ => simp [JValue.render]
  | obj _ _ => simp [JValue.render]

/-- The copy of the text of the first token of a value. -/
theorem rawCopy_value {data : List Nat} {tokens : List jsmntok_t} (v : JValue) (q i : Nat)
    (hv : v.wf = true) (htxt : v.render <+: data.drop q) (htok : v.tokens q <+: tokens.drop i) :
    rawCopy data tokens i = R.ok (some v.rawSlice) [] := by
  have hlen := prefix_drop_length htxt (value_render_ne_nil v hv)
  have hnz := value_render_nonzero v hv
  cases v with
  | prim text =>
    simp only [JValue.tokens] at htok
    simp only [JValue.render] at htxt hlen hnz
    exact rawCopy_text text q (seg_drop_cons htok).1 rfl rfl (by omega) htxt hnz
  | str body =>
    simp only [JValue.tokens] at htok
    simp only [JValue.render, List.cons_append, List.length_cons, List.length_append,
      List.length_nil] at htxt hlen hnz
    have h1 := (prefix_drop_cons htxt).2
    exact rawCopy_text body (q + 1) (seg_drop_cons htok).1 rfl rfl (by omega)
      (prefix_drop_append h1).1
      (fun b hb => hnz b (List.mem_cons_of_mem _ (List.mem_append_left _ hb)))
  | arr ws es =>
    simp only [JValue.tokens] at htok
    refine rawCopy_text (JValue.arr ws es).render q (seg_drop_cons htok).1 rfl ?_ (by omega)
      htxt hnz
    simp only [JValue.render, List.cons_append, List.length_cons, List.length_append,
      List.length_nil]
    congr 1
    omega
  | obj ws ms =>
    simp only [JValue.tokens] at htok
    refine rawCopy_text (JValue.obj ws ms).render q (seg_drop_cons htok).1 rfl ?_ (by omega)
      htxt hnz
    simp only [JValue.render, List.cons_append, List.length_cons, List.length_append,
      List.length_nil]
    congr 1
    omega

/-- The function `internal_parse_extras` on the first token of a value. -/
theorem internal_parse_extras_value {data : List Nat} {tokens : List jsmntok_t} (v : JValue)
    (q i : Nat) (hv : v.wf = true) (htxt : v.render <+: data.drop q)
    (htok : v.tokens q <+: tokens.drop i) :
    internal_parse_extras data tokens i = R.ok (i + v.count, some v.rawSlice) [] := by
  unfold internal_parse_extras
  simp only [R.bind_def, R.pure_def, R.bind, rawCopy_value v q i hv htxt htok,
    json_parse_skip_value tokens v q i htok, List.append_nil]

/-! ### The members of an object in the text and in the buffer -/

/-- The places of the key, of the value and of the members that follow in the text
of the members of an object. -/
theorem members_cons_text {data : List Nat} {p : Nat} {ws1 key ws2 ws3 ws4 : List Nat}
    {v : JValue} {rest : JMembers}
    (h : (JMembers.cons ws1 key ws2 ws3 v ws4 rest).render <+: data.drop p) :
    34 :: key ++ [34] <+: data.drop (p + ws1.length) ∧
    v.render <+: data.drop (p + ws1.length + (key.length + 2) + ws2.length + 1 + ws3.length) ∧
    rest.render <+: data.drop (p + ws1.length + (key.length + 2) + ws2.length + 1 + ws3.length +
      v.render.length + ws4.length + rest.sep.length) := by
  simp only [JMembers.render, List.append_assoc, List.cons_append, List.nil_append] at h
  obtain ⟨-, h2⟩ := prefix_drop_append h
  have hkey : 34 :: key ++ [34] <+: data.drop (p + ws1.length) := by
    obtain ⟨t, ht⟩ := h2
    exact ⟨ws2 ++ 58 :: (ws3 ++ (v.render ++ (ws4 ++ (rest.sep ++ rest.render)))) ++ t, by
      rw [← ht]; simp⟩
  have h2a : (34 :: key ++ [34]) ++ (ws2 ++ 58 :: (ws3 ++ (v.render ++ (ws4 ++
      (rest.sep ++ rest.render))))) <+: data.drop (p + ws1.length) := by
    simpa using h2
  obtain ⟨-, h3a⟩ := prefix_drop_append h2a
  have h3 : ws2 ++ 58 :: (ws3 ++ (v.render ++ (ws4 ++ (rest.sep ++ rest.render)))) <+:
      data.drop (p + ws1.length + (key.length + 2)) := by
    have e : p + ws1.length + (34 :: key ++ [34]).length = p + ws1.length + (key.length + 2) := by
      simp
    rw [← e]
    exact h3a
  obtain ⟨-, h5⟩ := prefix_drop_append h3
  obtain ⟨-, h7⟩ := prefix_drop_cons h5
  obtain ⟨-, h9⟩ := prefix_drop_append h7
  obtain ⟨h10, h11⟩ := prefix_drop_append h9
  obtain ⟨-, h13⟩ := prefix_drop_append h11
  obtain ⟨-, h15⟩ := prefix_drop_append h13
  exact ⟨hkey, h10, h15⟩

/-- The token of the key, the tokens of the value and the tokens of the members that
follow in the buffer. -/
theorem members_cons_tokens {tokens : List jsmntok_t} {p i : Nat}
    {ws1 key ws2 ws3 ws4 : List Nat} {v : JValue} {rest : JMembers}
    (h : (JMembers.cons ws1 key ws2 ws3 v ws4 rest).tokens p <+: tokens.drop i) :
    tokens[i]? = some { type := JSMN_STRING, start := ((p + ws1.length + 1 : Nat) : Int), end_ := ((p + ws1.length + 1 + key.length : Nat) : Int), size := 1 } ∧
    v.tokens (p + ws1.length + (key.length + 2) + ws2.length + 1 + ws3.length) <+:
      tokens.drop (i + 1) ∧
    rest.tokens (p + ws1.length + (key.length + 2) + ws2.length + 1 + ws3.length +
      v.render.length + ws4.length + rest.sep.length) <+: tokens.drop (i + 1 + v.count) := by
  simp only [JMembers.tokens] at h
  obtain ⟨h0, h1⟩ := seg_drop_cons h
  obtain ⟨h2, h3⟩ := seg_drop_append h1
  rw [value_tokens_length] at h3
  exact ⟨h0, h2, h3⟩

/-- The type of the first token of a value that is not an object. -/
theorem value_head_type (v : JValue) (q : Nat) :
    ∃ t rest, v.tokens q = t :: rest ∧ (t.type = JSMN_OBJECT ↔ v.isObject = true) := by
  cases v with
  | prim _ => exact ⟨_, _, rfl, by simp [JValue.isObject]⟩
  | str _ => exact ⟨_, _, rfl, by simp [JValue.isObject]⟩
  | arr _ _ => exact ⟨_, _, rfl, by simp [JValue.isObject]⟩
  | obj _ _ => exact ⟨_, _, rfl, by simp [JValue.isObject]⟩

theorem rawSlice_object (v : JValue) (h : v.isObject = true) : v.rawSlice = v.render := by
  cases v with
  | obj _ _ => rfl
  | prim _ => cases h
  | str _ => cases h
  | arr _ _ => cases h

/-! ### The unprocessed extensions -/

/-- The function `internal_parse_unprocessed_extension` on a member whose value is an object. -/
theorem internal_parse_unprocessed_extension_object (data : List Nat) {tokens : List jsmntok_t}
    {p i : Nat} {ws1 key ws2 ws3 ws4 : List Nat} {v : JValue} {rest : JMembers}
    (out : GLTF_Extension)
    (hwf : (JMembers.cons ws1 key ws2 ws3 v ws4 rest).wf = true) (hv : v.isObject = true)
    (htxt : (JMembers.cons ws1 key ws2 ws3 v ws4 rest).render <+: data.drop p)
    (htok : (JMembers.cons ws1 key ws2 ws3 v ws4 rest).tokens p <+: tokens.drop i) :
    internal_parse_unprocessed_extension data tokens i out =
      R.ok (i + 1 + v.count, { name := some key, data := some v.render }) [] := by
  simp only [JMembers.wf, Bool.and_eq_true] at hwf
  obtain ⟨⟨⟨⟨⟨⟨-, wk⟩, -⟩, -⟩, wv⟩, -⟩, -⟩ := hwf
  obtain ⟨x1, x2, -⟩ := members_cons_text htxt
  obtain ⟨t0, t1, -⟩ := members_cons_tokens htok
  obtain ⟨t, r, et, hty⟩ := value_head_type v
    (p + ws1.length + (key.length + 2) + ws2.length + 1 + ws3.length)
  have ht1 : tokens[i + 1]? = some t := by
    rw [et] at t1
    exact (seg_drop_cons t1).1
  have hlen := prefix_drop_length x1 (by simp)
  simp only [List.length_cons, List.length_append, List.length_nil] at hlen
  have hname : rawCopy data tokens i = R.ok (some key) [] :=
    rawCopy_text key (p + ws1.length + 1) t0 rfl rfl (by omega)
      (prefix_drop_append (prefix_drop_cons x1).2).1
      (isStringBody_nonzero _ key (Nat.le_refl _) wk)
  have hdata := rawCopy_value v _ (i + 1) wv x2 t1
  rw [rawSlice_object v hv] at hdata
  unfold internal_parse_unprocessed_extension
  simp only [R.bind_def, R.pure_def, R.bind, tokType_some t0, tokType_some ht1, hty.mpr hv,
    GLTF_ASSERT, beq_self_eq_true, ↓reduceIte, hname, hdata,
    json_parse_skip_value tokens v _ (i + 1) t1, List.append_nil]

/-- The function `internal_parse_unprocessed_extension` on a member whose value is not an object. -/
theorem internal_parse_unprocessed_extension_other (data : List Nat) {tokens : List jsmntok_t}
    {p i : Nat} {ws1 key ws2 ws3 ws4 : List Nat} {v : JValue} {rest : JMembers}
    (out : GLTF_Extension) (hv : v.isObject = false)
    (htok : (JMembers.cons ws1 key ws2 ws3 v ws4 rest).tokens p <+: tokens.drop i) :
    internal_parse_unprocessed_extension data tokens i out =
      R.err (-1) ["Unprocessed extension token value is not an object"] := by
  obtain ⟨t0, t1, -⟩ := members_cons_tokens htok
  obtain ⟨t, r, et, hty⟩ := value_head_type v
    (p + ws1.length + (key.length + 2) + ws2.length + 1 + ws3.length)
  have ht1 : tokens[i + 1]? = some t := by
    rw [et] at t1
    exact (seg_drop_cons t1).1
  have hne : (t.type == JSMN_OBJECT) = false := by
    rw [beq_eq_false_iff_ne]
    intro e
    rw [hty.mp e] at hv
    cases hv
  unfold internal_parse_unprocessed_extension
  simp only [R.bind_def, R.pure_def, R.bind, tokType_some t0, tokType_some ht1, hne,
    GLTF_ASSERT, beq_self_eq_true, ↓reduceIte, List.append_nil, Bool.false_eq_true,
    List.nil_append]

/-- The loop of `internal_parse_unprocessed_extensions` over members whose values are objects. -/
theorem extensions_loop_objects (data : List Nat) (tokens : List jsmntok_t) :
    ∀ (ms : JMembers) (p i : Nat), ms.wf = true → ms.allObjects = true →
    ms.render <+: data.drop p → ms.tokens p <+: tokens.drop i →
    internal_parse_unprocessed_extensions_loop data tokens ms.length i =
      R.ok (i + ms.count, ms.extensionsOf) []
  | JMembers.nil, p, i, _, _, _, _ => rfl
  | JMembers.cons ws1 key ws2 ws3 v ws4 rest, p, i, hwf, hall, htxt, htok => by
    simp only [JMembers.allObjects, Bool.and_eq_true] at hall
    have hentry := internal_parse_unprocessed_extension_object data {} hwf hall.1 htxt
      htok
    obtain ⟨-, -, x3⟩ := members_cons_text htxt
    obtain ⟨t0, -, t3⟩ := members_cons_tokens htok
    simp only [JMembers.wf, Bool.and_eq_true] at hwf
    have ih := extensions_loop_objects data tokens rest _ (i + 1 + v.count) hwf.2 hall.2 x3 t3
    simp only [JMembers.length, JMembers.count, JMembers.extensionsOf]
    unfold internal_parse_unprocessed_extensions_loop
    simp only [R.bind_def, R.pure_def, R.bind, keyAssert_string t0 rfl, hentry, ih,
      List.append_nil, R.ok.injEq, Prod.mk.injEq, and_true]
    omega

/-- The loop of `internal_parse_unprocessed_extensions` over members of which one has a value that
is not an object. -/
theorem extensions_loop_other (data : List Nat) (tokens : List jsmntok_t) :
    ∀ (ms : JMembers) (p i : Nat), ms.wf = true → ms.allObjects = false →
    ms.render <+: data.drop p → ms.tokens p <+: tokens.drop i →
    ∃ l, internal_parse_unprocessed_extensions_loop data tokens ms.length i = R.err (-1) l
  | JMembers.nil, p, i, _, hall, _, _ => by cases hall
  | JMembers.cons ws1 key ws2 ws3 v ws4 rest, p, i, hwf, hall, htxt, htok => by
    obtain ⟨t0, -, t3⟩ := members_cons_tokens htok
    simp only [JMembers.length]
    unfold internal_parse_unprocessed_extensions_loop
    cases hv : v.isObject with
    | false =>
      have hentry := internal_parse_unprocessed_extension_other data {} hv htok
      simp only [R.bind_def, R.pure_def, R.bind, keyAssert_string t0 rfl, hentry]
      exact ⟨_, rfl⟩
    | true =>
      have hentry := internal_parse_unprocessed_extension_object data {} hwf hv htxt
        htok
      obtain ⟨-, -, x3⟩ := members_cons_text htxt
      simp only [JMembers.allObjects, hv, Bool.true_and] at hall
      simp only [JMembers.wf, Bool.and_eq_true] at hwf
      obtain ⟨l, ih⟩ := extensions_loop_other data tokens rest _ (i + 1 + v.count) hwf.2 hall x3
        t3
      simp only [R.bind_def, R.pure_def, R.bind, keyAssert_string t0 rfl, hentry, ih]
      exact ⟨_, rfl⟩

/-- The head of `internal_parse_unprocessed_extensions` on a key followed by an object. -/
theorem internal_parse_unprocessed_extensions_object {data : List Nat} {tokens : List jsmntok_t}
    (ws : List Nat) (ms : JMembers) (q i : Nat)
    (htok : (JValue.obj ws ms).tokens q <+: tokens.drop (i + 1)) :
    internal_parse_unprocessed_extensions data tokens i =
      internal_parse_unprocessed_extensions_loop data tokens ms.length (i + 1 + 1) := by
  simp only [JValue.tokens] at htok
  have h0 := (seg_drop_cons htok).1
  unfold internal_parse_unprocessed_extensions objectSize
  simp only [R.bind_def, R.pure_def, R.bind, tokType_some h0, tokGet_some h0, GLTF_ASSERT,
    beq_self_eq_true, ↓reduceIte, Int.toNat_ofNat, List.append_nil]
  cases internal_parse_unprocessed_extensions_loop data tokens ms.length (i + 1 + 1) <;> simp

/-! ### The keys of an object parser -/

/-- The test of a key of the text against a literal without quote and NUL byte. -/
theorem keyIs_member {data : List Nat} {tokens : List jsmntok_t} {p i : Nat}
    {ws1 key ws2 ws3 ws4 : List Nat} {v : JValue} {rest : JMembers} (lit : String)
    (hlit : ∀ b ∈ cstr lit, b ≠ 34 ∧ b ≠ 0)
    (htxt : (JMembers.cons ws1 key ws2 ws3 v ws4 rest).render <+: data.drop p)
    (htok : (JMembers.cons ws1 key ws2 ws3 v ws4 rest).tokens p <+: tokens.drop i) :
    keyIs data tokens i lit = R.ok (decide (cstr lit <+: key)) [] := by
  obtain ⟨x1, -, -⟩ := members_cons_text htxt
  obtain ⟨t0, -, -⟩ := members_cons_tokens htok
  obtain ⟨-, x2⟩ := prefix_drop_cons x1
  obtain ⟨x3, x4⟩ := prefix_drop_append x2
  have hq := (prefix_drop_cons x4).1
  obtain ⟨c, hc, hiff⟩ := json_strncmp_quote lit t0 rfl (by simp only; omega)
    (by simp only; omega) (by
      simp only [Int.toNat_ofNat]
      rw [show p + ws1.length + 1 + key.length = p + ws1.length + 1 + key.length from rfl]
      exact hq) hlit
  have hcontent : (data.drop (p + ws1.length + 1)).take key.length = key := by
    obtain ⟨r, hr⟩ := x3
    rw [← hr, List.take_left]
  simp only [Int.toNat_ofNat] at hiff
  rw [show (((p + ws1.length + 1 + key.length : Nat) : Int) - ((p + ws1.length + 1 : Nat) : Int)).toNat
    = key.length by omega, hcontent] at hiff
  unfold keyIs
  simp only [R.bind_def, R.pure_def, R.bind, hc, List.append_nil, R.ok.injEq, and_true]
  by_cases h : cstr lit <+: key
  · rw [decide_eq_true h, hiff.mpr h]
    rfl
  · rw [decide_eq_false h]
    have : c ≠ 0 := fun e => h (hiff.mp e)
    simpa using this

/-! ### The function `json_parse_array_float` -/

theorem mem_of_getElem?_some {α : Type} {l : List α} {i : Nat} {x : α} (h : l[i]? = some x) :
    x ∈ l := by
  obtain ⟨hlt, rfl⟩ := List.getElem?_eq_some_iff.mp h
  exact List.getElem_mem hlt

theorem strncpy_impl_defined : ∀ (s : List Nat) (n : Nat), n ≤ s.length →
    ∃ r, strncpy_impl s n = some r
  | _, 0, _ => ⟨[], by simp [strncpy_impl]⟩
  | [], n + 1, h => by simp at h
  | c :: s, n + 1, h => by
    simp only [List.length_cons] at h
    obtain ⟨r, hr⟩ := strncpy_impl_defined s n (by omega)
    by_cases hc : c = 0
    · exact ⟨List.replicate (n + 1) 0, by simp only [strncpy_impl, if_pos hc]⟩
    · exact ⟨c :: r, by simp only [strncpy_impl, if_neg hc, hr, Option.map_some']⟩

/-- The conversion of a token whose bounds lie in the text is defined. -/
theorem json_to_float_defined {data : List Nat} {tokens : List jsmntok_t} {i : Nat}
    {t : jsmntok_t} (ht : tokens[i]? = some t) (h0 : 0 ≤ t.start) (h1 : t.start ≤ t.end_)
    (h2 : t.end_ ≤ (data.length : Int)) : ∃ f, json_to_float data tokens i = R.ok f [] := by
  have hle : t.start.toNat ≤ data.length := by omega
  obtain ⟨r, hr⟩ := strncpy_impl_defined (data.drop t.start.toNat)
    (if 0 ≤ t.end_ - t.start ∧ t.end_ - t.start < 128 then (t.end_ - t.start).toNat else 127) (by
      rw [List.length_drop]
      split <;> omega)
  unfold json_to_float tokenText dataFrom R.ofOption
  by_cases hty : t.type = JSMN_PRIMITIVE
  · exact ⟨CFloat.atof (cstring r), by
      simp only [R.bind_def, R.pure_def, R.bind, tokType_some ht, tokGet_some ht, h0, hle,
        and_self, ↓reduceIte, hr, List.append_nil, hty, ne_eq, not_true_eq_false]⟩
  · exact ⟨CFloat.minusOne, by
      simp only [R.bind_def, R.pure_def, R.bind, tokType_some ht, ne_eq, hty, not_false_eq_true,
        ↓reduceIte, List.append_nil]⟩

/-- The loop of `json_parse_array_float` over `n` primitives. -/
theorem json_parse_array_float_loop_primitives (data : List Nat) (tokens : List jsmntok_t)
    (hfit : TokensFit data tokens) :
    ∀ (n i j : Nat) (out : List CFloat), j + n ≤ out.length →
    (∀ k, k < n → ∃ u, tokens[i + k]? = some u ∧ u.type = JSMN_PRIMITIVE) →
    ∃ out1, json_parse_array_float_loop data tokens n i j out = R.ok (i + n, out1) [] ∧
      out1.length = out.length ∧
      (∀ k, k < n → ∃ f, json_to_float data tokens (i + k) = R.ok f [] ∧
        out1[j + k]? = some f) ∧
      ∀ m, m < j ∨ j + n ≤ m → out1[m]? = out[m]?
  | 0, i, j, out, _, _ =>
    ⟨out, rfl, rfl, fun k hk => absurd hk (Nat.not_lt_zero _), fun _ _ => rfl⟩
  | n + 1, i, j, out, hj, hall => by
    obtain ⟨u, hu, huty⟩ := hall 0 (Nat.succ_pos _)
    rw [Nat.add_zero] at hu
    have hmem := hfit u (mem_of_getElem?_some hu)
    obtain ⟨f, hf⟩ := json_to_float_defined hu hmem.1 hmem.2.1 hmem.2.2
    obtain ⟨out1, h1, h2, h3, h4⟩ := json_parse_array_float_loop_primitives data tokens hfit n
      (i + 1) (j + 1) (out.set j f) (by rw [List.length_set]; omega) (fun k hk => by
        have := hall (k + 1) (by omega)
        rw [show i + (k + 1) = i + 1 + k by omega] at this
        exact this)
    refine ⟨out1, ?_, by rw [h2, List.length_set], ?_, ?_⟩
    · unfold json_parse_array_float_loop
      simp only [R.bind_def, R.pure_def, R.bind, tokType_some hu, huty, ne_eq,
        not_true_eq_false, ↓reduceIte, hf, show j < out.length by omega, h1, List.append_nil,
        R.ok.injEq, Prod.mk.injEq, and_true]
      omega
    · intro k hk
      cases k with
      | zero =>
        refine ⟨f, hf, ?_⟩
        rw [Nat.add_zero, h4 j (Or.inl (Nat.lt_succ_self _)),
          List.getElem?_set_self (by omega)]
      | succ k =>
        obtain ⟨g, hg1, hg2⟩ := h3 k (by omega)
        refine ⟨g, ?_, ?_⟩
        · rw [show i + (k + 1) = i + 1 + k by omega]
          exact hg1
        · rw [show j + (k + 1) = j + 1 + k by omega]
          exact hg2
    · intro m hm
      rw [h4 m (by omega), List.getElem?_set_ne (by omega)]

/-- The loop of `json_parse_array_float` when one of the `n` tokens is not a primitive. -/
theorem json_parse_array_float_loop_other (data : List Nat) (tokens : List jsmntok_t)
    (hfit : TokensFit data tokens) :
    ∀ (n i j : Nat) (out : List CFloat), j + n ≤ out.length → i ≤ tokens.length →
    ¬ (∀ k, k < n → ∃ u, tokens[i + k]? = some u ∧ u.type = JSMN_PRIMITIVE) →
    json_parse_array_float_loop data tokens n i j out = R.err (-1) []
  | 0, i, j, out, _, _, hnot => absurd (fun k hk => absurd hk (Nat.not_lt_zero _)) hnot
  | n + 1, i, j, out, hj, hi, hnot => by
    unfold json_parse_array_float_loop
    by_cases hlt : i < tokens.length
    · have hu : tokens[i]? = some tokens[i] := List.getElem?_eq_getElem hlt
      by_cases hty : tokens[i].type = JSMN_PRIMITIVE
      · have hmem := hfit _ (mem_of_getElem?_some hu)
        obtain ⟨f, hf⟩ := json_to_float_defined hu hmem.1 hmem.2.1 hmem.2.2
        have ih := json_parse_array_float_loop_other data tokens hfit n (i + 1) (j + 1)
          (out.set j f) (by rw [List.length_set]; omega) (by omega) (fun hall => hnot (by
            intro k hk
            cases k with
            | zero => exact ⟨_, hu, hty⟩
            | succ k =>
              have := hall k (by omega)
              rw [show i + (k + 1) = i + 1 + k by omega]
              exact this))
        simp only [R.bind_def, R.pure_def, R.bind, tokType_some hu, hty, ne_eq,
          not_true_eq_false, ↓reduceIte, hf, show j < out.length by omega, ih, List.append_nil]
      · simp only [R.bind_def, R.pure_def, R.bind, tokType_some hu, ne_eq, hty,
          not_false_eq_true, ↓reduceIte, List.append_nil]
    · have he : i = tokens.length := by omega
      have ht : tokType tokens i = R.ok JSMN_UNDEFINED [] := by
        unfold tokType
        rw [if_neg hlt, if_pos he]
      simp only [R.bind_def, R.pure_def, R.bind, ht, ne_eq, reduceCtorEq, not_false_eq_true,
        ↓reduceIte, List.append_nil]

/-- The function `json_parse_array_float` succeeds exactly on an array of `size` primitives. -/
theorem json_parse_array_float_iff (data : List Nat) (tokens : List jsmntok_t) (i : Nat)
    (out : List CFloat) (size : Nat) (hfit : TokensFit data tokens) (hi : i ≤ tokens.length)
    (hout : size ≤ out.length) :
    (ArrayOfPrimitives tokens i size →
      ∃ out1, json_parse_array_float data tokens i out size = R.ok (i + 1 + size, out1) [] ∧
        out1.length = out.length ∧
        (∀ k, k < size → ∃ f, json_to_float data tokens (i + 1 + k) = R.ok f [] ∧
          out1[k]? = some f) ∧
        ∀ m, size ≤ m → out1[m]? = out[m]?) ∧
    (¬ ArrayOfPrimitives tokens i size →
      json_parse_array_float data tokens i out size = R.err (-1) []) := by
  constructor
  · rintro ⟨⟨t, ht, hty, hsz⟩, hall⟩
    obtain ⟨out1, h1, h2, h3, h4⟩ := json_parse_array_float_loop_primitives data tokens hfit size
      (i + 1) 0 out (by omega) hall
    refine ⟨out1, ?_, h2, fun k hk => ?_, fun m hm => h4 m (Or.inr (by omega))⟩
    · unfold json_parse_array_float
      simp only [R.bind_def, R.pure_def, R.bind, tokType_some ht, tokGet_some ht, hty, hsz, ne_eq,
        not_true_eq_false, ↓reduceIte, Int.toNat_ofNat, h1, List.append_nil]
    · obtain ⟨f, hf1, hf2⟩ := h3 k hk
      rw [Nat.zero_add] at hf2
      exact ⟨f, hf1, hf2⟩
  · intro hnot
    unfold json_parse_array_float
    by_cases hlt : i < tokens.length
    · have ht : tokens[i]? = some tokens[i] := List.getElem?_eq_getElem hlt
      by_cases hty : tokens[i].type = JSMN_ARRAY
      · by_cases hsz : tokens[i].size = (size : Int)
        · have hloop := json_parse_array_float_loop_other data tokens hfit size (i + 1) 0 out
            (by omega) (by omega) (fun hall => hnot ⟨⟨_, ht, hty, hsz⟩, hall⟩)
          simp only [R.bind_def, R.pure_def, R.bind, tokType_some ht, tokGet_some ht, hty, hsz,
            ne_eq, not_true_eq_false, ↓reduceIte, Int.toNat_ofNat, hloop, List.append_nil]
        · simp only [R.bind_def, R.pure_def, R.bind, tokType_some ht, tokGet_some ht, hty, ne_eq,
            not_true_eq_false, ↓reduceIte, hsz, not_false_eq_true, List.append_nil]
      · simp only [R.bind_def, R.pure_def, R.bind, tokType_some ht, ne_eq, hty,
          not_false_eq_true, ↓reduceIte, List.append_nil]
    · have he : i = tokens.length := by omega
      have ht : tokType tokens i = R.ok JSMN_UNDEFINED [] := by
        unfold tokType
        rw [if_neg hlt, if_pos he]
      simp only [R.bind_def, R.pure_def, R.bind, ht, ne_eq, reduceCtorEq, not_false_eq_true,
        ↓reduceIte, List.append_nil]

/-! ### Keys of a node -/

/-- The key `extras` of a node: the branch of `internal_parse_extras`. -/
theorem nodeKey_extras {data : List Nat} {tokens : List jsmntok_t} {p i : Nat}
    {ws1 ws2 ws3 ws4 : List Nat} {v : JValue} {rest : JMembers} (node : GLTF_Node)
    (hwf : (JMembers.cons ws1 (cstr "extras") ws2 ws3 v ws4 rest).wf = true)
    (htxt : (JMembers.cons ws1 (cstr "extras") ws2 ws3 v ws4 rest).render <+: data.drop p)
    (htok : (JMembers.cons ws1 (cstr "extras") ws2 ws3 v ws4 rest).tokens p <+: tokens.drop i) :
    nodeKey data tokens i node =
      R.ok (i + 1 + v.count, { node with extras := some v.rawSlice }) [] := by
  simp only [JMembers.wf, Bool.and_eq_true] at hwf
  obtain ⟨-, x2, -⟩ := members_cons_text htxt
  obtain ⟨t0, t1, -⟩ := members_cons_tokens htok
  have hx := internal_parse_extras_value v _ (i + 1) hwf.1.1.2 x2 t1
  have k (lit : String) (hlit : ∀ b ∈ cstr lit, b ≠ 34 ∧ b ≠ 0) :=
    keyIs_member lit hlit htxt htok
  unfold nodeKey
  simp only [R.bind_def, R.pure_def, R.bind, keyAssert_string t0 rfl,
    k "name" (by decide), k "children" (by decide), k "mesh" (by decide), k "skin" (by decide),
    k "camera" (by decide), k "translation" (by decide), k "rotation" (by decide),
    k "scale" (by decide), k "matrix" (by decide), k "weights" (by decide),
    k "extras" (by decide), hx, List.append_nil]
  rfl

/-- The key `extensions` of a node: the branch of `internal_parse_unprocessed_extensions`. -/
theorem nodeKey_extensions {data : List Nat} {tokens : List jsmntok_t} {p i : Nat}
    {ws1 ws2 ws3 ws4 : List Nat} {v : JValue} {rest : JMembers} (node : GLTF_Node)
    (htxt : (JMembers.cons ws1 (cstr "extensions") ws2 ws3 v ws4 rest).render <+: data.drop p)
    (htok : (JMembers.cons ws1 (cstr "extensions") ws2 ws3 v ws4 rest).tokens p <+:
      tokens.drop i) :
    nodeKey data tokens i node =
      (internal_parse_unprocessed_extensions data tokens i).bind
        (fun r => R.ok (r.1, { node with extensions := r.2 }) []) := by
  obtain ⟨t0, -, -⟩ := members_cons_tokens htok
  have k (lit : String) (hlit : ∀ b ∈ cstr lit, b ≠ 34 ∧ b ≠ 0) :=
    keyIs_member lit hlit htxt htok
  unfold nodeKey
  simp only [R.bind_def, R.pure_def, R.bind, keyAssert_string t0 rfl,
    k "name" (by decide), k "children" (by decide), k "mesh" (by decide), k "skin" (by decide),
    k "camera" (by decide), k "translation" (by decide), k "rotation" (by decide),
    k "scale" (by decide), k "matrix" (by decide), k "weights" (by decide),
    k "extras" (by decide), k "extensions" (by decide), List.append_nil]
  cases internal_parse_unprocessed_extensions data tokens i <;> rfl

/-- The keys `translation`, `rotation`, `scale` and `matrix` of a node: a failure of
`json_parse_array_float` is the result of the key. -/
theorem nodeKey_array_float {data : List Nat} {tokens : List jsmntok_t} {p i : Nat}
    {ws1 key ws2 ws3 ws4 : List Nat} {v : JValue} {rest : JMembers} (node : GLTF_Node)
    (c : Int) (l : List String)
    (htxt : (JMembers.cons ws1 key ws2 ws3 v ws4 rest).render <+: data.drop p)
    (htok : (JMembers.cons ws1 key ws2 ws3 v ws4 rest).tokens p <+: tokens.drop i) :
    (key = cstr "translation" →
      json_parse_array_float data tokens (i + 1) node.translation 3 = R.err c l →
      nodeKey data tokens i node = R.err c l) ∧
    (key = cstr "rotation" →
      json_parse_array_float data tokens (i + 1) node.rotation 4 = R.err c l →
      nodeKey data tokens i node = R.err c l) ∧
    (key = cstr "scale" →
      json_parse_array_float data tokens (i + 1) node.scale 3 = R.err c l →
      nodeKey data tokens i node = R.err c l) ∧
    (key = cstr "matrix" →
      json_parse_array_float data tokens (i + 1) node.matrix 16 = R.err c l →
      nodeKey data tokens i node = R.err c l) := by
  obtain ⟨t0, -, -⟩ := members_cons_tokens htok
  have k (lit : String) (hlit : ∀ b ∈ cstr lit, b ≠ 34 ∧ b ≠ 0) :=
    keyIs_member lit hlit htxt htok
  refine ⟨fun hk hx => ?_, fun hk hx => ?_, fun hk hx => ?_, fun hk hx => ?_⟩ <;> subst hk <;>
    unfold nodeKey <;>
    simp only [R.bind_def, R.pure_def, R.bind, keyAssert_string t0 rfl,
      k "name" (by decide), k "children" (by decide), k "mesh" (by decide), k "skin" (by decide),
      k "camera" (by decide), k "translation" (by decide), k "rotation" (by decide),
      k "scale" (by decide), k "matrix" (by decide), hx, List.append_nil] <;> rfl

theorem extensionsOf_length : ∀ (ms : JMembers), ms.extensionsOf.length = ms.length
  | JMembers.nil => rfl
  | JMembers.cons _ _ _ _ _ _ rest => by
    simp only [JMembers.extensionsOf, JMembers.length, List.length_cons, extensionsOf_length rest]

theorem rawSlice_not_string (v : JValue) (h : ∀ body, v ≠ JValue.str body) :
    v.rawSlice = v.render := by
  cases v with
  | str body => exact absurd rfl (h body)
  | prim _ => rfl
  | arr _ _ => rfl
  | obj _ _ => rfl

theorem object_inner {data : List Nat} {tokens : List jsmntok_t} {ws : List Nat} {ms : JMembers}
    {q i : Nat} (htxt : (JValue.obj ws ms).render <+: data.drop q)
    (htok : (JValue.obj ws ms).tokens q <+: tokens.drop i) :
    ms.render <+: data.drop (q + 1 + ws.length) ∧
    ms.tokens (q + 1 + ws.length) <+: tokens.drop (i + 1) := by
  simp only [JValue.render, JValue.tokens] at htxt htok
  refine ⟨?_, (seg_drop_cons htok).2⟩
  simp only [List.cons_append, List.append_assoc] at htxt
  have h1 := (prefix_drop_cons htxt).2
  have h2 := (prefix_drop_append h1).2
  exact (prefix_drop_append h2).1

/-! ## The statements of the specification -/

set_option maxRecDepth 100000
set_option maxHeartbeats 4000000

/-- C1: an index that is out of range does not make `GLTF_ParseFromFile` return
the empty asset. For the document whose only node names mesh 5 while there is no
mesh, the resolver logs the invalid index and returns `0`, which its caller
does not take for a failure: the returned asset has no mesh, one node, and the
mesh slot of that node still holds the unresolved value `5 + 1`. -/
theorem parse_out_of_range_index_returned :
    (GLTF_ParseFromFile decimalLt2 samplePath (some docMeshOutOfRange)).map
        (fun r => (r.1.asset.version, r.1.meshes.length, r.1.nodes.map (fun n => n.mesh), r.2)) =
      some (some (cstr "2.0"), 0, [Ptr.index 5], ["Invalid pointer index 5 (max 0)"]) ∧
    (internal_fix_pointers (walked docMeshOutOfRange)).map (fun r => (r.1, r.2.2)) =
      some (0, ["Invalid pointer index 5 (max 0)"]) := by
  decide

/-- C2: the macro `PTR_TO_INDEX` stores `i + 1` for every index `i` an `int` can
hold, and whenever the resolver returns `1` every reference slot of the asset
that held `i + 1` refers to element `i` of its target collection, which exists
(the sampler slot of a channel refers to a sampler of the same animation), and
every optional slot that was unset is still unset. -/
theorem resolver_resolves_every_slot (d e : GLTF2) (l : List String)
    (h : internal_fix_pointers d = some (1, e, l)) :
    (∀ i : Int, 0 ≤ i → i < 2147483648 → PTR_TO_INDEX i = Ptr.index i.toNat) ∧
    AssetResolved d e :=
  ⟨PTR_TO_INDEX_of_index, assetResolved_of_success h⟩

/-- C2 on the documents `docSlots` and `docViews`: the walker stores `i + 1` in
the slots whose key is present and leaves the others unset, the resolver
returns `1`, and the slots refer to the elements. -/
theorem resolver_resolves_every_slot_witness :
    walked docSlots = slotsWalked ∧
    internal_fix_pointers slotsWalked = some (1, slotsResolved, []) ∧
    AssetResolved slotsWalked slotsResolved ∧
    (slotsWalked.nodes.map (fun n => (n.mesh, n.skin, n.camera, n.children)) =
      [(Ptr.index 0, Ptr.null, Ptr.null, [Ptr.index 1]), (Ptr.null, Ptr.null, Ptr.null, [])] ∧
    slotsResolved.nodes.map (fun n => (n.mesh, n.skin, n.camera, n.children)) =
      [(Ptr.elem 0, Ptr.null, Ptr.null, [Ptr.elem 1]), (Ptr.null, Ptr.null, Ptr.null, [])]) ∧
    (GLTF_ParseFromFile decimalLt2 samplePath (some docViews)).map
        (fun r => (r.1.accessors.map (fun a => a.bufferView),
          r.1.bufferViews.map (fun v => v.buffer), r.2)) =
      some ([Ptr.elem 0], [Ptr.elem 0], []) :=
  ⟨by decide, by decide,
    (resolver_resolves_every_slot slotsWalked slotsResolved [] (by decide)).2,
    by decide, by decide⟩

/-- On `docTwoParents` the resolver meets node 2 a second time and returns `-1`, without a
diagnostic. -/
theorem two_parents_resolver_fails :
    (internal_fix_pointers (walked docTwoParents)).map (fun r => (r.1, r.2.2)) =
      some (-1, []) := by
  decide

/-- On `docTwoParents` the run of `GLTF_ParseFromFile` has no defined result. -/
theorem two_parents_parse_undefined :
    GLTF_ParseFromFile decimalLt2 samplePath (some docTwoParents) = none := by
  decide

/-- On `docTwoParentsNoBuffer` the asset is returned with node 2 in two lists of children. -/
theorem two_parents_asset_returned :
    (GLTF_ParseFromFile decimalLt2 samplePath (some docTwoParentsNoBuffer)).map
        (fun r => (r.1.bufferViews.length, r.1.nodes.map (fun n => (n.children, n.parent)), r.2)) =
      some (1, [([Ptr.index 2], Ptr.null), ([Ptr.index 2], Ptr.null), ([], Ptr.null)],
        ["Required pointer invalid (index 18446744073709551615, max 0)"]) := by
  decide

/-- C3: a node listed as a child by two nodes does not make `GLTF_ParseFromFile` return
the empty asset, even when every index is in range. On the document
`docTwoParents` the resolver returns `-1`; `internal_parse_json` then calls
`GLTF_Free(outData)`, where `outData` is the address of the automatic record of
`GLTF_ParseFromFile`: the call has no defined behaviour for any record, and the
run has no defined result. On the same document with a buffer view that names
no buffer the resolver returns `0` at the buffer view, before it visits the
nodes, its caller does not take `0` for a failure, and the returned asset lists
node 2 in the children of node 0 and of node 1. -/
theorem parse_two_parents_returned :
    (internal_fix_pointers (walked docTwoParents)).map (fun r => (r.1, r.2.2)) =
      some (-1, []) ∧
    (∀ d : GLTF2, GLTF_Free Storage.automatic d = none) ∧
    GLTF_ParseFromFile decimalLt2 samplePath (some docTwoParents) = none ∧
    (GLTF_ParseFromFile decimalLt2 samplePath (some docTwoParentsNoBuffer)).map
        (fun r => (r.1.bufferViews.length, r.1.nodes.map (fun n => (n.children, n.parent)), r.2)) =
      some (1, [([Ptr.index 2], Ptr.null), ([Ptr.index 2], Ptr.null), ([], Ptr.null)],
        ["Required pointer invalid (index 18446744073709551615, max 0)"]) :=
  ⟨two_parents_resolver_fails, GLTF_Free_automatic, two_parents_parse_undefined,
    two_parents_asset_returned⟩

/-- C4: when the resolver returns `1` on an asset whose nodes have no parent yet
(the walker writes no parent, `internal_parse_jsonroot_fresh`), every child slot of every node `i` refers to an
existing node `c`, the parent of that node `c` refers to node `i`, wherever `c`
stands with respect to `i`, and every node that no child slot refers to has a
null parent. -/
theorem resolver_sets_parents (d e : GLTF2) (l : List String)
    (h : internal_fix_pointers d = some (1, e, l))
    (h0 : ∀ nd ∈ d.nodes, nd.parent = Ptr.null) :
    (∀ i m p, childAt e.nodes i m = some p → ∃ c, c < e.nodes.length ∧ p = Ptr.elem c) ∧
    (∀ i m c, childAt e.nodes i m = some (Ptr.elem c) → parentAt e.nodes c = some (Ptr.elem i)) ∧
    (∀ c p, parentAt e.nodes c = some p → (∀ i m, childAt e.nodes i m ≠ some (Ptr.elem c)) →
      p = Ptr.null) := by
  obtain ⟨hlen, hinv⟩ := parentInv_of_success h
  refine ⟨?_, ?_, ?_⟩
  · intro i m p hc
    exact childAt_resolved (assetResolved_of_success h) hlen hc
  · intro i m c hc
    exact hinv.1 i m c (Or.inl (hlen ▸ childAt_node_lt hc)) hc
  · intro c p hp hno
    rcases hinv.2.1 c p hp with h1 | ⟨k, m, _, hc, _⟩
    · exact parentAt_null_of_all h0 h1
    · exact absurd hc (hno k m)

/-- C4 on the document `docForward`, whose node 0 lists nodes 1 and 2, defined
after it: the walker leaves every parent null, the resolver returns `1`, the
parents of nodes 1 and 2 refer to node 0 and node 0 has none. -/
theorem resolver_sets_parents_witness :
    walked docForward = forwardWalked ∧
    (∀ nd ∈ forwardWalked.nodes, nd.parent = Ptr.null) ∧
    internal_fix_pointers forwardWalked = some (1, forwardResolved, []) ∧
    forwardResolved.nodes.map (fun n => (n.children, n.parent)) =
      [([Ptr.elem 1, Ptr.elem 2], Ptr.null), ([], Ptr.elem 0), ([], Ptr.elem 0)] ∧
    (∀ i m c, childAt forwardResolved.nodes i m = some (Ptr.elem c) →
      parentAt forwardResolved.nodes c = some (Ptr.elem i)) :=
  ⟨by decide, by decide, by decide, by decide,
    (resolver_sets_parents forwardWalked forwardResolved [] (by decide) (by decide)).2.1⟩

/-- C5, the claim fails: the document whose node 0 lists itself as its own child
and the document whose nodes 0 and 1 list each other both parse without a
diagnostic, the resolver returning `1`; node 0 is its own parent in the first
asset, and nodes 0 and 1 are the parent of each other in the second. -/
theorem parse_accepts_parent_cycles :
    (internal_fix_pointers (walked docSelfChild)).map (fun r => (r.1, r.2.2)) = some (1, []) ∧
    (GLTF_ParseFromFile decimalLt2 samplePath (some docSelfChild)).map
        (fun r => (r.1.nodes.map (fun n => (n.children, n.parent)), r.2)) =
      some ([([Ptr.elem 0], Ptr.elem 0)], []) ∧
    (internal_fix_pointers (walked docMutualChildren)).map (fun r => (r.1, r.2.2)) =
      some (1, []) ∧
    (GLTF_ParseFromFile decimalLt2 samplePath (some docMutualChildren)).map
        (fun r => (r.1.nodes.map (fun n => (n.children, n.parent)), r.2)) =
      some ([([Ptr.elem 1], Ptr.elem 1), ([Ptr.elem 0], Ptr.elem 0)], []) := by
  decide

/-- C5 as amended: whenever the resolver returns `1`, no node is referred to by
two child slots, be they slots of two nodes or of one node: every node has at
most one parent. Cycles of the parent relation are not excluded. -/
theorem resolver_at_most_one_parent (d e : GLTF2) (l : List String)
    (h : internal_fix_pointers d = some (1, e, l)) :
    ∀ k m k1 m1 c, childAt e.nodes k m = some (Ptr.elem c) →
      childAt e.nodes k1 m1 = some (Ptr.elem c) → k = k1 ∧ m = m1 := by
  obtain ⟨hlen, hinv⟩ := parentInv_of_success h
  intro k m k1 m1 c hc hc1
  exact hinv.2.2 k m k1 m1 c (Or.inl (hlen ▸ childAt_node_lt hc)) (Or.inl (hlen ▸ childAt_node_lt hc1)) hc hc1

/-- C5 as amended, on the document `docMutualChildren`: the resolver returns
`1`, and the only child slot that refers to node 0 is slot 0 of node 1. -/
theorem resolver_at_most_one_parent_witness :
    walked docMutualChildren = mutualWalked ∧
    internal_fix_pointers mutualWalked = some (1, mutualResolved, []) ∧
    ∀ k m, childAt mutualResolved.nodes k m = some (Ptr.elem 0) → k = 1 ∧ m = 0 :=
  ⟨by decide, by decide, fun k m hc =>
    resolver_at_most_one_parent mutualWalked mutualResolved [] (by decide) k m 1 0 0 hc
      (by decide)⟩

/-- On `docRootIsChild` the resolver finds a parent on the root of the scene and returns
`-1`, without a diagnostic. -/
theorem root_with_parent_resolver_fails :
    (internal_fix_pointers (walked docRootIsChild)).map (fun r => (r.1, r.2.2)) =
      some (-1, []) := by
  decide

/-- On `docRootIsChild` the run of `GLTF_ParseFromFile` has no defined result. -/
theorem root_with_parent_parse_undefined :
    GLTF_ParseFromFile decimalLt2 samplePath (some docRootIsChild) = none := by
  decide

/-- On `docRootIsChildNoBuffer` the asset is returned with a scene root that is a child. -/
theorem root_with_parent_asset_returned :
    (GLTF_ParseFromFile decimalLt2 samplePath (some docRootIsChildNoBuffer)).map
        (fun r => (r.1.nodes.map (fun n => n.children), r.1.scenes.map (fun s => s.nodes), r.2)) =
      some ([[Ptr.index 1], []], [[Ptr.index 1]],
        ["Required pointer invalid (index 18446744073709551615, max 0)"]) := by
  decide

/-- C6: a scene root that is a child of a node does not make `GLTF_ParseFromFile` return
the empty asset, even when every index is in range. On the document
`docRootIsChild` the resolver returns `-1`; `internal_parse_json` then calls
`GLTF_Free(outData)`, where `outData` is the address of the automatic record of
`GLTF_ParseFromFile`: the call has no defined behaviour for any record, and the
run has no defined result. On the same document with a buffer view that names
no buffer the resolver returns `0` at the buffer view, before it visits the
nodes and the scenes, its caller does not take `0` for a failure, and the
returned asset has a scene whose root is node 1, which node 0 lists as a
child. -/
theorem parse_root_with_parent_returned :
    (internal_fix_pointers (walked docRootIsChild)).map (fun r => (r.1, r.2.2)) =
      some (-1, []) ∧
    (∀ d : GLTF2, GLTF_Free Storage.automatic d = none) ∧
    GLTF_ParseFromFile decimalLt2 samplePath (some docRootIsChild) = none ∧
    (GLTF_ParseFromFile decimalLt2 samplePath (some docRootIsChildNoBuffer)).map
        (fun r => (r.1.nodes.map (fun n => n.children), r.1.scenes.map (fun s => s.nodes), r.2)) =
      some ([[Ptr.index 1], []], [[Ptr.index 1]],
        ["Required pointer invalid (index 18446744073709551615, max 0)"]) :=
  ⟨root_with_parent_resolver_fails, GLTF_Free_automatic, root_with_parent_parse_undefined,
    root_with_parent_asset_returned⟩

/-- The JSON stage succeeds on the JSON chunk of `glbTruncatedBin`, which is also the one of
`glbOverflowingBin`, and builds an asset with one node. -/
theorem truncated_bin_json_stage :
    (match internal_parse_json decimalLt2 20 (glbTruncatedBin.drop 20) 40
        { fileInfo := { path := samplePath } } with
      | R.ok d l => some (d.asset.version, d.nodes.length, l)
      | _ => none) = some (some (cstr "2.0"), 1, []) := by
  decide

/-- On `glbTruncatedBin` the run of `GLTF_ParseFromFile` has no defined result. -/
theorem truncated_bin_parse_undefined :
    GLTF_ParseFromFile decimalLt2 samplePath (some glbTruncatedBin) = none := by
  decide

/-- On `glbOverflowingBin` the run of `GLTF_ParseFromFile` has no defined result. -/
theorem overflowing_bin_parse_undefined :
    GLTF_ParseFromFile decimalLt2 samplePath (some glbOverflowingBin) = none := by
  decide

/-- On `glbLegacy` and on `docVersion10` the run of `GLTF_ParseFromFile` has no defined
result. -/
theorem legacy_parse_undefined :
    GLTF_ParseFromFile decimalLt2 samplePath (some glbLegacy) = none ∧
    GLTF_ParseFromFile decimalLt2 samplePath (some docVersion10) = none := by
  decide

/-- C7: the failure paths of `GLTF_ParseFromFile` do not return the empty asset. The paths
after the JSON stage call `GLTF_Free(&parsedData)` on the automatic record of the
function, whose last statement frees the record itself: the call has
no defined behaviour for any record. So the run has no defined result for a GLB
file that ends inside the header of the chunk after its JSON chunk, for one
whose BIN chunk announces more bytes than the file holds (in both the JSON
stage has built an asset with one node), and for a GLB file and a `.gltf` file
whose JSON stage fails. The paths before the JSON stage return, as on a file of
two bytes, a record whose file information holds the path: it is not the zero
record. -/
theorem parse_failure_paths_not_empty :
    (∀ d : GLTF2, GLTF_Free Storage.automatic d = none) ∧
    (match internal_parse_json decimalLt2 20 (glbTruncatedBin.drop 20) 40
        { fileInfo := { path := samplePath } } with
      | R.ok d l => some (d.asset.version, d.nodes.length, l)
      | _ => none) = some (some (cstr "2.0"), 1, []) ∧
    GLTF_ParseFromFile decimalLt2 samplePath (some glbTruncatedBin) = none ∧
    GLTF_ParseFromFile decimalLt2 samplePath (some glbOverflowingBin) = none ∧
    GLTF_ParseFromFile decimalLt2 samplePath (some glbLegacy) = none ∧
    GLTF_ParseFromFile decimalLt2 samplePath (some docVersion10) = none ∧
    GLTF_ParseFromFile decimalLt2 samplePath (some (cstr "ab")) =
      some ({ fileInfo := { path := samplePath } }, ["File too small to be valid GLTF/GLB"]) ∧
    ({ fileInfo := { path := samplePath } } : GLTF2) ≠ {} :=
  ⟨GLTF_Free_automatic, truncated_bin_json_stage, truncated_bin_parse_undefined,
    overflowing_bin_parse_undefined, legacy_parse_undefined.1, legacy_parse_undefined.2,
    by decide, by decide⟩

/-- C8: on the minimal document the tokenizer returns 5 in its counting pass and
in its filling pass, the walker and the resolver succeed, and
`GLTF_ParseFromFile` returns, without a diagnostic, the asset whose version is
the string 2.0 and whose collections are all empty, with no default scene. -/
theorem parse_minimal_document :
    (jsmn_parse { pos := 0, toknext := 0, toksuper := 0 } docMinimal docMinimal.length none 0).map
        (fun o => o.r) = some 5 ∧
    (jsmn_parse jsmn_init docMinimal docMinimal.length (some []) 5).map
        (fun o => (o.r, o.tokens.map (fun t => t.length))) = some (5, some 5) ∧
    (∃ tk d, internal_parse_jsonroot decimalLt2 docMinimal (tokensOf docMinimal) 0 {} =
        R.ok (tk, d) [] ∧ internal_fix_pointers d = some (1, d, [])) ∧
    GLTF_ParseFromFile decimalLt2 samplePath (some docMinimal) =
      some ({ fileInfo := { path := samplePath, type := 1, jsonTkCount := 5, json := some 0,
                            jsonSize := 27 },
              asset := { version := some (cstr "2.0") },
              accessors := [], bufferViews := [], buffers := [], meshes := [], materials := [],
              textures := [], images := [], imageSamplers := [], nodes := [], scenes := [],
              skins := [], cameras := [], animations := [], extensions := [],
              extensionsUsed := [], extensionsRequired := [], scene := Ptr.null }, []) := by
  refine ⟨by decide, by decide, ⟨5, { asset := { version := some (cstr "2.0") } }, by decide,
    by decide⟩, by decide⟩

/-- C9, the claim fails: a document without a version string is accepted, and so is one
whose version is not a number. The JSON stage returns `1` on the empty object,
and `GLTF_ParseFromFile` returns without a diagnostic an asset with no version
for the document whose asset object has no version key, and an asset with the
version `nan` for the document that gives that version: `atof` returns a NaN
for it, and the comparison of a NaN with 2 is false. -/
theorem parse_accepts_missing_version :
    (∃ d, internal_parse_json decimalLt2 0 docEmptyObject docEmptyObject.length {} = R.ok d [] ∧
      d.asset.version = none) ∧
    (GLTF_ParseFromFile decimalLt2 samplePath (some docNoVersion)).map
        (fun r => (r.1.asset.version, r.1.fileInfo.jsonTkCount, r.1.fileInfo.json, r.2)) =
      some (none, 3, some 0, []) ∧
    (GLTF_ParseFromFile decimalLt2 samplePath (some docVersionNan)).map
        (fun r => (r.1.asset.version, r.2)) = some (some (cstr "nan"), []) := by
  refine ⟨⟨{ fileInfo := { jsonTkCount := 1, json := some 0, jsonSize := 2 } }, by decide,
    by decide⟩, by decide, by decide⟩

/-- C9 as amended: a document without a version string is accepted; every asset
that `GLTF_ParseFromFile` returns has no version or a version that does not
parse to a number below 2: the comparison `atof(version) < 2`, which is the
parameter `atofLt2`, is false for it. -/
theorem parse_version_unset_or_not_legacy (atofLt2 : List Nat → Bool) (path : CString)
    (file : Option (List Nat)) (d : GLTF2) (l : List String)
    (h : GLTF_ParseFromFile atofLt2 path file = some (d, l)) :
    d.asset.version = none ∨ ∃ v, d.asset.version = some v ∧ atofLt2 v = false := by
  have h1 := GLTF_ParseFromFile_legacy h
  cases hv : d.asset.version with
  | none => exact Or.inl rfl
  | some v =>
    rw [hv] at h1
    exact Or.inr ⟨v, rfl, h1⟩

/-- C9 as amended, on the document without a version key, on the minimal document and on
the document with the version `nan`. -/
theorem parse_version_unset_or_not_legacy_witness :
    (∃ d l, GLTF_ParseFromFile decimalLt2 samplePath (some docNoVersion) = some (d, l) ∧
      d.asset.version = none) ∧
    (∃ d l, GLTF_ParseFromFile decimalLt2 samplePath (some docMinimal) = some (d, l) ∧
      (d.asset.version = none ∨ ∃ v, d.asset.version = some v ∧ decimalLt2 v = false)) ∧
    (∃ d l, GLTF_ParseFromFile decimalLt2 samplePath (some docVersionNan) = some (d, l) ∧
      (d.asset.version = none ∨ ∃ v, d.asset.version = some v ∧ decimalLt2 v = false)) :=
  ⟨⟨_, _, Option.eq_some_of_isSome (by decide), by decide⟩,
    ⟨_, _, Option.eq_some_of_isSome (by decide),
      parse_version_unset_or_not_legacy decimalLt2 samplePath (some docMinimal) _ _
        (Option.eq_some_of_isSome (by decide))⟩,
    ⟨_, _, Option.eq_some_of_isSome (by decide),
      parse_version_unset_or_not_legacy decimalLt2 samplePath (some docVersionNan) _ _
        (Option.eq_some_of_isSome (by decide))⟩⟩

/-- On the documents with the versions 1.9 and 1.0 the run of `GLTF_ParseFromFile` has
no defined result. -/
theorem legacy_version_parse_undefined :
    GLTF_ParseFromFile decimalLt2 samplePath (some docVersion19) = none ∧
    GLTF_ParseFromFile decimalLt2 samplePath (some docVersion10) = none := by
  decide

/-- C10: a version below 2 is detected, but `GLTF_ParseFromFile` does not return the empty
asset. The comparison `atof(version) < 2` holds for 1.9 and 1.0 and not for 2.0; on
the asset object of the document with the version 1.9, which is token 2,
`internal_parse_asset` logs the legacy diagnostic and returns `-1`, and on the one
of the minimal document it returns the asset with the version 2.0; the walker
returns `-1` on the document with the version 1.9. `internal_parse_json` then
calls `GLTF_Free(outData)`, where `outData` is the address of the automatic
record of `GLTF_ParseFromFile`: the call has no defined behaviour for any
record, and the run has no defined result, for 1.9 and for 1.0. -/
theorem legacy_version_rejected :
    (decimalLt2 (cstr "1.9") = true ∧ decimalLt2 (cstr "1.0") = true ∧
      decimalLt2 (cstr "2.0") = false) ∧
    internal_parse_asset decimalLt2 docVersion19 (tokensOf docVersion19) 2 {} =
      R.err (-1) ["Legacy GLTF is not supported"] ∧
    internal_parse_asset decimalLt2 docMinimal (tokensOf docMinimal) 2 {} =
      R.ok (5, { version := some (cstr "2.0") }) [] ∧
    internal_parse_jsonroot decimalLt2 docVersion19 (tokensOf docVersion19) 0 {} =
      R.err (-1) ["Legacy GLTF is not supported"] ∧
    (∀ d : GLTF2, GLTF_Free Storage.automatic d = none) ∧
    GLTF_ParseFromFile decimalLt2 samplePath (some docVersion19) = none ∧
    GLTF_ParseFromFile decimalLt2 samplePath (some docVersion10) = none :=
  ⟨by decide, by decide, by decide, by decide, GLTF_Free_automatic,
    legacy_version_parse_undefined.1, legacy_version_parse_undefined.2⟩

/-- C11: when the walker has built the asset from a record without accessors and
`internal_fix_pointers` returns `1` on it, every accessor has no buffer view or
one that exists; its stride is the stride of its buffer view when that stride
is not zero, and the stride derived from its type and component type when it
has no buffer view or one whose stride is zero. -/
theorem accessor_stride_resolved (atofLt2 : List Nat → Bool) (data : List Nat)
    (tokens : List jsmntok_t) (tk tk1 : Nat) (d0 d e : GLTF2) (lw l : List String)
    (hw : internal_parse_jsonroot atofLt2 data tokens tk d0 = R.ok (tk1, d) lw)
    (h0 : d0.accessors = [])
    (h : internal_fix_pointers d = some (1, e, l)) :
    ∀ (k : Nat) (b : GLTF_Accessor), e.accessors[k]? = some b →
      (b.bufferView = Ptr.null ∨ ∃ i v, b.bufferView = Ptr.elem i ∧ e.bufferViews[i]? = some v) ∧
      (∀ (i : Nat) (v : GLTF_BufferView), b.bufferView = Ptr.elem i → e.bufferViews[i]? = some v →
        v.stride ≠ 0 → b.stride = v.stride) ∧
      ((b.bufferView = Ptr.null ∨
          ∃ i v, b.bufferView = Ptr.elem i ∧ e.bufferViews[i]? = some v ∧ v.stride = 0) →
        b.stride = internal_calculate_attribute_size b.type b.componentType) :=
  stride_of_success h
    ((internal_parse_jsonroot_fresh atofLt2 data tokens tk d0).1
      (fun a ha => by rw [h0] at ha; cases ha) _ _ hw)

/-- C11 on the document `docStride`: the accessor on the view with the byte
stride 16 gets the stride 16, the accessor of 16-bit scalars on the view
without a byte stride gets the derived stride 2, and the accessor of `VEC3` of
floats without a view gets the derived stride 12. -/
theorem accessor_stride_resolved_witness :
    internal_parse_jsonroot decimalLt2 docStride (tokensOf docStride) 0 {} =
      R.ok (29, strideWalked) [] ∧
    internal_fix_pointers strideWalked = some (1, strideResolved, []) ∧
    strideResolved.accessors.map (fun a => (a.bufferView, a.stride)) =
      [(Ptr.elem 0, 16), (Ptr.elem 1, 2), (Ptr.null, 12)] ∧
    (∀ (k : Nat) (b : GLTF_Accessor), strideResolved.accessors[k]? = some b →
      (b.bufferView = Ptr.null ∨
          ∃ i v, b.bufferView = Ptr.elem i ∧ strideResolved.bufferViews[i]? = some v ∧
            v.stride = 0) →
        b.stride = internal_calculate_attribute_size b.type b.componentType) :=
  have hw : internal_parse_jsonroot decimalLt2 docStride (tokensOf docStride) 0 {} =
      R.ok (29, strideWalked) [] := by decide
  have hf : internal_fix_pointers strideWalked = some (1, strideResolved, []) := by decide
  ⟨hw, hf, by decide, fun k b hb =>
    (accessor_stride_resolved decimalLt2 docStride (tokensOf docStride) 0 29 {} strideWalked
      strideResolved [] [] hw rfl hf k b hb).2.2⟩

/-- C12: for each of the six valid component types `internal_calculate_attribute_size`
is the derived stride of the specification: 8 for `Mat2` with one-byte
components, 12 times the component size for `Mat3` with one- or two-byte
components, and component count times component size in every other case. -/
theorem derived_stride_table (type : GLTF_Type) (componentType : Int)
    (h : componentType = 5120 ∨ componentType = 5121 ∨ componentType = 5122 ∨
      componentType = 5123 ∨ componentType = 5125 ∨ componentType = 5126) :
    internal_component_size componentType = specComponentSize componentType ∧
    internal_get_components_number type = specComponentCount type ∧
    internal_calculate_attribute_size type componentType =
      specDerivedStride type componentType := by
  rcases h with rfl | rfl | rfl | rfl | rfl | rfl <;> cases type <;> decide

/-- C12 on `Vec3` of 32-bit floats, which gives 12, and on the special layouts. -/
theorem derived_stride_table_witness :
    internal_calculate_attribute_size Type_Vec3 5126 = 12 ∧
    specDerivedStride Type_Vec3 5126 = 12 ∧
    internal_calculate_attribute_size Type_Mat2 5120 = 8 ∧
    internal_calculate_attribute_size Type_Mat3 5121 = 12 ∧
    internal_calculate_attribute_size Type_Mat3 5123 = 24 ∧
    internal_calculate_attribute_size Type_Mat3 5126 = 36 ∧
    internal_calculate_attribute_size Type_Mat2 5122 = 8 ∧
    internal_calculate_attribute_size Type_Mat4 5126 = 64 :=
  ⟨(derived_stride_table Type_Vec3 5126 (by decide)).2.2.trans
      (show specDerivedStride Type_Vec3 5126 = 12 by decide),
    by decide, by decide, by decide, by decide, by decide, by decide, by decide⟩

/-- The documents `docMinimal` and `docNoVersion` parse; the first one gives no node. -/
theorem unknown_key_base_documents :
    (GLTF_ParseFromFile decimalLt2 samplePath (some docMinimal)).map
        (fun r => (r.1.nodes.length, r.2)) = some (0, []) ∧
    (GLTF_ParseFromFile decimalLt2 samplePath (some docNoVersion)).map
        (fun r => (r.1.asset.version, r.1.fileInfo.jsonTkCount, r.2)) = some (none, 3, []) := by
  decide

/-- The document `docUnknownKey`, with the key `nodesX`, gives one node. -/
theorem unknown_key_read_as_nodes :
    (GLTF_ParseFromFile decimalLt2 samplePath (some docUnknownKey)).map
        (fun r => (r.1.nodes.length, r.2)) = some (1, []) := by
  decide

/-- The walker refuses the document `docUnknownAssetKey`, with the key `versionX`, and the run
of `GLTF_ParseFromFile` on it has no defined result. -/
theorem unknown_key_read_as_version :
    internal_parse_jsonroot decimalLt2 docUnknownAssetKey (tokensOf docUnknownAssetKey) 0 {} =
      R.err (-1) ["Legacy GLTF is not supported"] ∧
    GLTF_ParseFromFile decimalLt2 samplePath (some docUnknownAssetKey) = none := by
  decide

/-- C13: a key that is not a key name of its object is not always skipped. The
comparison `json_strncmp` looks at the first bytes of the key only, as many as
the name has, so the root key `nodesX` is read as `nodes` and gives the asset a
node that the document without the key does not have, and the asset key
`versionX` is read as `version`: the walker, which accepts the document without
the key, logs the legacy diagnostic and returns `-1` on the document with the
key, after which the run of `GLTF_ParseFromFile` has no defined result. -/
theorem parse_unknown_key_has_effect :
    (GLTF_ParseFromFile decimalLt2 samplePath (some docMinimal)).map
        (fun r => (r.1.nodes.length, r.2)) = some (0, []) ∧
    (GLTF_ParseFromFile decimalLt2 samplePath (some docUnknownKey)).map
        (fun r => (r.1.nodes.length, r.2)) = some (1, []) ∧
    (GLTF_ParseFromFile decimalLt2 samplePath (some docNoVersion)).map
        (fun r => (r.1.asset.version, r.1.fileInfo.jsonTkCount, r.2)) = some (none, 3, []) ∧
    internal_parse_jsonroot decimalLt2 docUnknownAssetKey (tokensOf docUnknownAssetKey) 0 {} =
      R.err (-1) ["Legacy GLTF is not supported"] ∧
    GLTF_ParseFromFile decimalLt2 samplePath (some docUnknownAssetKey) = none :=
  ⟨unknown_key_base_documents.1, unknown_key_read_as_nodes, unknown_key_base_documents.2,
    unknown_key_read_as_version.1, unknown_key_read_as_version.2⟩

/-- C14: a root key that is a string token whose text is `animations` is handed
to `internal_parse_animations`; when the key is parsed with success, the value
is an array token, the asset has as many animations as the array has
elements, and no other field of the record has changed. -/
theorem animations_key_recognised (atofLt2 : List Nat → Bool) (data : List Nat)
    (tokens : List jsmntok_t) (tk : Nat) (t : jsmntok_t) (d : GLTF2)
    (ht : tokens[tk]? = some t) (hty : t.type = JSMN_STRING) (hs : 0 ≤ t.start)
    (htxt : (data.drop t.start.toNat).take 10 = cstr "animations") :
    jsonrootKey atofLt2 data tokens tk d = internal_parse_animations data tokens (tk + 1) d ∧
    ∀ (tk1 : Nat) (d1 : GLTF2) (l : List String),
      jsonrootKey atofLt2 data tokens tk d = R.ok (tk1, d1) l →
      ∃ a, tokens[tk + 1]? = some a ∧ a.type = JSMN_ARRAY ∧
        d1.animations.length = a.size.toNat ∧ d1 = { d with animations := d1.animations } := by
  have hk := jsonrootKey_animations atofLt2 d ht hty hs htxt
  refine ⟨hk, fun tk1 d1 l h => ?_⟩
  rw [hk] at h
  exact internal_parse_animations_count data tokens (tk + 1) d _ _ h

/-- C14 on the document `docAnimations`: token 1 is the key `animations`, the
array after it has two elements, and the walker builds two animations, the
first with its two samplers and its two channels in the order of the
document. -/
theorem animations_key_recognised_witness :
    (tokensOf docAnimations)[1]? = some { type := JSMN_STRING, start := 2, end_ := 12, size := 1 } ∧
    jsonrootKey decimalLt2 docAnimations (tokensOf docAnimations) 1 {} =
      internal_parse_animations docAnimations (tokensOf docAnimations) 2 {} ∧
    walked docAnimations = animationsWalked ∧
    animationsWalked.animations.map
        (fun a => (a.samplers.map (fun s => s.input), a.channels.map (fun c => c.sampler))) =
      [([Ptr.index 4, Ptr.index 5], [Ptr.index 1, Ptr.index 0]), ([], [])] :=
  ⟨by decide,
    (animations_key_recognised decimalLt2 docAnimations (tokensOf docAnimations) 1
      { type := JSMN_STRING, start := 2, end_ := 12, size := 1 } {} (by decide) rfl (by decide)
      (by decide)).1,
    by decide, by decide⟩

/-- The walker on `docExtensionsUsed` and on `docExtensionsRequired`. -/
theorem extensions_used_walker_fails :
    internal_parse_jsonroot decimalLt2 docExtensionsUsed (tokensOf docExtensionsUsed) 0 {} =
      R.err (-1) ["The expected unprocessed extension is not a json valid object"] ∧
    internal_parse_jsonroot decimalLt2 docExtensionsRequired (tokensOf docExtensionsRequired) 0
        {} =
      R.err (-1) ["The expected unprocessed extension is not a json valid object"] := by
  decide

/-- The run of `GLTF_ParseFromFile` on `docExtensionsUsed` and on `docExtensionsRequired`. -/
theorem extensions_used_parse_undefined :
    GLTF_ParseFromFile decimalLt2 samplePath (some docExtensionsUsed) = none ∧
    GLTF_ParseFromFile decimalLt2 samplePath (some docExtensionsRequired) = none := by
  decide

/-- C15: a document with `extensionsUsed`, or with `extensionsRequired`, does not
parse. The key is compared with `extensions` first, on the ten bytes of that
name, so it is handed to the parser of the `extensions` object, which fails on
the array: the walker logs the diagnostic of that parser and returns `-1`. The
run of `GLTF_ParseFromFile` then has no defined result, since `internal_parse_json`
calls `GLTF_Free` on the automatic record. -/
theorem parse_extensions_used_fails :
    internal_parse_jsonroot decimalLt2 docExtensionsUsed (tokensOf docExtensionsUsed) 0 {} =
      R.err (-1) ["The expected unprocessed extension is not a json valid object"] ∧
    internal_parse_jsonroot decimalLt2 docExtensionsRequired (tokensOf docExtensionsRequired) 0
        {} =
      R.err (-1) ["The expected unprocessed extension is not a json valid object"] ∧
    GLTF_ParseFromFile decimalLt2 samplePath (some docExtensionsUsed) = none ∧
    GLTF_ParseFromFile decimalLt2 samplePath (some docExtensionsRequired) = none :=
  ⟨extensions_used_walker_fails.1, extensions_used_walker_fails.2,
    extensions_used_parse_undefined.1, extensions_used_parse_undefined.2⟩

/-- The walker and `GLTF_ParseFromFile` on `docRootExtensions`. -/
theorem root_extensions_walker_fails :
    internal_parse_jsonroot decimalLt2 docRootExtensions (tokensOf docRootExtensions) 0 {} =
      R.err (-1) ["The expected unprocessed extension is not a json valid object"] ∧
    GLTF_ParseFromFile decimalLt2 samplePath (some docRootExtensions) = none := by
  decide

/-- The `extensions` object of `docRootExtensions` is read when it stands in a node. -/
theorem node_extensions_read :
    (GLTF_ParseFromFile decimalLt2 samplePath (some docNodeExtensions)).map
        (fun r => (r.1.nodes.map (fun n => n.extensions), r.2)) =
      some ([[{ name := some (cstr "KHR_x"), data := some (cstr "\x7b\x7d") }]], []) := by
  decide

/-- C16: a document with a root `extensions` object does not parse. The root
hands the parser of the object the cursor after the key, and the parser steps
over one more token before it asserts an object, so the assertion meets the
first key of the object: the walker logs the diagnostic and returns `-1`, and the
run of `GLTF_ParseFromFile` then has no defined result, since `internal_parse_json`
calls `GLTF_Free` on the automatic record. The same object in a node, whose
parser is handed the cursor of the key, is read. -/
theorem parse_root_extensions_fails :
    internal_parse_jsonroot decimalLt2 docRootExtensions (tokensOf docRootExtensions) 0 {} =
      R.err (-1) ["The expected unprocessed extension is not a json valid object"] ∧
    GLTF_ParseFromFile decimalLt2 samplePath (some docRootExtensions) = none ∧
    (GLTF_ParseFromFile decimalLt2 samplePath (some docNodeExtensions)).map
        (fun r => (r.1.nodes.map (fun n => n.extensions), r.2)) =
      some ([[{ name := some (cstr "KHR_x"), data := some (cstr "\x7b\x7d") }]], []) :=
  ⟨root_extensions_walker_fails.1, root_extensions_walker_fails.2, node_extensions_read⟩

/-- C17: when `internal_fix_pointers` returns `1`, every required slot of the
asset held an index of its target collection; `PTR_FIX_REQUIRED` on a slot that
is unset, or that holds an index out of range, logs the diagnostic of the
required pointer and makes the function return `0`; `PTR_FIX` on an unset slot
leaves it unset and logs nothing. -/
theorem required_slots_enforced (d e : GLTF2) (l : List String)
    (h : internal_fix_pointers d = some (1, e, l)) :
    (∀ s ∈ requiredSlots d, ∃ i, i < s.2 ∧ s.1 = Ptr.index i) ∧
    (∀ size : Nat, PTR_FIX_REQUIRED Ptr.null size = Fix.ret 0 Ptr.null
      [s!"Required pointer invalid (index 18446744073709551615, max {size})"]) ∧
    (∀ i size : Nat, size ≤ i → PTR_FIX_REQUIRED (Ptr.index i) size = Fix.ret 0 (Ptr.index i)
      [s!"Required pointer invalid (index {i}, max {size})"]) ∧
    (∀ size : Nat, PTR_FIX Ptr.null size = Fix.done Ptr.null) := by
  refine ⟨requiredSlots_of_resolved (assetResolved_of_success h), fun _ => rfl, ?_, fun _ => rfl⟩
  intro i size hle
  simp [PTR_FIX_REQUIRED, hle]

/-- C17 on three assets: in `forwardWalked` the resolver returns `1` and the two
required slots, the children of node 0, hold the indices 1 and 2 of three
nodes; on a buffer view without a buffer and on a scene root out of range it
returns `0` and logs the diagnostic of the required pointer. -/
theorem required_slots_enforced_witness :
    requiredSlots forwardWalked = [(Ptr.index 1, 3), (Ptr.index 2, 3)] ∧
    (∀ s ∈ requiredSlots forwardWalked, ∃ i, i < s.2 ∧ s.1 = Ptr.index i) ∧
    internal_fix_pointers viewWithoutBuffer = some (0, viewWithoutBuffer,
      ["Required pointer invalid (index 18446744073709551615, max 0)"]) ∧
    internal_fix_pointers sceneRootOutOfRange = some (0, sceneRootOutOfRange,
      ["Required pointer invalid (index 3, max 1)"]) :=
  ⟨by decide,
    (required_slots_enforced forwardWalked forwardResolved [] (by decide)).1,
    by decide, by decide⟩

/-- C18, counterexample: the record returned for a GLB header of version 1 is not the empty
asset. `GLTF_ParseFromFile` stores the path in the file information before it reads
the file, and the return after the diagnostic of the version hands back the
record as it is: its `fileInfo.path` is the path argument. -/
theorem glb_version_failure_keeps_path :
    (GLTF_ParseFromFile decimalLt2 samplePath (some (glbHeaderOnly 1))).map
        (fun r => (r.1.fileInfo.path, r.2)) =
      some (some (cstr "a.gltf"), ["Unsupported GLB version: 1 (expected 2)"]) ∧
    (GLTF_ParseFromFile decimalLt2 samplePath (some (glbHeaderOnly 1))).map (fun r => r.1) ≠
      some {} := by
  decide

/-- C18, amended: for a file of at least 12 bytes that starts with the four bytes `glTF`
and whose version field is not 2, `GLTF_ParseFromFile` logs the unsupported
version and returns the record in which nothing but the path of the file
information is set; a file of at least four bytes that does not start with
`glTF` is handed as a whole to the JSON stage: when that stage returns `1` the
call returns its record and its diagnostics, and otherwise the call, which goes
on with `GLTF_Free` on the automatic record, has no defined result. -/
theorem glb_version_rejected (atofLt2 : List Nat → Bool) (c : Nat) (cs ptr : List Nat)
    (hlen : 12 ≤ ptr.length) (hmagic : ptr.take 4 = cstr "glTF") (hver : readU32 ptr 4 ≠ 2) :
    GLTF_ParseFromFile atofLt2 (some (c :: cs)) (some ptr) =
      some ({ fileInfo := { path := some (c :: cs) } },
        [s!"Unsupported GLB version: {readU32 ptr 4} (expected 2)"]) ∧
    (∀ txt : List Nat, 4 ≤ txt.length → txt.take 4 ≠ cstr "glTF" →
      GLTF_ParseFromFile atofLt2 (some (c :: cs)) (some txt) =
        match internal_parse_json atofLt2 0 txt txt.length
            { fileInfo := { path := some (c :: cs), type := 1 } } with
        | R.ub => none
        | R.err _ _ => none
        | R.ok d l => some (d, l)) :=
  ⟨GLTF_ParseFromFile_glb_version hlen hmagic hver,
    fun _ h4 hm => GLTF_ParseFromFile_json h4 hm⟩

/-- C18, amended, on the 12-byte header with version 1, and on the minimal document, which
does not start with `glTF` and is parsed as JSON text. -/
theorem glb_version_rejected_witness :
    GLTF_ParseFromFile decimalLt2 samplePath (some (glbHeaderOnly 1)) =
      some ({ fileInfo := { path := samplePath } }, ["Unsupported GLB version: 1 (expected 2)"]) ∧
    GLTF_ParseFromFile decimalLt2 samplePath (some docMinimal) =
      match internal_parse_json decimalLt2 0 docMinimal docMinimal.length
          { fileInfo := { path := samplePath, type := 1 } } with
      | R.ub => none
      | R.err _ _ => none
      | R.ok d l => some (d, l) :=
  ⟨(glb_version_rejected decimalLt2 97 (cstr ".gltf") (glbHeaderOnly 1) (by decide) (by decide)
      (by decide)).1,
    (glb_version_rejected decimalLt2 97 (cstr ".gltf") (glbHeaderOnly 1) (by decide) (by decide)
      (by decide)).2 docMinimal (by decide) (by decide)⟩

/-- C19, counterexample: the record returned for a GLB file whose header announces another
size is not the empty asset: its `fileInfo.path` is the path argument, stored before
the file is read. -/
theorem glb_size_failure_keeps_path :
    (GLTF_ParseFromFile decimalLt2 samplePath (some glbWrongLength)).map
        (fun r => (r.1.fileInfo.path, r.2)) =
      some (some (cstr "a.gltf"), ["GLB size mismatch (header: 21, actual: 20)"]) ∧
    (GLTF_ParseFromFile decimalLt2 samplePath (some glbWrongLength)).map (fun r => r.1) ≠
      some {} := by
  decide

/-- C19, amended: for a GLB file of version 2 whose header does not announce the size of
the file, `GLTF_ParseFromFile` logs the size mismatch and returns the record in
which nothing but the path of the file information is set, whatever follows
the header. -/
theorem glb_size_mismatch_rejected (atofLt2 : List Nat → Bool) (c : Nat) (cs ptr : List Nat)
    (hlen : 12 ≤ ptr.length) (hmagic : ptr.take 4 = cstr "glTF") (hver : readU32 ptr 4 = 2)
    (hsize : readU32 ptr 8 ≠ ptr.length) :
    GLTF_ParseFromFile atofLt2 (some (c :: cs)) (some ptr) =
      some ({ fileInfo := { path := some (c :: cs) } },
        [s!"GLB size mismatch (header: {readU32 ptr 8}, actual: {ptr.length})"]) :=
  GLTF_ParseFromFile_glb_size hlen hmagic hver hsize

/-- C19, amended, on a file of 20 bytes whose header announces 21. -/
theorem glb_size_mismatch_rejected_witness :
    GLTF_ParseFromFile decimalLt2 samplePath (some glbWrongLength) =
      some ({ fileInfo := { path := samplePath } },
        ["GLB size mismatch (header: 21, actual: 20)"]) :=
  glb_size_mismatch_rejected decimalLt2 97 (cstr ".gltf") glbWrongLength (by decide) (by decide)
    (by decide) (by decide)

/-- C20: a chunk length close to `2^32` is not rejected. In the file
`glbWrappingLength`, of 48 bytes, the JSON chunk announces `2^32 - 16` bytes; the
sum of the offset 20 and the length is taken in 32 bits and is 4, which is not
above 48, so the chunk is handed to the JSON stage with that length, and
`GLTF_ParseFromFile` returns the parsed asset without a diagnostic. -/
theorem parse_wrapping_chunk_length_accepted :
    glbWrappingLength.length = 48 ∧
    readU32 glbWrappingLength 12 = 4294967280 ∧
    addU32 20 (readU32 glbWrappingLength 12) = 4 ∧
    (GLTF_ParseFromFile decimalLt2 samplePath (some glbWrappingLength)).map
        (fun r => (r.1.asset.version, r.1.fileInfo, r.2)) =
      some (some (cstr "2.0"),
        { path := samplePath, jsonTkCount := 5, json := some 20, jsonSize := 4294967280 }, []) := by
  decide



/-- C21: the BIN chunk is copied. For a GLB file (a list of bytes) whose header and
JSON chunk header are accepted and whose JSON chunk parses to the asset `d`:
when the chunk is immediately followed by a chunk of type `0x004E4942` whose
announced length `N` fits in the file, `GLTF_ParseFromFile` returns `d` with
`fileInfo.bin` set to the `N` bytes that follow the chunk header and
`fileInfo.binSize = N`; when the file ends right after the JSON chunk, it
returns `d`, in which `bin` is unset and `binSize` is 0. -/
theorem glb_bin_chunk_copied (atofLt2 : List Nat → Bool) (c : Nat) (cs ptr : List Nat)
    (d : GLTF2) (l : List String)
    (hb : ∀ b ∈ ptr, b < 256) (hlen : 20 ≤ ptr.length) (hmagic : ptr.take 4 = cstr "glTF")
    (hver : readU32 ptr 4 = 2) (hsize : readU32 ptr 8 = ptr.length)
    (htype : readU32 ptr 16 = JSON_CHUNK_TYPE) (hfit : 20 + readU32 ptr 12 ≤ ptr.length)
    (hjson : internal_parse_json atofLt2 20 (ptr.drop 20) (readU32 ptr 12)
      { fileInfo := { path := some (c :: cs) } } = R.ok d l) :
    (∀ N, 20 + readU32 ptr 12 + 8 + N ≤ ptr.length →
      readU32 ptr (20 + readU32 ptr 12) = N →
      readU32 ptr (20 + readU32 ptr 12 + 4) = BIN_CHUNK_TYPE →
      GLTF_ParseFromFile atofLt2 (some (c :: cs)) (some ptr) =
        some ({ d with fileInfo := { d.fileInfo with
            bin := some ((ptr.drop (20 + readU32 ptr 12 + 8)).take N), binSize := N } }, l) ∧
      ((ptr.drop (20 + readU32 ptr 12 + 8)).take N).length = N) ∧
    (20 + readU32 ptr 12 = ptr.length →
      GLTF_ParseFromFile atofLt2 (some (c :: cs)) (some ptr) = some (d, l) ∧
      d.fileInfo.bin = none ∧ d.fileInfo.binSize = 0) := by
  have hs : ptr.length < 4294967296 := hsize ▸ readU32_lt ptr hb 8
  have hrun := GLTF_ParseFromFile_glb atofLt2 c cs ptr hb hlen hmagic
    hver hsize htype hfit
  simp only [hjson] at hrun
  constructor
  · intro N hN hlenN hty
    rw [parseBinChunk_bin d hs hN hlenN hty] at hrun
    refine ⟨by simpa using hrun, ?_⟩
    rw [List.length_take, List.length_drop]
    omega
  · intro hend
    rw [hend, parseBinChunk_end] at hrun
    exact ⟨by simpa using hrun, (internal_parse_json_bin hjson).1, (internal_parse_json_bin hjson).2⟩

/-- C21 on a GLB file with the minimal document and a BIN chunk holding the bytes
1, 2, 3, 4. -/
theorem glb_bin_chunk_copied_witness :
    GLTF_ParseFromFile decimalLt2 samplePath (some glbWithBin) =
        some ({ minimalStage with fileInfo := { minimalStage.fileInfo with
          bin := some [1, 2, 3, 4], binSize := 4 } }, []) ∧
      [1, 2, 3, 4].length = 4 :=
  (glb_bin_chunk_copied decimalLt2 97 (cstr ".gltf") glbWithBin minimalStage [] (by decide)
    (by decide) (by decide) (by decide) (by decide) (by decide) (by decide) (by decide)).1 4
    (by decide) (by decide) (by decide)

/-- C22, counterexample: a BIN chunk behind a chunk of unknown type is not read. The
file `glbUnknownThenBin` holds a JSON chunk, a chunk of type `0x12345678` and, at
offset 57, a BIN chunk of four bytes; `GLTF_ParseFromFile` returns without a
diagnostic the asset of the JSON chunk, with `bin` unset and `binSize` 0. -/
theorem parse_ignores_bin_after_unknown_chunk :
    readU32 glbUnknownThenBin 57 = 4 ∧
    readU32 glbUnknownThenBin 61 = BIN_CHUNK_TYPE ∧
    glbUnknownThenBin.length = 69 ∧
    GLTF_ParseFromFile decimalLt2 samplePath (some glbUnknownThenBin) =
      some (minimalStage, []) ∧
    minimalStage.fileInfo.bin = none := by
  decide

/-- C22, amended: only the chunk that immediately follows the JSON chunk is read.
For a GLB file whose header and JSON chunk header are accepted and whose JSON
chunk parses to the asset `d`, when the JSON chunk is followed by a chunk
header whose type is not `0x004E4942`, `GLTF_ParseFromFile` returns `d` with the
diagnostics of the JSON stage, whatever follows that header, and `bin` is
unset and `binSize` is 0. -/
theorem glb_unknown_chunk_ends_reading (atofLt2 : List Nat → Bool) (c : Nat)
    (cs ptr : List Nat) (d : GLTF2) (l : List String)
    (hb : ∀ b ∈ ptr, b < 256) (hlen : 20 ≤ ptr.length) (hmagic : ptr.take 4 = cstr "glTF")
    (hver : readU32 ptr 4 = 2) (hsize : readU32 ptr 8 = ptr.length)
    (htype : readU32 ptr 16 = JSON_CHUNK_TYPE)
    (hjson : internal_parse_json atofLt2 20 (ptr.drop 20) (readU32 ptr 12)
      { fileInfo := { path := some (c :: cs) } } = R.ok d l)
    (hnext : 20 + readU32 ptr 12 + 8 ≤ ptr.length)
    (hty : readU32 ptr (20 + readU32 ptr 12 + 4) ≠ BIN_CHUNK_TYPE) :
    GLTF_ParseFromFile atofLt2 (some (c :: cs)) (some ptr) = some (d, l) ∧
    d.fileInfo.bin = none ∧ d.fileInfo.binSize = 0 := by
  have hs : ptr.length < 4294967296 := hsize ▸ readU32_lt ptr hb 8
  have hrun := GLTF_ParseFromFile_glb atofLt2 c cs ptr hb hlen hmagic
    hver hsize htype (by omega)
  simp only [hjson] at hrun
  rw [parseBinChunk_other d hs hnext hty] at hrun
  exact ⟨by simpa using hrun, (internal_parse_json_bin hjson).1, (internal_parse_json_bin hjson).2⟩

/-- C22, amended, on the file with an unknown chunk between the JSON chunk and a BIN
chunk. -/
theorem glb_unknown_chunk_ends_reading_witness :
    GLTF_ParseFromFile decimalLt2 (some (97 :: cstr ".gltf")) (some glbUnknownThenBin) =
      some (minimalStage, []) ∧
    minimalStage.fileInfo.bin = none ∧ minimalStage.fileInfo.binSize = 0 :=
  glb_unknown_chunk_ends_reading decimalLt2 97 (cstr ".gltf") glbUnknownThenBin minimalStage []
    (by decide) (by decide) (by decide) (by decide) (by decide) (by decide) (by decide)
    (by decide) (by decide)

/-- C23: the two passes. For every valid JSON text there is a number `n` such that
`jsmn_parse` on a fresh parser with the NULL buffer returns `n`, whatever the
capacity argument, and `jsmn_parse` on a fresh parser with a buffer of exactly `n`
tokens returns `n` with `toknext = n` and `n` tokens in the buffer; with that
capacity it does not return `JSMN_ERROR_NOMEM`. The offsets of this development are
unbounded naturals, which agree with the `unsigned int` offsets of the C code on
the texts shorter than `2^31` bytes of the claim. -/
theorem jsmn_two_passes (js : List Nat) (h : IsJson js) :
    ∃ n : Nat,
      (∀ c, ∃ out, jsmn_parse jsmn_init js js.length none c = some out ∧ out.r = n ∧
        out.tokens = none) ∧
      ∃ out toks, jsmn_parse jsmn_init js js.length (some []) n = some out ∧ out.r = n ∧
        out.parser.toknext = n ∧ out.tokens = some toks ∧ toks.length = n ∧
        out.r ≠ JSMN_ERROR_NOMEM := by
  obtain ⟨ws1, v, ws2, h1, hv, h2, rfl⟩ := h
  refine ⟨v.count, fun c => ⟨_, jsmn_parse_count_pass ws1 v ws2 c h1 hv h2, rfl, rfl⟩,
    _, _, jsmn_parse_fill_pass ws1 v ws2 v.count h1 hv h2 (Nat.le_refl _), rfl, rfl, rfl,
    value_tokens_length v _, ?_⟩
  show ((v.count : Nat) : Int) ≠ -1
  omega

/-- C23 on the text `{"a": [1, {"b": "x"}], "c": null}` followed by a line feed. -/
theorem jsmn_two_passes_witness :
    ∃ n : Nat,
      (∀ c, ∃ out, jsmn_parse jsmn_init (docNested.render ++ [10])
        (docNested.render ++ [10]).length none c = some out ∧ out.r = n ∧ out.tokens = none) ∧
      ∃ out toks, jsmn_parse jsmn_init (docNested.render ++ [10])
        (docNested.render ++ [10]).length (some []) n = some out ∧ out.r = n ∧
        out.parser.toknext = n ∧ out.tokens = some toks ∧ toks.length = n ∧
        out.r ≠ JSMN_ERROR_NOMEM :=
  jsmn_two_passes (docNested.render ++ [10])
    ⟨[], docNested, [10], by decide, by decide, by decide, rfl⟩

/-- C24: the capacity of the buffer is respected. In this development the buffer of
`jsmn_parse` is the list of the token slots allocated so far, which are the only
slots written. For every text and every capacity `c`, the filling pass started
on a fresh parser returns, with a buffer that holds `toknext` slots, and
`toknext ≤ c`. When the pass returns the count `n` with a capacity `n` above `c`,
the pass with capacity `c` returns `JSMN_ERROR_NOMEM`. -/
theorem jsmn_capacity_respected (js : List Nat) (c : Nat) :
    (∃ out toks, jsmn_parse jsmn_init js js.length (some []) c = some out ∧
      out.tokens = some toks ∧ toks.length = out.parser.toknext ∧ out.parser.toknext ≤ c) ∧
    (∀ (n : Nat) (out : JsmnOut), c < n →
      jsmn_parse jsmn_init js js.length (some []) n = some out → out.r = (n : Int) →
      ∃ out1, jsmn_parse jsmn_init js js.length (some []) c = some out1 ∧
        out1.r = JSMN_ERROR_NOMEM) := by
  obtain ⟨out, toks, h1, h2, h3, h4, -, -⟩ := @jsmn_parse_loop_total js js.length c
    (Nat.le_refl js.length) (js.length - jsmn_init.pos) jsmn_init [] 0 (Nat.le_refl _) (Nat.zero_le _)
    (TokWF_init c)
  refine ⟨⟨out, toks, h1, h2, h3, h4⟩, fun n outn hcn hn hr => ?_⟩
  rcases jsmn_parse_loop_capacity (Nat.le_refl js.length) (Nat.le_of_lt hcn)
    (js.length - jsmn_init.pos) jsmn_init [] 0 (Nat.le_refl _) (Nat.zero_le _) (TokWF_init c) with
    he | ⟨out1, ho1, hr1⟩
  · exfalso
    obtain ⟨o2, t2, g1, -, -, -, -, g6⟩ := @jsmn_parse_loop_total js js.length n
      (Nat.le_refl js.length) (js.length - jsmn_init.pos) jsmn_init [] 0 (Nat.le_refl _) (Nat.zero_le _)
      (TokWF_init n)
    rw [jsmn_parse_init] at hn
    rw [hn] at g1
    cases g1
    rw [he, hn] at h1
    cases h1
    have := g6 (by rw [hr]; exact Int.ofNat_nonneg n)
    rw [hr] at this
    simp only [jsmn_init, Nat.cast_zero, sub_self] at this
    omega
  · exact ⟨out1, ho1, hr1⟩

/-- C24 on the text `[1,2]`, which needs three tokens, with a buffer of one
token. -/
theorem jsmn_capacity_respected_witness :
    ∃ out1, jsmn_parse jsmn_init (cstr "[1,2]") (cstr "[1,2]").length (some []) 1 = some out1 ∧
      out1.r = JSMN_ERROR_NOMEM :=
  (jsmn_capacity_respected (cstr "[1,2]") 1).2 3
    { r := 3, parser := { pos := 5, toknext := 3, toksuper := -1 },
      tokens := some [{ type := JSMN_ARRAY, start := 0, end_ := 5, size := 2 },
        { type := JSMN_PRIMITIVE, start := 1, end_ := 2, size := 0 },
        { type := JSMN_PRIMITIVE, start := 3, end_ := 4, size := 0 }] }
    (by decide) (by decide) rfl

/-- C25: the tokens of a valid text. For a JSON text made of white space, the text of
a value that follows the grammar, and white space, `jsmn_parse` on a fresh parser
with room for the tokens returns their number and leaves in the buffer exactly
the tokens `JValue.tokens`: an Object token has the number of the key/value pairs
of its object as size, an Array token the number of its elements, the String
token of a key has size 1, every other String and every Primitive has size 0,
and a String token starts just past its opening quote and ends on its closing
quote. -/
theorem jsmn_tokens_of_valid_text (ws1 : List Nat) (v : JValue) (ws2 : List Nat) (c : Nat)
    (h1 : ws1.all isWs = true) (hv : v.wf = true) (h2 : ws2.all isWs = true)
    (hc : v.count ≤ c) :
    ∃ out, jsmn_parse jsmn_init (ws1 ++ v.render ++ ws2) (ws1 ++ v.render ++ ws2).length
        (some []) c = some out ∧
      out.r = v.count ∧ out.tokens = some (v.tokens ws1.length) :=
  ⟨_, jsmn_parse_fill_pass ws1 v ws2 c h1 hv h2 hc, rfl, rfl⟩

/-- C25 on the text `{"a": [1, {"b": "x"}], "c": null}` after a space, with its nine
tokens written out. -/
theorem jsmn_tokens_of_valid_text_witness :
    (∃ out, jsmn_parse jsmn_init ([32] ++ docNested.render ++ [])
        ([32] ++ docNested.render ++ []).length (some []) 9 = some out ∧
      out.r = docNested.count ∧ out.tokens = some (docNested.tokens [32].length)) ∧
    docNested.tokens 1 =
      [{ type := JSMN_OBJECT, start := 1, end_ := 34, size := 2 },
       { type := JSMN_STRING, start := 3, end_ := 4, size := 1 },
       { type := JSMN_ARRAY, start := 7, end_ := 22, size := 2 },
       { type := JSMN_PRIMITIVE, start := 8, end_ := 9, size := 0 },
       { type := JSMN_OBJECT, start := 11, end_ := 21, size := 1 },
       { type := JSMN_STRING, start := 13, end_ := 14, size := 1 },
       { type := JSMN_STRING, start := 18, end_ := 19, size := 0 },
       { type := JSMN_STRING, start := 25, end_ := 26, size := 1 },
       { type := JSMN_PRIMITIVE, start := 29, end_ := 33, size := 0 }] :=
  ⟨jsmn_tokens_of_valid_text [32] docNested [] 9 (by decide) (by decide) (by decide) (by decide),
    by decide⟩

/-- C26, counterexample: the text `{"a":1}` follows the grammar, has one key/value
pair and tokenizes to three tokens; the sizes of its Object tokens sum to 1,
which is not twice the number of pairs. -/
theorem jsmn_object_sizes_not_twice :
    docOnePair.wf = true ∧ docOnePair.pairs = 1 ∧
    ∃ out toks, jsmn_parse jsmn_init docOnePair.render docOnePair.render.length (some []) 3 =
        some out ∧
      out.r = 3 ∧ out.tokens = some toks ∧ objectSizeSum toks = 1 ∧
      objectSizeSum toks ≠ 2 * (docOnePair.pairs : Int) :=
  ⟨by decide, by decide,
    { r := 3, parser := { pos := 7, toknext := 3, toksuper := -1 },
      tokens := some [{ type := JSMN_OBJECT, start := 0, end_ := 7, size := 1 },
        { type := JSMN_STRING, start := 2, end_ := 3, size := 1 },
        { type := JSMN_PRIMITIVE, start := 5, end_ := 6, size := 0 }] },
    _, by decide, by decide, rfl, by decide, by decide⟩

/-- C26, amended: for a JSON text made of white space, the text of a value that
follows the grammar, and white space, which `jsmn_parse` tokenizes with room for
its tokens, the sizes of the Object tokens of the buffer sum to the number of
key/value pairs of the text. -/
theorem jsmn_object_sizes_sum (ws1 : List Nat) (v : JValue) (ws2 : List Nat) (c : Nat)
    (h1 : ws1.all isWs = true) (hv : v.wf = true) (h2 : ws2.all isWs = true)
    (hc : v.count ≤ c) :
    ∃ out toks, jsmn_parse jsmn_init (ws1 ++ v.render ++ ws2) (ws1 ++ v.render ++ ws2).length
        (some []) c = some out ∧
      out.r = v.count ∧ out.tokens = some toks ∧ objectSizeSum toks = v.pairs :=
  ⟨_, _, jsmn_parse_fill_pass ws1 v ws2 c h1 hv h2 hc, rfl, rfl,
    value_objectSizeSum v ws1.length⟩

/-- C26, amended, on the text `{"a": [1, {"b": "x"}], "c": null}`, which has three
key/value pairs. -/
theorem jsmn_object_sizes_sum_witness :
    (∃ out toks, jsmn_parse jsmn_init ([] ++ docNested.render ++ [])
        ([] ++ docNested.render ++ []).length (some []) 16 = some out ∧
      out.r = docNested.count ∧ out.tokens = some toks ∧
      objectSizeSum toks = docNested.pairs) ∧ docNested.pairs = 3 :=
  ⟨jsmn_object_sizes_sum [] docNested [] 16 (by decide) (by decide) (by decide) (by decide),
    by decide⟩

/-- C27: unmatched brackets and open containers. Whenever the loop of `jsmn_parse`,
with a buffer in which no allocation has failed, reaches a closing bracket
while no token is open, or while the innermost open token is a container of
the other kind, `jsmn_parse` returns `JSMN_ERROR_INVAL`. Whenever it reaches the end of
the text, or a NUL byte, while a token is open, and whenever it reaches a quote
whose string is not closed before the end of the text, `jsmn_parse` returns
`JSMN_ERROR_PART`. -/
theorem jsmn_unmatched_and_open (js : List Nat) (cap : Nat) (parser : JsmnParser)
    (toks : List jsmntok_t) (count : Int) (h : Reaches js cap parser toks count) :
    (∀ c, js[parser.pos]? = some c → (c = 125 ∨ c = 93) →
      (findDown isOpen toks parser.toknext = none ∨
        ∃ i t, findDown isOpen toks parser.toknext = some i ∧ toks[i]? = some t ∧
          t.type ≠ (if c = 125 then JSMN_OBJECT else JSMN_ARRAY)) →
      (jsmn_parse jsmn_init js js.length (some []) cap).map (fun o => o.r) =
        some JSMN_ERROR_INVAL) ∧
    ((js.length ≤ parser.pos ∨ js[parser.pos]? = some 0) →
      findDown isOpen toks parser.toknext ≠ none →
      (jsmn_parse jsmn_init js js.length (some []) cap).map (fun o => o.r) =
        some JSMN_ERROR_PART) ∧
    (js[parser.pos]? = some 34 →
      stringScan js js.length (js.length + 1 - parser.pos) (parser.pos + 1) =
        some StringScan.part →
      (jsmn_parse jsmn_init js js.length (some []) cap).map (fun o => o.r) =
        some JSMN_ERROR_PART) := by
  obtain ⟨hwf, hpl, hrun⟩ := h.run
  obtain ⟨m, hm⟩ : ∃ m, js.length + 1 - parser.pos = m + 1 := ⟨js.length - parser.pos, by omega⟩
  rw [hrun, hm]
  refine ⟨fun c hc hcl hopen => ?_, fun hend hopen => ?_, fun hc hscan => ?_⟩
  · have hp : parser.pos < js.length := (List.getElem?_eq_some_iff.mp hc).1
    rw [jsmn_parse_loop_step hp hc (by omega)]
    rcases hopen with hf | ⟨i, t, hf, ht, hty⟩
    · rw [jsmn_parse_case_close_unmatched hcl hf]
      rfl
    · rw [jsmn_parse_case_close_mismatch hcl hf ht hty]
      rfl
  · rw [jsmn_parse_loop_end (hend.imp (fun h => by omega) id)]
    unfold jsmn_parse_end
    simp only
    cases hf : findDown isOpen toks parser.toknext with
    | none => exact absurd hf hopen
    | some i => rfl
  · have hp : parser.pos < js.length := (List.getElem?_eq_some_iff.mp hc).1
    rw [← hm] at hscan
    rw [jsmn_parse_loop_step hp hc (by decide), jsmn_parse_case_quote]
    unfold jsmn_parse_string
    simp only [hscan]
    rw [if_pos (by decide)]
    rfl

/-- C27 on the text of one closing brace, and the values that `jsmn_parse` returns, with
a buffer of eight tokens, on the six texts that the claim names. -/
theorem jsmn_unmatched_and_open_witness :
    (jsmn_parse jsmn_init (cstr "\x7d") (cstr "\x7d").length (some []) 8).map (fun o => o.r) =
        some JSMN_ERROR_INVAL ∧
    [cstr "\x7d", cstr "[\x7d", cstr "\x7b]", cstr "\x7b\"a\":1", cstr "[1,2", cstr "\"abc"].map
        (fun js => (jsmn_parse jsmn_init js js.length (some []) 8).map (fun o => o.r)) =
      [some (-2), some (-2), some (-2), some (-3), some (-3), some (-3)] :=
  ⟨(jsmn_unmatched_and_open (cstr "\x7d") 8 jsmn_init [] 0 Reaches.start).1 125 (by decide)
      (Or.inl rfl) (Or.inl (by decide)),
    by decide⟩

/-- C28: `json_strncmp` reports a match for a token that is longer than the
literal. The text `"nodesX"` is one string token with the content `nodesX`, of
six bytes; compared with the literal `nodes`, of five bytes, `json_strncmp`
returns 0: it compares the first five bytes of the token, the length of the
literal, and never looks at the length of the token. -/
theorem json_strncmp_matches_longer_token :
    tokensOf docLongerKey = [{ type := JSMN_STRING, start := 1, end_ := 7, size := 0 }] ∧
    (docLongerKey.drop 1).take 6 = cstr "nodesX" ∧
    cstr "nodesX" ≠ cstr "nodes" ∧
    json_strncmp docLongerKey (tokensOf docLongerKey) 0 "nodes" = R.ok 0 [] := by
  decide

/-- C29: the classification of attribute names by `internal_parse_attribute_type`, called on
the zeroed element of the attribute array (index 0). A name that starts with
an underscore is Custom. A name without an underscore has the kind that the
specification gives to the whole name, one of the seven categories when the
name is exactly POSITION, NORMAL, TANGENT, TEXCOORD, COLOR, JOINTS or WEIGHTS
and Invalid otherwise, with index 0. For a name `p_s` whose first part `p` is
not a category the kind is Invalid, with index 0. For a category `p` and
`n < 2^31` the name `p_n`, with `n` in decimal, has the kind of `p` and the
index `n`, and the name `p_-n` with `1 ≤ n ≤ 2^31` is Invalid with index 0.
The loop of `internal_parse_attribute_list` keeps every entry whatever its kind: the
array has one element for each key, made of the name of the key, the
classification of that name and the accessor index of the value. -/
theorem attribute_name_classified :
    (∀ rest : List Nat,
      internal_parse_attribute_type (95 :: rest) 0 = R.ok (AttributeType_Custom, 0) []) ∧
    (∀ p : List Nat, 95 ∉ p →
      internal_parse_attribute_type p 0 = R.ok (specAttributeKind p, 0) []) ∧
    (∀ p s : List Nat, 95 ∉ p → p ≠ [] → specAttributeKind p = AttributeType_Invalid →
      internal_parse_attribute_type (p ++ 95 :: s) 0 = R.ok (AttributeType_Invalid, 0) []) ∧
    (∀ (p : List Nat) (n : Nat), specAttributeKind p ≠ AttributeType_Invalid → n < 2147483648 →
      internal_parse_attribute_type (p ++ 95 :: decimal n) 0 =
        R.ok (specAttributeKind p, (n : Int)) []) ∧
    (∀ (p : List Nat) (n : Nat), specAttributeKind p ≠ AttributeType_Invalid → 1 ≤ n →
      n ≤ 2147483648 →
      internal_parse_attribute_type (p ++ 95 :: 45 :: decimal n) 0 =
        R.ok (AttributeType_Invalid, 0) []) ∧
    (∀ (data : List Nat) (tokens : List jsmntok_t) (n tk : Nat),
      (internal_parse_attribute_list_loop data tokens n tk).Holds (fun r => r.2.length = n ∧
        (0 < n → ∃ tk1 name l0 kind lk v l1 rest,
          json_parse_string data tokens tk = R.ok (tk1, some name) l0 ∧
          internal_parse_attribute_type name 0 = R.ok kind lk ∧
          json_to_int data tokens tk1 = R.ok v l1 ∧
          r.2 = { name := some name, type := kind.1, index := kind.2, data := PTR_TO_INDEX v }
            :: rest))) := by
  refine ⟨fun rest => ?_, fun p hp => attribute_type_bare p hp 0, fun p s hp hne hk => ?_,
    fun p n hk hn => ?_, fun p n hk h1 hn => ?_, attribute_list_loop_kept⟩
  · unfold internal_parse_attribute_type
    rw [if_pos (by rfl)]
  · rw [attribute_type_suffix p s hp hne 0, if_neg (not_not.mpr hk), hk]
  · obtain ⟨hp, hne⟩ := specAttributeKind_valid p hk
    rw [attribute_type_suffix p _ hp hne 0, if_pos hk, atoi_decimal n hn]
    simp only
    rw [if_neg (by omega)]
  · obtain ⟨hp, hne⟩ := specAttributeKind_valid p hk
    rw [attribute_type_suffix p _ hp hne 0, if_pos hk, atoi_minus_decimal n hn]
    simp only
    rw [if_pos (by omega)]

/-- C29 on the names `TEXCOORD_12` and `JOINTS_-1`, and on an attributes object with
the keys `FOO_1` and `POSITION`: the entry of kind Invalid is kept with its name
and its accessor. -/
theorem attribute_name_classified_witness :
    internal_parse_attribute_type (cstr "TEXCOORD_12") 0 = R.ok (AttributeType_TexCoord, 12) [] ∧
    internal_parse_attribute_type (cstr "JOINTS_-1") 0 = R.ok (AttributeType_Invalid, 0) [] ∧
    internal_parse_attribute_list docAttributes (tokensOf docAttributes) 0 =
      R.ok (5, [{ name := some (cstr "FOO_1"), type := AttributeType_Invalid, index := 0,
                  data := Ptr.index 3 },
                { name := some (cstr "POSITION"), type := AttributeType_Position, index := 0,
                  data := Ptr.index 0 }]) [] :=
  ⟨attribute_name_classified.2.2.2.1 (cstr "TEXCOORD") 12 (by decide) (by decide),
    attribute_name_classified.2.2.2.2.1 (cstr "JOINTS") 1 (by decide) (by decide) (by decide),
    by decide⟩

/-- C30: a texture view does not have scale 1 whenever the JSON does not set its scale. In
the asset parsed from `docMaterialViews` the second material, whose occlusion
texture gives a strength of 0.5 and no scale, has 0.5 as the scale of that
texture view and 0 as its strength: the branch of the key `strength` in
`internal_parse_texture_view` assigns the field `scale`, and no statement writes
the field `strength`. The first material, given as an empty object, has scale 0
in its five texture views: the default 1.0 is written by
`internal_parse_texture_view` only, which runs for the views that the JSON
gives. -/
theorem parse_texture_view_scale_not_one :
    (GLTF_ParseFromFile decimalLt2 samplePath (some docMaterialViews)).map
        (fun r => (r.1.materials.map (fun m =>
          ([m.normalTexture.scale, m.occlusionTexture.scale, m.emissiveTexture.scale,
            m.PBRmetallicRoughness.baseColorTexture.scale,
            m.PBRmetallicRoughness.metallicRoughnessTexture.scale],
            m.occlusionTexture.strength)), r.2)) =
      some ([([CFloat.zero, CFloat.zero, CFloat.zero, CFloat.zero, CFloat.zero], CFloat.zero),
        ([CFloat.zero, CFloat.atof (cstr "0.5"), CFloat.zero, CFloat.zero, CFloat.zero],
          CFloat.zero)], []) := by
  decide

/-- C31, counterexample: for a string the stored extras is not the source text of the
value. In the document `{"asset":{"version":"2.0","extras":"abc"}}` the value of
`extras` is the five bytes `"abc"` at offset 35; `GLTF_ParseFromFile` stores the
three bytes `abc`, without the quotes. -/
theorem parse_string_extras_without_quotes :
    (docStringExtras.drop 35).take 5 = cstr "\"abc\"" ∧
    (GLTF_ParseFromFile decimalLt2 samplePath (some docStringExtras)).map
      (fun r => (r.1.asset.extras, r.2)) = some (some (cstr "abc"), []) ∧
    cstr "abc" ≠ cstr "\"abc\"" := by
  decide

/-- C31, amended: the stored extras string is a copy of the text that the token of the value
delimits. For a value `v` that follows the grammar, whose text stands in `data` at
the offset `q` and whose tokens stand in the buffer at the index `i`,
`internal_parse_extras` returns the cursor `i + v.count`, which is the index that
`json_parse_skip` returns for the subtree of the value, and the string
`v.rawSlice`: the text between the quotes for a string, and exactly the source
text of the value for an object, an array, a number or a boolean. On the key
`extras` of a node the walker stores this string in the node and returns the
cursor behind the value. -/
theorem extras_copy_of_token_text (data : List Nat) (tokens : List jsmntok_t) (v : JValue)
    (q i : Nat) (hv : v.wf = true) (htxt : v.render <+: data.drop q)
    (htok : v.tokens q <+: tokens.drop i) :
    internal_parse_extras data tokens i = R.ok (i + v.count, some v.rawSlice) [] ∧
    json_parse_skip tokens i = R.ok (i + v.count) [] ∧
    (∀ body, v = JValue.str body → v.rawSlice = body ∧ v.render = 34 :: body ++ [34]) ∧
    ((∀ body, v ≠ JValue.str body) → v.rawSlice = v.render) ∧
    (∀ (node : GLTF_Node) (p k : Nat) (ws1 ws2 ws3 ws4 : List Nat) (rest : JMembers),
      (JMembers.cons ws1 (cstr "extras") ws2 ws3 v ws4 rest).wf = true →
      (JMembers.cons ws1 (cstr "extras") ws2 ws3 v ws4 rest).render <+: data.drop p →
      (JMembers.cons ws1 (cstr "extras") ws2 ws3 v ws4 rest).tokens p <+: tokens.drop k →
      nodeKey data tokens k node =
        R.ok (k + 1 + v.count, { node with extras := some v.rawSlice }) []) :=
  ⟨internal_parse_extras_value v q i hv htxt htok, json_parse_skip_value tokens v q i htok,
    fun _ e => by subst e; exact ⟨rfl, rfl⟩, rawSlice_not_string v,
    fun node _ _ _ _ _ _ _ hwf hx ht => nodeKey_extras node hwf hx ht⟩

/-- C31, amended, on the text `{"extras":[1,"a"]}`, whose value `[1,"a"]` stands at offset 10
and at token 2: the stored string is the text `[1,"a"]` and the cursor is 5, for
the function and for the key of a node. -/
theorem extras_copy_of_token_text_witness :
    internal_parse_extras docExtrasArray.render (docExtrasArray.tokens 0) 2 =
      R.ok (5, some (cstr "[1,\"a\"]")) [] ∧
    nodeKey docExtrasArray.render (docExtrasArray.tokens 0) 1 {} =
      R.ok (5, { extras := some (cstr "[1,\"a\"]") }) [] :=
  have h := extras_copy_of_token_text docExtrasArray.render (docExtrasArray.tokens 0)
    valueArrayOneA 10 2 (by decide) (by decide) (by decide)
  ⟨h.1, h.2.2.2.2 {} 1 1 [] [] [] [] JMembers.nil (by decide) (by decide) (by decide)⟩

/-- C32: the unprocessed extensions of an entity. For an `extensions` key at the token
`i` whose value is an object with the members `ms`, which follow the grammar, with
its text at the offset `q` of `data` and its tokens at the index `i + 1`: when every
member has an object as value, `internal_parse_unprocessed_extensions` returns the
cursor behind the object and the list `ms.extensionsOf`, which has one entry for
each member in the order of the document, with the content of the key as name
and the text of the value, braces included, as data; when some member has a
value that is not an object it returns the error -1. On the key `extensions` of
a node the walker stores that list in the node, and fails with -1 in the second
case. -/
theorem unprocessed_extensions_in_order (data : List Nat) (tokens : List jsmntok_t)
    (ws : List Nat) (ms : JMembers) (q i : Nat) (hwf : ms.wf = true)
    (htxt : (JValue.obj ws ms).render <+: data.drop q)
    (htok : (JValue.obj ws ms).tokens q <+: tokens.drop (i + 1)) :
    (ms.allObjects = true →
      internal_parse_unprocessed_extensions data tokens i =
        R.ok (i + 1 + (JValue.obj ws ms).count, ms.extensionsOf) [] ∧
      ms.extensionsOf.length = ms.length) ∧
    (ms.allObjects = false →
      ∃ l, internal_parse_unprocessed_extensions data tokens i = R.err (-1) l) ∧
    (∀ (node : GLTF_Node) (p : Nat) (ws1 ws2 ws3 ws4 : List Nat) (rest : JMembers),
      (JMembers.cons ws1 (cstr "extensions") ws2 ws3 (JValue.obj ws ms) ws4 rest).render <+:
        data.drop p →
      (JMembers.cons ws1 (cstr "extensions") ws2 ws3 (JValue.obj ws ms) ws4 rest).tokens p <+:
        tokens.drop i →
      (ms.allObjects = true →
        nodeKey data tokens i node =
          R.ok (i + 1 + (JValue.obj ws ms).count, { node with extensions := ms.extensionsOf })
            []) ∧
      (ms.allObjects = false → ∃ l, nodeKey data tokens i node = R.err (-1) l)) := by
  obtain ⟨x, t⟩ := object_inner htxt htok
  have hstart := @internal_parse_unprocessed_extensions_object data tokens ws ms q i htok
  have hobj : ms.allObjects = true →
      internal_parse_unprocessed_extensions data tokens i =
        R.ok (i + 1 + (JValue.obj ws ms).count, ms.extensionsOf) [] := fun hall => by
    rw [hstart, extensions_loop_objects data tokens ms _ _ hwf hall x t]
    simp only [JValue.count, Nat.add_comm, Nat.add_left_comm, Nat.add_assoc]
  have hother : ms.allObjects = false →
      ∃ l, internal_parse_unprocessed_extensions data tokens i = R.err (-1) l := fun hall => by
    rw [hstart]
    exact extensions_loop_other data tokens ms _ _ hwf hall x t
  refine ⟨fun hall => ⟨hobj hall, extensionsOf_length ms⟩, hother, ?_⟩
  intro node p ws1 ws2 ws3 ws4 rest hx ht
  have hk := nodeKey_extensions node hx ht
  refine ⟨fun hall => ?_, fun hall => ?_⟩
  · rw [hk, hobj hall]
    rfl
  · obtain ⟨l, hl⟩ := hother hall
    rw [hk, hl]
    exact ⟨_, rfl⟩

/-- C32 on the text `{"extensions":{"A":{},"B":{"x":1}}}`, whose object of extensions stands
at offset 14 and at token 2: two entries, `A` with the data `{}` and `B` with the
data `{"x":1}`, and the cursor 9. -/
theorem unprocessed_extensions_in_order_witness :
    membersTwoExtensions.allObjects = true ∧
    internal_parse_unprocessed_extensions docExtensions.render (docExtensions.tokens 0) 1 =
      R.ok (9, [{ name := some (cstr "A"), data := some (cstr "\x7b\x7d") },
        { name := some (cstr "B"), data := some (cstr "\x7b\"x\":1\x7d") }]) [] ∧
    nodeKey docExtensions.render (docExtensions.tokens 0) 1 {} =
      R.ok (9, { extensions := [{ name := some (cstr "A"), data := some (cstr "\x7b\x7d") },
        { name := some (cstr "B"), data := some (cstr "\x7b\"x\":1\x7d") }] }) [] :=
  have h := unprocessed_extensions_in_order docExtensions.render (docExtensions.tokens 0) []
    membersTwoExtensions 14 1 (by decide) (by decide) (by decide)
  ⟨by decide, (h.1 (by decide)).1,
    (h.2.2 {} 1 [] [] [] [] JMembers.nil (by decide) (by decide)).1 (by decide)⟩

/-- C33: a per-entity parser can return a cursor inside the object it has read. On
the tokens of `{"byteLength":[1]}`, `internal_parse_buffer` returns the cursor 3, the element
of the array, where `json_parse_skip` returns 4: the branch of `byteLength` adds 2 to the
cursor whatever the value is. In `docBufferThenNode`, whose buffer has an array of two
strings as `byteLength`, the root loop then takes the strings of the array for
a key and its value and ends before the key `nodes`: `GLTF_ParseFromFile` returns
without a diagnostic an asset with the buffer and no node. -/
theorem parse_buffer_cursor_inside_object :
    (internal_parse_buffer docByteLengthArray (tokensOf docByteLengthArray) 0 {}).bind
        (fun r => R.ok r.1 []) = R.ok 3 [] ∧
    json_parse_skip (tokensOf docByteLengthArray) 0 = R.ok 4 [] ∧
    (GLTF_ParseFromFile decimalLt2 samplePath (some docBufferThenNode)).map
        (fun r => (r.1.buffers, r.1.nodes, r.2)) =
      some ([{ size := 18446744073709551615 }], [], []) := by
  decide

/-- C34: a key that is not a string is accepted when its token has a child. In
`docPrimitiveKey` the key `5` of the root is a primitive token of size 1; the assertion
of the key loop, `type == JSMN_STRING || size != 0`, holds for it, no key name matches
and the pair is skipped: `GLTF_ParseFromFile` returns the asset of the document
without a diagnostic. -/
theorem parse_primitive_key_accepted :
    (tokensOf docPrimitiveKey)[5]? =
      some { type := JSMN_PRIMITIVE, start := 27, end_ := 28, size := 1 } ∧
    keyAssert (tokensOf docPrimitiveKey) 5 = R.ok () [] ∧
    (GLTF_ParseFromFile decimalLt2 samplePath (some docPrimitiveKey)).map
        (fun r => (r.1.asset.version, r.1.fileInfo.jsonTkCount, r.2)) =
      some (some (cstr "2.0"), 7, []) := by
  decide

/-- C35: `json_parse_skip` on the tokens of a valid text. For a JSON text made of white space,
the text of a value `v` that follows the grammar, and white space, the tokenizer
fills a buffer of `v.count` tokens, and for every index `i` of the buffer
`json_parse_skip` returns the entry `i` of `v.skipEnds 0`, the index of the first
token behind the subtree of the token `i`: `i + 1` for a String or a Primitive,
and for an Object or an Array the index behind all of its nested keys and
values. On a token of type `JSMN_UNDEFINED`, which is what the slot behind the
buffer holds, it returns -1. -/
theorem json_parse_skip_subtree (ws1 : List Nat) (v : JValue) (ws2 : List Nat)
    (h1 : ws1.all isWs = true) (hv : v.wf = true) (h2 : ws2.all isWs = true) :
    ∃ out toks,
      jsmn_parse jsmn_init (ws1 ++ v.render ++ ws2) (ws1 ++ v.render ++ ws2).length (some [])
        v.count = some out ∧
      out.tokens = some toks ∧ toks.length = v.count ∧ (v.skipEnds 0).length = v.count ∧
      (∀ i e, (v.skipEnds 0)[i]? = some e → json_parse_skip toks i = R.ok e []) ∧
      (∀ i t, toks[i]? = some t → t.type = JSMN_PRIMITIVE ∨ t.type = JSMN_STRING →
        json_parse_skip toks i = R.ok (i + 1) [] ∧ (v.skipEnds 0)[i]? = some (i + 1)) ∧
      json_parse_skip toks v.count = R.err (-1) [] ∧
      ∀ (tokens : List jsmntok_t) (i : Nat), tokType tokens i = R.ok JSMN_UNDEFINED [] →
        json_parse_skip tokens i = R.err (-1) [] := by
  have hpre : v.tokens ws1.length <+: (v.tokens ws1.length).drop 0 := by
    rw [List.drop_zero]
  have hat : ∀ i e, (v.skipEnds 0)[i]? = some e →
      json_parse_skip (v.tokens ws1.length) i = R.ok e [] := fun i e h => by
    have := skip_at_value (v.tokens ws1.length) v ws1.length 0 i e hpre h
    rwa [Nat.zero_add] at this
  refine ⟨_, _, jsmn_parse_fill_pass ws1 v ws2 v.count h1 hv h2 (Nat.le_refl _), rfl,
    value_tokens_length v _, value_skipEnds_length v 0, hat, ?_, ?_,
    json_parse_skip_undefined⟩
  · intro i t ht hty
    have hleaf := json_parse_skip_leaf ht hty
    have hlt : i < (v.skipEnds 0).length := by
      rw [value_skipEnds_length, ← value_tokens_length v ws1.length]
      exact (List.getElem?_eq_some_iff.mp ht).1
    obtain ⟨e, he⟩ : ∃ e, (v.skipEnds 0)[i]? = some e :=
      ⟨_, List.getElem?_eq_getElem hlt⟩
    have := hat i e he
    rw [hleaf] at this
    injection this with h3
    rw [he, ← h3]
    exact ⟨hleaf, rfl⟩
  · refine json_parse_skip_undefined _ _ ?_
    unfold tokType
    rw [if_neg (by rw [value_tokens_length]; omega), if_pos (value_tokens_length v _).symm]

/-- C35 on the text `{"a": [1, {"b": "x"}], "c": null}` followed by a line feed, with its nine
tokens: the object ends at 9, the key `a` at 2, the array at 7, the number at 4,
the inner object at 7, and the slot behind the buffer gives -1. -/
theorem json_parse_skip_subtree_witness :
    docNested.skipEnds 0 = [9, 2, 7, 4, 7, 6, 7, 8, 9] ∧
    ∃ out toks,
      jsmn_parse jsmn_init (docNested.render ++ [10]) (docNested.render ++ [10]).length
        (some []) 9 = some out ∧
      out.tokens = some toks ∧
      json_parse_skip toks 0 = R.ok 9 [] ∧ json_parse_skip toks 1 = R.ok 2 [] ∧
      json_parse_skip toks 2 = R.ok 7 [] ∧ json_parse_skip toks 3 = R.ok 4 [] ∧
      json_parse_skip toks 4 = R.ok 7 [] ∧ json_parse_skip toks 9 = R.err (-1) [] :=
  have ⟨out, toks, p1, p2, _, _, p5, _, p7, _⟩ :=
    json_parse_skip_subtree [] docNested [10] (by decide) (by decide) (by decide)
  ⟨by decide, out, toks, p1, p2, p5 0 9 (by decide), p5 1 2 (by decide), p5 2 7 (by decide),
    p5 3 4 (by decide), p5 4 7 (by decide), p7⟩

/-- C36: `json_parse_array_float` enforces the exact length. For a buffer whose tokens lie in
the text, an index `i` of the buffer or of the slot behind it, and an output
array with room for `size` values: when `tokens[i]` is an Array of size `size`
and the `size` tokens that follow it are Primitives, the function returns
`i + 1 + size` and an output array whose entry `k` below `size` is the value
`json_to_float` of the token `i + 1 + k`, the other entries being unchanged;
in every other case it returns -1. The elements are tested for being Primitive
tokens only, so the numbers of the claim are the Primitive tokens. On the keys
`translation`, `rotation`, `scale` and `matrix` of a node whose value is not an
Array of exactly 3, 4, 3 and 16 Primitives, the walker fails with -1. -/
theorem json_parse_array_float_exact (data : List Nat) (tokens : List jsmntok_t) (i : Nat)
    (out : List CFloat) (size : Nat) (hfit : TokensFit data tokens) (hi : i ≤ tokens.length)
    (hout : size ≤ out.length) :
    (ArrayOfPrimitives tokens i size →
      ∃ out1, json_parse_array_float data tokens i out size = R.ok (i + 1 + size, out1) [] ∧
        out1.length = out.length ∧
        (∀ k, k < size → ∃ f, json_to_float data tokens (i + 1 + k) = R.ok f [] ∧
          out1[k]? = some f) ∧
        ∀ m, size ≤ m → out1[m]? = out[m]?) ∧
    (¬ ArrayOfPrimitives tokens i size →
      json_parse_array_float data tokens i out size = R.err (-1) []) ∧
    (∀ (node : GLTF_Node) (p k : Nat) (ws1 key ws2 ws3 ws4 : List Nat) (v : JValue)
      (rest : JMembers),
      (JMembers.cons ws1 key ws2 ws3 v ws4 rest).render <+: data.drop p →
      (JMembers.cons ws1 key ws2 ws3 v ws4 rest).tokens p <+: tokens.drop k →
      (key = cstr "translation" → 3 ≤ node.translation.length →
        ¬ ArrayOfPrimitives tokens (k + 1) 3 → nodeKey data tokens k node = R.err (-1) []) ∧
      (key = cstr "rotation" → 4 ≤ node.rotation.length →
        ¬ ArrayOfPrimitives tokens (k + 1) 4 → nodeKey data tokens k node = R.err (-1) []) ∧
      (key = cstr "scale" → 3 ≤ node.scale.length →
        ¬ ArrayOfPrimitives tokens (k + 1) 3 → nodeKey data tokens k node = R.err (-1) []) ∧
      (key = cstr "matrix" → 16 ≤ node.matrix.length →
        ¬ ArrayOfPrimitives tokens (k + 1) 16 → nodeKey data tokens k node = R.err (-1) [])) := by
  refine ⟨(json_parse_array_float_iff data tokens i out size hfit hi hout).1,
    (json_parse_array_float_iff data tokens i out size hfit hi hout).2, ?_⟩
  intro node p k ws1 key ws2 ws3 ws4 v rest hx ht
  have hk : k + 1 ≤ tokens.length :=
    (List.getElem?_eq_some_iff.mp (members_cons_tokens ht).1).1
  obtain ⟨n1, n2, n3, n4⟩ := nodeKey_array_float node (-1) [] hx ht
  exact ⟨fun e hl hn => n1 e ((json_parse_array_float_iff data tokens (k + 1) _ 3 hfit hk hl).2 hn),
    fun e hl hn => n2 e ((json_parse_array_float_iff data tokens (k + 1) _ 4 hfit hk hl).2 hn),
    fun e hl hn => n3 e ((json_parse_array_float_iff data tokens (k + 1) _ 3 hfit hk hl).2 hn),
    fun e hl hn => n4 e ((json_parse_array_float_iff data tokens (k + 1) _ 16 hfit hk hl).2 hn)⟩

/-- C36 on the text `[1,2,3]` with its four tokens: three values are read and the cursor is 4;
two values are refused; the key `translation` of a node with the text
`{"translation":[1,2]}` fails with -1, and so does the walker, without a diagnostic,
on a document whose node has a `translation` of two numbers, a `rotation` whose
fourth element is an array, or a `matrix` of fifteen numbers. -/
theorem json_parse_array_float_exact_witness :
    json_parse_array_float valueArrayThree.render (valueArrayThree.tokens 0) 0
        (List.replicate 3 CFloat.zero) 3 =
      R.ok (4, [CFloat.atof (cstr "1"), CFloat.atof (cstr "2"), CFloat.atof (cstr "3")]) [] ∧
    json_parse_array_float valueArrayThree.render (valueArrayThree.tokens 0) 0
        (List.replicate 3 CFloat.zero) 2 = R.err (-1) [] ∧
    nodeKey docTranslationTwo.render (docTranslationTwo.tokens 0) 1 {} = R.err (-1) [] ∧
    internal_parse_jsonroot decimalLt2 (docNodeWith "\"translation\":[1,2]")
        (tokensOf (docNodeWith "\"translation\":[1,2]")) 0 {} = R.err (-1) [] ∧
    internal_parse_jsonroot decimalLt2 (docNodeWith "\"rotation\":[0,0,0,[1]]")
        (tokensOf (docNodeWith "\"rotation\":[0,0,0,[1]]")) 0 {} = R.err (-1) [] ∧
    internal_parse_jsonroot decimalLt2 (docNodeWith "\"matrix\":[1,0,0,0,0,1,0,0,0,0,1,0,0,0,0]")
        (tokensOf (docNodeWith "\"matrix\":[1,0,0,0,0,1,0,0,0,0,1,0,0,0,0]")) 0 {} =
      R.err (-1) [] :=
  ⟨by decide,
    (json_parse_array_float_exact valueArrayThree.render (valueArrayThree.tokens 0) 0
      (List.replicate 3 CFloat.zero) 2 (by unfold TokensFit; decide) (by decide)
      (by decide)).2.1 (by
        rintro ⟨⟨t, ht, -, hsz⟩, -⟩
        cases ht
        exact absurd hsz (by decide)),
    ((json_parse_array_float_exact docTranslationTwo.render (docTranslationTwo.tokens 0) 0 [] 0
      (by unfold TokensFit; decide) (by decide) (by decide)).2.2 {} 1 1 [] (cstr "translation")
      [] [] [] valueArrayTwo JMembers.nil (by decide) (by decide)).1 rfl (by decide) (by
        rintro ⟨⟨t, ht, -, hsz⟩, -⟩
        cases ht
        exact absurd hsz (by decide)),
    by decide, by decide, by decide⟩

/-- C37: the loop of `GLTF_Free` over the extensions of a channel does not run once per
extension. `GLTF_ParseFromFile` returns for `docChannelExtension`, without a diagnostic, an
animation whose one channel carries one extension; on it the loop
`for (k = 0; k < channels[j].extensionsCount; j++)` makes the two calls for the
extension 0 of the channel 0 and then tests `channels[1]`, outside the array of
one channel. On an animation of two channels of which the first one carries
two extensions the traversal ends, after it has made the calls on the
extension 0 of the channel 0 twice and none on its extension 1 nor on the
extras of the channel 1. -/
theorem free_channel_extensions_loop :
    (GLTF_ParseFromFile decimalLt2 samplePath (some docChannelExtension)).map
        (fun r => (r.1.animations, r.2)) = some (channelExtensionAnimations, []) ∧
    GLTF_Free_animations { animations := channelExtensionAnimations } =
      FreeRun.outside [FreeCall.animationName 0, FreeCall.samplerExtras 0 0, FreeCall.samplers 0,
        FreeCall.channelExtras 0 0, FreeCall.channelExtensionName 0 0 0,
        FreeCall.channelExtensionData 0 0 0] ∧
    GLTF_Free_animations { animations := twoChannelAnimations } =
      FreeRun.done [FreeCall.animationName 0, FreeCall.samplers 0,
        FreeCall.channelExtras 0 0, FreeCall.channelExtensionName 0 0 0,
        FreeCall.channelExtensionData 0 0 0,
        FreeCall.channelExtras 0 0, FreeCall.channelExtensionName 0 0 0,
        FreeCall.channelExtensionData 0 0 0,
        FreeCall.channels 0, FreeCall.animationExtras 0, FreeCall.animations] := by
  decide

/-- C38: `json_strncmp` tests whether the literal is a prefix of the content of the token. For a
String token whose end is the offset of a quote in `data`, as the tokenizer
writes it, and a literal without quote and NUL byte, `json_strncmp` returns a value
that is 0 exactly when the literal is a prefix of the content
`data[start .. end)`; in particular it is not 0 when the content is shorter
than the literal. For a token that is not a String it returns -1. -/
theorem json_strncmp_prefix_test (data : List Nat) (tokens : List jsmntok_t) (i : Nat)
    (tok : jsmntok_t) (lit : String) (ht : tokens[i]? = some tok) :
    (tok.type = JSMN_STRING → 0 ≤ tok.start → tok.start ≤ tok.end_ →
      data[tok.end_.toNat]? = some 34 → (∀ b ∈ cstr lit, b ≠ 34 ∧ b ≠ 0) →
      ∃ c, json_strncmp data tokens i lit = R.ok c [] ∧
        (c = 0 ↔ cstr lit <+: (data.drop tok.start.toNat).take (tok.end_ - tok.start).toNat) ∧
        ((tok.end_ - tok.start).toNat < (cstr lit).length → c ≠ 0)) ∧
    (tok.type ≠ JSMN_STRING → json_strncmp data tokens i lit = R.ok (-1) []) := by
  refine ⟨fun hty hs hse hq hlit => ?_, fun hty => json_strncmp_not_string lit ht hty⟩
  obtain ⟨c, hc, hiff⟩ := json_strncmp_quote lit ht hty hs hse hq hlit
  refine ⟨c, hc, hiff, fun hlen h0 => ?_⟩
  have := (hiff.mp h0).length_le
  rw [List.length_take] at this
  omega

/-- C38 on the tokens of `{"animations":[],"a":1}`: the key `animations` matches the literal
`animation`, the key `a` gives the difference of the quote and the letter `n`, and
the array token gives -1. -/
theorem json_strncmp_prefix_test_witness :
    (∃ c, json_strncmp docTwoKeys (tokensOf docTwoKeys) 1 "animation" = R.ok c [] ∧
      (c = 0 ↔ cstr "animation" <+: (docTwoKeys.drop 2).take 10) ∧
      ((10 : Nat) < (cstr "animation").length → c ≠ 0)) ∧
    json_strncmp docTwoKeys (tokensOf docTwoKeys) 1 "animation" = R.ok 0 [] ∧
    json_strncmp docTwoKeys (tokensOf docTwoKeys) 3 "animation" = R.ok (-76) [] ∧
    json_strncmp docTwoKeys (tokensOf docTwoKeys) 2 "animation" = R.ok (-1) [] :=
  ⟨(json_strncmp_prefix_test docTwoKeys (tokensOf docTwoKeys) 1
      { type := JSMN_STRING, start := 2, end_ := 12, size := 1 } "animation" (by decide)).1
      rfl (by decide) (by decide) (by decide) (by decide),
    by decide, by decide, by decide⟩

/-- C39, counterexample: the integer stored for a value below -2 is below `2^64 - 1`. For
the value -3, `PTR_TO_INDEX` stores `2^64 - 2`, the deferred index `2^64 - 3`. -/
theorem stored_integer_below_bound :
    storedInteger (-3) = 18446744073709551614 ∧
    PTR_TO_INDEX (-3) = Ptr.index 18446744073709551613 ∧
    ¬ (18446744073709551615 ≤ storedInteger (-3)) := by
  decide

/-- C39, amended: the deferred-index encoding. For an `int` value `v`, `PTR_TO_INDEX` stores
`(v + 1) mod 2^64`; the slot is null exactly when `v` is -1, which `json_to_int` returns
for a token that is not a Primitive and for a Primitive with the text `-1`, and
`PTR_FIX` leaves a null slot alone. A value `v ≥ 0` gives the deferred index `v`. A
value `v ≤ -2` gives a stored integer between `2^64 - 2^31 + 1` and `2^64 - 1`, and
`PTR_FIX` rejects the slot for every collection of at most `2^64 - 2^31` elements. -/
theorem deferred_index_encoding (v : Int) (h0 : -2147483648 ≤ v) (h1 : v < 2147483648) :
    (storedInteger v : Int) = (v + 1) % 18446744073709551616 ∧
    (PTR_TO_INDEX v = Ptr.null ↔ v = -1) ∧
    (∀ (data : List Nat) (tokens : List jsmntok_t) (i : Nat) (ty : jsmntype_t),
      tokType tokens i = R.ok ty [] → ty ≠ JSMN_PRIMITIVE →
      json_to_int data tokens i = R.ok (-1) []) ∧
    (∀ (data : List Nat) (tokens : List jsmntok_t) (i : Nat) (tok : jsmntok_t),
      tokens[i]? = some tok → tok.type = JSMN_PRIMITIVE →
      tokenText data tok = R.ok (cstr "-1") [] → json_to_int data tokens i = R.ok (-1) []) ∧
    (∀ size, PTR_FIX (PTR_TO_INDEX (-1)) size = Fix.done Ptr.null) ∧
    (0 ≤ v → PTR_TO_INDEX v = Ptr.index v.toNat) ∧
    (v ≤ -2 →
      18446744071562067969 ≤ storedInteger v ∧ storedInteger v ≤ 18446744073709551615 ∧
      PTR_TO_INDEX v = Ptr.index (storedInteger v - 1) ∧
      ∀ size, size ≤ 18446744071562067968 →
        ∃ l, PTR_FIX (PTR_TO_INDEX v) size = Fix.ret 0 (PTR_TO_INDEX v) l) := by
  have hs := storedInteger_int v h0 h1
  refine ⟨?_, ?_, ?_, ?_, fun _ => rfl, fun hv => PTR_TO_INDEX_of_index v hv h1, fun hv => ?_⟩
  · rw [hs]
    by_cases hm : v = -1
    · subst hm; rfl
    · rw [if_neg hm]
      by_cases hv : 0 ≤ v
      · rw [if_pos hv, Int.emod_eq_of_lt (by omega) (by omega)]
      · rw [if_neg hv, ← Int.add_mul_emod_self (a := v + 1) (b := 1) (c := 18446744073709551616),
          Int.emod_eq_of_lt (by omega) (by omega)]
        omega
  · rw [PTR_TO_INDEX_stored]
    constructor
    · intro h
      by_cases hz : storedInteger v = 0
      · by_contra hne
        rw [hz, if_neg hne] at hs
        split at hs <;> omega
      · rw [if_neg hz] at h
        cases h
    · intro h
      subst h
      rfl
  · intro data tokens i ty hty hne
    unfold json_to_int
    simp only [hty, R.bind_def, R.pure_def, R.bind, ne_eq, hne, not_false_eq_true, ↓reduceIte,
      List.append_nil]
  · intro data tokens i tok ht hty htext
    have hlt : i < tokens.length := (List.getElem?_eq_some_iff.mp ht).1
    unfold json_to_int tokType tokGet R.ofOption
    simp only [hlt, ↓reduceIte, ht, hty, R.bind_def, R.pure_def, R.bind, ne_eq,
      not_true_eq_false, htext, List.append_nil]
    rfl
  · rw [if_neg (by omega), if_neg (by omega)] at hs
    have hpos : storedInteger v ≠ 0 := by omega
    refine ⟨by omega, by omega, by rw [PTR_TO_INDEX_stored, if_neg hpos], fun size hsz => ?_⟩
    rw [PTR_TO_INDEX_stored, if_neg hpos]
    unfold PTR_FIX
    simp only
    rw [if_pos (by omega)]
    exact ⟨_, rfl⟩

/-- C39, amended, on the value -2, and on the tokens of `[-1,"3"]`: the primitive `-1`
and the string `"3"` both give a null slot. -/
theorem deferred_index_encoding_witness :
    (18446744071562067969 ≤ storedInteger (-2) ∧ storedInteger (-2) ≤ 18446744073709551615 ∧
      PTR_TO_INDEX (-2) = Ptr.index (storedInteger (-2) - 1) ∧
      ∀ size, size ≤ 18446744071562067968 →
        ∃ l, PTR_FIX (PTR_TO_INDEX (-2)) size = Fix.ret 0 (PTR_TO_INDEX (-2)) l) ∧
    storedInteger (-2) = 18446744073709551615 ∧
    (json_to_int docMinusOne (tokensOf docMinusOne) 1).bind (fun x => R.ok (PTR_TO_INDEX x) []) =
      R.ok Ptr.null [] ∧
    (json_to_int docMinusOne (tokensOf docMinusOne) 2).bind (fun x => R.ok (PTR_TO_INDEX x) []) =
      R.ok Ptr.null [] :=
  ⟨(deferred_index_encoding (-2) (by decide) (by decide)).2.2.2.2.2.2 (by decide),
    by decide, by decide, by decide⟩

/-- C40: the derived stride of the matrix types. For `Mat2`, `Mat3` and `Mat4` and each of
the six component types, `internal_calculate_attribute_size` is a multiple of 4 and at least the
number of components times the size of a component; for every type, a
component type of size 0 gives the stride 0. -/
theorem matrix_stride_aligned (type : GLTF_Type) (componentType : GLTF_ComponentType) :
    ((type = Type_Mat2 ∨ type = Type_Mat3 ∨ type = Type_Mat4) →
      componentType ∈ [ComponentType_R8, ComponentType_R8_UNSIGNED, ComponentType_R16,
        ComponentType_R16_UNSIGNED, ComponentType_R32_UNSIGNED, ComponentType_R32_FLOAT] →
      4 ∣ internal_calculate_attribute_size type componentType ∧
        internal_get_components_number type * internal_component_size componentType ≤
          internal_calculate_attribute_size type componentType) ∧
    (internal_component_size componentType = 0 →
      internal_calculate_attribute_size type componentType = 0) := by
  constructor
  · intro ht hc
    simp only [List.mem_cons, List.mem_singleton, List.not_mem_nil, or_false] at hc
    rcases ht with rfl | rfl | rfl <;> rcases hc with rfl | rfl | rfl | rfl | rfl | rfl <;> decide
  · intro h
    unfold internal_calculate_attribute_size
    simp only [h]
    simp

/-- C40 on a `Mat3` of 16-bit components, whose nine components take 18 bytes: the
stride is 24. -/
theorem matrix_stride_aligned_witness :
    (4 ∣ internal_calculate_attribute_size Type_Mat3 ComponentType_R16 ∧
      internal_get_components_number Type_Mat3 * internal_component_size ComponentType_R16 ≤
        internal_calculate_attribute_size Type_Mat3 ComponentType_R16) ∧
    internal_calculate_attribute_size Type_Mat3 ComponentType_R16 = 24 ∧
    internal_calculate_attribute_size Type_Vec3 7 = 0 :=
  ⟨(matrix_stride_aligned Type_Mat3 ComponentType_R16).1 (Or.inr (Or.inl rfl)) (by decide),
    by decide, (matrix_stride_aligned Type_Vec3 7).2 (by decide)⟩

end Gltf
